import Mathlib

/-!
Verification development for the compyler TAPL compiler front-end
(HetorusNL/tapl-lang, directory `src/compilers/compyler`).

The development shallowly embeds, in Lean, the parts of the compiler that the
checked properties speak about:

* the type model and the type registry (`types/types.py`, `types/numeric_type.py`),
* the token interface consumed by the core (token classes are not part of the
  sources, they are modelled from the specification of the tokeniser interface),
* the AST node families (`statements/*.py`, `expressions/*.py`),
* the recursive-descent AST builder (`ast_generator.py`),
* the scoping pass (`ast_checks/scoping_pass.py`),
* the typing pass (`ast_checks/typing_pass.py`),
* the per-node C emitters (`c_code` methods of the AST nodes).

Python's in-place mutation is rendered as explicit state passing: every pass
takes and returns its state, and AST-mutating passes return the rewritten node.
Recursive traversals take an explicit fuel argument (a `Nat` decremented at
every recursive call) so that all definitions are structurally recursive and
computable by kernel reduction; exhausting the fuel reports an internal error,
so a run that ends without errors is in particular a run that had enough fuel.
-/

/-- Numeric type kind. Translated from `types/numeric_type_type.py`
(values `SIGNED`, `UNSIGNED`, `FLOATING_POINT` used throughout the sources). -/
inductive NumericTypeType where
  | SIGNED
  | UNSIGNED
  | FLOATING_POINT
deriving DecidableEq

/-- The variant part of a type object: `Type` (plain), `NumericType`,
`CharacterType`, `ClassType` or `ListType`, following the class hierarchy of
`types/`.  `NumericType` (from `types/numeric_type.py`) carries the numeric
kind, the bit width and the promotion list; promotions are recorded by keyword.
`ListType` records the keyword of its inner type. -/
inductive TyVariant where
  | plain
  | numeric (numeric_type_type : NumericTypeType) (num_bits : Nat) (promotions : List String)
  | character
  | classVariant
  | listVariant (inner_keyword : String)
deriving DecidableEq

/-- A type object.  Modelled from the spec: `types/type.py` is not among the
sources; the spec (§3 Types) says every type has a `keyword`, zero or more
`syntactic_sugar` aliases, an `underlying_type` string, an `is_basic_type`
flag and an `is_reference` flag.  The `variant` field carries the subclass
data (see `TyVariant`). -/
structure Ty where
  keyword : String
  syntactic_sugar : List String
  underlying_type : String
  is_basic_type : Bool
  is_reference : Bool
  variant : TyVariant
deriving DecidableEq

/-- Construct a plain `Type` object (class `Type` in `types/type.py`,
modelled from the spec): the underlying type defaults to the keyword. -/
def Ty.mkPlain (keyword : String) (underlying : Option String := none) : Ty :=
  { keyword := keyword
    syntactic_sugar := []
    underlying_type := underlying.getD keyword
    is_basic_type := true
    is_reference := false
    variant := TyVariant.plain }

/-- Construct a `NumericType` object, translated from `types/numeric_type.py`
(promotions are attached right away; in the source they are added by
`add_promotions` immediately after construction in `Types.builtin_types`). -/
def Ty.mkNumeric (keyword : String) (ntt : NumericTypeType) (numBits : Nat)
    (sugar : List String := []) (underlying : Option String := none)
    (promotions : List String := []) : Ty :=
  { keyword := keyword
    syntactic_sugar := sugar
    underlying_type := underlying.getD keyword
    is_basic_type := true
    is_reference := false
    variant := TyVariant.numeric ntt numBits promotions }

/-- Construct the `CharacterType` object.  Modelled from the spec:
`types/character_type.py` is not among the sources; the built-in table gives
it the keyword `char`. -/
def Ty.mkCharacter : Ty :=
  { keyword := "char"
    syntactic_sugar := []
    underlying_type := "char"
    is_basic_type := true
    is_reference := false
    variant := TyVariant.character }

/-- Construct a `ClassType` object.  Modelled from the spec:
`types/class_type.py` is not among the sources; a class type is not a basic
type and its keyword is the class name. -/
def Ty.mkClass (keyword : String) : Ty :=
  { keyword := keyword
    syntactic_sugar := []
    underlying_type := keyword
    is_basic_type := false
    is_reference := false
    variant := TyVariant.classVariant }

/-- Construct a `ListType` object over an inner type.  Modelled from the spec:
`types/list_type.py` is not among the sources; its keyword is
`list[<inner.keyword>]` (see `Types.add_list_type` in `types/types.py`). -/
def Ty.mkList (inner : Ty) : Ty :=
  { keyword := "list[" ++ inner.keyword ++ "]"
    syntactic_sugar := []
    underlying_type := "list[" ++ inner.keyword ++ "]"
    is_basic_type := false
    is_reference := false
    variant := TyVariant.listVariant inner.keyword }

/-- The sentinel unknown type (`Type.unknown()` in `types/type.py`,
modelled from the spec: every expression's `type_` slot starts out as this
sentinel and the typing pass must overwrite it). -/
def Ty.unknown : Ty := Ty.mkPlain "<unknown>"

/-- Whether the type is not `void` (`Type.non_void` in `types/type.py`,
modelled from the spec: `void` functions are exactly those whose return type
has the keyword `void`). -/
def Ty.non_void (t : Ty) : Bool := t.keyword != "void"

/-- All keywords a type is registered under: its keyword plus its syntactic
sugar (`Type.all_keywords`, used by `Types.builtin_types`). -/
def Ty.all_keywords (t : Ty) : List String := t.keyword :: t.syntactic_sugar

/-- Whether the type object is a `NumericType` (Python `isinstance` checks). -/
def Ty.isNumeric (t : Ty) : Bool :=
  match t.variant with
  | TyVariant.numeric _ _ _ => true
  | _ => false

/-- Whether the type object is a `CharacterType`. -/
def Ty.isCharacter (t : Ty) : Bool :=
  match t.variant with
  | TyVariant.character => true
  | _ => false

/-- Whether the type object is a `ClassType`. -/
def Ty.isClass (t : Ty) : Bool :=
  match t.variant with
  | TyVariant.classVariant => true
  | _ => false

/-- Whether the type object is a `ListType`. -/
def Ty.isList (t : Ty) : Bool :=
  match t.variant with
  | TyVariant.listVariant _ => true
  | _ => false

/-- The numeric kind of a numeric type (UNSIGNED as an irrelevant default for
non-numeric types; callers guard with `Ty.isNumeric`). -/
def Ty.numericTypeType (t : Ty) : NumericTypeType :=
  match t.variant with
  | TyVariant.numeric ntt _ _ => ntt
  | _ => NumericTypeType.UNSIGNED

/-- The bit width of a numeric type (0 for non-numeric types; callers guard
with `Ty.isNumeric`). -/
def Ty.num_bits (t : Ty) : Nat :=
  match t.variant with
  | TyVariant.numeric _ n _ => n
  | _ => 0

/-- The inner-type keyword of a list type (empty for non-list types). -/
def Ty.inner_keyword (t : Ty) : String :=
  match t.variant with
  | TyVariant.listVariant k => k
  | _ => ""

/-- The callable functions of a `ListType`: a fixed map from method name to
returned-type keyword.  Modelled from the spec: `types/list_type.py` is not
among the sources; the spec (§4.D rule 9) says the map is fixed and names
`push`, `pop`, `size` as its members.  The returned-type keywords are chosen
as `void` for `push`, the list's inner-type keyword for `pop` and `u64` for
`size`; the claims checked against this map do not depend on this choice. -/
def Ty.callable_functions (t : Ty) : List (String × String) :=
  [("push", "void"), ("pop", t.inner_keyword), ("size", "u64")]

/-- Association-list lookup by string key (Python `dict` access). -/
def lookupStr {α : Type} (l : List (String × α)) (k : String) : Option α :=
  match l with
  | [] => none
  | (k', v) :: rest => if k' = k then some v else lookupStr rest k

/-- Key membership in an association list (Python `key in dict`). -/
def containsStr {α : Type} (l : List (String × α)) (k : String) : Bool :=
  (lookupStr l k).isSome

/-!
The type registry (`types/types.py`).

Python object identity matters for the registry claims (`get` hands out
`deepcopy`s), so the registry model tags every stored type object with an
allocation identifier: two objects are identity-equal (Python `is`) exactly
when they carry the same identifier, and `deepcopy` allocates a fresh
identifier while preserving the value.
-/

/-- The `Types` registry: keyword ↦ (object identity, type value), plus the
next fresh allocation identifier. -/
structure TypesReg where
  entries : List (String × Nat × Ty)
  nextId : Nat
deriving DecidableEq

/-- Python `deepcopy` of a type object: a fresh allocation with the same
value (`from copy import deepcopy` in `types/types.py`). -/
def TypesReg.deepcopy (r : TypesReg) (t : Ty) : TypesReg × Nat × Ty :=
  ({ r with nextId := r.nextId + 1 }, r.nextId, t)

/-- `Types.get`: returns the type registered under the keyword, `None` if not
present; always returns a (deep) copy, as types can be modified.  Translated
from `types/types.py` lines 130-136. -/
def TypesReg.get (r : TypesReg) (kw : String) : TypesReg × Option (Nat × Ty) :=
  match lookupStr r.entries kw with
  | none => (r, none)
  | some (_, t) =>
      let (r', i, t') := r.deepcopy t
      (r', some (i, t'))

/-- `Types.add`: registers a plain forward-reference type if the keyword is
absent, then returns `self[keyword]` (which is a fresh copy, because
`__getitem__` goes through `get`).  Translated from `types/types.py`
lines 82-94. -/
def TypesReg.add (r : TypesReg) (kw : String) : TypesReg × Option (Nat × Ty) :=
  let r1 : TypesReg :=
    if containsStr r.entries kw then r
    else { entries := r.entries ++ [(kw, r.nextId, Ty.mkPlain kw)], nextId := r.nextId + 1 }
  r1.get kw

/-- `Types.add_class_type`: registers a `ClassType` under the keyword if
absent, then returns `self[keyword]` (a fresh copy via `get`).  Translated
from `types/types.py` lines 96-110. -/
def TypesReg.add_class_type (r : TypesReg) (kw : String) : TypesReg × Option (Nat × Ty) :=
  let r1 : TypesReg :=
    if containsStr r.entries kw then r
    else { entries := r.entries ++ [(kw, r.nextId, Ty.mkClass kw)], nextId := r.nextId + 1 }
  r1.get kw

/-- `Types.add_list_type`: registers a `ListType` over the inner type under
the keyword `list[<inner.keyword>]` if absent, then returns `self[keyword]`
(a fresh copy via `get`).  Translated from `types/types.py` lines 112-128. -/
def TypesReg.add_list_type (r : TypesReg) (inner : Ty) : TypesReg × Option (Nat × Ty) :=
  let kw : String := "list[" ++ inner.keyword ++ "]"
  let r1 : TypesReg :=
    if containsStr r.entries kw then r
    else { entries := r.entries ++ [(kw, r.nextId, Ty.mkList inner)], nextId := r.nextId + 1 }
  r1.get kw

/-- The built-in type objects, in the order of `Types.builtin_types`
(`types/types.py` lines 31-47), with the promotions that `builtin_types`
attaches right after building the table (lines 54-78). -/
def builtinTypesList : List Ty :=
  [ Ty.mkPlain "void" (some "void")
  , Ty.mkNumeric "u1" NumericTypeType.UNSIGNED 1 ["bool"] (some "bool") ["u8", "u16", "u32", "u64"]
  , Ty.mkNumeric "u8" NumericTypeType.UNSIGNED 8 [] (some "uint8_t") ["u16", "u32", "u64"]
  , Ty.mkNumeric "u16" NumericTypeType.UNSIGNED 16 [] (some "uint16_t") ["u32", "u64"]
  , Ty.mkNumeric "u32" NumericTypeType.UNSIGNED 32 [] (some "uint32_t") ["u64"]
  , Ty.mkNumeric "u64" NumericTypeType.UNSIGNED 64 [] (some "uint64_t") []
  , Ty.mkNumeric "s8" NumericTypeType.SIGNED 8 [] (some "int8_t") ["s16", "s32", "s64"]
  , Ty.mkNumeric "s16" NumericTypeType.SIGNED 16 [] (some "int16_t") ["s32", "s64"]
  , Ty.mkNumeric "s32" NumericTypeType.SIGNED 32 [] (some "int32_t") ["s64"]
  , Ty.mkNumeric "s64" NumericTypeType.SIGNED 64 [] (some "int64_t") []
  , Ty.mkNumeric "f32" NumericTypeType.FLOATING_POINT 32 [] (some "float") ["f64"]
  , Ty.mkNumeric "f64" NumericTypeType.FLOATING_POINT 64 [] (some "double") []
  , Ty.mkNumeric "base" NumericTypeType.SIGNED 64 [] none []
  , Ty.mkCharacter
  , Ty.mkPlain "string" ]

/-- Register a list of type objects under all their keywords, allocating one
identity per object and sharing it between the object's keyword and its
syntactic sugar (the `for keyword in type_.all_keywords` loop of
`Types.builtin_types`). -/
def registerBuiltins : List Ty → TypesReg → TypesReg
  | [], r => r
  | t :: rest, r =>
      registerBuiltins rest
        { entries := r.entries ++ (t.all_keywords.map fun kw => (kw, r.nextId, t))
          nextId := r.nextId + 1 }

/-- `Types.__init__`: builds the built-in table and pre-registers
`list[char]` for the file standard library (`types/types.py` lines 19-23). -/
def TypesReg.init : TypesReg :=
  let r : TypesReg := registerBuiltins builtinTypesList { entries := [], nextId := 0 }
  -- `self.add_list_type(self._types["char"])`: direct dictionary access, so
  -- the inner type is the stored canonical `char` object (no copy); only the
  -- registry effect matters here because the returned copy is discarded.
  (r.add_list_type Ty.mkCharacter).1

/-- The plain keyword ↦ type value view of a registry, used by the passes
(the passes never compare type identities, only values). -/
def TypesReg.table (r : TypesReg) : List (String × Ty) :=
  r.entries.map fun e => (e.1, e.2.2)

/-- A registry is well formed when every stored identity is below `nextId`
(allocation always hands out `nextId` and bumps it). -/
def TypesReg.wf (r : TypesReg) : Prop :=
  ∀ e ∈ r.entries, e.2.1 < r.nextId

instance (r : TypesReg) : Decidable r.wf := by
  unfold TypesReg.wf
  infer_instance

/-- Association-list lookup finds a value appended behind an absent key. -/
theorem lookupStr_append_absent {α : Type} (l : List (String × α)) (kw : String) (v : α)
    (h : containsStr l kw = false) : lookupStr (l ++ [(kw, v)]) kw = some v := by
  induction l with
  | nil => simp [lookupStr]
  | cons p rest ih =>
      obtain ⟨k', v'⟩ := p
      by_cases hk : k' = kw
      · exfalso
        simp [containsStr, lookupStr, hk] at h
      · rw [List.cons_append, lookupStr, if_neg hk]
        exact ih (by simpa [containsStr, lookupStr, hk] using h)

/-- A successful association-list lookup is a membership. -/
theorem lookupStr_mem {α : Type} (l : List (String × α)) (k : String) (v : α)
    (h : lookupStr l k = some v) : (k, v) ∈ l := by
  induction l with
  | nil => simp [lookupStr] at h
  | cons p rest ih =>
      obtain ⟨k', v'⟩ := p
      by_cases hk : k' = k
      · rw [lookupStr, if_pos hk] at h
        subst hk
        obtain rfl : v' = v := by injection h
        exact List.mem_cons_self _ _
      · rw [lookupStr, if_neg hk] at h
        exact List.mem_cons_of_mem _ (ih h)

/-- A successful lookup makes `containsStr` true. -/
theorem containsStr_true_of_lookup {α : Type} (l : List (String × α)) (k : String) (v : α)
    (h : lookupStr l k = some v) : containsStr l k = true := by
  simp [containsStr, h]

/-- Unfolding `Types.get` on a registered keyword: the registry keeps its
entries, the allocation counter advances, and the returned copy carries the
fresh identity with the stored value. -/
theorem TypesReg.get_spec (r : TypesReg) (kw : String) (i : Nat) (t : Ty)
    (h : lookupStr r.entries kw = some (i, t)) :
    r.get kw = ({ r with nextId := r.nextId + 1 }, some (r.nextId, t)) := by
  unfold TypesReg.get TypesReg.deepcopy
  rw [h]

/-- Unfolding `Types.add_class_type` on an already-registered keyword: the
stored entries are untouched and a fresh copy of the stored value is
returned. -/
theorem TypesReg.add_class_type_present (r : TypesReg) (kw : String) (iS : Nat) (tS : Ty)
    (hl : lookupStr r.entries kw = some (iS, tS)) :
    r.add_class_type kw = ({ entries := r.entries, nextId := r.nextId + 1 }, some (r.nextId, tS)) := by
  unfold TypesReg.add_class_type
  simp only [containsStr_true_of_lookup _ _ _ hl, if_true]
  exact TypesReg.get_spec r kw iS tS hl

/-- Unfolding `Types.add_class_type` on a new keyword: the class type is
stored once with a fresh identity, and a copy of it (with another fresh
identity) is returned. -/
theorem TypesReg.add_class_type_absent (r : TypesReg) (kw : String)
    (h : containsStr r.entries kw = false) :
    r.add_class_type kw =
      ({ entries := r.entries ++ [(kw, r.nextId, Ty.mkClass kw)], nextId := r.nextId + 1 + 1 },
       some (r.nextId + 1, Ty.mkClass kw)) := by
  have hl1 : lookupStr (r.entries ++ [(kw, r.nextId, Ty.mkClass kw)]) kw
      = some (r.nextId, Ty.mkClass kw) := lookupStr_append_absent _ _ _ h
  unfold TypesReg.add_class_type
  simp only [h, Bool.false_eq_true, if_false]
  exact TypesReg.get_spec ⟨r.entries ++ [(kw, r.nextId, Ty.mkClass kw)], r.nextId + 1⟩ kw _ _ hl1

/-- Unfolding `Types.add_list_type` on a new inner type, analogous to
`TypesReg.add_class_type_absent`. -/
theorem TypesReg.add_list_type_absent (r : TypesReg) (inner : Ty)
    (h : containsStr r.entries ("list[" ++ inner.keyword ++ "]") = false) :
    r.add_list_type inner =
      ({ entries := r.entries ++ [("list[" ++ inner.keyword ++ "]", r.nextId, Ty.mkList inner)],
         nextId := r.nextId + 1 + 1 },
       some (r.nextId + 1, Ty.mkList inner)) := by
  have hl1 : lookupStr (r.entries ++ [("list[" ++ inner.keyword ++ "]", r.nextId, Ty.mkList inner)])
      ("list[" ++ inner.keyword ++ "]")
      = some (r.nextId, Ty.mkList inner) := lookupStr_append_absent _ _ _ h
  unfold TypesReg.add_list_type
  simp only [h, Bool.false_eq_true, if_false]
  exact TypesReg.get_spec
    ⟨r.entries ++ [("list[" ++ inner.keyword ++ "]", r.nextId, Ty.mkList inner)], r.nextId + 1⟩ _ _ _ hl1

/-- Unfolding `Types.add_list_type` on an already-registered list keyword. -/
theorem TypesReg.add_list_type_present (r : TypesReg) (inner : Ty) (iS : Nat) (tS : Ty)
    (hl : lookupStr r.entries ("list[" ++ inner.keyword ++ "]") = some (iS, tS)) :
    r.add_list_type inner = ({ entries := r.entries, nextId := r.nextId + 1 }, some (r.nextId, tS)) := by
  unfold TypesReg.add_list_type
  simp only [containsStr_true_of_lookup _ _ _ hl, if_true]
  exact TypesReg.get_spec r _ iS tS hl

/-- The amended registry property (see the claim theorem below): calling
`add_class_type` twice with the same name leaves the stored canonical entry
of the second call identical to that of the first call (registration is
idempotent), both calls return copies that are structurally equal to the
stored canonical object but identity-distinct from it and from each other,
and `get` always returns a fresh copy not identity-equal to the stored
object; likewise for `add_list_type` with the same inner type. -/
def RegistryCopyProp (r : TypesReg) (kw : String) (inner : Ty) : Prop :=
  (((r.add_class_type kw).1.add_class_type kw).1.entries = (r.add_class_type kw).1.entries ∧
   ∃ iS tS i1 t1 i2 t2,
     lookupStr (r.add_class_type kw).1.entries kw = some (iS, tS) ∧
     (r.add_class_type kw).2 = some (i1, t1) ∧
     ((r.add_class_type kw).1.add_class_type kw).2 = some (i2, t2) ∧
     t1 = tS ∧ t2 = tS ∧ i1 ≠ iS ∧ i2 ≠ iS ∧ i1 ≠ i2) ∧
  (((r.add_list_type inner).1.add_list_type inner).1.entries = (r.add_list_type inner).1.entries ∧
   ∃ iS tS i1 t1 i2 t2,
     lookupStr (r.add_list_type inner).1.entries ("list[" ++ inner.keyword ++ "]") = some (iS, tS) ∧
     (r.add_list_type inner).2 = some (i1, t1) ∧
     ((r.add_list_type inner).1.add_list_type inner).2 = some (i2, t2) ∧
     t1 = tS ∧ t2 = tS ∧ i1 ≠ iS ∧ i2 ≠ iS ∧ i1 ≠ i2) ∧
  (∀ kw' i t, lookupStr r.entries kw' = some (i, t) →
    ∃ i', (r.get kw').2 = some (i', t) ∧ i' ≠ i)

/-- C4 (counterexample): the claim says `add_class_type` called twice with the
same name returns the same canonical type object both times.  On the concrete
initial registry, the first call `add_class_type "A"` returns the copy with
identity 18 and the second call returns the copy with identity 19: the two
returned objects are not identity-equal, because `add_class_type` returns
`self[keyword]` and `__getitem__` goes through `get`, which deep-copies. -/
theorem tapl_c4_add_class_type_counterexample :
    ((TypesReg.init.add_class_type "A").2.map Prod.fst = some 18) ∧
    (((TypesReg.init.add_class_type "A").1.add_class_type "A").2.map Prod.fst = some 19) ∧
    (18 : Nat) ≠ 19 := by
  refine ⟨by decide, by decide, by decide⟩

/-- C4 (amended): calling `add_class_type` with the same name twice (and
likewise `add_list_type` with the same inner type twice) registers the
canonical object at most once — the second call leaves the stored entries
unchanged — and both calls return fresh deep copies of the stored canonical
object: structurally equal to it, but identity-equal neither to it nor to
each other; `get(keyword)` always returns a fresh copy that is not
identity-equal to the object stored in the registry. -/
theorem tapl_c4_registry_copies (r : TypesReg) (kw : String) (inner : Ty) (hwf : r.wf) :
    RegistryCopyProp r kw inner := by
  have freshness : ∀ kw' i t, lookupStr r.entries kw' = some (i, t) →
      ∃ i', (r.get kw').2 = some (i', t) ∧ i' ≠ i := by
    intro kw' i t h
    refine ⟨r.nextId, ?_, ?_⟩
    · rw [TypesReg.get_spec r kw' i t h]
    · have h2 : i < r.nextId := by simpa using hwf (kw', i, t) (lookupStr_mem _ _ _ h)
      omega
  refine ⟨?_, ?_, freshness⟩
  · by_cases h : containsStr r.entries kw = true
    · obtain ⟨⟨iS, tS⟩, hl⟩ : ∃ v, lookupStr r.entries kw = some v := by
        simpa [containsStr, Option.isSome_iff_exists] using h
      have hiS : iS < r.nextId := by simpa using hwf (kw, iS, tS) (lookupStr_mem _ _ _ hl)
      rw [TypesReg.add_class_type_present r kw iS tS hl]
      dsimp only
      rw [TypesReg.add_class_type_present ⟨r.entries, r.nextId + 1⟩ kw iS tS hl]
      exact ⟨rfl, iS, tS, r.nextId, tS, r.nextId + 1, tS, hl, rfl, rfl, rfl, rfl,
        by omega, by omega, by omega⟩
    · have h' : containsStr r.entries kw = false := by simpa using h
      have hl1 : lookupStr (r.entries ++ [(kw, r.nextId, Ty.mkClass kw)]) kw
          = some (r.nextId, Ty.mkClass kw) := lookupStr_append_absent _ _ _ h'
      rw [TypesReg.add_class_type_absent r kw h']
      dsimp only
      rw [TypesReg.add_class_type_present
        ⟨r.entries ++ [(kw, r.nextId, Ty.mkClass kw)], r.nextId + 1 + 1⟩ kw _ _ hl1]
      exact ⟨rfl, r.nextId, Ty.mkClass kw, r.nextId + 1, Ty.mkClass kw, r.nextId + 1 + 1,
        Ty.mkClass kw, hl1, rfl, rfl, rfl, rfl, by omega, by omega, by omega⟩
  · by_cases h : containsStr r.entries ("list[" ++ inner.keyword ++ "]") = true
    · obtain ⟨⟨iS, tS⟩, hl⟩ : ∃ v, lookupStr r.entries ("list[" ++ inner.keyword ++ "]") = some v := by
        simpa [containsStr, Option.isSome_iff_exists] using h
      have hiS : iS < r.nextId := by
        simpa using hwf ("list[" ++ inner.keyword ++ "]", iS, tS) (lookupStr_mem _ _ _ hl)
      rw [TypesReg.add_list_type_present r inner iS tS hl]
      dsimp only
      rw [TypesReg.add_list_type_present ⟨r.entries, r.nextId + 1⟩ inner iS tS hl]
      exact ⟨rfl, iS, tS, r.nextId, tS, r.nextId + 1, tS, hl, rfl, rfl, rfl, rfl,
        by omega, by omega, by omega⟩
    · have h' : containsStr r.entries ("list[" ++ inner.keyword ++ "]") = false := by simpa using h
      have hl1 : lookupStr
          (r.entries ++ [("list[" ++ inner.keyword ++ "]", r.nextId, Ty.mkList inner)])
          ("list[" ++ inner.keyword ++ "]")
          = some (r.nextId, Ty.mkList inner) := lookupStr_append_absent _ _ _ h'
      rw [TypesReg.add_list_type_absent r inner h']
      dsimp only
      rw [TypesReg.add_list_type_present
        ⟨r.entries ++ [("list[" ++ inner.keyword ++ "]", r.nextId, Ty.mkList inner)],
         r.nextId + 1 + 1⟩ inner _ _ hl1]
      exact ⟨rfl, r.nextId, Ty.mkList inner, r.nextId + 1, Ty.mkList inner, r.nextId + 1 + 1,
        Ty.mkList inner, hl1, rfl, rfl, rfl, rfl, by omega, by omega, by omega⟩

/-- C4 (witness): the amended registry property holds at the concrete initial
registry, for the class name `A` and the inner type `char`. -/
theorem tapl_c4_registry_copies_witness :
    RegistryCopyProp TypesReg.init "A" Ty.mkCharacter :=
  tapl_c4_registry_copies TypesReg.init "A" Ty.mkCharacter (by decide)

/-!
Tokens.

The token classes (`tokens/*.py`) are not among the sources; they are
modelled from the spec (§3 Tokens, §6 Tokeniser interface): every token
carries a source location (`start` offset and `length`) and a token kind;
identifier, number, character and string-chars tokens carry their value, and
`TYPE` tokens carry a resolved type (as a copy out of the shared registry).
-/

/-- A source location: `start` offset and `length` in the source text
(`utils/source_location.py`, modelled from the spec). -/
structure SourceLocation where
  start : Nat
  length : Nat
deriving DecidableEq

/-- Adding two source locations forms a covering span (modelled from the
spec: "locations may be added to form a covering span"). -/
def SourceLocation.add (a b : SourceLocation) : SourceLocation :=
  let s : Nat := min a.start b.start
  let e : Nat := max (a.start + a.length) (b.start + b.length)
  ⟨s, e - s⟩

/-- Token kinds, modelled from the spec (§3 Tokens): `tokens/token_type.py`
is not among the sources. -/
inductive TokenType where
  | IDENTIFIER | NUMBER | CHARACTER
  | STRING_START | STRING_CHARS | STRING_EXPR_START | STRING_EXPR_END | STRING_END
  | TYPE | NEWLINE | INDENT | DEDENT | EOF
  | PAREN_OPEN | PAREN_CLOSE | COMMA | COLON | SEMICOLON | DOT
  | EQUAL | PLUS_EQUAL | MINUS_EQUAL | STAR_EQUAL | SLASH_EQUAL
  | EQUAL_EQUAL | NOT_EQUAL | LESS | LESS_EQUAL | GREATER | GREATER_EQUAL
  | AND_AND | OR_OR | NOT
  | PLUS | MINUS | STAR | SLASH | INCREMENT | DECREMENT | TILDE
  | IF | ELSE | FOR | WHILE | BREAK | BREAKALL | CONTINUE | RETURN
  | PRINT | PRINTLN | TRUE | FALSE | NULL | CLASS | THIS
deriving DecidableEq

/-- The textual value of a token kind (the Python enum value, used by the
emitters as the C spelling of operators).  Modelled from the spec:
`tokens/token_type.py` is not among the sources; the values are the obvious
source spellings of the operators and keywords. -/
def TokenType.value : TokenType → String
  | TokenType.PAREN_OPEN => "("
  | TokenType.PAREN_CLOSE => ")"
  | TokenType.COMMA => ","
  | TokenType.COLON => ":"
  | TokenType.SEMICOLON => ";"
  | TokenType.DOT => "."
  | TokenType.EQUAL => "="
  | TokenType.PLUS_EQUAL => "+="
  | TokenType.MINUS_EQUAL => "-="
  | TokenType.STAR_EQUAL => "*="
  | TokenType.SLASH_EQUAL => "/="
  | TokenType.EQUAL_EQUAL => "=="
  | TokenType.NOT_EQUAL => "!="
  | TokenType.LESS => "<"
  | TokenType.LESS_EQUAL => "<="
  | TokenType.GREATER => ">"
  | TokenType.GREATER_EQUAL => ">="
  | TokenType.AND_AND => "&&"
  | TokenType.OR_OR => "||"
  | TokenType.NOT => "!"
  | TokenType.PLUS => "+"
  | TokenType.MINUS => "-"
  | TokenType.STAR => "*"
  | TokenType.SLASH => "/"
  | TokenType.INCREMENT => "++"
  | TokenType.DECREMENT => "--"
  | TokenType.TILDE => "~"
  | TokenType.TRUE => "true"
  | TokenType.FALSE => "false"
  | TokenType.NULL => "null"
  | TokenType.THIS => "this"
  | _ => ""

/-- The payload of a token: nothing, an identifier string, an integer, a
character, string characters, or a resolved type. -/
inductive TokenData where
  | nothing
  | identifier (value : String)
  | number (value : Int)
  | character (value : Char)
  | stringChars (value : String)
  | typeData (type_ : Ty)
deriving DecidableEq

/-- A token: source location, kind and payload. -/
structure Token where
  source_location : SourceLocation
  token_type : TokenType
  data : TokenData
deriving DecidableEq

instance : Inhabited Token := ⟨⟨⟨0, 0⟩, TokenType.EOF, TokenData.nothing⟩⟩

/-- Python `type(token) == IdentifierToken`. -/
def Token.isIdentifierToken (t : Token) : Bool :=
  match t.data with
  | TokenData.identifier _ => true
  | _ => false

/-- Python `type(token) == NumberToken`. -/
def Token.isNumberToken (t : Token) : Bool :=
  match t.data with
  | TokenData.number _ => true
  | _ => false

/-- Python `type(token) == CharacterToken`. -/
def Token.isCharacterToken (t : Token) : Bool :=
  match t.data with
  | TokenData.character _ => true
  | _ => false

/-- Python `type(token) == StringCharsToken`. -/
def Token.isStringCharsToken (t : Token) : Bool :=
  match t.data with
  | TokenData.stringChars _ => true
  | _ => false

/-- The identifier value of an identifier token (empty when it is not one). -/
def Token.identValue (t : Token) : String :=
  match t.data with
  | TokenData.identifier v => v
  | _ => ""

/-- The integer value of a number token (0 when it is not one). -/
def Token.numberValue (t : Token) : Int :=
  match t.data with
  | TokenData.number v => v
  | _ => 0

/-- The string value of a string-chars token (empty when it is not one). -/
def Token.stringCharsValue (t : Token) : String :=
  match t.data with
  | TokenData.stringChars v => v
  | _ => ""

/-- The resolved type of a `TYPE` token (`TypeToken.type_`; the unknown
sentinel when it is not a type token). -/
def Token.ty (t : Token) : Ty :=
  match t.data with
  | TokenData.typeData ty => ty
  | _ => Ty.unknown

/-- The display form of a token (Python `str(token)`): identifier tokens show
their value, type tokens their keyword, number tokens their number; this is
what the f-string error messages and the emitters interpolate. -/
def Token.str (t : Token) : String :=
  match t.data with
  | TokenData.identifier v => v
  | TokenData.number v => toString v
  | TokenData.character v => String.singleton v
  | TokenData.stringChars v => v
  | TokenData.typeData ty => ty.keyword
  | TokenData.nothing => t.token_type.value

/-!
AST nodes (`statements/*.py` and `expressions/*.py`).

Every expression carries a mutable `type_` slot initialised to the unknown
sentinel; in the embedding the slot is the last constructor field and passes
that mutate it return the rewritten node.  `BinaryExpression` subclasses
`TokenExpression` in the source, but the passes always match the binary case
first, so it is modelled as its own constructor carrying its operator token.
-/

/-- The unary expression kinds (`expressions/expression_type.py`, modelled
from the spec: variants as used in `UnaryExpression.c_code` and the
parser). -/
inductive ExpressionType where
  | GROUPING | NOT | MINUS | PRE_INCREMENT | PRE_DECREMENT | POST_INCREMENT | POST_DECREMENT
deriving DecidableEq

/-- Constructor/destructor marker
(`statements/lifecycle_statement_type.py`, modelled from the spec). -/
inductive LifecycleStatementType where
  | CONSTRUCTOR | DESTRUCTOR
deriving DecidableEq

mutual

/-- Expressions.  Constructor fields follow the Python classes: each carries
its `source_location` first and its mutable `type_` slot last.
For `stringEqual` the `filename` field of the source (used only to read back
the source text of the expression) is modelled as the source text itself. -/
inductive Expr where
  | binary (source_location : SourceLocation) (token : Token) (left : Expr) (right : Expr)
      (type_ : Ty)
  | call (source_location : SourceLocation) (expression : Expr) (class_type : Option Ty)
      (arguments : List Expr) (call_consumed : Bool) (type_ : Ty)
  | identifierExpr (source_location : SourceLocation) (identifier_token : Token)
      (inner_expression : Option Expr) (class_type : Option Ty) (list_type : Option Ty)
      (type_ : Ty)
  | stringEqual (source_location : SourceLocation) (inner : Expr) (token : Token)
      (filename : String) (type_ : Ty)
  | stringExpr (source_location : SourceLocation) (string_elements : List (Token ⊕ Expr))
      (line_end : String) (type_ : Ty)
  | thisExpr (source_location : SourceLocation) (inner_expression : Expr) (type_ : Ty)
  | tokenExpr (source_location : SourceLocation) (token : Token) (type_ : Ty)
  | typeCast (source_location : SourceLocation) (cast_to : Token) (expression : Expr)
      (type_ : Ty)
  | unary (source_location : SourceLocation) (expression_type : ExpressionType)
      (expression : Expr) (type_ : Ty)

/-- Statements.  Constructor fields follow the Python classes.  The source's
`ForLoopStatement` only folds its `for`/`while` token into its source
location; the embedding additionally keeps the token itself so that the
breakall-label properties can relate the label to the token's start offset. -/
inductive Stmt where
  | assignment (source_location : SourceLocation) (expression : Expr) (assignment_token : Token)
      (value : Expr)
  | breakStmt (source_location : SourceLocation)
  | breakall (source_location : SourceLocation) (breakall_label : String)
  | classStmt (source_location : SourceLocation) (class_type : Ty) (variables_ : List Stmt)
      (functions : List Stmt) (constructor : Option Stmt) (destructor : Option Stmt)
  | continueStmt (source_location : SourceLocation)
  | exprStmt (source_location : SourceLocation) (expression : Expr)
  | forLoop (source_location : SourceLocation) (token : Token) (breakall_label : Option String)
      (init : Option Stmt) (check : Option Expr) (loop : Option Stmt) (statements : List Stmt)
  | functionStmt (source_location : SourceLocation) (return_type : Token) (name : Token)
      (class_type : Option Ty) (arguments : List (Token × Token)) (statements : List Stmt)
  | ifStmt (source_location : SourceLocation) (expression : Expr) (statements : List Stmt)
      (else_if_statement_blocks : List (Expr × List Stmt)) (else_statements : Option (List Stmt))
  | lifecycle (source_location : SourceLocation) (statement_type : LifecycleStatementType)
      (type_ : Ty) (arguments : List (Token × Token)) (statements : List Stmt)
  | listStmt (source_location : SourceLocation) (list_type : Ty) (name : Token)
  | printStmt (source_location : SourceLocation) (line_end : String) (value : Expr)
  | returnStmt (source_location : SourceLocation) (value : Option Expr)
  | varDecl (source_location : SourceLocation) (type_token : Token) (name : Token)
      (initial_value : Option Expr)

end

instance : Inhabited Expr := ⟨Expr.tokenExpr ⟨0, 0⟩ default Ty.unknown⟩

instance : Inhabited Stmt := ⟨Stmt.breakStmt ⟨0, 0⟩⟩

/-- The `type_` slot of an expression. -/
def Expr.type_ : Expr → Ty
  | Expr.binary _ _ _ _ t => t
  | Expr.call _ _ _ _ _ t => t
  | Expr.identifierExpr _ _ _ _ _ t => t
  | Expr.stringEqual _ _ _ _ t => t
  | Expr.stringExpr _ _ _ t => t
  | Expr.thisExpr _ _ t => t
  | Expr.tokenExpr _ _ t => t
  | Expr.typeCast _ _ _ t => t
  | Expr.unary _ _ _ t => t

/-- Overwrite the `type_` slot of an expression (the Python property setter;
it stores a deep copy, which is the identity on values). -/
def Expr.setType : Expr → Ty → Expr
  | Expr.binary l tk a b _, t => Expr.binary l tk a b t
  | Expr.call l e c args cc _, t => Expr.call l e c args cc t
  | Expr.identifierExpr l tk i c lt _, t => Expr.identifierExpr l tk i c lt t
  | Expr.stringEqual l i tk f _, t => Expr.stringEqual l i tk f t
  | Expr.stringExpr l els le _, t => Expr.stringExpr l els le t
  | Expr.thisExpr l i _, t => Expr.thisExpr l i t
  | Expr.tokenExpr l tk _, t => Expr.tokenExpr l tk t
  | Expr.typeCast l c e _, t => Expr.typeCast l c e t
  | Expr.unary l et e _, t => Expr.unary l et e t

/-- The source location of an expression. -/
def Expr.source_location : Expr → SourceLocation
  | Expr.binary l _ _ _ _ => l
  | Expr.call l _ _ _ _ _ => l
  | Expr.identifierExpr l _ _ _ _ _ => l
  | Expr.stringEqual l _ _ _ _ => l
  | Expr.stringExpr l _ _ _ => l
  | Expr.thisExpr l _ _ => l
  | Expr.tokenExpr l _ _ => l
  | Expr.typeCast l _ _ _ => l
  | Expr.unary l _ _ _ => l

/-- The source location of a statement. -/
def Stmt.source_location : Stmt → SourceLocation
  | Stmt.assignment l _ _ _ => l
  | Stmt.breakStmt l => l
  | Stmt.breakall l _ => l
  | Stmt.classStmt l _ _ _ _ _ => l
  | Stmt.continueStmt l => l
  | Stmt.exprStmt l _ => l
  | Stmt.forLoop l _ _ _ _ _ _ => l
  | Stmt.functionStmt l _ _ _ _ _ => l
  | Stmt.ifStmt l _ _ _ _ => l
  | Stmt.lifecycle l _ _ _ _ => l
  | Stmt.listStmt l _ _ => l
  | Stmt.printStmt l _ _ => l
  | Stmt.returnStmt l _ => l
  | Stmt.varDecl l _ _ _ => l

/-- `Utils.get_expression_type` (`utils/utils.py` lines 75-82): an identifier
expression with an inner expression reports the inner expression's type;
otherwise the expression's own `type_`.  Recursion is fuel-bounded. -/
def getExpressionType : Nat → Expr → Ty
  | 0, e => e.type_
  | fuel + 1, e =>
      match e with
      | Expr.identifierExpr _ _ (some inner) _ _ _ => getExpressionType fuel inner
      | _ => e.type_

/-- `Utils.get_type_format_string` (`utils/utils.py` lines 84-101): the
printf format specifier for an expression's reported type. -/
def getTypeFormatString (fuel : Nat) (e : Expr) : String :=
  let type_ : Ty := getExpressionType fuel e
  match type_.variant with
  | TyVariant.character => "%c"
  | TyVariant.numeric ntt numBits _ =>
      let long : String := if numBits > 32 then "l" else ""
      (match ntt with
       | NumericTypeType.SIGNED => "%" ++ long ++ "d"
       | NumericTypeType.UNSIGNED => "%" ++ long ++ "u"
       | NumericTypeType.FLOATING_POINT => "%" ++ long ++ "f")
  | _ => "<format-of-unhandled-type>"

/-!
Lexical scopes.

`ast_checks/scope.py` and `ast_checks/scope_wrapper.py` are not among the
sources; they are modelled from the spec (§3 Lexical scope): a scope owns a
mapping identifier ↦ type and a mapping function name ↦ function statement,
plus a parent back-pointer; the wrapper owns the innermost scope; lookups
walk parent links outward.  A wrapper is modelled as the list of scopes from
innermost to outermost (the global scope last).
-/

/-- One lexical scope: identifier table and function table. -/
structure Scope where
  identifiers : List (String × Ty)
  functions : List (String × Stmt)

instance : Inhabited Scope := ⟨⟨[], []⟩⟩

/-- A fresh wrapper holding just the global scope. -/
def scopeWrapperInit : List Scope := [⟨[], []⟩]

/-- `Scope.get_identifier`: look the identifier up in the scope and its
parents. -/
def lookupIdentifier : List Scope → String → Option Ty
  | [], _ => none
  | sc :: rest, name =>
      match lookupStr sc.identifiers name with
      | some t => some t
      | none => lookupIdentifier rest name

/-- `Scope.get_function`: look the function up in the scope and its
parents. -/
def lookupFunction : List Scope → String → Option Stmt
  | [], _ => none
  | sc :: rest, name =>
      match lookupStr sc.functions name with
      | some f => some f
      | none => lookupFunction rest name

/-- `ScopeWrapper.add_scope`: push a new innermost scope. -/
def addScope (w : List Scope) : List Scope := ⟨[], []⟩ :: w

/-- `ScopeWrapper.remove_scope`: pop back to the parent scope (the global
scope is never popped on the runs the development reasons about; popping it
anyway would crash the Python original, so the model keeps it). -/
def removeScope (w : List Scope) : List Scope :=
  match w with
  | [] => []
  | [g] => [g]
  | _ :: rest => rest

/-- Add an identifier to the innermost scope (`Scope.add_identifier`). -/
def scopeAddIdentifier (w : List Scope) (name : String) (t : Ty) : List Scope :=
  match w with
  | [] => []
  | sc :: rest => { sc with identifiers := sc.identifiers ++ [(name, t)] } :: rest

/-- Add a function to the innermost scope (`Scope.add_function`). -/
def scopeAddFunction (w : List Scope) (name : String) (f : Stmt) : List Scope :=
  match w with
  | [] => []
  | sc :: rest => { sc with functions := sc.functions ++ [(name, f)] } :: rest

/-- The identifiers of the innermost scope (used by the duplicate check of
`add_identifier`). -/
def innermostIdentifiers (w : List Scope) : List (String × Ty) :=
  match w with
  | [] => []
  | sc :: _ => sc.identifiers

/-!
The scoping pass (`ast_checks/scoping_pass.py`).

Exceptions are modelled as an `Option String` result component; the
`parse_statement` and `parse_expression` wrappers catch them into the error
list.  The additional `checks` field records, for every `TokenExpression`
holding an identifier token, the scope at the use site and the identifier
looked up; it is pure instrumentation used to state the resolution theorem
and does not influence the pass.
-/

/-- The scoping pass state: the scope wrapper, the collected errors, and the
instrumentation record of all identifier lookups performed on
`TokenExpression`s. -/
structure SpState where
  scope_wrapper : List Scope
  errors : List String
  checks : List (List Scope × String)

/-- The initial scoping state. -/
def spInit : SpState := ⟨scopeWrapperInit, [], []⟩

/-- Fuel exhaustion surfaces as an internal error, so an error-free run is
also a run that had enough fuel. -/
def spFuelError (st : SpState) : SpState :=
  { st with errors := st.errors ++ ["internal compiler error, recursion fuel exhausted!"] }

/-- `PassBase._add_identifier`: reject a duplicate in the innermost scope,
otherwise add the identifier there. -/
def spAddIdentifier (st : SpState) (nameToken : Token) (t : Ty) : SpState × Option String :=
  let name : String := nameToken.identValue
  if containsStr (innermostIdentifiers st.scope_wrapper) name then
    (st, some ("identifier '" ++ name ++ "' already exists!"))
  else
    ({ st with scope_wrapper := scopeAddIdentifier st.scope_wrapper name t }, none)

/-- Add every function/lifecycle argument to the innermost scope in order,
stopping at the first duplicate (`for type_token, identifier_token in
statement.arguments: self._add_identifier(...)`). -/
def spAddArgs (st : SpState) : List (Token × Token) → SpState × Option String
  | [] => (st, none)
  | (type_token, identifier_token) :: rest =>
      match spAddIdentifier st identifier_token type_token.ty with
      | (st1, some e) => (st1, some e)
      | (st1, none) => spAddArgs st1 rest

/-- The requests processed by the scoping traversal: statements and
expressions, through the catching wrappers or directly, plus the list shapes
that occur in the AST. -/
inductive SpReq where
  | pstmt (s : Option Stmt)
  | stmtCore (s : Stmt)
  | stmts (l : List Stmt)
  | pexpr (e : Option Expr)
  | exprCore (e : Expr)
  | exprs (l : List Expr)
  | elifBlocks (l : List (Expr × List Stmt))
  | strElems (l : List (Token ⊕ Expr))

/-- The scoping traversal (`ScopingPass._parse_statement`,
`ScopingPass.parse_expression`, `ScopingPass._parse_expression` of
`ast_checks/scoping_pass.py`, plus the statement loop of `PassBase.run`,
fused into one fuel-bounded function).  The second result component is the
exception propagating out of the uncaught (`Core`) entries; the wrapper
entries always return `none` and append caught exceptions to the error
list. -/
def spGo : Nat → SpState → SpReq → SpState × Option String
  | 0, st, _ => (spFuelError st, none)
  | fuel + 1, st, req =>
      match req with
      | SpReq.pstmt s =>
          -- `parse_statement`: None is skipped, exceptions are collected
          (match s with
           | none => (st, none)
           | some s' =>
               match spGo fuel st (SpReq.stmtCore s') with
               | (st1, none) => (st1, none)
               | (st1, some e) => ({ st1 with errors := st1.errors ++ [e] }, none))
      | SpReq.stmts l =>
          (match l with
           | [] => (st, none)
           | s :: rest =>
               let (st1, _) := spGo fuel st (SpReq.pstmt (some s))
               spGo fuel st1 (SpReq.stmts rest))
      | SpReq.pexpr e =>
          -- `parse_expression`: None is skipped, exceptions are collected
          (match e with
           | none => (st, none)
           | some e' =>
               match spGo fuel st (SpReq.exprCore e') with
               | (st1, none) => (st1, none)
               | (st1, some e) => ({ st1 with errors := st1.errors ++ [e] }, none))
      | SpReq.exprs l =>
          (match l with
           | [] => (st, none)
           | e :: rest =>
               let (st1, _) := spGo fuel st (SpReq.pexpr (some e))
               spGo fuel st1 (SpReq.exprs rest))
      | SpReq.elifBlocks l =>
          (match l with
           | [] => (st, none)
           | (cond, body) :: rest =>
               -- each else-if block gets its own scope around condition and body
               let st1 := { st with scope_wrapper := addScope st.scope_wrapper }
               let (st2, _) := spGo fuel st1 (SpReq.pexpr (some cond))
               let (st3, _) := spGo fuel st2 (SpReq.stmts body)
               let st4 := { st3 with scope_wrapper := removeScope st3.scope_wrapper }
               spGo fuel st4 (SpReq.elifBlocks rest))
      | SpReq.strElems l =>
          (match l with
           | [] => (st, none)
           | Sum.inl _ :: rest => spGo fuel st (SpReq.strElems rest)
           | Sum.inr e :: rest =>
               let (st1, _) := spGo fuel st (SpReq.pexpr (some e))
               spGo fuel st1 (SpReq.strElems rest))
      | SpReq.stmtCore s =>
          (match s with
           | Stmt.assignment _ expression _ value =>
               -- check the this or identifier expression, then the value
               let (st1, _) := spGo fuel st (SpReq.pexpr (some expression))
               spGo fuel st1 (SpReq.pexpr (some value))
           | Stmt.breakStmt _ => (st, none)
           | Stmt.breakall _ _ => (st, none)
           | Stmt.classStmt _ _ _ _ _ _ =>
               -- TODO in the source: class statements are not checked
               (st, none)
           | Stmt.continueStmt _ => (st, none)
           | Stmt.exprStmt _ expression => spGo fuel st (SpReq.pexpr (some expression))
           | Stmt.forLoop _ _ _ init check loop statements =>
               -- a new scope for the for loop definition and body statements
               let st1 := { st with scope_wrapper := addScope st.scope_wrapper }
               let (st2, _) := spGo fuel st1 (SpReq.pstmt init)
               let (st3, _) := spGo fuel st2 (SpReq.pexpr check)
               let (st4, _) := spGo fuel st3 (SpReq.pstmt loop)
               let (st5, _) := spGo fuel st4 (SpReq.stmts statements)
               ({ st5 with scope_wrapper := removeScope st5.scope_wrapper }, none)
           | Stmt.functionStmt _ return_type name _ arguments statements =>
               -- add the function name to the surrounding scope
               (match spAddIdentifier st name return_type.ty with
                | (st1, some e) => (st1, some e)
                | (st1, none) =>
                    -- new scope for the arguments and the body
                    let st2 := { st1 with scope_wrapper := addScope st1.scope_wrapper }
                    match spAddArgs st2 arguments with
                    | (st3, some e) =>
                        -- the scope is popped even when an exception escapes
                        ({ st3 with scope_wrapper := removeScope st3.scope_wrapper }, some e)
                    | (st3, none) =>
                        let (st4, _) := spGo fuel st3 (SpReq.stmts statements)
                        ({ st4 with scope_wrapper := removeScope st4.scope_wrapper }, none))
           | Stmt.ifStmt _ expression statements elifs elses =>
               let st1 := { st with scope_wrapper := addScope st.scope_wrapper }
               let (st2, _) := spGo fuel st1 (SpReq.pexpr (some expression))
               let (st3, _) := spGo fuel st2 (SpReq.stmts statements)
               let st4 := { st3 with scope_wrapper := removeScope st3.scope_wrapper }
               let (st5, _) := spGo fuel st4 (SpReq.elifBlocks elifs)
               (match elses with
                | none => (st5, none)
                | some body =>
                    let st6 := { st5 with scope_wrapper := addScope st5.scope_wrapper }
                    let (st7, _) := spGo fuel st6 (SpReq.stmts body)
                    ({ st7 with scope_wrapper := removeScope st7.scope_wrapper }, none))
           | Stmt.lifecycle _ _ _ _ _ =>
               -- not handled by `ScopingPass._parse_statement` (it can only be
               -- reached through a class body, which the pass skips); in the
               -- source this would be an internal assertion failure
               ({ st with errors := st.errors ++
                  ["internal compiler error, LifecycleStatement not handled!"] }, none)
           | Stmt.listStmt _ list_type name => spAddIdentifier st name list_type
           | Stmt.printStmt _ _ value => spGo fuel st (SpReq.pexpr (some value))
           | Stmt.returnStmt _ value => spGo fuel st (SpReq.pexpr value)
           | Stmt.varDecl _ type_token name initial_value =>
               -- first check the initializer for identifiers,
               -- then add the declared variable to the scope
               let (st1, _) := spGo fuel st (SpReq.pexpr initial_value)
               spAddIdentifier st1 name type_token.ty)
      | SpReq.exprCore e =>
          (match e with
           | Expr.binary _ _ left right _ =>
               let (st1, _) := spGo fuel st (SpReq.pexpr (some left))
               spGo fuel st1 (SpReq.pexpr (some right))
           | Expr.call _ expression _ arguments _ _ =>
               let (st1, _) := spGo fuel st (SpReq.pexpr (some expression))
               spGo fuel st1 (SpReq.exprs arguments)
           | Expr.identifierExpr _ _ _ _ _ _ =>
               -- TODO in the source: identifier expressions are not checked
               (st, none)
           | Expr.stringEqual _ inner _ _ _ => spGo fuel st (SpReq.pexpr (some inner))
           | Expr.stringExpr _ string_elements _ _ => spGo fuel st (SpReq.strElems string_elements)
           | Expr.thisExpr _ _ _ =>
               -- not handled by `ScopingPass._parse_expression` (`this` is only
               -- legal inside class bodies, which the pass skips); in the
               -- source this would be an internal assertion failure
               ({ st with errors := st.errors ++
                  ["internal compiler error, ThisExpression not handled!"] }, none)
           | Expr.tokenExpr _ token _ =>
               if token.isIdentifierToken then
                 -- record the lookup (instrumentation), then resolve it
                 let st1 : SpState :=
                   { st with checks := st.checks ++ [(st.scope_wrapper, token.identValue)] }
                 match lookupIdentifier st1.scope_wrapper token.identValue with
                 | some _ => (st1, none)
                 | none => (st1, some ("unknown identifier '" ++ token.identValue ++ "'!"))
               else
                 (st, none)
           | Expr.typeCast _ _ expression _ => spGo fuel st (SpReq.pexpr (some expression))
           | Expr.unary _ _ expression _ => spGo fuel st (SpReq.pexpr (some expression)))

/-- Run the scoping pass over the program's top-level statements
(the statement loop of `PassBase.run`). -/
def spRun (fuel : Nat) (statements : List Stmt) : SpState :=
  (spGo fuel spInit (SpReq.stmts statements)).1

/-- Count of recorded identifier checks whose lookup failed. -/
def badChecks (checks : List (List Scope × String)) : Nat :=
  (checks.filter fun c => (lookupIdentifier c.1 c.2).isNone).length

/-- `badChecks` distributes over append. -/
theorem badChecks_append (a b : List (List Scope × String)) :
    badChecks (a ++ b) = badChecks a + badChecks b := by
  simp [badChecks, List.filter_append]

/-- Number of exceptions carried by a result (0 or 1). -/
def eCount : Option String → Nat
  | none => 0
  | some _ => 1

/-- `spAddIdentifier` touches only the scope, never errors or checks. -/
theorem spAddIdentifier_preserves (st : SpState) (n : Token) (t : Ty) :
    (spAddIdentifier st n t).1.errors = st.errors ∧
    (spAddIdentifier st n t).1.checks = st.checks := by
  unfold spAddIdentifier
  by_cases h : containsStr (innermostIdentifiers st.scope_wrapper) n.identValue <;> simp [h]

/-- `spAddArgs` touches only the scope, never errors or checks. -/
theorem spAddArgs_preserves (args : List (Token × Token)) : ∀ (st : SpState),
    (spAddArgs st args).1.errors = st.errors ∧
    (spAddArgs st args).1.checks = st.checks := by
  induction args with
  | nil => intro st; simp [spAddArgs]
  | cons a rest ih =>
      intro st
      obtain ⟨ta, na⟩ := a
      rcases h : spAddIdentifier st na ta.ty with ⟨st1, e1⟩
      have hp := spAddIdentifier_preserves st na ta.ty
      rw [h] at hp
      cases e1 with
      | none =>
          have := ih st1
          simp only [spAddArgs, h]
          exact ⟨this.1.trans hp.1, this.2.trans hp.2⟩
      | some e =>
          simp only [spAddArgs, h]
          exact hp

/-- Which requests go through a catching wrapper (their result never carries
a propagating exception). -/
def SpReq.isWrapped : SpReq → Bool
  | SpReq.pstmt _ => true
  | SpReq.stmts _ => true
  | SpReq.pexpr _ => true
  | SpReq.exprs _ => true
  | SpReq.elifBlocks _ => true
  | SpReq.strElems _ => true
  | SpReq.stmtCore _ => false
  | SpReq.exprCore _ => false

/-- Wrapped scoping requests never propagate an exception. -/
theorem spGo_wrapped_none : ∀ (fuel : Nat) (st : SpState) (req : SpReq),
    req.isWrapped = true → (spGo fuel st req).2 = none := by
  intro fuel
  induction fuel with
  | zero => intro st req _; rfl
  | succ fuel ih =>
      intro st req hw
      cases req with
      | pstmt s =>
          cases s with
          | none => rfl
          | some s' =>
              show (match spGo fuel st (SpReq.stmtCore s') with
                    | (st1, none) => (st1, none)
                    | (st1, some e) => ({ st1 with errors := st1.errors ++ [e] }, none)).2 = none
              rcases spGo fuel st (SpReq.stmtCore s') with ⟨st1, e1⟩
              cases e1 <;> rfl
      | stmts l =>
          cases l with
          | nil => rfl
          | cons s rest =>
              show (let p := spGo fuel st (SpReq.pstmt (some s))
                    spGo fuel p.1 (SpReq.stmts rest)).2 = none
              exact ih _ (SpReq.stmts rest) rfl
      | pexpr e =>
          cases e with
          | none => rfl
          | some e' =>
              show (match spGo fuel st (SpReq.exprCore e') with
                    | (st1, none) => (st1, none)
                    | (st1, some e) => ({ st1 with errors := st1.errors ++ [e] }, none)).2 = none
              rcases spGo fuel st (SpReq.exprCore e') with ⟨st1, e1⟩
              cases e1 <;> rfl
      | exprs l =>
          cases l with
          | nil => rfl
          | cons e rest =>
              show (let p := spGo fuel st (SpReq.pexpr (some e))
                    spGo fuel p.1 (SpReq.exprs rest)).2 = none
              exact ih _ (SpReq.exprs rest) rfl
      | elifBlocks l =>
          cases l with
          | nil => rfl
          | cons b rest =>
              obtain ⟨cond, body⟩ := b
              show (let st1 := { st with scope_wrapper := addScope st.scope_wrapper }
                    let p2 := spGo fuel st1 (SpReq.pexpr (some cond))
                    let p3 := spGo fuel p2.1 (SpReq.stmts body)
                    let st4 := { p3.1 with scope_wrapper := removeScope p3.1.scope_wrapper }
                    spGo fuel st4 (SpReq.elifBlocks rest)).2 = none
              exact ih _ (SpReq.elifBlocks rest) rfl
      | strElems l =>
          cases l with
          | nil => rfl
          | cons el rest =>
              cases el with
              | inl t =>
                  show (spGo fuel st (SpReq.strElems rest)).2 = none
                  exact ih _ (SpReq.strElems rest) rfl
              | inr e =>
                  show (let p := spGo fuel st (SpReq.pexpr (some e))
                        spGo fuel p.1 (SpReq.strElems rest)).2 = none
                  exact ih _ (SpReq.strElems rest) rfl
      | stmtCore s => simp [SpReq.isWrapped] at hw
      | exprCore e => simp [SpReq.isWrapped] at hw

/-- Core counting invariant of the scoping pass: every recorded identifier
check whose lookup failed is matched by an error — either already collected
or still propagating as the exception of the current call. -/
theorem spGo_bad_le : ∀ (fuel : Nat) (st : SpState) (req : SpReq),
    badChecks (spGo fuel st req).1.checks + st.errors.length ≤
      badChecks st.checks + (spGo fuel st req).1.errors.length + eCount (spGo fuel st req).2 := by
  intro fuel
  induction fuel with
  | zero =>
      intro st req
      show badChecks (spFuelError st).checks + st.errors.length ≤
        badChecks st.checks + (spFuelError st).errors.length + eCount none
      simp [spFuelError, eCount]
  | succ fuel ih =>
      intro st req
      cases req with
      | pstmt s =>
          cases s with
          | none => simp [spGo, eCount]
          | some s' =>
              have I1 := ih st (SpReq.stmtCore s')
              rcases h1 : spGo fuel st (SpReq.stmtCore s') with ⟨st1, e1⟩
              rw [h1] at I1
              cases e1 with
              | none => simpa [spGo, h1, eCount] using I1
              | some e => simp only [spGo, h1] at I1 ⊢; simp [eCount] at I1 ⊢; omega
      | stmts l =>
          cases l with
          | nil => simp [spGo, eCount]
          | cons s rest =>
              have I1 := ih st (SpReq.pstmt (some s))
              have W1 := spGo_wrapped_none fuel st (SpReq.pstmt (some s)) rfl
              rcases h1 : spGo fuel st (SpReq.pstmt (some s)) with ⟨st1, e1⟩
              rw [h1] at I1 W1
              subst W1
              have I2 := ih st1 (SpReq.stmts rest)
              rcases h2 : spGo fuel st1 (SpReq.stmts rest) with ⟨st2, e2⟩
              rw [h2] at I2
              simp only [spGo, h1, h2]
              simp [eCount] at I1 I2 ⊢
              omega
      | pexpr e =>
          cases e with
          | none => simp [spGo, eCount]
          | some e' =>
              have I1 := ih st (SpReq.exprCore e')
              rcases h1 : spGo fuel st (SpReq.exprCore e') with ⟨st1, e1⟩
              rw [h1] at I1
              cases e1 with
              | none => simpa [spGo, h1, eCount] using I1
              | some e => simp only [spGo, h1] at I1 ⊢; simp [eCount] at I1 ⊢; omega
      | exprs l =>
          cases l with
          | nil => simp [spGo, eCount]
          | cons e rest =>
              have I1 := ih st (SpReq.pexpr (some e))
              have W1 := spGo_wrapped_none fuel st (SpReq.pexpr (some e)) rfl
              rcases h1 : spGo fuel st (SpReq.pexpr (some e)) with ⟨st1, e1⟩
              rw [h1] at I1 W1
              subst W1
              have I2 := ih st1 (SpReq.exprs rest)
              rcases h2 : spGo fuel st1 (SpReq.exprs rest) with ⟨st2, e2⟩
              rw [h2] at I2
              simp only [spGo, h1, h2]
              simp [eCount] at I1 I2 ⊢
              omega
      | elifBlocks l =>
          cases l with
          | nil => simp [spGo, eCount]
          | cons b rest =>
              obtain ⟨cond, body⟩ := b
              have I1 := ih { st with scope_wrapper := addScope st.scope_wrapper }
                (SpReq.pexpr (some cond))
              have W1 := spGo_wrapped_none fuel { st with scope_wrapper := addScope st.scope_wrapper }
                (SpReq.pexpr (some cond)) rfl
              rcases h1 : spGo fuel { st with scope_wrapper := addScope st.scope_wrapper }
                (SpReq.pexpr (some cond)) with ⟨st2, e1⟩
              rw [h1] at I1 W1
              subst W1
              have I2 := ih st2 (SpReq.stmts body)
              have W2 := spGo_wrapped_none fuel st2 (SpReq.stmts body) rfl
              rcases h2 : spGo fuel st2 (SpReq.stmts body) with ⟨st3, e2⟩
              rw [h2] at I2 W2
              subst W2
              have I3 := ih { st3 with scope_wrapper := removeScope st3.scope_wrapper }
                (SpReq.elifBlocks rest)
              rcases h3 : spGo fuel { st3 with scope_wrapper := removeScope st3.scope_wrapper }
                (SpReq.elifBlocks rest) with ⟨st4, e3⟩
              rw [h3] at I3
              simp only [spGo, h1, h2, h3]
              simp [eCount] at I1 I2 I3 ⊢
              omega
      | strElems l =>
          cases l with
          | nil => simp [spGo, eCount]
          | cons el rest =>
              cases el with
              | inl t =>
                  have I1 := ih st (SpReq.strElems rest)
                  rcases h1 : spGo fuel st (SpReq.strElems rest) with ⟨st1, e1⟩
                  rw [h1] at I1
                  simpa [spGo, h1] using I1
              | inr e =>
                  have I1 := ih st (SpReq.pexpr (some e))
                  have W1 := spGo_wrapped_none fuel st (SpReq.pexpr (some e)) rfl
                  rcases h1 : spGo fuel st (SpReq.pexpr (some e)) with ⟨st1, e1⟩
                  rw [h1] at I1 W1
                  subst W1
                  have I2 := ih st1 (SpReq.strElems rest)
                  rcases h2 : spGo fuel st1 (SpReq.strElems rest) with ⟨st2, e2⟩
                  rw [h2] at I2
                  simp only [spGo, h1, h2]
                  simp [eCount] at I1 I2 ⊢
                  omega
      | stmtCore s =>
          cases s with
          | assignment loc e tk v =>
              have I1 := ih st (SpReq.pexpr (some e))
              have W1 := spGo_wrapped_none fuel st (SpReq.pexpr (some e)) rfl
              rcases h1 : spGo fuel st (SpReq.pexpr (some e)) with ⟨st1, e1⟩
              rw [h1] at I1 W1
              subst W1
              have I2 := ih st1 (SpReq.pexpr (some v))
              rcases h2 : spGo fuel st1 (SpReq.pexpr (some v)) with ⟨st2, e2⟩
              rw [h2] at I2
              simp only [spGo, h1, h2]
              simp [eCount] at I1 I2 ⊢
              omega
          | breakStmt loc => simp [spGo, eCount]
          | breakall loc lbl => simp [spGo, eCount]
          | classStmt loc ct vs fs c d => simp [spGo, eCount]
          | continueStmt loc => simp [spGo, eCount]
          | exprStmt loc e =>
              have I1 := ih st (SpReq.pexpr (some e))
              rcases h1 : spGo fuel st (SpReq.pexpr (some e)) with ⟨st1, e1⟩
              rw [h1] at I1
              simpa [spGo, h1] using I1
          | forLoop loc tok lbl init check loop statements =>
              have I1 := ih { st with scope_wrapper := addScope st.scope_wrapper }
                (SpReq.pstmt init)
              have W1 := spGo_wrapped_none fuel { st with scope_wrapper := addScope st.scope_wrapper }
                (SpReq.pstmt init) rfl
              rcases h1 : spGo fuel { st with scope_wrapper := addScope st.scope_wrapper }
                (SpReq.pstmt init) with ⟨st2, e1⟩
              rw [h1] at I1 W1
              subst W1
              have I2 := ih st2 (SpReq.pexpr check)
              have W2 := spGo_wrapped_none fuel st2 (SpReq.pexpr check) rfl
              rcases h2 : spGo fuel st2 (SpReq.pexpr check) with ⟨st3, e2⟩
              rw [h2] at I2 W2
              subst W2
              have I3 := ih st3 (SpReq.pstmt loop)
              have W3 := spGo_wrapped_none fuel st3 (SpReq.pstmt loop) rfl
              rcases h3 : spGo fuel st3 (SpReq.pstmt loop) with ⟨st4, e3⟩
              rw [h3] at I3 W3
              subst W3
              have I4 := ih st4 (SpReq.stmts statements)
              have W4 := spGo_wrapped_none fuel st4 (SpReq.stmts statements) rfl
              rcases h4 : spGo fuel st4 (SpReq.stmts statements) with ⟨st5, e4⟩
              rw [h4] at I4 W4
              subst W4
              simp only [spGo, h1, h2, h3, h4]
              simp [eCount] at I1 I2 I3 I4 ⊢
              omega
          | functionStmt loc rt name ct args statements =>
              have hp := spAddIdentifier_preserves st name rt.ty
              rcases h1 : spAddIdentifier st name rt.ty with ⟨st1, e1⟩
              rw [h1] at hp
              have hpe : st1.errors = st.errors := hp.1
              have hpc : st1.checks = st.checks := hp.2
              cases e1 with
              | some e =>
                  simp only [spGo, h1]
                  simp [eCount, hpe, hpc]
              | none =>
                  have hq := spAddArgs_preserves args
                    { st1 with scope_wrapper := addScope st1.scope_wrapper }
                  rcases h2 : spAddArgs { st1 with scope_wrapper := addScope st1.scope_wrapper } args
                    with ⟨st3, e2⟩
                  rw [h2] at hq
                  have hqe : st3.errors = st1.errors := hq.1
                  have hqc : st3.checks = st1.checks := hq.2
                  cases e2 with
                  | some e =>
                      simp only [spGo, h1, h2]
                      simp [eCount, hpe, hpc, hqe, hqc]
                  | none =>
                      have I4 := ih st3 (SpReq.stmts statements)
                      have W4 := spGo_wrapped_none fuel st3 (SpReq.stmts statements) rfl
                      rcases h4 : spGo fuel st3 (SpReq.stmts statements) with ⟨st4, e4⟩
                      rw [h4] at I4 W4
                      subst W4
                      simp only [spGo, h1, h2, h4]
                      simp [eCount, hpe, hpc, hqe, hqc] at I4 ⊢
                      omega
          | ifStmt loc e statements elifs elses =>
              have I1 := ih { st with scope_wrapper := addScope st.scope_wrapper }
                (SpReq.pexpr (some e))
              have W1 := spGo_wrapped_none fuel { st with scope_wrapper := addScope st.scope_wrapper }
                (SpReq.pexpr (some e)) rfl
              rcases h1 : spGo fuel { st with scope_wrapper := addScope st.scope_wrapper }
                (SpReq.pexpr (some e)) with ⟨st2, e1⟩
              rw [h1] at I1 W1
              subst W1
              have I2 := ih st2 (SpReq.stmts statements)
              have W2 := spGo_wrapped_none fuel st2 (SpReq.stmts statements) rfl
              rcases h2 : spGo fuel st2 (SpReq.stmts statements) with ⟨st3, e2⟩
              rw [h2] at I2 W2
              subst W2
              have I3 := ih { st3 with scope_wrapper := removeScope st3.scope_wrapper }
                (SpReq.elifBlocks elifs)
              have W3 := spGo_wrapped_none fuel
                { st3 with scope_wrapper := removeScope st3.scope_wrapper }
                (SpReq.elifBlocks elifs) rfl
              rcases h3 : spGo fuel { st3 with scope_wrapper := removeScope st3.scope_wrapper }
                (SpReq.elifBlocks elifs) with ⟨st4, e3⟩
              rw [h3] at I3 W3
              subst W3
              cases elses with
              | none =>
                  simp only [spGo, h1, h2, h3]
                  simp [eCount] at I1 I2 I3 ⊢
                  omega
              | some body =>
                  have I4 := ih { st4 with scope_wrapper := addScope st4.scope_wrapper }
                    (SpReq.stmts body)
                  have W4 := spGo_wrapped_none fuel
                    { st4 with scope_wrapper := addScope st4.scope_wrapper }
                    (SpReq.stmts body) rfl
                  rcases h4 : spGo fuel { st4 with scope_wrapper := addScope st4.scope_wrapper }
                    (SpReq.stmts body) with ⟨st5, e4⟩
                  rw [h4] at I4 W4
                  subst W4
                  simp only [spGo, h1, h2, h3, h4]
                  simp [eCount] at I1 I2 I3 I4 ⊢
                  omega
          | lifecycle loc lt ct args statements => simp [spGo, eCount]
          | listStmt loc lt name =>
              have hp := spAddIdentifier_preserves st name lt
              rcases h1 : spAddIdentifier st name lt with ⟨st1, e1⟩
              rw [h1] at hp
              have hpe : st1.errors = st.errors := hp.1
              have hpc : st1.checks = st.checks := hp.2
              cases e1 <;> simp [spGo, h1, eCount, hpe, hpc]
          | printStmt loc le v =>
              have I1 := ih st (SpReq.pexpr (some v))
              rcases h1 : spGo fuel st (SpReq.pexpr (some v)) with ⟨st1, e1⟩
              rw [h1] at I1
              simpa [spGo, h1] using I1
          | returnStmt loc v =>
              have I1 := ih st (SpReq.pexpr v)
              rcases h1 : spGo fuel st (SpReq.pexpr v) with ⟨st1, e1⟩
              rw [h1] at I1
              simpa [spGo, h1] using I1
          | varDecl loc tt name iv =>
              have I1 := ih st (SpReq.pexpr iv)
              have W1 := spGo_wrapped_none fuel st (SpReq.pexpr iv) rfl
              rcases h1 : spGo fuel st (SpReq.pexpr iv) with ⟨st1, e1⟩
              rw [h1] at I1 W1
              subst W1
              have hp := spAddIdentifier_preserves st1 name tt.ty
              rcases h2 : spAddIdentifier st1 name tt.ty with ⟨st2, e2⟩
              rw [h2] at hp
              have hpe : st2.errors = st1.errors := hp.1
              have hpc : st2.checks = st1.checks := hp.2
              cases e2 with
              | none =>
                  simp only [spGo, h1, h2]
                  simp [eCount, hpe, hpc] at I1 ⊢
                  omega
              | some e =>
                  simp only [spGo, h1, h2]
                  simp [eCount, hpe, hpc] at I1 ⊢
                  omega
      | exprCore e =>
          cases e with
          | binary loc tk left right ty =>
              have I1 := ih st (SpReq.pexpr (some left))
              have W1 := spGo_wrapped_none fuel st (SpReq.pexpr (some left)) rfl
              rcases h1 : spGo fuel st (SpReq.pexpr (some left)) with ⟨st1, e1⟩
              rw [h1] at I1 W1
              subst W1
              have I2 := ih st1 (SpReq.pexpr (some right))
              rcases h2 : spGo fuel st1 (SpReq.pexpr (some right)) with ⟨st2, e2⟩
              rw [h2] at I2
              simp only [spGo, h1, h2]
              simp [eCount] at I1 I2 ⊢
              omega
          | call loc callee ct args cc ty =>
              have I1 := ih st (SpReq.pexpr (some callee))
              have W1 := spGo_wrapped_none fuel st (SpReq.pexpr (some callee)) rfl
              rcases h1 : spGo fuel st (SpReq.pexpr (some callee)) with ⟨st1, e1⟩
              rw [h1] at I1 W1
              subst W1
              have I2 := ih st1 (SpReq.exprs args)
              rcases h2 : spGo fuel st1 (SpReq.exprs args) with ⟨st2, e2⟩
              rw [h2] at I2
              simp only [spGo, h1, h2]
              simp [eCount] at I1 I2 ⊢
              omega
          | identifierExpr loc tk i ct lt ty => simp [spGo, eCount]
          | stringEqual loc inner tk f ty =>
              have I1 := ih st (SpReq.pexpr (some inner))
              rcases h1 : spGo fuel st (SpReq.pexpr (some inner)) with ⟨st1, e1⟩
              rw [h1] at I1
              simpa [spGo, h1] using I1
          | stringExpr loc els le ty =>
              have I1 := ih st (SpReq.strElems els)
              rcases h1 : spGo fuel st (SpReq.strElems els) with ⟨st1, e1⟩
              rw [h1] at I1
              simpa [spGo, h1] using I1
          | thisExpr loc inner ty => simp [spGo, eCount]
          | tokenExpr loc tk ty =>
              by_cases hid : tk.isIdentifierToken
              · rcases hl : lookupIdentifier st.scope_wrapper tk.identValue with _ | t
                · simp [spGo, hid, hl, eCount, badChecks_append, badChecks]
                  omega
                · simp [spGo, hid, hl, eCount, badChecks_append, badChecks]
              · simp [spGo, hid, eCount]
          | typeCast loc ct inner ty =>
              have I1 := ih st (SpReq.pexpr (some inner))
              rcases h1 : spGo fuel st (SpReq.pexpr (some inner)) with ⟨st1, e1⟩
              rw [h1] at I1
              simpa [spGo, h1] using I1
          | unary loc et inner ty =>
              have I1 := ih st (SpReq.pexpr (some inner))
              rcases h1 : spGo fuel st (SpReq.pexpr (some inner)) with ⟨st1, e1⟩
              rw [h1] at I1
              simpa [spGo, h1] using I1

/-- Build an identifier token (test helper). -/
def tokId (start : Nat) (name : String) : Token :=
  ⟨⟨start, name.length⟩, TokenType.IDENTIFIER, TokenData.identifier name⟩

/-- Build a number token (test helper). -/
def tokNum (start : Nat) (len : Nat) (v : Int) : Token :=
  ⟨⟨start, len⟩, TokenType.NUMBER, TokenData.number v⟩

/-- Build a `TYPE` token (test helper). -/
def tokTy (start : Nat) (len : Nat) (t : Ty) : Token :=
  ⟨⟨start, len⟩, TokenType.TYPE, TokenData.typeData t⟩

/-- Build a plain token of a kind (test helper). -/
def tokK (start : Nat) (len : Nat) (k : TokenType) : Token :=
  ⟨⟨start, len⟩, k, TokenData.nothing⟩

/-- The built-in `u8` type value, as a `TYPE` token would carry it. -/
def u8Ty : Ty := Ty.mkNumeric "u8" NumericTypeType.UNSIGNED 8 [] (some "uint8_t") ["u16", "u32", "u64"]

/-- The built-in `u16` type value. -/
def u16Ty : Ty := Ty.mkNumeric "u16" NumericTypeType.UNSIGNED 16 [] (some "uint16_t") ["u32", "u64"]

/-- The built-in `u32` type value. -/
def u32Ty : Ty := Ty.mkNumeric "u32" NumericTypeType.UNSIGNED 32 [] (some "uint32_t") ["u64"]

/-- The AST of the one-statement program `y` — a bare identifier expression
used as a value (an `ExpressionStatement` holding an `IdentifierExpression`),
exactly what `AstGenerator.primary` builds for an identifier with no tail. -/
def c2Program : List Stmt :=
  [Stmt.exprStmt ⟨0, 1⟩ (Expr.identifierExpr ⟨0, 1⟩ (tokId 0 "y") none none none Ty.unknown)]

/-- C2 (counterexample): on the program consisting of the single bare
identifier expression `y`, the scoping pass completes without reporting any
error and performs no lookup at all, even though `y` does not resolve to any
declaration (the global scope stays empty): the `IdentifierExpression` case
of `ScopingPass._parse_expression` is `pass  # TODO`, so bare identifier
expressions are never checked, contradicting the claim that every
unresolvable reference is reported. -/
theorem tapl_c2_counterexample :
    (spRun 100 c2Program).errors = [] ∧
    (spRun 100 c2Program).checks.length = 0 ∧
    lookupIdentifier (spRun 100 c2Program).scope_wrapper "y" = none := by
  refine ⟨by decide, by decide, by decide⟩

/-- C2 (amended): if the scoping pass completes without reporting errors,
then every identifier reference that the pass actually checks — the
identifiers held by `TokenExpression`s, looked up when the traversal reaches
them — resolves to a declaration reachable from the lexical scope at its use
site.  References through bare `IdentifierExpression`s and identifiers inside
class bodies are not checked by the pass at all (see the counterexample). -/
theorem tapl_c2_scoping_resolves (fuel : Nat) (prog : List Stmt)
    (h : (spRun fuel prog).errors = []) :
    ∀ c ∈ (spRun fuel prog).checks, (lookupIdentifier c.1 c.2).isSome := by
  have I := spGo_bad_le fuel spInit (SpReq.stmts prog)
  have W := spGo_wrapped_none fuel spInit (SpReq.stmts prog) rfl
  rcases hr : spGo fuel spInit (SpReq.stmts prog) with ⟨stF, eF⟩
  rw [hr] at I W
  subst W
  have hFin : (spRun fuel prog) = stF := by
    unfold spRun
    rw [hr]
  rw [hFin] at h ⊢
  have hInitC : badChecks spInit.checks = 0 := by decide
  have hInitE : spInit.errors.length = 0 := by decide
  have hbad : badChecks stF.checks = 0 := by
    simp only [eCount] at I
    rw [h] at I
    simp at I
    omega
  intro c hc
  unfold badChecks at hbad
  have hnil : stF.checks.filter (fun c => (lookupIdentifier c.1 c.2).isNone) = [] :=
    List.length_eq_zero.mp hbad
  have := List.filter_eq_nil_iff.mp hnil c hc
  cases hl : lookupIdentifier c.1 c.2 with
  | none => rw [hl] at this; simp at this
  | some t => simp

/-- The AST of the program `u8 x = 1` followed by `++x` (the pre-increment
argument is a `TokenExpression` holding an identifier token, the one shape
the scoping pass does look up). -/
def c2WitnessProgram : List Stmt :=
  [Stmt.varDecl ⟨0, 8⟩ (tokTy 0 2 u8Ty) (tokId 3 "x")
     (some (Expr.tokenExpr ⟨7, 1⟩ (tokNum 7 1 1) Ty.unknown)),
   Stmt.exprStmt ⟨9, 3⟩ (Expr.unary ⟨9, 3⟩ ExpressionType.PRE_INCREMENT
     (Expr.tokenExpr ⟨11, 1⟩ (tokId 11 "x") Ty.unknown) Ty.unknown)]

/-- C2 (witness): the amended statement applied to the concrete program
`u8 x = 1; ++x`, whose scoping run is error-free and records one successful
lookup of `x`. -/
theorem tapl_c2_scoping_resolves_witness :
    ((spRun 100 c2WitnessProgram).checks.all fun c => (lookupIdentifier c.1 c.2).isSome) = true := by
  have H := tapl_c2_scoping_resolves 100 c2WitnessProgram (by decide)
  exact List.all_eq_true.mpr (fun c hc => by simpa using H c hc)

/-!
The typing pass (`ast_checks/typing_pass.py`).

The pass mutates the AST in place (expression `type_` slots, `class_type` /
`list_type` annotations, the `is_reference` flag of function-argument type
tokens); the embedding returns the rewritten nodes.  `parse_statement`
catches `TaplError`s per statement; `parse_expression` does not catch, so
expression errors abort the enclosing statement.  Exceptions are the
`Option String` component of every result.
-/

/-- The typing pass state: scope wrapper and its stash, collected errors,
the registry table, the per-class clean scopes, the function return-type
stack and the receiver (identifier) stack. -/
structure TpState where
  scope_wrapper : List Scope
  scope_wrapper_stash : Option (List Scope)
  errors : List String
  types : List (String × Ty)
  class_scopes : List (String × List Scope)
  function_stack : List Ty
  identifier_stack : List Ty

/-- `self._types[keyword]`: the registry lookup used by the pass (the
registry always contains the built-in keywords the pass asks for; a missing
keyword would be an assertion failure in the source and surfaces as the
unknown sentinel here). -/
def TpState.getType (st : TpState) (kw : String) : Ty :=
  (lookupStr st.types kw).getD Ty.unknown

/-- `TypingPass.add_identifier`: duplicate check in the innermost scope,
then add. -/
def tpAddIdentifier (st : TpState) (nameToken : Token) (t : Ty) : TpState × Option String :=
  let name : String := nameToken.identValue
  if containsStr (innermostIdentifiers st.scope_wrapper) name then
    (st, some ("identifier \x27" ++ name ++ "\x27 already exists!"))
  else
    ({ st with scope_wrapper := scopeAddIdentifier st.scope_wrapper name t }, none)

/-- `TypingPass.get_identifier_type`: look the identifier up through the
scope chain or raise "unknown identifier". -/
def tpGetIdentifierType (st : TpState) (nameToken : Token) : Except String Ty :=
  match lookupIdentifier st.scope_wrapper nameToken.identValue with
  | some t => Except.ok t
  | none => Except.error ("unknown identifier \x27" ++ nameToken.identValue ++ "\x27!")

/-- `TypingPass._check_types` (`typing_pass.py` lines 545-567): two numeric
types where at least one side is `base` combine to the concrete side; apart
from that the keywords must match exactly. -/
def tpCheckTypes (left right : Ty) : Except String Ty :=
  if left.isNumeric && right.isNumeric then
    if left.keyword = "base" && right.keyword = "base" then Except.ok left
    else if left.keyword = "base" then Except.ok right
    else if right.keyword = "base" then Except.ok left
    else if left.keyword = right.keyword then Except.ok left
    else Except.error ("invalid types provided, \x27" ++ left.keyword ++ "\x27 and \x27" ++
      right.keyword ++ "\x27 can\x27t be used together!")
  else if left.keyword = right.keyword then Except.ok left
  else Except.error ("invalid types provided, \x27" ++ left.keyword ++ "\x27 and \x27" ++
    right.keyword ++ "\x27 can\x27t be used together!")

/-- `TypingPass._check_number_token` (`typing_pass.py` lines 574-603):
range-check a number token against a requested numeric type.  The enclosing
pass never calls it (a TODO in `_check_types` says it should); it is
embedded because the out-of-range claim is about it. -/
def tpCheckNumberToken (requested : Ty) (value : Int) : Except String Ty :=
  match requested.numericTypeType with
  | NumericTypeType.FLOATING_POINT => Except.ok requested
  | ntt =>
      let maxValue : Int :=
        match ntt with
        | NumericTypeType.SIGNED => 2 ^ (requested.num_bits - 1) - 1
        | _ => 2 ^ requested.num_bits - 1
      let minValue : Int :=
        match ntt with
        | NumericTypeType.SIGNED => -maxValue - 1
        | _ => 0
      if value < minValue || value > maxValue then
        Except.error ("can\x27t assign \x27" ++ toString value ++ "\x27 to \x27" ++
          requested.keyword ++ "\x27, value must be between [" ++ toString minValue ++ ", " ++
          toString maxValue ++ "]!")
      else
        Except.ok requested

/-- The enum name of a unary expression kind (Python `expression_type.name`,
interpolated into the non-numeric-operand error message). -/
def ExpressionType.name : ExpressionType → String
  | ExpressionType.GROUPING => "GROUPING"
  | ExpressionType.NOT => "NOT"
  | ExpressionType.MINUS => "MINUS"
  | ExpressionType.PRE_INCREMENT => "PRE_INCREMENT"
  | ExpressionType.PRE_DECREMENT => "PRE_DECREMENT"
  | ExpressionType.POST_INCREMENT => "POST_INCREMENT"
  | ExpressionType.POST_DECREMENT => "POST_DECREMENT"

/-- Set the `is_reference` flag on the type carried by a `TYPE` token
(`type_token.type_.is_reference = True`). -/
def Token.setReference (t : Token) : Token :=
  match t.data with
  | TokenData.typeData ty => { t with data := TokenData.typeData { ty with is_reference := true } }
  | _ => t

/-- Add the arguments of a function statement to the innermost scope,
setting each argument type's `is_reference` flag first (the argument loop of
the `FunctionStatement` case, `typing_pass.py` lines 275-279); returns the
rewritten argument list.  On a duplicate-identifier exception the remaining
arguments keep their flags untouched, as in the source. -/
def tpAddFunctionArgs (st : TpState) :
    List (Token × Token) → TpState × List (Token × Token) × Option String
  | [] => (st, [], none)
  | (type_token, identifier_token) :: rest =>
      -- set the type to be a reference
      let type_token' := type_token.setReference
      -- add the argument to the scope
      match tpAddIdentifier st identifier_token type_token'.ty with
      | (st1, some e) => (st1, (type_token', identifier_token) :: rest, some e)
      | (st1, none) =>
          let (st2, rest', err) := tpAddFunctionArgs st1 rest
          (st2, (type_token', identifier_token) :: rest', err)

/-- Add the arguments of a lifecycle statement to the innermost scope (the
argument loop of the `LifecycleStatement` case, `typing_pass.py` lines
313-314: no `is_reference` flag is set here). -/
def tpAddLifecycleArgs (st : TpState) : List (Token × Token) → TpState × Option String
  | [] => (st, none)
  | (type_token, identifier_token) :: rest =>
      match tpAddIdentifier st identifier_token type_token.ty with
      | (st1, some e) => (st1, some e)
      | (st1, none) => tpAddLifecycleArgs st1 rest

/-- The dummy source location used by `add_stdlib_functions`. -/
def dummyLocation : SourceLocation := ⟨0, 0⟩

/-- `TypingPass.add_stdlib_functions` (`typing_pass.py` lines 178-215): adds
`bool read_file(string filename, list[char] list)` and
`bool write_file(string filename, list[char] list)` to the current scope. -/
def tpAddStdlibFunctions (st : TpState) : TpState × Option String :=
  let bool_type : Ty := st.getType "bool"
  let bool_type_token : Token := ⟨dummyLocation, TokenType.TYPE, TokenData.typeData bool_type⟩
  let string_type : Ty := st.getType "string"
  let string_type_token : Token := ⟨dummyLocation, TokenType.TYPE, TokenData.typeData string_type⟩
  let filename_identifier : Token := ⟨dummyLocation, TokenType.IDENTIFIER, TokenData.identifier "filename"⟩
  let list_char_type : Ty := st.getType "list[char]"
  let list_char_type_token : Token := ⟨dummyLocation, TokenType.TYPE, TokenData.typeData list_char_type⟩
  let list_identifier : Token := ⟨dummyLocation, TokenType.IDENTIFIER, TokenData.identifier "list"⟩
  let read_file_identifier : Token := ⟨dummyLocation, TokenType.IDENTIFIER, TokenData.identifier "read_file"⟩
  let read_file_function : Stmt := Stmt.functionStmt dummyLocation bool_type_token read_file_identifier
    none [(string_type_token, filename_identifier), (list_char_type_token, list_identifier)] []
  match tpAddIdentifier st read_file_identifier bool_type with
  | (st1, some e) => (st1, some e)
  | (st1, none) =>
      let st2 := { st1 with scope_wrapper := scopeAddFunction st1.scope_wrapper "read_file" read_file_function }
      let write_file_identifier : Token := ⟨dummyLocation, TokenType.IDENTIFIER, TokenData.identifier "write_file"⟩
      let write_file_function : Stmt := Stmt.functionStmt dummyLocation bool_type_token write_file_identifier
        none [(string_type_token, filename_identifier), (list_char_type_token, list_identifier)] []
      match tpAddIdentifier st2 write_file_identifier bool_type with
      | (st3, some e) => (st3, some e)
      | (st3, none) =>
          ({ st3 with scope_wrapper := scopeAddFunction st3.scope_wrapper "write_file" write_file_function }, none)

/-- The requests of the typing traversal. -/
inductive TpReq where
  | pstmt (s : Option Stmt)
  | stmtCore (s : Stmt)
  | stmts (l : List Stmt)
  | expr (e : Expr)
  | exprOpt (e : Option Expr)
  | exprList (l : List Expr)
  | checkFunction (function : Stmt) (callTok : Token) (args : List Expr)
  | checkArgs (fname : Token) (params : List (Token × Token)) (args : List Expr) (argIndex : Nat)
  | elifBlocks (l : List (Expr × List Stmt))
  | strElems (l : List (Token ⊕ Expr))

/-- The results of the typing traversal: the rewritten node(s). -/
inductive TpRes where
  | unit
  | stmt (s : Stmt)
  | stmtOpt (s : Option Stmt)
  | stmts (l : List Stmt)
  | expr (e : Expr)
  | exprOpt (e : Option Expr)
  | exprs (l : List Expr)
  | elifs (l : List (Expr × List Stmt))
  | strs (l : List (Token ⊕ Expr))

/-- Project a statement result. -/
def TpRes.getStmt : TpRes → Stmt
  | TpRes.stmt s => s
  | _ => default

/-- Project a statement-list result. -/
def TpRes.getStmts : TpRes → List Stmt
  | TpRes.stmts l => l
  | _ => []

/-- Project an expression result. -/
def TpRes.getExpr : TpRes → Expr
  | TpRes.expr e => e
  | _ => default

/-- Project an expression-list result. -/
def TpRes.getExprs : TpRes → List Expr
  | TpRes.exprs l => l
  | _ => []

/-- Project an else-if-blocks result. -/
def TpRes.getElifs : TpRes → List (Expr × List Stmt)
  | TpRes.elifs l => l
  | _ => []

/-- Project a string-elements result. -/
def TpRes.getStrs : TpRes → List (Token ⊕ Expr)
  | TpRes.strs l => l
  | _ => []

/-- Additional result projections. -/
def TpRes.getStmtOpt : TpRes → Option Stmt
  | TpRes.stmtOpt s => s
  | _ => none

/-- Project an optional expression result. -/
def TpRes.getExprOpt : TpRes → Option Expr
  | TpRes.exprOpt e => e
  | _ => none

/-- The declared return type of a function statement. -/
def Stmt.functionReturnTy : Stmt → Ty
  | Stmt.functionStmt _ return_type _ _ _ _ => return_type.ty
  | _ => Ty.unknown

/-- Dictionary assignment `d[k] = v` on an association list. -/
def updateStr {α : Type} : List (String × α) → String → α → List (String × α)
  | [], k, v => [(k, v)]
  | (k', v') :: rest, k, v =>
      if k' = k then (k, v) :: rest else (k', v') :: updateStr rest k v

/-- The typing traversal (`TypingPass._parse_statement`,
`TypingPass.parse_expression` and `TypingPass._check_function` of
`ast_checks/typing_pass.py`, plus the statement loop of `TypingPass.run`,
fused into one fuel-bounded function).  Results carry the rewritten nodes;
the last component is the exception propagating out of the non-catching
entries (`parse_expression` raises towards the enclosing statement; only
`parse_statement` catches, appending to the error list).  The source stores
each class's clean scope wrapper in `class_scopes` when entering the class
body and mutates it in place while the body is processed; the embedding
stores the resulting scope when leaving the body, which yields the same
table for every later lookup. -/
def tpGo : Nat → TpState → TpReq → TpState × TpRes × Option String
  | 0, st, _ =>
      ({ st with errors := st.errors ++ ["internal compiler error, recursion fuel exhausted!"] },
       TpRes.unit, none)
  | fuel + 1, st, req =>
      match req with
      | TpReq.pstmt s =>
          -- `parse_statement`: None is skipped, exceptions are collected
          (match s with
           | none => (st, TpRes.stmtOpt none, none)
           | some s' =>
               match tpGo fuel st (TpReq.stmtCore s') with
               | (st1, r, none) => (st1, TpRes.stmtOpt (some r.getStmt), none)
               | (st1, r, some e) =>
                   ({ st1 with errors := st1.errors ++ [e] }, TpRes.stmtOpt (some r.getStmt), none))
      | TpReq.stmts l =>
          (match l with
           | [] => (st, TpRes.stmts [], none)
           | s :: rest =>
               match tpGo fuel st (TpReq.pstmt (some s)) with
               | (st1, r1, _) =>
                   match tpGo fuel st1 (TpReq.stmts rest) with
                   | (st2, r2, _) =>
                       (st2, TpRes.stmts ((r1.getStmtOpt.getD s) :: r2.getStmts), none))
      | TpReq.expr e =>
          (match e with
           | Expr.binary loc tk left right ty =>
               (match tpGo fuel st (TpReq.expr left) with
                | (st1, rl, some er) => (st1, TpRes.expr (Expr.binary loc tk rl.getExpr right ty), some er)
                | (st1, rl, none) =>
                    match tpGo fuel st1 (TpReq.expr right) with
                    | (st2, rr, some er) =>
                        (st2, TpRes.expr (Expr.binary loc tk rl.getExpr rr.getExpr ty), some er)
                    | (st2, rr, none) =>
                        -- the expression's type combines both sides (`_check_expression_types`)
                        match tpCheckTypes (getExpressionType fuel rl.getExpr)
                            (getExpressionType fuel rr.getExpr) with
                        | Except.error er =>
                            (st2, TpRes.expr (Expr.binary loc tk rl.getExpr rr.getExpr ty), some er)
                        | Except.ok t =>
                            (st2, TpRes.expr (Expr.binary loc tk rl.getExpr rr.getExpr t), none))
           | Expr.call loc callee class_type0 arguments call_consumed ty =>
               (match callee with
                | Expr.identifierExpr iloc identifier_token inner ict ilt _ =>
                    (match inner with
                     | some _ =>
                         -- the source asserts the callee has no inner expression
                         (st, TpRes.expr e, some "internal compiler error, callee has an inner expression!")
                     | none =>
                         match st.identifier_stack with
                         | type_ :: _ =>
                             if type_.isList then
                               -- check the arguments (no count or type checking for
                               -- list functions: TODO in the source)
                               match tpGo fuel st (TpReq.exprList arguments) with
                               | (st1, ra, some er) =>
                                   (st1, TpRes.expr (Expr.call loc callee class_type0 ra.getExprs
                                     call_consumed ty), some er)
                               | (st1, ra, none) =>
                                   match lookupStr type_.callable_functions identifier_token.identValue with
                                   | some retKw =>
                                       let rvt := st1.getType retKw
                                       (st1, TpRes.expr (Expr.call loc
                                         (Expr.identifierExpr iloc identifier_token none ict ilt rvt)
                                         class_type0 ra.getExprs call_consumed rvt), none)
                                   | none =>
                                       (st1, TpRes.expr (Expr.call loc callee class_type0 ra.getExprs
                                         call_consumed ty),
                                        some ("identifier \x27" ++ identifier_token.str ++
                                          "\x27 of a \x27" ++ type_.keyword ++ "\x27 is not callable!"))
                             else if type_.isClass then
                               -- add the identifier stack class type to the expression
                               let class_type1 : Option Ty := some type_
                               match lookupStr st.class_scopes type_.keyword with
                               | none =>
                                   (st, TpRes.expr (Expr.call loc callee class_type1 arguments
                                     call_consumed ty),
                                    some "internal compiler error, unknown class scope!")
                               | some cscope =>
                                   match lookupFunction cscope identifier_token.identValue with
                                   | some function =>
                                       (match tpGo fuel st (TpReq.checkFunction function
                                           identifier_token arguments) with
                                        | (st1, ra, some er) =>
                                            (st1, TpRes.expr (Expr.call loc callee class_type1
                                              ra.getExprs call_consumed ty), some er)
                                        | (st1, ra, none) =>
                                            let rvt := function.functionReturnTy
                                            (st1, TpRes.expr (Expr.call loc
                                              (Expr.identifierExpr iloc identifier_token none ict ilt rvt)
                                              class_type1 ra.getExprs call_consumed rvt), none))
                                   | none =>
                                       (st, TpRes.expr (Expr.call loc callee class_type1 arguments
                                         call_consumed ty),
                                        some ("identifier \x27" ++ identifier_token.str ++
                                          "\x27 of a \x27" ++ type_.keyword ++ "\x27 is not callable!"))
                             else
                               (st, TpRes.expr e,
                                some ("identifier \x27" ++ identifier_token.str ++ "\x27 of a \x27" ++
                                  type_.keyword ++ "\x27 is not callable!"))
                         | [] =>
                             match lookupFunction st.scope_wrapper identifier_token.identValue with
                             | some function =>
                                 (match tpGo fuel st (TpReq.checkFunction function identifier_token
                                     arguments) with
                                  | (st1, ra, some er) =>
                                      (st1, TpRes.expr (Expr.call loc callee class_type0 ra.getExprs
                                        call_consumed ty), some er)
                                  | (st1, ra, none) =>
                                      -- set the return type of the function as expression type
                                      match tpGetIdentifierType st1 identifier_token with
                                      | Except.error er =>
                                          (st1, TpRes.expr (Expr.call loc callee class_type0
                                            ra.getExprs call_consumed ty), some er)
                                      | Except.ok t =>
                                          (st1, TpRes.expr (Expr.call loc
                                            (Expr.identifierExpr iloc identifier_token none ict ilt t)
                                            class_type0 ra.getExprs call_consumed t), none))
                             | none =>
                                 (st, TpRes.expr e,
                                  some ("identifier \x27" ++ identifier_token.str ++
                                    "\x27 is not callable!")))
                | _ => (st, TpRes.expr e, some "internal compiler error, non-identifier callee!"))
           | Expr.identifierExpr loc identifier_token inner class_type list_type ty =>
               -- `with self.new_scope():` around the whole case (as in the source)
               let st1 := { st with scope_wrapper := addScope st.scope_wrapper }
               (match tpGetIdentifierType st1 identifier_token with
                | Except.error er =>
                    ({ st1 with scope_wrapper := removeScope st1.scope_wrapper }, TpRes.expr e, some er)
                | Except.ok type_ =>
                    let class_type' := if type_.isClass then some type_ else class_type
                    let list_type' := if type_.isList then some type_ else list_type
                    let st2 := { st1 with identifier_stack := type_ :: st1.identifier_stack }
                    match inner with
                    | some innerE =>
                        (match tpGo fuel st2 (TpReq.expr innerE) with
                         | (st3, ri, some er) =>
                             ({ st3 with identifier_stack := st3.identifier_stack.tail,
                                         scope_wrapper := removeScope st3.scope_wrapper },
                              TpRes.expr (Expr.identifierExpr loc identifier_token (some ri.getExpr)
                                class_type' list_type' ty), some er)
                         | (st3, ri, none) =>
                             -- the outer expression's own type is the outer identifier's type
                             ({ st3 with identifier_stack := st3.identifier_stack.tail,
                                         scope_wrapper := removeScope st3.scope_wrapper },
                              TpRes.expr (Expr.identifierExpr loc identifier_token (some ri.getExpr)
                                class_type' list_type' type_), none))
                    | none =>
                        let st3 := { st2 with identifier_stack := st2.identifier_stack.tail,
                                              scope_wrapper := removeScope st2.scope_wrapper }
                        match tpGetIdentifierType st3 identifier_token with
                        | Except.error er =>
                            (st3, TpRes.expr (Expr.identifierExpr loc identifier_token none
                              class_type' list_type' ty), some er)
                        | Except.ok t2 =>
                            (st3, TpRes.expr (Expr.identifierExpr loc identifier_token none
                              class_type' list_type' t2), none))
           | Expr.stringEqual loc inner tk f ty =>
               (match tpGo fuel st (TpReq.expr inner) with
                | (st1, ri, some er) => (st1, TpRes.expr (Expr.stringEqual loc ri.getExpr tk f ty), some er)
                | (st1, ri, none) =>
                    (st1, TpRes.expr (Expr.stringEqual loc ri.getExpr tk f ri.getExpr.type_), none))
           | Expr.stringExpr loc string_elements line_end ty =>
               (match tpGo fuel st (TpReq.strElems string_elements) with
                | (st1, rs, some er) =>
                    (st1, TpRes.expr (Expr.stringExpr loc rs.getStrs line_end ty), some er)
                | (st1, rs, none) =>
                    (st1, TpRes.expr (Expr.stringExpr loc rs.getStrs line_end (st1.getType "string")), none))
           | Expr.thisExpr loc inner ty =>
               (match tpGo fuel st (TpReq.expr inner) with
                | (st1, ri, some er) => (st1, TpRes.expr (Expr.thisExpr loc ri.getExpr ty), some er)
                | (st1, ri, none) =>
                    (st1, TpRes.expr (Expr.thisExpr loc ri.getExpr ri.getExpr.type_), none))
           | Expr.tokenExpr loc token ty =>
               (match token.data with
                | TokenData.character _ => (st, TpRes.expr (Expr.tokenExpr loc token (st.getType "char")), none)
                | TokenData.number _ =>
                    -- no checking happens here so we are going to return a base type
                    (st, TpRes.expr (Expr.tokenExpr loc token (st.getType "base")), none)
                | TokenData.stringChars _ =>
                    (st, TpRes.expr (Expr.tokenExpr loc token (st.getType "string")), none)
                | TokenData.identifier _ =>
                    (match tpGetIdentifierType st token with
                     | Except.error er => (st, TpRes.expr e, some er)
                     | Except.ok t => (st, TpRes.expr (Expr.tokenExpr loc token t), none))
                | _ =>
                    match token.token_type with
                    | TokenType.TRUE => (st, TpRes.expr (Expr.tokenExpr loc token (st.getType "base")), none)
                    | TokenType.FALSE => (st, TpRes.expr (Expr.tokenExpr loc token (st.getType "base")), none)
                    | TokenType.NULL => (st, TpRes.expr (Expr.tokenExpr loc token (st.getType "base")), none)
                    | _ => (st, TpRes.expr e, some "internal compiler error, token not handled!"))
           | Expr.typeCast loc cast_to expression ty =>
               (match tpGo fuel st (TpReq.expr expression) with
                | (st1, ri, some er) =>
                    (st1, TpRes.expr (Expr.typeCast loc cast_to ri.getExpr ty), some er)
                | (st1, ri, none) =>
                    let inner_type := getExpressionType fuel ri.getExpr
                    let cast_to_type := cast_to.ty
                    let inner_type_castable := inner_type.isCharacter || inner_type.isNumeric
                    let cast_to_type_castable := cast_to_type.isCharacter || cast_to_type.isNumeric
                    if inner_type_castable && cast_to_type_castable then
                      (st1, TpRes.expr (Expr.typeCast loc cast_to ri.getExpr cast_to_type), none)
                    else
                      (st1, TpRes.expr (Expr.typeCast loc cast_to ri.getExpr ty),
                       some ("cannot type cast from \x27" ++ inner_type.keyword ++ "\x27 to \x27" ++
                         cast_to_type.keyword ++ "\x27!")))
           | Expr.unary loc expression_type expression ty =>
               (match tpGo fuel st (TpReq.expr expression) with
                | (st1, ri, some er) =>
                    (st1, TpRes.expr (Expr.unary loc expression_type ri.getExpr ty), some er)
                | (st1, ri, none) =>
                    let inner_type := getExpressionType fuel ri.getExpr
                    if expression_type = ExpressionType.GROUPING then
                      (st1, TpRes.expr (Expr.unary loc expression_type ri.getExpr inner_type), none)
                    else if inner_type.isNumeric then
                      (st1, TpRes.expr (Expr.unary loc expression_type ri.getExpr inner_type), none)
                    else
                      (st1, TpRes.expr (Expr.unary loc expression_type ri.getExpr ty),
                       some ("expected numeric type for unary expression \x27" ++
                         expression_type.name ++ "\x27, found \x27" ++ inner_type.keyword ++ "\x27!"))))
      | TpReq.exprOpt e =>
          (match e with
           | none => (st, TpRes.exprOpt none, none)
           | some e' =>
               match tpGo fuel st (TpReq.expr e') with
               | (st1, re, err) => (st1, TpRes.exprOpt (some re.getExpr), err))
      | TpReq.exprList l =>
          (match l with
           | [] => (st, TpRes.exprs [], none)
           | e :: rest =>
               match tpGo fuel st (TpReq.expr e) with
               | (st1, re, some er) => (st1, TpRes.exprs (re.getExpr :: rest), some er)
               | (st1, re, none) =>
                   match tpGo fuel st1 (TpReq.exprList rest) with
                   | (st2, rr, err) => (st2, TpRes.exprs (re.getExpr :: rr.getExprs), err))
      | TpReq.checkFunction function callTok args =>
          -- `TypingPass._check_function`: the amount of arguments must match,
          -- then every argument is parsed and checked against its parameter
          (match function with
           | Stmt.functionStmt _ _ _ _ params _ =>
               if params.length ≠ args.length then
                 (st, TpRes.exprs args,
                  some ("\x27" ++ callTok.str ++ "\x27 expected " ++ toString params.length ++
                    " argument(s), but " ++ toString args.length ++ " were passed!"))
               else
                 tpGo fuel st (TpReq.checkArgs callTok params args 0)
           | _ => (st, TpRes.exprs args, some "internal compiler error, non-function in function table!"))
      | TpReq.checkArgs fname params args argIndex =>
          (match params, args with
           | [], [] => (st, TpRes.exprs [], none)
           | (ptok, _) :: prest, a :: arest =>
               (match tpGo fuel st (TpReq.expr a) with
                | (st1, ra, some er) => (st1, TpRes.exprs (ra.getExpr :: arest), some er)
                | (st1, ra, none) =>
                    let a' := ra.getExpr
                    let required_argument_type := ptok.ty
                    match tpCheckTypes required_argument_type (getExpressionType fuel a') with
                    | Except.ok _ =>
                        (match tpGo fuel st1 (TpReq.checkArgs fname prest arest (argIndex + 1)) with
                         | (st2, rr, err) => (st2, TpRes.exprs (a' :: rr.getExprs), err))
                    | Except.error _ =>
                        (st1, TpRes.exprs (a' :: arest),
                         some ("expected \x27argument " ++ toString (argIndex + 1) ++
                           "\x27 of type \x27" ++ required_argument_type.keyword ++
                           "\x27, but found \x27" ++ a'.type_.keyword ++ "\x27!")))
           | _, _ => (st, TpRes.exprs args, some "internal compiler error, argument count mismatch!"))
      | TpReq.elifBlocks l =>
          (match l with
           | [] => (st, TpRes.elifs [], none)
           | (cond, body) :: rest =>
               let st1 := { st with scope_wrapper := addScope st.scope_wrapper }
               match tpGo fuel st1 (TpReq.expr cond) with
               | (st2, rc, some er) =>
                   ({ st2 with scope_wrapper := removeScope st2.scope_wrapper },
                    TpRes.elifs ((rc.getExpr, body) :: rest), some er)
               | (st2, rc, none) =>
                   match tpGo fuel st2 (TpReq.stmts body) with
                   | (st3, rb, _) =>
                       let st4 := { st3 with scope_wrapper := removeScope st3.scope_wrapper }
                       match tpGo fuel st4 (TpReq.elifBlocks rest) with
                       | (st5, rr, err) =>
                           (st5, TpRes.elifs ((rc.getExpr, rb.getStmts) :: rr.getElifs), err))
      | TpReq.strElems l =>
          (match l with
           | [] => (st, TpRes.strs [], none)
           | Sum.inl t :: rest =>
               (match tpGo fuel st (TpReq.strElems rest) with
                | (st1, rr, err) => (st1, TpRes.strs (Sum.inl t :: rr.getStrs), err))
           | Sum.inr e :: rest =>
               (match tpGo fuel st (TpReq.expr e) with
                | (st1, re, some er) => (st1, TpRes.strs (Sum.inr re.getExpr :: rest), some er)
                | (st1, re, none) =>
                    match tpGo fuel st1 (TpReq.strElems rest) with
                    | (st2, rr, err) => (st2, TpRes.strs (Sum.inr re.getExpr :: rr.getStrs), err)))
      | TpReq.stmtCore s =>
          (match s with
           | Stmt.assignment loc expression tk value =>
               (match tpGo fuel st (TpReq.expr expression) with
                | (st1, r1, some er) =>
                    (st1, TpRes.stmt (Stmt.assignment loc r1.getExpr tk value), some er)
                | (st1, r1, none) =>
                    match tpGo fuel st1 (TpReq.expr value) with
                    | (st2, r2, some er) =>
                        (st2, TpRes.stmt (Stmt.assignment loc r1.getExpr tk r2.getExpr), some er)
                    | (st2, r2, none) =>
                        match tpCheckTypes (getExpressionType fuel r1.getExpr)
                            (getExpressionType fuel r2.getExpr) with
                        | Except.error er =>
                            (st2, TpRes.stmt (Stmt.assignment loc r1.getExpr tk r2.getExpr), some er)
                        | Except.ok _ =>
                            (st2, TpRes.stmt (Stmt.assignment loc r1.getExpr tk r2.getExpr), none))
           | Stmt.breakStmt _ => (st, TpRes.stmt s, none)
           | Stmt.breakall _ _ => (st, TpRes.stmt s, none)
           | Stmt.classStmt loc class_type variables_ functions ctor dtor =>
               (match st.scope_wrapper_stash with
                | some _ =>
                    (st, TpRes.stmt s, some "internal compiler error, clean scope already active!")
                | none =>
                    -- `_clean_scope`: stash the scope, work in a fresh one
                    let st1 := { st with scope_wrapper_stash := some st.scope_wrapper,
                                         scope_wrapper := scopeWrapperInit }
                    match tpAddStdlibFunctions st1 with
                    | (st2, some er) =>
                        let st3 := { st2 with
                          scope_wrapper := st2.scope_wrapper_stash.getD scopeWrapperInit,
                          scope_wrapper_stash := none,
                          class_scopes := updateStr st2.class_scopes class_type.keyword
                            st2.scope_wrapper }
                        (st3, TpRes.stmt s, some er)
                    | (st2, none) =>
                        match tpGo fuel st2 (TpReq.stmts variables_) with
                        | (st3, rv, _) =>
                            match tpGo fuel st3 (TpReq.pstmt ctor) with
                            | (st4, rc, _) =>
                                match tpGo fuel st4 (TpReq.pstmt dtor) with
                                | (st5, rd, _) =>
                                    match tpGo fuel st5 (TpReq.stmts functions) with
                                    | (st6, rf, _) =>
                                        let st7 := { st6 with
                                          scope_wrapper :=
                                            st6.scope_wrapper_stash.getD scopeWrapperInit,
                                          scope_wrapper_stash := none,
                                          class_scopes := updateStr st6.class_scopes
                                            class_type.keyword st6.scope_wrapper }
                                        (st7, TpRes.stmt (Stmt.classStmt loc class_type rv.getStmts
                                          rf.getStmts (if ctor.isSome then rc.getStmtOpt else none)
                                          (if dtor.isSome then rd.getStmtOpt else none)), none))
           | Stmt.continueStmt _ => (st, TpRes.stmt s, none)
           | Stmt.exprStmt loc expression =>
               (match tpGo fuel st (TpReq.expr expression) with
                | (st1, r1, err) => (st1, TpRes.stmt (Stmt.exprStmt loc r1.getExpr), err))
           | Stmt.forLoop loc tok lbl init check loop statements =>
               -- a new scope for the for loop definition and body statements
               let st1 := { st with scope_wrapper := addScope st.scope_wrapper }
               (match tpGo fuel st1 (TpReq.pstmt init) with
                | (st2, r1, _) =>
                    match tpGo fuel st2 (TpReq.exprOpt check) with
                    | (st3, rc, some er) =>
                        ({ st3 with scope_wrapper := removeScope st3.scope_wrapper },
                         TpRes.stmt (Stmt.forLoop loc tok lbl (r1.getStmtOpt.orElse fun _ => init)
                           rc.getExprOpt loop statements), some er)
                    | (st3, rc, none) =>
                        match tpGo fuel st3 (TpReq.pstmt loop) with
                        | (st4, r2, _) =>
                            match tpGo fuel st4 (TpReq.stmts statements) with
                            | (st5, r3, _) =>
                                ({ st5 with scope_wrapper := removeScope st5.scope_wrapper },
                                 TpRes.stmt (Stmt.forLoop loc tok lbl
                                   (if init.isSome then r1.getStmtOpt else none)
                                   rc.getExprOpt
                                   (if loop.isSome then r2.getStmtOpt else none)
                                   r3.getStmts), none))
           | Stmt.functionStmt loc return_type name class_type arguments statements =>
               -- add the function name and the function itself to the scope
               (match tpAddIdentifier st name return_type.ty with
                | (st1, some er) => (st1, TpRes.stmt s, some er)
                | (st1, none) =>
                    let st2 :=
                      { st1 with scope_wrapper := scopeAddFunction st1.scope_wrapper name.identValue s }
                    -- new scope; push the return type on the function stack
                    let st3 := { st2 with scope_wrapper := addScope st2.scope_wrapper,
                                          function_stack := return_type.ty :: st2.function_stack }
                    match tpAddFunctionArgs st3 arguments with
                    | (st4, args', some er) =>
                        ({ st4 with scope_wrapper := removeScope st4.scope_wrapper,
                                    function_stack := st4.function_stack.tail },
                         TpRes.stmt (Stmt.functionStmt loc return_type name class_type args'
                           statements), some er)
                    | (st4, args', none) =>
                        match tpGo fuel st4 (TpReq.stmts statements) with
                        | (st5, rb, _) =>
                            ({ st5 with scope_wrapper := removeScope st5.scope_wrapper,
                                        function_stack := st5.function_stack.tail },
                             TpRes.stmt (Stmt.functionStmt loc return_type name class_type args'
                               rb.getStmts), none))
           | Stmt.ifStmt loc expression statements elifs elses =>
               let st1 := { st with scope_wrapper := addScope st.scope_wrapper }
               (match tpGo fuel st1 (TpReq.expr expression) with
                | (st2, re, some er) =>
                    ({ st2 with scope_wrapper := removeScope st2.scope_wrapper },
                     TpRes.stmt (Stmt.ifStmt loc re.getExpr statements elifs elses), some er)
                | (st2, re, none) =>
                    match tpGo fuel st2 (TpReq.stmts statements) with
                    | (st3, rb, _) =>
                        let st4 := { st3 with scope_wrapper := removeScope st3.scope_wrapper }
                        match tpGo fuel st4 (TpReq.elifBlocks elifs) with
                        | (st5, relif, some er) =>
                            (st5, TpRes.stmt (Stmt.ifStmt loc re.getExpr rb.getStmts
                              relif.getElifs elses), some er)
                        | (st5, relif, none) =>
                            match elses with
                            | none =>
                                (st5, TpRes.stmt (Stmt.ifStmt loc re.getExpr rb.getStmts
                                  relif.getElifs none), none)
                            | some body =>
                                let st6 := { st5 with scope_wrapper := addScope st5.scope_wrapper }
                                match tpGo fuel st6 (TpReq.stmts body) with
                                | (st7, rel, _) =>
                                    ({ st7 with scope_wrapper := removeScope st7.scope_wrapper },
                                     TpRes.stmt (Stmt.ifStmt loc re.getExpr rb.getStmts
                                       relif.getElifs (some rel.getStmts)), none))
           | Stmt.lifecycle loc statement_type type_ arguments statements =>
               -- new scope; the return type (void) on the function stack;
               -- the arguments are added without setting any reference flag
               let st1 := { st with scope_wrapper := addScope st.scope_wrapper,
                                    function_stack := (st.getType "void") :: st.function_stack }
               (match tpAddLifecycleArgs st1 arguments with
                | (st2, some er) =>
                    ({ st2 with scope_wrapper := removeScope st2.scope_wrapper,
                                function_stack := st2.function_stack.tail }, TpRes.stmt s, some er)
                | (st2, none) =>
                    match tpGo fuel st2 (TpReq.stmts statements) with
                    | (st3, rb, _) =>
                        ({ st3 with scope_wrapper := removeScope st3.scope_wrapper,
                                    function_stack := st3.function_stack.tail },
                         TpRes.stmt (Stmt.lifecycle loc statement_type type_ arguments
                           rb.getStmts), none))
           | Stmt.listStmt _ list_type name =>
               (match tpAddIdentifier st name list_type with
                | (st1, err) => (st1, TpRes.stmt s, err))
           | Stmt.printStmt loc line_end value =>
               (match tpGo fuel st (TpReq.expr value) with
                | (st1, r1, err) => (st1, TpRes.stmt (Stmt.printStmt loc line_end r1.getExpr), err))
           | Stmt.returnStmt loc value =>
               (match st.function_stack with
                | [] => (st, TpRes.stmt s, some "internal compiler error, empty function stack!")
                | function_return_type :: _ =>
                    let non_void := function_return_type.non_void
                    if non_void && value.isNone then
                      (st, TpRes.stmt s, some "non-void function expects a return value!")
                    else if !non_void && value.isSome then
                      -- the source message interpolates the expression's text
                      (st, TpRes.stmt s, some "void function expects no return value!")
                    else
                      match value with
                      | none => (st, TpRes.stmt s, none)
                      | some v =>
                          match tpGo fuel st (TpReq.expr v) with
                          | (st1, rv, some er) =>
                              (st1, TpRes.stmt (Stmt.returnStmt loc (some rv.getExpr)), some er)
                          | (st1, rv, none) =>
                              let return_value_type := getExpressionType fuel rv.getExpr
                              match tpCheckTypes function_return_type return_value_type with
                              | Except.ok _ =>
                                  (st1, TpRes.stmt (Stmt.returnStmt loc (some rv.getExpr)), none)
                              | Except.error _ =>
                                  (st1, TpRes.stmt (Stmt.returnStmt loc (some rv.getExpr)),
                                   some ("expected return value of type \x27" ++
                                     function_return_type.keyword ++ "\x27, but found \x27" ++
                                     return_value_type.keyword ++ "\x27!")))
           | Stmt.varDecl loc type_token name initial_value =>
               -- add the variable to the scope first (it may already be needed
               -- when checking the initial value)
               (match tpAddIdentifier st name type_token.ty with
                | (st1, some er) => (st1, TpRes.stmt s, some er)
                | (st1, none) =>
                    match initial_value with
                    | none => (st1, TpRes.stmt s, none)
                    | some iv =>
                        match tpGetIdentifierType st1 name with
                        | Except.error er => (st1, TpRes.stmt s, some er)
                        | Except.ok requested_type =>
                            match tpGo fuel st1 (TpReq.expr iv) with
                            | (st2, ri, some er) =>
                                (st2, TpRes.stmt (Stmt.varDecl loc type_token name
                                  (some ri.getExpr)), some er)
                            | (st2, ri, none) =>
                                match tpCheckTypes requested_type
                                    (getExpressionType fuel ri.getExpr) with
                                | Except.ok _ =>
                                    (st2, TpRes.stmt (Stmt.varDecl loc type_token name
                                      (some ri.getExpr)), none)
                                | Except.error er =>
                                    (st2, TpRes.stmt (Stmt.varDecl loc type_token name
                                      (some ri.getExpr)), some er)))

/-- The initial typing state over a registry table: fresh scope machinery
with the standard library injected (`TypingPass.__init__`). -/
def tpInit (types : List (String × Ty)) : TpState :=
  (tpAddStdlibFunctions ⟨scopeWrapperInit, none, [], types, [], [], []⟩).1

/-- Run the typing pass over the program (the statement loop of
`TypingPass.run`), returning the final state and the rewritten program. -/
def tpRun (fuel : Nat) (types : List (String × Ty)) (statements : List Stmt) :
    TpState × List Stmt :=
  match tpGo fuel (tpInit types) (TpReq.stmts statements) with
  | (st, r, _) => (st, r.getStmts)

/-!
The AST builder (`ast_generator.py`).

The parser state mirrors the generator's instance variables; the token
buffer and the source text (standing in for the filename, see
`Expr.stringEqual`) are fixed inputs.  `ast_error` raises; `generate`
catches per statement and recovers at the next newline.  An out-of-range
token access (an `IndexError` crash in Python, only reachable on token
streams that do not end in `EOF`) is modelled as an error as well.
-/

/-- The mutable state of `AstGenerator`. -/
structure PState where
  current_index : Nat
  in_function : Bool
  loop_count : Nat
  breakall_label : String
  class_type : Option Ty

/-- The initial parser state (`AstGenerator.__init__`). -/
def pInit : PState := ⟨0, false, 0, "breakall", none⟩

/-- `AstGenerator.current`. -/
def pCurrent (tokens : List Token) (ps : PState) : Except String Token :=
  match tokens.get? ps.current_index with
  | some t => Except.ok t
  | none => Except.error "internal compiler error, token index out of range!"

/-- `AstGenerator.next` at offset. -/
def pNext (tokens : List Token) (ps : PState) (offset : Nat) : Except String Token :=
  if ps.current_index + offset > tokens.length then
    Except.error ("unexpected end-of-file, token at offset " ++ toString offset ++
      " doesn\x27t exist!")
  else
    match tokens.get? (ps.current_index + offset) with
    | some t => Except.ok t
    | none => Except.error "internal compiler error, token index out of range!"

/-- `AstGenerator.is_at_end`. -/
def pIsAtEnd (tokens : List Token) (ps : PState) : Bool :=
  if ps.current_index ≥ tokens.length then true
  else
    match tokens.get? ps.current_index with
    | some t => t.token_type = TokenType.EOF
    | none => true

/-- `AstGenerator.consume`. -/
def pConsume (tokens : List Token) (ps : PState) : Except String (Token × PState) :=
  if ps.current_index + 1 > tokens.length then
    Except.error "unexpected end-of-file, can\x27t consume more tokens!"
  else
    match tokens.get? ps.current_index with
    | some t => Except.ok (t, { ps with current_index := ps.current_index + 1 })
    | none => Except.error "internal compiler error, token index out of range!"

/-- `AstGenerator.match`: consume and return the current token when its kind
is among the given ones. -/
def pMatch (tokens : List Token) (ps : PState) (kinds : List TokenType) :
    Except String (Option (Token × PState)) :=
  match pCurrent tokens ps with
  | Except.error e => Except.error e
  | Except.ok t =>
      if kinds.contains t.token_type then
        Except.ok (some (t, { ps with current_index := ps.current_index + 1 }))
      else
        Except.ok none

/-- `AstGenerator.expect`: like `match` but an error when the kind differs. -/
def pExpect (tokens : List Token) (ps : PState) (kind : TokenType) (message : String := "") :
    Except String (Token × PState) :=
  match pMatch tokens ps [kind] with
  | Except.error e => Except.error e
  | Except.ok (some r) => Except.ok r
  | Except.ok none =>
      if message = "" then
        Except.error ("expected \x27" ++ kind.value ++ "\x27 but found another token!")
      else
        Except.error message

/-- `AstGenerator.expect_newline`. -/
def pExpectNewline (tokens : List Token) (ps : PState)
    (type_ : String := "statement") (mustEndWithNewline : Bool := true) :
    Except String PState :=
  if !mustEndWithNewline then Except.ok ps
  else
    match pMatch tokens ps [TokenType.NEWLINE, TokenType.EOF] with
    | Except.error e => Except.error e
    | Except.ok (some (_, ps1)) => Except.ok ps1
    | Except.ok none =>
        Except.error ("expected a newline or End-Of-File after " ++ type_ ++ "!")

/-- `AstGenerator._has_indent`: consume an `INDENT` when present. -/
def pHasIndent (tokens : List Token) (ps : PState) : Except String (Bool × PState) :=
  if pIsAtEnd tokens ps then Except.ok (false, ps)
  else
    match pMatch tokens ps [TokenType.INDENT] with
    | Except.error e => Except.error e
    | Except.ok (some (_, ps1)) => Except.ok (true, ps1)
    | Except.ok none => Except.ok (false, ps)

/-- `AstGenerator._get_breakall_label`: the label when this is the outer
loop, `None` otherwise. -/
def pGetBreakallLabel (ps : PState) : Option String :=
  if ps.loop_count = 0 then some ps.breakall_label else none

/-- `AstGenerator._set_breakall_label`: on the outer loop, derive the label
from the loop token's start offset. -/
def pSetBreakallLabel (ps : PState) (loop_token : Token) : PState :=
  if ps.loop_count = 0 then
    { ps with breakall_label := "breakall_" ++ toString loop_token.source_location.start }
  else ps

/-- `AssignmentStatement.is_assignment_form_token`. -/
def isAssignmentFormToken (t : Token) : Bool :=
  [TokenType.EQUAL, TokenType.PLUS_EQUAL, TokenType.MINUS_EQUAL,
   TokenType.SLASH_EQUAL, TokenType.STAR_EQUAL].contains t.token_type

/-- The requests of the parsing traversal, one per parsing function or
internal loop of `ast_generator.py`. -/
inductive PReq where
  | statement (mustEndWithNewline : Bool)
  | statementBlock
  | blockLoop (acc : List Stmt)
  | statementBlockInLoop
  | typeStatement (mustEndWithNewline : Bool)
  | functionStatement
  | functionArgs (return_type : Token) (name : Token) (acc : List (Token × Token))
  | finishFunctionStatement (return_type : Token) (name : Token) (args : List (Token × Token))
  | varDeclStatement (mustEndWithNewline : Bool)
  | forLoopStatement
  | whileLoopStatement
  | ifStatementReq
  | singleIfStatement (acc : Option Stmt)
  | elseLoop (statement : Stmt)
  | printStatement
  | returnStatement
  | classStatement
  | classBody (cls : Stmt)
  | constructorReq (type_ : Ty)
  | lifecycleArgs (statement_type : LifecycleStatementType) (type_ : Ty) (loc : SourceLocation)
      (acc : List (Token × Token))
  | finishLifecycle (statement_type : LifecycleStatementType) (type_ : Ty) (loc : SourceLocation)
      (args : List (Token × Token))
  | destructorReq (type_ : Ty)
  | loopControlStatement
  | assignmentStatement (expression : Expr) (mustEndWithNewline : Bool)
  | expressionReq
  | booleanReq
  | booleanLoop (acc : Expr)
  | comparisonReq
  | comparisonLoop (acc : Expr)
  | additiveReq
  | additiveLoop (acc : Expr)
  | multiplicativeReq
  | multiplicativeLoop (acc : Expr)
  | primaryReq
  | stringExprLoop (acc : List (Token ⊕ Expr)) (loc : SourceLocation)
  | identifierExpressionReq (token : Token)
  | callExpressionReq (identExpr : Expr)
  | callArgsLoop (acc : List Expr)
  | generateLoop (acc : List Stmt) (errs : List String)
  | skipToNewlineLoop
  | skipIndentDedentLoop

/-- The results of the parsing traversal. -/
inductive PRes where
  | unit
  | stmt (s : Stmt)
  | stmtOpt (s : Option Stmt)
  | stmts (l : List Stmt)
  | expr (e : Expr)
  | args (l : List (Token × Token))
  | exprs (l : List Expr)
  | prog (statements : List Stmt) (errors : List String)

/-- Project a statement result. -/
def PRes.getStmt : PRes → Stmt
  | PRes.stmt s => s
  | _ => default

/-- Project an optional-statement result. -/
def PRes.getStmtOpt : PRes → Option Stmt
  | PRes.stmtOpt s => s
  | PRes.stmt s => some s
  | _ => none

/-- Project a statement-list result. -/
def PRes.getStmts : PRes → List Stmt
  | PRes.stmts l => l
  | _ => []

/-- Project an expression result. -/
def PRes.getExpr : PRes → Expr
  | PRes.expr e => e
  | _ => default

/-- Project an argument-list result. -/
def PRes.getArgs : PRes → List (Token × Token)
  | PRes.args l => l
  | _ => []

/-- Project an expression-list result. -/
def PRes.getExprs : PRes → List Expr
  | PRes.exprs l => l
  | _ => []

/-- The parsing traversal: the parsing functions of `ast_generator.py` fused
into one fuel-bounded function over the request type.  The token buffer and
the source text are fixed; the last result component is the propagating
`AstError`.  State mutations made before an error persist (in particular the
`in_function` flag, which the source sets back only on the success path, and
the breakall label). -/
def pGo (tokens : List Token) (filename : String) :
    Nat → PState → PReq → PState × PRes × Option String
  | 0, ps, _ => (ps, PRes.unit, some "internal compiler error, recursion fuel exhausted!")
  | fuel + 1, ps, req =>
      match req with
      | PReq.statement mustEndWithNewline =>
          -- check for a statement starting with a type
          (match pGo tokens filename fuel ps (PReq.typeStatement mustEndWithNewline) with
           | (ps1, _, some e) => (ps1, PRes.unit, some e)
           | (ps1, r1, none) =>
             match r1.getStmtOpt with
             | some s => (ps1, PRes.stmt s, none)
             | none =>
               -- check for a return statement
               match pGo tokens filename fuel ps1 PReq.returnStatement with
               | (ps2, _, some e) => (ps2, PRes.unit, some e)
               | (ps2, r2, none) =>
                 match r2.getStmtOpt with
                 | some s => (ps2, PRes.stmt s, none)
                 | none =>
                   -- check for a print statement
                   match pGo tokens filename fuel ps2 PReq.printStatement with
                   | (ps3, _, some e) => (ps3, PRes.unit, some e)
                   | (ps3, r3, none) =>
                     match r3.getStmtOpt with
                     | some s => (ps3, PRes.stmt s, none)
                     | none =>
                       -- check for an if statement
                       match pGo tokens filename fuel ps3 PReq.ifStatementReq with
                       | (ps4, _, some e) => (ps4, PRes.unit, some e)
                       | (ps4, r4, none) =>
                         match r4.getStmtOpt with
                         | some s => (ps4, PRes.stmt s, none)
                         | none =>
                           -- check for a for-loop statement
                           match pGo tokens filename fuel ps4 PReq.forLoopStatement with
                           | (ps5, _, some e) => (ps5, PRes.unit, some e)
                           | (ps5, r5, none) =>
                             match r5.getStmtOpt with
                             | some s => (ps5, PRes.stmt s, none)
                             | none =>
                               -- check for a while-loop statement
                               match pGo tokens filename fuel ps5 PReq.whileLoopStatement with
                               | (ps6, _, some e) => (ps6, PRes.unit, some e)
                               | (ps6, r6, none) =>
                                 match r6.getStmtOpt with
                                 | some s => (ps6, PRes.stmt s, none)
                                 | none =>
                                   -- check for a class statement
                                   match pGo tokens filename fuel ps6 PReq.classStatement with
                                   | (ps7, _, some e) => (ps7, PRes.unit, some e)
                                   | (ps7, r7, none) =>
                                     match r7.getStmtOpt with
                                     | some s => (ps7, PRes.stmt s, none)
                                     | none =>
                                       -- inside a loop: break, breakall, continue
                                       match pGo tokens filename fuel ps7 PReq.loopControlStatement with
                                       | (ps8, _, some e) => (ps8, PRes.unit, some e)
                                       | (ps8, r8, none) =>
                                         match r8.getStmtOpt with
                                         | some s => (ps8, PRes.stmt s, none)
                                         | none =>
                                           -- fall back to a bare expression statement
                                           match pGo tokens filename fuel ps8 PReq.expressionReq with
                                           | (ps9, _, some e) => (ps9, PRes.unit, some e)
                                           | (ps9, r9, none) =>
                                             let expression := r9.getExpr
                                             match pGo tokens filename fuel ps9
                                                 (PReq.assignmentStatement expression
                                                   mustEndWithNewline) with
                                             | (ps10, _, some e) => (ps10, PRes.unit, some e)
                                             | (ps10, r10, none) =>
                                               match r10.getStmtOpt with
                                               | some s => (ps10, PRes.stmt s, none)
                                               | none =>
                                                 match pExpectNewline tokens ps10 "expression"
                                                     mustEndWithNewline with
                                                 | Except.error e => (ps10, PRes.unit, some e)
                                                 | Except.ok ps11 =>
                                                     (ps11, PRes.stmt (Stmt.exprStmt
                                                       expression.source_location expression), none))
      | PReq.statementBlock =>
          -- empty block, or INDENT followed by statements until the DEDENT
          (match pHasIndent tokens ps with
           | Except.error e => (ps, PRes.unit, some e)
           | Except.ok (false, ps1) => (ps1, PRes.stmts [], none)
           | Except.ok (true, ps1) => pGo tokens filename fuel ps1 (PReq.blockLoop []))
      | PReq.blockLoop acc =>
          (match pMatch tokens ps [TokenType.DEDENT] with
           | Except.error e => (ps, PRes.unit, some e)
           | Except.ok (some (_, ps1)) => (ps1, PRes.stmts acc, none)
           | Except.ok none =>
               match pGo tokens filename fuel ps (PReq.statement true) with
               | (ps1, _, some e) => (ps1, PRes.unit, some e)
               | (ps1, r1, none) =>
                   pGo tokens filename fuel ps1 (PReq.blockLoop (acc ++ [r1.getStmt])))
      | PReq.statementBlockInLoop =>
          -- increment the loop count around the block (restored even on error)
          let ps1 := { ps with loop_count := ps.loop_count + 1 }
          (match pGo tokens filename fuel ps1 PReq.statementBlock with
           | (ps2, r, err) => ({ ps2 with loop_count := ps2.loop_count - 1 }, r, err))
      | PReq.typeStatement mustEndWithNewline =>
          (match pCurrent tokens ps with
           | Except.error e => (ps, PRes.unit, some e)
           | Except.ok t0 =>
               if t0.token_type ≠ TokenType.TYPE then (ps, PRes.stmtOpt none, none)
               else
                 match pNext tokens ps 1 with
                 | Except.error e => (ps, PRes.unit, some e)
                 | Except.ok t1 =>
                     if t1.token_type ≠ TokenType.IDENTIFIER then (ps, PRes.stmtOpt none, none)
                     else
                       match pNext tokens ps 2 with
                       | Except.error e => (ps, PRes.unit, some e)
                       | Except.ok t2 =>
                           if t2.token_type = TokenType.PAREN_OPEN then
                             pGo tokens filename fuel ps PReq.functionStatement
                           else
                             pGo tokens filename fuel ps (PReq.varDeclStatement mustEndWithNewline))
      | PReq.functionStatement =>
          -- the tokens were already checked, so start consuming
          (match pConsume tokens ps with
           | Except.error e => (ps, PRes.unit, some e)
           | Except.ok (return_type, ps1) =>
               match pConsume tokens ps1 with
               | Except.error e => (ps1, PRes.unit, some e)
               | Except.ok (name, ps2) =>
                   match pExpect tokens ps2 TokenType.PAREN_OPEN with
                   | Except.error e => (ps2, PRes.unit, some e)
                   | Except.ok (_, ps3) =>
                       match pMatch tokens ps3 [TokenType.PAREN_CLOSE] with
                       | Except.error e => (ps3, PRes.unit, some e)
                       | Except.ok (some (_, ps4)) =>
                           pGo tokens filename fuel ps4
                             (PReq.finishFunctionStatement return_type name [])
                       | Except.ok none =>
                           match pGo tokens filename fuel ps3
                               (PReq.functionArgs return_type name []) with
                           | (ps4, _, some e) => (ps4, PRes.unit, some e)
                           | (ps4, ra, none) =>
                               match pExpect tokens ps4 TokenType.PAREN_CLOSE with
                               | Except.error e => (ps4, PRes.unit, some e)
                               | Except.ok (_, ps5) =>
                                   pGo tokens filename fuel ps5
                                     (PReq.finishFunctionStatement return_type name ra.getArgs))
      | PReq.functionArgs return_type name acc =>
          (match pExpect tokens ps TokenType.TYPE with
           | Except.error e => (ps, PRes.unit, some e)
           | Except.ok (argument_type, ps1) =>
               if !argument_type.ty.non_void then
                 (ps1, PRes.unit, some "function arguments cannot be of type void!")
               else
                 match pExpect tokens ps1 TokenType.IDENTIFIER with
                 | Except.error e => (ps1, PRes.unit, some e)
                 | Except.ok (argument_name, ps2) =>
                     let acc1 := acc ++ [(argument_type, argument_name)]
                     match pMatch tokens ps2 [TokenType.COMMA] with
                     | Except.error e => (ps2, PRes.unit, some e)
                     | Except.ok (some (_, ps3)) =>
                         pGo tokens filename fuel ps3 (PReq.functionArgs return_type name acc1)
                     | Except.ok none => (ps2, PRes.args acc1, none))
      | PReq.finishFunctionStatement return_type name args =>
          (match pExpect tokens ps TokenType.COLON with
           | Except.error e => (ps, PRes.unit, some e)
           | Except.ok (_, ps1) =>
               match pExpectNewline tokens ps1 with
               | Except.error e => (ps1, PRes.unit, some e)
               | Except.ok ps2 =>
                   -- we are inside a function now (not exception-safe: a TODO
                   -- in the source); the flag stays set when an error escapes
                   let ps3 := { ps2 with in_function := true }
                   match pGo tokens filename fuel ps3 PReq.statementBlock with
                   | (ps4, _, some e) => (ps4, PRes.unit, some e)
                   | (ps4, rb, none) =>
                       let ps5 := { ps4 with in_function := false }
                       let loc : SourceLocation := args.foldl
                         (fun l a => (l.add a.1.source_location).add a.2.source_location)
                         (return_type.source_location.add name.source_location)
                       (ps5, PRes.stmt (Stmt.functionStmt loc return_type name ps5.class_type
                         args rb.getStmts), none))
      | PReq.varDeclStatement mustEndWithNewline =>
          (match pConsume tokens ps with
           | Except.error e => (ps, PRes.unit, some e)
           | Except.ok (type_token, ps1) =>
               match pConsume tokens ps1 with
               | Except.error e => (ps1, PRes.unit, some e)
               | Except.ok (name, ps2) =>
                   match pMatch tokens ps2 [TokenType.EQUAL] with
                   | Except.error e => (ps2, PRes.unit, some e)
                   | Except.ok (some (_, ps3)) =>
                       (match pGo tokens filename fuel ps3 PReq.expressionReq with
                        | (ps4, _, some e) => (ps4, PRes.unit, some e)
                        | (ps4, rv, none) =>
                            match pExpectNewline tokens ps4 "statement" mustEndWithNewline with
                            | Except.error e => (ps4, PRes.unit, some e)
                            | Except.ok ps5 =>
                                let iv := rv.getExpr
                                if type_token.ty.isList then
                                  (ps5, PRes.stmt (Stmt.listStmt
                                    (type_token.source_location.add name.source_location)
                                    type_token.ty name), none)
                                else
                                  (ps5, PRes.stmt (Stmt.varDecl
                                    ((type_token.source_location.add name.source_location).add
                                      iv.source_location)
                                    type_token name (some iv)), none))
                   | Except.ok none =>
                       match pExpectNewline tokens ps2 "statement" mustEndWithNewline with
                       | Except.error e => (ps2, PRes.unit, some e)
                       | Except.ok ps3 =>
                           if type_token.ty.isList then
                             (ps3, PRes.stmt (Stmt.listStmt
                               (type_token.source_location.add name.source_location)
                               type_token.ty name), none)
                           else
                             (ps3, PRes.stmt (Stmt.varDecl
                               (type_token.source_location.add name.source_location)
                               type_token name none), none))
      | PReq.forLoopStatement =>
          (match pMatch tokens ps [TokenType.FOR] with
           | Except.error e => (ps, PRes.unit, some e)
           | Except.ok none => (ps, PRes.stmtOpt none, none)
           | Except.ok (some (token, ps1)) =>
               -- set the breakall label if this is the outer loop
               let ps2 := pSetBreakallLabel ps1 token
               -- initial value statement (if it exists)
               match pMatch tokens ps2 [TokenType.SEMICOLON] with
               | Except.error e => (ps2, PRes.unit, some e)
               | Except.ok mInit =>
                   (match (match mInit with
                           | some (_, psA) => (psA, PRes.stmtOpt none, none)
                           | none =>
                               match pGo tokens filename fuel ps2 (PReq.statement false) with
                               | (psA, _, some e) => (psA, PRes.unit, some e)
                               | (psA, rI, none) =>
                                   match pExpect tokens psA TokenType.SEMICOLON with
                                   | Except.error e => (psA, PRes.unit, some e)
                                   | Except.ok (_, psB) =>
                                       (psB, PRes.stmtOpt (some rI.getStmt), none)) with
                    | (ps3, _, some e) => (ps3, PRes.unit, some e)
                    | (ps3, rInit, none) =>
                        -- check expression (if it exists)
                        match pMatch tokens ps3 [TokenType.SEMICOLON] with
                        | Except.error e => (ps3, PRes.unit, some e)
                        | Except.ok mCheck =>
                            (match (match mCheck with
                                    | some (_, psA) => (psA, PRes.exprs [], none)
                                    | none =>
                                        match pGo tokens filename fuel ps3 PReq.expressionReq with
                                        | (psA, _, some e) => (psA, PRes.unit, some e)
                                        | (psA, rC, none) =>
                                            match pExpect tokens psA TokenType.SEMICOLON with
                                            | Except.error e => (psA, PRes.unit, some e)
                                            | Except.ok (_, psB) =>
                                                (psB, PRes.exprs [rC.getExpr], none)) with
                             | (ps4, _, some e) => (ps4, PRes.unit, some e)
                             | (ps4, rCheck, none) =>
                                 -- loop statement (if it exists)
                                 match pMatch tokens ps4 [TokenType.COLON] with
                                 | Except.error e => (ps4, PRes.unit, some e)
                                 | Except.ok mLoop =>
                                     (match (match mLoop with
                                             | some (_, psA) => (psA, PRes.stmtOpt none, none)
                                             | none =>
                                                 match pGo tokens filename fuel ps4
                                                     (PReq.statement false) with
                                                 | (psA, _, some e) => (psA, PRes.unit, some e)
                                                 | (psA, rL, none) =>
                                                     match pExpect tokens psA TokenType.COLON with
                                                     | Except.error e => (psA, PRes.unit, some e)
                                                     | Except.ok (_, psB) =>
                                                         (psB, PRes.stmtOpt (some rL.getStmt),
                                                          none)) with
                                      | (ps5, _, some e) => (ps5, PRes.unit, some e)
                                      | (ps5, rLoop, none) =>
                                          match pExpectNewline tokens ps5 with
                                          | Except.error e => (ps5, PRes.unit, some e)
                                          | Except.ok ps6 =>
                                              match pGo tokens filename fuel ps6
                                                  PReq.statementBlockInLoop with
                                              | (ps7, _, some e) => (ps7, PRes.unit, some e)
                                              | (ps7, rB, none) =>
                                                  let init := rInit.getStmtOpt
                                                  let check := rCheck.getExprs.head?
                                                  let loopS := rLoop.getStmtOpt
                                                  let body := rB.getStmts
                                                  let loc0 := token.source_location
                                                  let loc1 := match init with
                                                    | some s => loc0.add s.source_location
                                                    | none => loc0
                                                  let loc2 := match check with
                                                    | some c => loc1.add c.source_location
                                                    | none => loc1
                                                  let loc3 := match loopS with
                                                    | some s => loc2.add s.source_location
                                                    | none => loc2
                                                  let loc4 := body.foldl
                                                    (fun l s => l.add s.source_location) loc3
                                                  (ps7, PRes.stmt (Stmt.forLoop loc4 token
                                                    (pGetBreakallLabel ps7) init check loopS body),
                                                   none)))))
      | PReq.whileLoopStatement =>
          (match pMatch tokens ps [TokenType.WHILE] with
           | Except.error e => (ps, PRes.unit, some e)
           | Except.ok none => (ps, PRes.stmtOpt none, none)
           | Except.ok (some (token, ps1)) =>
               let ps2 := pSetBreakallLabel ps1 token
               match pGo tokens filename fuel ps2 PReq.expressionReq with
               | (ps3, _, some e) => (ps3, PRes.unit, some e)
               | (ps3, rC, none) =>
                   match pExpect tokens ps3 TokenType.COLON with
                   | Except.error e => (ps3, PRes.unit, some e)
                   | Except.ok (_, ps4) =>
                       match pExpectNewline tokens ps4 with
                       | Except.error e => (ps4, PRes.unit, some e)
                       | Except.ok ps5 =>
                           match pGo tokens filename fuel ps5 PReq.statementBlockInLoop with
                           | (ps6, _, some e) => (ps6, PRes.unit, some e)
                           | (ps6, rB, none) =>
                               let check := rC.getExpr
                               let body := rB.getStmts
                               let loc := body.foldl (fun l s => l.add s.source_location)
                                 (token.source_location.add check.source_location)
                               (ps6, PRes.stmt (Stmt.forLoop loc token (pGetBreakallLabel ps6)
                                 none (some check) none body), none))
      | PReq.ifStatementReq =>
          (match pGo tokens filename fuel ps (PReq.singleIfStatement none) with
           | (ps1, _, some e) => (ps1, PRes.unit, some e)
           | (ps1, r1, none) =>
               match r1.getStmtOpt with
               | none => (ps1, PRes.stmtOpt none, none)
               | some statement =>
                   if pIsAtEnd tokens ps1 then (ps1, PRes.stmtOpt (some statement), none)
                   else
                     match pGo tokens filename fuel ps1 (PReq.elseLoop statement) with
                     | (ps2, _, some e) => (ps2, PRes.unit, some e)
                     | (ps2, r2, none) => (ps2, PRes.stmtOpt (some r2.getStmt), none))
      | PReq.singleIfStatement acc =>
          (match pMatch tokens ps [TokenType.IF] with
           | Except.error e => (ps, PRes.unit, some e)
           | Except.ok none => (ps, PRes.stmtOpt none, none)
           | Except.ok (some (token, ps1)) =>
               match pGo tokens filename fuel ps1 PReq.expressionReq with
               | (ps2, _, some e) => (ps2, PRes.unit, some e)
               | (ps2, rE, none) =>
                   match pExpect tokens ps2 TokenType.COLON with
                   | Except.error e => (ps2, PRes.unit, some e)
                   | Except.ok (_, ps3) =>
                       match pExpectNewline tokens ps3 with
                       | Except.error e => (ps3, PRes.unit, some e)
                       | Except.ok ps4 =>
                           match pGo tokens filename fuel ps4 PReq.statementBlock with
                           | (ps5, _, some e) => (ps5, PRes.unit, some e)
                           | (ps5, rB, none) =>
                               let expression := rE.getExpr
                               let statements := rB.getStmts
                               match acc with
                               | some (Stmt.ifStmt loc e0 s0 elifs els) =>
                                   (ps5, PRes.stmtOpt (some (Stmt.ifStmt loc e0 s0
                                     (elifs ++ [(expression, statements)]) els)), none)
                               | some other => (ps5, PRes.stmtOpt (some other), none)
                               | none =>
                                   let loc := statements.foldl (fun l s => l.add s.source_location)
                                     (token.source_location.add expression.source_location)
                                   (ps5, PRes.stmtOpt (some (Stmt.ifStmt loc expression
                                     statements [] none)), none))
      | PReq.elseLoop statement =>
          (match pMatch tokens ps [TokenType.ELSE] with
           | Except.error e => (ps, PRes.unit, some e)
           | Except.ok none => (ps, PRes.stmt statement, none)
           | Except.ok (some (_, ps1)) =>
               match pGo tokens filename fuel ps1 (PReq.singleIfStatement (some statement)) with
               | (ps2, _, some e) => (ps2, PRes.unit, some e)
               | (ps2, r2, none) =>
                   match r2.getStmtOpt with
                   | some updated => pGo tokens filename fuel ps2 (PReq.elseLoop updated)
                   | none =>
                       -- a bare else: the final statement block
                       match pExpect tokens ps2 TokenType.COLON with
                       | Except.error e => (ps2, PRes.unit, some e)
                       | Except.ok (_, ps3) =>
                           match pExpectNewline tokens ps3 with
                           | Except.error e => (ps3, PRes.unit, some e)
                           | Except.ok ps4 =>
                               match pGo tokens filename fuel ps4 PReq.statementBlock with
                               | (ps5, _, some e) => (ps5, PRes.unit, some e)
                               | (ps5, rB, none) =>
                                   match statement with
                                   | Stmt.ifStmt loc e0 s0 elifs _ =>
                                       (ps5, PRes.stmt (Stmt.ifStmt loc e0 s0 elifs
                                         (some rB.getStmts)), none)
                                   | other => (ps5, PRes.stmt other, none))
      | PReq.printStatement =>
          (match pMatch tokens ps [TokenType.PRINT, TokenType.PRINTLN] with
           | Except.error e => (ps, PRes.unit, some e)
           | Except.ok none => (ps, PRes.stmtOpt none, none)
           | Except.ok (some (token, ps1)) =>
               match pExpect tokens ps1 TokenType.PAREN_OPEN with
               | Except.error e => (ps1, PRes.unit, some e)
               | Except.ok (_, ps2) =>
                   match pGo tokens filename fuel ps2 PReq.expressionReq with
                   | (ps3, _, some e) => (ps3, PRes.unit, some e)
                   | (ps3, rV, none) =>
                       match pExpect tokens ps3 TokenType.PAREN_CLOSE with
                       | Except.error e => (ps3, PRes.unit, some e)
                       | Except.ok (_, ps4) =>
                           match pExpectNewline tokens ps4 with
                           | Except.error e => (ps4, PRes.unit, some e)
                           | Except.ok ps5 =>
                               let value := rV.getExpr
                               let line_end := if token.token_type = TokenType.PRINTLN
                                 then "\\n" else ""
                               (ps5, PRes.stmtOpt (some (Stmt.printStmt
                                 (token.source_location.add value.source_location)
                                 line_end value)), none))
      | PReq.returnStatement =>
          (match pMatch tokens ps [TokenType.RETURN] with
           | Except.error e => (ps, PRes.unit, some e)
           | Except.ok none => (ps, PRes.stmtOpt none, none)
           | Except.ok (some (token, ps1)) =>
               if !ps1.in_function then
                 (ps1, PRes.unit, some "return statement is not allowed here!")
               else
                 match pMatch tokens ps1 [TokenType.NEWLINE, TokenType.EOF] with
                 | Except.error e => (ps1, PRes.unit, some e)
                 | Except.ok (some (_, ps2)) =>
                     (ps2, PRes.stmtOpt (some (Stmt.returnStmt token.source_location none)), none)
                 | Except.ok none =>
                     match pGo tokens filename fuel ps1 PReq.expressionReq with
                     | (ps2, _, some e) => (ps2, PRes.unit, some e)
                     | (ps2, rE, none) =>
                         match pExpectNewline tokens ps2 with
                         | Except.error e => (ps2, PRes.unit, some e)
                         | Except.ok ps3 =>
                             let expression := rE.getExpr
                             (ps3, PRes.stmtOpt (some (Stmt.returnStmt
                               (token.source_location.add expression.source_location)
                               (some expression))), none))
      | PReq.classStatement =>
          (match pMatch tokens ps [TokenType.CLASS] with
           | Except.error e => (ps, PRes.unit, some e)
           | Except.ok none => (ps, PRes.stmtOpt none, none)
           | Except.ok (some (token, ps1)) =>
               match pExpect tokens ps1 TokenType.TYPE with
               | Except.error e => (ps1, PRes.unit, some e)
               | Except.ok (name, ps2) =>
                   let class_type := name.ty
                   let loc := token.source_location.add name.source_location
                   match pExpect tokens ps2 TokenType.COLON with
                   | Except.error e => (ps2, PRes.unit, some e)
                   | Except.ok (_, ps3) =>
                       match pExpectNewline tokens ps3 with
                       | Except.error e => (ps3, PRes.unit, some e)
                       | Except.ok ps4 =>
                           match pHasIndent tokens ps4 with
                           | Except.error e => (ps4, PRes.unit, some e)
                           | Except.ok (false, ps5) =>
                               (ps5, PRes.stmtOpt (some (Stmt.classStmt loc class_type [] []
                                 none none)), none)
                           | Except.ok (true, ps5) =>
                               -- we are in a class now (not exception-safe in
                               -- the source either)
                               let ps6 := { ps5 with class_type := some class_type }
                               match pGo tokens filename fuel ps6 (PReq.classBody
                                   (Stmt.classStmt loc class_type [] [] none none)) with
                               | (ps7, _, some e) => (ps7, PRes.unit, some e)
                               | (ps7, rC, none) =>
                                   let ps8 := { ps7 with class_type := none }
                                   (ps8, PRes.stmtOpt (some rC.getStmt), none))
      | PReq.classBody cls =>
          (match pMatch tokens ps [TokenType.DEDENT] with
           | Except.error e => (ps, PRes.unit, some e)
           | Except.ok (some (_, ps1)) => (ps1, PRes.stmt cls, none)
           | Except.ok none =>
               match cls with
               | Stmt.classStmt loc class_type variables_ functions ctor dtor =>
                   (match pGo tokens filename fuel ps (PReq.typeStatement true) with
                    | (ps1, _, some e) => (ps1, PRes.unit, some e)
                    | (ps1, r1, none) =>
                        match r1.getStmtOpt with
                        | some (Stmt.functionStmt a b c d e f) =>
                            pGo tokens filename fuel ps1 (PReq.classBody (Stmt.classStmt loc
                              class_type variables_
                              (functions ++ [Stmt.functionStmt a b c d e f]) ctor dtor))
                        | some (Stmt.varDecl a b c d) =>
                            pGo tokens filename fuel ps1 (PReq.classBody (Stmt.classStmt loc
                              class_type (variables_ ++ [Stmt.varDecl a b c d]) functions
                              ctor dtor))
                        | some (Stmt.listStmt a b c) =>
                            pGo tokens filename fuel ps1 (PReq.classBody (Stmt.classStmt loc
                              class_type (variables_ ++ [Stmt.listStmt a b c]) functions
                              ctor dtor))
                        | some _ =>
                            (ps1, PRes.unit,
                             some "expected FunctionStatement or VarDeclStatement!")
                        | none =>
                            match pGo tokens filename fuel ps1 (PReq.constructorReq class_type) with
                            | (ps2, _, some e) => (ps2, PRes.unit, some e)
                            | (ps2, r2, none) =>
                                match r2.getStmtOpt with
                                | some c =>
                                    if ctor.isSome then
                                      (ps2, PRes.unit,
                                       some ("found a " ++ class_type.keyword ++
                                         " constructor while another constructor was already found!"))
                                    else
                                      pGo tokens filename fuel ps2 (PReq.classBody
                                        (Stmt.classStmt loc class_type variables_ functions
                                          (some c) dtor))
                                | none =>
                                    match pGo tokens filename fuel ps2
                                        (PReq.destructorReq class_type) with
                                    | (ps3, _, some e) => (ps3, PRes.unit, some e)
                                    | (ps3, r3, none) =>
                                        match r3.getStmtOpt with
                                        | some d =>
                                            if dtor.isSome then
                                              (ps3, PRes.unit,
                                               some ("found a " ++ class_type.keyword ++
                                                 " destructor while another descructor was already found!"))
                                            else
                                              pGo tokens filename fuel ps3 (PReq.classBody
                                                (Stmt.classStmt loc class_type variables_
                                                  functions ctor (some d)))
                                        | none =>
                                            (ps3, PRes.unit,
                                             some ("expected FunctionStatement, VarDeclStatement," ++
                                               " Constructor or Destructor!")))
               | other => (ps, PRes.stmt other, some "internal compiler error, not a class!"))
      | PReq.constructorReq type_ =>
          (match pMatch tokens ps [TokenType.TYPE] with
           | Except.error e => (ps, PRes.unit, some e)
           | Except.ok none => (ps, PRes.stmtOpt none, none)
           | Except.ok (some (name, ps1)) =>
               if name.ty ≠ type_ then
                 (ps1, PRes.unit, some ("expected " ++ type_.keyword ++
                   " in constructor, but found " ++ name.ty.keyword ++ "!"))
               else
                 match pExpect tokens ps1 TokenType.PAREN_OPEN with
                 | Except.error e => (ps1, PRes.unit, some e)
                 | Except.ok (_, ps2) =>
                     match pMatch tokens ps2 [TokenType.PAREN_CLOSE] with
                     | Except.error e => (ps2, PRes.unit, some e)
                     | Except.ok (some (_, ps3)) =>
                         pGo tokens filename fuel ps3 (PReq.finishLifecycle
                           LifecycleStatementType.CONSTRUCTOR type_ name.source_location [])
                     | Except.ok none =>
                         match pGo tokens filename fuel ps2 (PReq.lifecycleArgs
                             LifecycleStatementType.CONSTRUCTOR type_ name.source_location []) with
                         | (ps3, _, some e) => (ps3, PRes.unit, some e)
                         | (ps3, ra, none) =>
                             match pExpect tokens ps3 TokenType.PAREN_CLOSE with
                             | Except.error e => (ps3, PRes.unit, some e)
                             | Except.ok (_, ps4) =>
                                 pGo tokens filename fuel ps4 (PReq.finishLifecycle
                                   LifecycleStatementType.CONSTRUCTOR type_
                                   name.source_location ra.getArgs))
      | PReq.lifecycleArgs statement_type type_ loc acc =>
          (match pExpect tokens ps TokenType.TYPE with
           | Except.error e => (ps, PRes.unit, some e)
           | Except.ok (argument_type, ps1) =>
               if !argument_type.ty.non_void then
                 (ps1, PRes.unit, some "function arguments cannot be of type void!")
               else
                 match pExpect tokens ps1 TokenType.IDENTIFIER with
                 | Except.error e => (ps1, PRes.unit, some e)
                 | Except.ok (argument_name, ps2) =>
                     let acc1 := acc ++ [(argument_type, argument_name)]
                     match pMatch tokens ps2 [TokenType.COMMA] with
                     | Except.error e => (ps2, PRes.unit, some e)
                     | Except.ok (some (_, ps3)) =>
                         pGo tokens filename fuel ps3
                           (PReq.lifecycleArgs statement_type type_ loc acc1)
                     | Except.ok none => (ps2, PRes.args acc1, none))
      | PReq.finishLifecycle statement_type type_ loc args =>
          (match pExpect tokens ps TokenType.COLON with
           | Except.error e => (ps, PRes.unit, some e)
           | Except.ok (_, ps1) =>
               match pExpectNewline tokens ps1 with
               | Except.error e => (ps1, PRes.unit, some e)
               | Except.ok ps2 =>
                   let ps3 := { ps2 with in_function := true }
                   match pGo tokens filename fuel ps3 PReq.statementBlock with
                   | (ps4, _, some e) => (ps4, PRes.unit, some e)
                   | (ps4, rb, none) =>
                       let ps5 := { ps4 with in_function := false }
                       let loc1 := args.foldl
                         (fun l a => (l.add a.1.source_location).add a.2.source_location) loc
                       (ps5, PRes.stmtOpt (some (Stmt.lifecycle loc1 statement_type type_ args
                         rb.getStmts)), none))
      | PReq.destructorReq type_ =>
          (match pMatch tokens ps [TokenType.TILDE] with
           | Except.error e => (ps, PRes.unit, some e)
           | Except.ok none => (ps, PRes.stmtOpt none, none)
           | Except.ok (some (_, ps1)) =>
               match pMatch tokens ps1 [TokenType.TYPE] with
               | Except.error e => (ps1, PRes.unit, some e)
               | Except.ok none =>
                   (ps1, PRes.unit, some ("expected " ++ type_.keyword ++ " in destructor!"))
               | Except.ok (some (name, ps2)) =>
                   if name.ty ≠ type_ then
                     (ps2, PRes.unit, some ("expected " ++ type_.keyword ++
                       " in destructor, but found " ++ name.ty.keyword ++ "!"))
                   else
                     match pExpect tokens ps2 TokenType.PAREN_OPEN with
                     | Except.error e => (ps2, PRes.unit, some e)
                     | Except.ok (_, ps3) =>
                         match pExpect tokens ps3 TokenType.PAREN_CLOSE with
                         | Except.error e => (ps3, PRes.unit, some e)
                         | Except.ok (_, ps4) =>
                             pGo tokens filename fuel ps4 (PReq.finishLifecycle
                               LifecycleStatementType.DESTRUCTOR type_ name.source_location []))
      | PReq.loopControlStatement =>
          (if ps.loop_count = 0 then (ps, PRes.stmtOpt none, none)
           else
             match pMatch tokens ps [TokenType.BREAK] with
             | Except.error e => (ps, PRes.unit, some e)
             | Except.ok (some (token, ps1)) =>
                 (match pExpectNewline tokens ps1 "break" with
                  | Except.error e => (ps1, PRes.unit, some e)
                  | Except.ok ps2 =>
                      (ps2, PRes.stmtOpt (some (Stmt.breakStmt token.source_location)), none))
             | Except.ok none =>
                 match pMatch tokens ps [TokenType.BREAKALL] with
                 | Except.error e => (ps, PRes.unit, some e)
                 | Except.ok (some (token, ps1)) =>
                     (match pExpectNewline tokens ps1 "breakall" with
                      | Except.error e => (ps1, PRes.unit, some e)
                      | Except.ok ps2 =>
                          (ps2, PRes.stmtOpt (some (Stmt.breakall token.source_location
                            ps2.breakall_label)), none))
                 | Except.ok none =>
                     match pMatch tokens ps [TokenType.CONTINUE] with
                     | Except.error e => (ps, PRes.unit, some e)
                     | Except.ok (some (token, ps1)) =>
                         (match pExpectNewline tokens ps1 "continue" with
                          | Except.error e => (ps1, PRes.unit, some e)
                          | Except.ok ps2 =>
                              (ps2, PRes.stmtOpt (some (Stmt.continueStmt
                                token.source_location)), none))
                     | Except.ok none => (ps, PRes.stmtOpt none, none))
      | PReq.assignmentStatement expression mustEndWithNewline =>
          -- only identifier and `this` expressions can be assigned to
          let isTarget : Bool := match expression with
            | Expr.thisExpr _ _ _ => true
            | Expr.identifierExpr _ _ _ _ _ _ => true
            | _ => false
          (if !isTarget then (ps, PRes.stmtOpt none, none)
           else
             match pCurrent tokens ps with
             | Except.error e => (ps, PRes.unit, some e)
             | Except.ok cur =>
                 if !isAssignmentFormToken cur then (ps, PRes.stmtOpt none, none)
                 else
                   match pExpect tokens ps cur.token_type with
                   | Except.error e => (ps, PRes.unit, some e)
                   | Except.ok (assignment_token, ps1) =>
                       match pGo tokens filename fuel ps1 PReq.expressionReq with
                       | (ps2, _, some e) => (ps2, PRes.unit, some e)
                       | (ps2, rV, none) =>
                           match pExpectNewline tokens ps2 "statement" mustEndWithNewline with
                           | Except.error e => (ps2, PRes.unit, some e)
                           | Except.ok ps3 =>
                               let value := rV.getExpr
                               (ps3, PRes.stmtOpt (some (Stmt.assignment
                                 (expression.source_location.add value.source_location)
                                 expression assignment_token value)), none))
      | PReq.expressionReq => pGo tokens filename fuel ps PReq.booleanReq
      | PReq.booleanReq =>
          (match pGo tokens filename fuel ps PReq.comparisonReq with
           | (ps1, _, some e) => (ps1, PRes.unit, some e)
           | (ps1, r1, none) => pGo tokens filename fuel ps1 (PReq.booleanLoop r1.getExpr))
      | PReq.booleanLoop acc =>
          (match pMatch tokens ps [TokenType.AND_AND, TokenType.OR_OR] with
           | Except.error e => (ps, PRes.unit, some e)
           | Except.ok none => (ps, PRes.expr acc, none)
           | Except.ok (some (token, ps1)) =>
               match pGo tokens filename fuel ps1 PReq.comparisonReq with
               | (ps2, _, some e) => (ps2, PRes.unit, some e)
               | (ps2, rR, none) =>
                   let right := rR.getExpr
                   pGo tokens filename fuel ps2 (PReq.booleanLoop (Expr.binary
                     ((acc.source_location.add token.source_location).add right.source_location)
                     token acc right Ty.unknown)))
      | PReq.comparisonReq =>
          (match pGo tokens filename fuel ps PReq.additiveReq with
           | (ps1, _, some e) => (ps1, PRes.unit, some e)
           | (ps1, r1, none) => pGo tokens filename fuel ps1 (PReq.comparisonLoop r1.getExpr))
      | PReq.comparisonLoop acc =>
          (match pMatch tokens ps [TokenType.EQUAL_EQUAL, TokenType.GREATER,
              TokenType.GREATER_EQUAL, TokenType.LESS, TokenType.LESS_EQUAL,
              TokenType.NOT_EQUAL] with
           | Except.error e => (ps, PRes.unit, some e)
           | Except.ok none => (ps, PRes.expr acc, none)
           | Except.ok (some (token, ps1)) =>
               match pGo tokens filename fuel ps1 PReq.additiveReq with
               | (ps2, _, some e) => (ps2, PRes.unit, some e)
               | (ps2, rR, none) =>
                   let right := rR.getExpr
                   pGo tokens filename fuel ps2 (PReq.comparisonLoop (Expr.binary
                     ((acc.source_location.add token.source_location).add right.source_location)
                     token acc right Ty.unknown)))
      | PReq.additiveReq =>
          (match pGo tokens filename fuel ps PReq.multiplicativeReq with
           | (ps1, _, some e) => (ps1, PRes.unit, some e)
           | (ps1, r1, none) => pGo tokens filename fuel ps1 (PReq.additiveLoop r1.getExpr))
      | PReq.additiveLoop acc =>
          (match pMatch tokens ps [TokenType.PLUS, TokenType.MINUS] with
           | Except.error e => (ps, PRes.unit, some e)
           | Except.ok none => (ps, PRes.expr acc, none)
           | Except.ok (some (token, ps1)) =>
               match pGo tokens filename fuel ps1 PReq.multiplicativeReq with
               | (ps2, _, some e) => (ps2, PRes.unit, some e)
               | (ps2, rR, none) =>
                   let right := rR.getExpr
                   pGo tokens filename fuel ps2 (PReq.additiveLoop (Expr.binary
                     ((acc.source_location.add token.source_location).add right.source_location)
                     token acc right Ty.unknown)))
      | PReq.multiplicativeReq =>
          (match pGo tokens filename fuel ps PReq.primaryReq with
           | (ps1, _, some e) => (ps1, PRes.unit, some e)
           | (ps1, r1, none) => pGo tokens filename fuel ps1 (PReq.multiplicativeLoop r1.getExpr))
      | PReq.multiplicativeLoop acc =>
          (match pMatch tokens ps [TokenType.STAR, TokenType.SLASH] with
           | Except.error e => (ps, PRes.unit, some e)
           | Except.ok none => (ps, PRes.expr acc, none)
           | Except.ok (some (token, ps1)) =>
               match pGo tokens filename fuel ps1 PReq.primaryReq with
               | (ps2, _, some e) => (ps2, PRes.unit, some e)
               | (ps2, rR, none) =>
                   let right := rR.getExpr
                   pGo tokens filename fuel ps2 (PReq.multiplicativeLoop (Expr.binary
                     ((acc.source_location.add token.source_location).add right.source_location)
                     token acc right Ty.unknown)))
      | PReq.primaryReq =>
          (match pMatch tokens ps [TokenType.FALSE] with
           | Except.error e => (ps, PRes.unit, some e)
           | Except.ok (some (token, ps1)) =>
               (ps1, PRes.expr (Expr.tokenExpr token.source_location token Ty.unknown), none)
           | Except.ok none =>
             match pMatch tokens ps [TokenType.NULL] with
             | Except.error e => (ps, PRes.unit, some e)
             | Except.ok (some (token, ps1)) =>
                 (ps1, PRes.expr (Expr.tokenExpr token.source_location token Ty.unknown), none)
             | Except.ok none =>
               match pMatch tokens ps [TokenType.TRUE] with
               | Except.error e => (ps, PRes.unit, some e)
               | Except.ok (some (token, ps1)) =>
                   (ps1, PRes.expr (Expr.tokenExpr token.source_location token Ty.unknown), none)
               | Except.ok none =>
                 match pMatch tokens ps [TokenType.CHARACTER] with
                 | Except.error e => (ps, PRes.unit, some e)
                 | Except.ok (some (token, ps1)) =>
                     (ps1, PRes.expr (Expr.tokenExpr token.source_location token Ty.unknown), none)
                 | Except.ok none =>
                   match pMatch tokens ps [TokenType.NUMBER] with
                   | Except.error e => (ps, PRes.unit, some e)
                   | Except.ok (some (token, ps1)) =>
                       (ps1, PRes.expr (Expr.tokenExpr token.source_location token Ty.unknown), none)
                   | Except.ok none =>
                     match pMatch tokens ps [TokenType.STRING_START] with
                     | Except.error e => (ps, PRes.unit, some e)
                     | Except.ok (some (token, ps1)) =>
                         pGo tokens filename fuel ps1 (PReq.stringExprLoop [Sum.inl token]
                           token.source_location)
                     | Except.ok none =>
                       match pMatch tokens ps [TokenType.PAREN_OPEN] with
                       | Except.error e => (ps, PRes.unit, some e)
                       | Except.ok (some (paren_open, ps1)) =>
                           (match pMatch tokens ps1 [TokenType.TYPE] with
                            | Except.error e => (ps1, PRes.unit, some e)
                            | Except.ok (some (type_, ps2)) =>
                                -- a type cast
                                (match pExpect tokens ps2 TokenType.PAREN_CLOSE with
                                 | Except.error e => (ps2, PRes.unit, some e)
                                 | Except.ok (_, ps3) =>
                                     match pGo tokens filename fuel ps3 PReq.primaryReq with
                                     | (ps4, _, some e) => (ps4, PRes.unit, some e)
                                     | (ps4, rP, none) =>
                                         let p := rP.getExpr
                                         (ps4, PRes.expr (Expr.typeCast
                                           (paren_open.source_location.add p.source_location)
                                           type_ p Ty.unknown), none))
                            | Except.ok none =>
                                -- a grouping expression
                                match pGo tokens filename fuel ps1 PReq.expressionReq with
                                | (ps2, _, some e) => (ps2, PRes.unit, some e)
                                | (ps2, rE, none) =>
                                    match pExpect tokens ps2 TokenType.PAREN_CLOSE
                                        "expected closing parenthesis!" with
                                    | Except.error e => (ps2, PRes.unit, some e)
                                    | Except.ok (paren_close, ps3) =>
                                        (ps3, PRes.expr (Expr.unary
                                          (paren_open.source_location.add
                                            paren_close.source_location)
                                          ExpressionType.GROUPING rE.getExpr Ty.unknown), none))
                       | Except.ok none =>
                         match pMatch tokens ps [TokenType.NOT] with
                         | Except.error e => (ps, PRes.unit, some e)
                         | Except.ok (some (not_token, ps1)) =>
                             (match pGo tokens filename fuel ps1 PReq.primaryReq with
                              | (ps2, _, some e) => (ps2, PRes.unit, some e)
                              | (ps2, rE, none) =>
                                  let e := rE.getExpr
                                  (ps2, PRes.expr (Expr.unary
                                    (not_token.source_location.add e.source_location)
                                    ExpressionType.NOT e Ty.unknown), none))
                         | Except.ok none =>
                           match pMatch tokens ps [TokenType.MINUS] with
                           | Except.error e => (ps, PRes.unit, some e)
                           | Except.ok (some (minus_token, ps1)) =>
                               (match pGo tokens filename fuel ps1 PReq.primaryReq with
                                | (ps2, _, some e) => (ps2, PRes.unit, some e)
                                | (ps2, rE, none) =>
                                    let e := rE.getExpr
                                    (ps2, PRes.expr (Expr.unary
                                      (minus_token.source_location.add e.source_location)
                                      ExpressionType.MINUS e Ty.unknown), none))
                           | Except.ok none =>
                             match pMatch tokens ps [TokenType.INCREMENT] with
                             | Except.error e => (ps, PRes.unit, some e)
                             | Except.ok (some (increment_token, ps1)) =>
                                 (match pExpect tokens ps1 TokenType.IDENTIFIER with
                                  | Except.error e => (ps1, PRes.unit, some e)
                                  | Except.ok (identifier, ps2) =>
                                      let e := Expr.tokenExpr identifier.source_location
                                        identifier Ty.unknown
                                      (ps2, PRes.expr (Expr.unary
                                        (increment_token.source_location.add e.source_location)
                                        ExpressionType.PRE_INCREMENT e Ty.unknown), none))
                             | Except.ok none =>
                               match pMatch tokens ps [TokenType.DECREMENT] with
                               | Except.error e => (ps, PRes.unit, some e)
                               | Except.ok (some (decrement_token, ps1)) =>
                                   (match pExpect tokens ps1 TokenType.IDENTIFIER with
                                    | Except.error e => (ps1, PRes.unit, some e)
                                    | Except.ok (identifier, ps2) =>
                                        let e := Expr.tokenExpr identifier.source_location
                                          identifier Ty.unknown
                                        (ps2, PRes.expr (Expr.unary
                                          (decrement_token.source_location.add e.source_location)
                                          ExpressionType.PRE_DECREMENT e Ty.unknown), none))
                               | Except.ok none =>
                                 match pMatch tokens ps [TokenType.IDENTIFIER] with
                                 | Except.error e => (ps, PRes.unit, some e)
                                 | Except.ok (some (token, ps1)) =>
                                     pGo tokens filename fuel ps1
                                       (PReq.identifierExpressionReq token)
                                 | Except.ok none =>
                                   match pMatch tokens ps [TokenType.THIS] with
                                   | Except.error e => (ps, PRes.unit, some e)
                                   | Except.ok (some (this_token, ps1)) =>
                                       (if ps1.class_type.isNone then
                                          (ps1, PRes.unit,
                                           some "found \x27this\x27 while not in a class!")
                                        else
                                          match pExpect tokens ps1 TokenType.DOT with
                                          | Except.error e => (ps1, PRes.unit, some e)
                                          | Except.ok (_, ps2) =>
                                              match pExpect tokens ps2 TokenType.IDENTIFIER with
                                              | Except.error e => (ps2, PRes.unit, some e)
                                              | Except.ok (identifier, ps3) =>
                                                  match pGo tokens filename fuel ps3
                                                      (PReq.identifierExpressionReq identifier) with
                                                  | (ps4, _, some e) => (ps4, PRes.unit, some e)
                                                  | (ps4, rE, none) =>
                                                      let e := rE.getExpr
                                                      (ps4, PRes.expr (Expr.thisExpr
                                                        (this_token.source_location.add
                                                          e.source_location) e Ty.unknown), none))
                                   | Except.ok none =>
                                       (ps, PRes.unit,
                                        some "expected an expression!"))
      | PReq.stringExprLoop acc loc =>
          (match pConsume tokens ps with
           | Except.error e => (ps, PRes.unit, some e)
           | Except.ok (token, ps1) =>
               let acc1 := acc ++ [Sum.inl token]
               let loc1 := loc.add token.source_location
               if token.token_type = TokenType.STRING_END then
                 (ps1, PRes.expr (Expr.stringExpr loc1 acc1 "" Ty.unknown), none)
               else if token.token_type = TokenType.STRING_EXPR_START then
                 match pGo tokens filename fuel ps1 PReq.expressionReq with
                 | (ps2, _, some e) => (ps2, PRes.unit, some e)
                 | (ps2, rE, none) =>
                     let expression := rE.getExpr
                     match pMatch tokens ps2 [TokenType.STRING_EXPR_END] with
                     | Except.error e => (ps2, PRes.unit, some e)
                     | Except.ok (some (_, ps3)) =>
                         pGo tokens filename fuel ps3 (PReq.stringExprLoop
                           (acc1 ++ [Sum.inr expression])
                           (loc1.add expression.source_location))
                     | Except.ok none =>
                         match pMatch tokens ps2 [TokenType.EQUAL] with
                         | Except.error e => (ps2, PRes.unit, some e)
                         | Except.ok (some (equal_token, ps3)) =>
                             let seq := Expr.stringEqual
                               (expression.source_location.add equal_token.source_location)
                               expression equal_token filename Ty.unknown
                             pGo tokens filename fuel ps3 (PReq.stringExprLoop
                               (acc1 ++ [Sum.inr seq]) (loc1.add seq.source_location))
                         | Except.ok none =>
                             -- no modifier matched: the expression is dropped
                             pGo tokens filename fuel ps2 (PReq.stringExprLoop acc1 loc1)
               else
                 pGo tokens filename fuel ps1 (PReq.stringExprLoop acc1 loc1))
      | PReq.identifierExpressionReq token =>
          let expression := Expr.identifierExpr token.source_location token none none none
            Ty.unknown
          -- post increment / decrement
          (match pMatch tokens ps [TokenType.INCREMENT] with
           | Except.error e => (ps, PRes.unit, some e)
           | Except.ok (some (increment_token, ps1)) =>
               (ps1, PRes.expr (Expr.unary
                 (expression.source_location.add increment_token.source_location)
                 ExpressionType.POST_INCREMENT expression Ty.unknown), none)
           | Except.ok none =>
             match pMatch tokens ps [TokenType.DECREMENT] with
             | Except.error e => (ps, PRes.unit, some e)
             | Except.ok (some (decrement_token, ps1)) =>
                 (ps1, PRes.expr (Expr.unary
                   (expression.source_location.add decrement_token.source_location)
                   ExpressionType.POST_DECREMENT expression Ty.unknown), none)
             | Except.ok none =>
               -- a function call
               match pMatch tokens ps [TokenType.PAREN_OPEN] with
               | Except.error e => (ps, PRes.unit, some e)
               | Except.ok (some (_, ps1)) =>
                   pGo tokens filename fuel ps1 (PReq.callExpressionReq expression)
               | Except.ok none =>
                 -- a member access chain
                 match pMatch tokens ps [TokenType.DOT] with
                 | Except.error e => (ps, PRes.unit, some e)
                 | Except.ok (some (_, ps1)) =>
                     (match pExpect tokens ps1 TokenType.IDENTIFIER with
                      | Except.error e => (ps1, PRes.unit, some e)
                      | Except.ok (inner_token, ps2) =>
                          match pGo tokens filename fuel ps2
                              (PReq.identifierExpressionReq inner_token) with
                          | (ps3, _, some e) => (ps3, PRes.unit, some e)
                          | (ps3, rI, none) =>
                              (ps3, PRes.expr (Expr.identifierExpr token.source_location token
                                (some rI.getExpr) none none Ty.unknown), none))
                 | Except.ok none => (ps, PRes.expr expression, none))
      | PReq.callExpressionReq identExpr =>
          (match pMatch tokens ps [TokenType.PAREN_CLOSE] with
           | Except.error e => (ps, PRes.unit, some e)
           | Except.ok (some (paren_close, ps1)) =>
               (ps1, PRes.expr (Expr.call
                 (identExpr.source_location.add paren_close.source_location)
                 identExpr ps1.class_type [] false Ty.unknown), none)
           | Except.ok none =>
               match pGo tokens filename fuel ps (PReq.callArgsLoop []) with
               | (ps1, _, some e) => (ps1, PRes.unit, some e)
               | (ps1, rA, none) =>
                   match pExpect tokens ps1 TokenType.PAREN_CLOSE with
                   | Except.error e => (ps1, PRes.unit, some e)
                   | Except.ok (paren_close, ps2) =>
                       (ps2, PRes.expr (Expr.call
                         (identExpr.source_location.add paren_close.source_location)
                         identExpr ps2.class_type rA.getExprs false Ty.unknown), none))
      | PReq.callArgsLoop acc =>
          (match pGo tokens filename fuel ps PReq.expressionReq with
           | (ps1, _, some e) => (ps1, PRes.unit, some e)
           | (ps1, rE, none) =>
               let acc1 := acc ++ [rE.getExpr]
               match pMatch tokens ps1 [TokenType.COMMA] with
               | Except.error e => (ps1, PRes.unit, some e)
               | Except.ok (some (_, ps2)) => pGo tokens filename fuel ps2 (PReq.callArgsLoop acc1)
               | Except.ok none => (ps1, PRes.exprs acc1, none))
      | PReq.generateLoop acc errs =>
          (if pIsAtEnd tokens ps then (ps, PRes.prog acc errs, none)
           else
             match pGo tokens filename fuel ps (PReq.statement true) with
             | (ps1, r1, none) =>
                 pGo tokens filename fuel ps1 (PReq.generateLoop (acc ++ [r1.getStmt]) errs)
             | (ps1, _, some e) =>
                 -- recover: skip to the next newline, then over indents/dedents
                 match pGo tokens filename fuel ps1 PReq.skipToNewlineLoop with
                 | (ps2, _, some e2) => (ps2, PRes.prog acc (errs ++ [e, e2]), none)
                 | (ps2, _, none) =>
                     if pIsAtEnd tokens ps2 then (ps2, PRes.prog acc (errs ++ [e]), none)
                     else
                       match pGo tokens filename fuel ps2 PReq.skipIndentDedentLoop with
                       | (ps3, _, some e2) => (ps3, PRes.prog acc (errs ++ [e, e2]), none)
                       | (ps3, _, none) =>
                           pGo tokens filename fuel ps3 (PReq.generateLoop acc (errs ++ [e])))
      | PReq.skipToNewlineLoop =>
          (match pMatch tokens ps [TokenType.NEWLINE, TokenType.EOF] with
           | Except.error e => (ps, PRes.unit, some e)
           | Except.ok (some (_, ps1)) => (ps1, PRes.unit, none)
           | Except.ok none =>
               match pConsume tokens ps with
               | Except.error e => (ps, PRes.unit, some e)
               | Except.ok (_, ps1) => pGo tokens filename fuel ps1 PReq.skipToNewlineLoop)
      | PReq.skipIndentDedentLoop =>
          (match pMatch tokens ps [TokenType.INDENT, TokenType.DEDENT] with
           | Except.error e => (ps, PRes.unit, some e)
           | Except.ok (some (_, ps1)) => pGo tokens filename fuel ps1 PReq.skipIndentDedentLoop
           | Except.ok none => (ps, PRes.unit, none))

/-- `AstGenerator.generate`: parse statements until end of input with
per-statement recovery; returns the statements and the collected errors. -/
def pRun (fuel : Nat) (tokens : List Token) (filename : String) : List Stmt × List String :=
  match pGo tokens filename fuel pInit (PReq.generateLoop [] []) with
  | (_, PRes.prog statements errors, _) => (statements, errors)
  | _ => ([], ["internal compiler error, generate did not return a program!"])

/-!
The C emitter (`c_code` methods of `statements/*.py` and
`expressions/*.py`).

The only mutation in this layer is `CallExpression.consume`, which flags the
innermost call of an identifier chain as consumed so that its own `c_code`
renders empty; the embedding performs the flagging with the pure
`consumeCall` rewrite.  `Type.c_code` (in `types/type.py`) and
`TypeToken.c_code` (in `tokens/type_token.py`) are not among the sources.
Modelled from the spec: types render as their keyword (the emitted headers
typedef every keyword, §5 runtime layout), except a `list[T]`, which renders
as the instantiated template name `list_<T>` (§5 template file format). -/
def Ty.cCode (t : Ty) : String :=
  match t.variant with
  | TyVariant.listVariant inner => "list_" ++ inner
  | _ => t.keyword

/-- `Utils.get_source_text`: the slice of the source text covered by a
source location (the source reads the file back; the embedding stores the
file content in the expression's `filename` field). -/
def sourceText (content : String) (loc : SourceLocation) : String :=
  String.mk ((content.toList.drop loc.start).take loc.length)

/-- The identifier token string of an `IdentifierExpression`
(`CallExpression.consume` returns `self.expression.identifier_token`; empty
for other shapes, which the parser never produces there). -/
def Expr.identifierTokenStr : Expr → String
  | Expr.identifierExpr _ tk _ _ _ _ => tk.str
  | _ => ""

/-- `IdentifierExpression.inner_function_call`, lookup half: walk the chain
of inner identifier expressions; when the innermost inner expression is a
call, return the called identifier token. -/
def innerFunctionCall : Nat → Expr → Option Token
  | 0, _ => none
  | fuel + 1, e =>
      match e with
      | Expr.identifierExpr _ _ (some inner) _ _ _ =>
          (match inner with
           | Expr.identifierExpr a b c d f g =>
               innerFunctionCall fuel (Expr.identifierExpr a b c d f g)
           | Expr.call _ (Expr.identifierExpr _ tk _ _ _ _) _ _ _ _ => some tk
           | _ => none)
      | _ => none

/-- `IdentifierExpression.inner_function_call`, mutation half: the chain
with the innermost call expression flagged as consumed
(`CallExpression.consume` setting `call_consumed`). -/
def consumeCall : Nat → Expr → Expr
  | 0, e => e
  | fuel + 1, e =>
      match e with
      | Expr.identifierExpr l tk (some inner) ct lt t =>
          (match inner with
           | Expr.identifierExpr a b c d f g =>
               Expr.identifierExpr l tk
                 (some (consumeCall fuel (Expr.identifierExpr a b c d f g))) ct lt t
           | Expr.call l2 e2 c2 args2 _ t2 =>
               Expr.identifierExpr l tk (some (Expr.call l2 e2 c2 args2 true t2)) ct lt t
           | _ => e)
      | _ => e

/-- `IdentifierExpression.get_arguments`: the argument expressions of the
innermost call of the chain. -/
def innerCallArguments : Nat → Expr → List Expr
  | 0, _ => []
  | fuel + 1, e =>
      match e with
      | Expr.identifierExpr _ _ (some inner) _ _ _ =>
          (match inner with
           | Expr.identifierExpr a b c d f g =>
               innerCallArguments fuel (Expr.identifierExpr a b c d f g)
           | Expr.call _ _ _ args _ _ => args
           | _ => [])
      | _ => []

/-- Python `str.removesuffix(";")`, used by the for-loop emitter. -/
def removeSemicolonSuffix (s : String) : String :=
  if s.endsWith ";" then s.dropRight 1 else s

/-- The requests of the emitter traversal, one per `c_code` method or
emission loop. -/
inductive CReq where
  /-- `Expression.c_code`. -/
  | cexpr (e : Expr)
  /-- `IdentifierExpression._inner_c_code`. -/
  | cinner (e : Expr)
  /-- `Statement.c_code`. -/
  | cstmt (s : Stmt)
  /-- An emission loop appending `statement.c_code() + "\n"` per statement. -/
  | cstmtsNL (ss : List Stmt)
  /-- An emission loop appending `statement.c_code()` per statement
  (class variables and methods). -/
  | cstmtsCat (ss : List Stmt)
  /-- The `", ".join` tail over call arguments: `", " + c_code` each. -/
  | cargsRest (es : List Expr)
  /-- The format-string half of `StringExpression.c_code`, under a given
  `line_end`. -/
  | cfmt (elems : List (Token ⊕ Expr)) (line_end : String)
  /-- The arguments half of `StringExpression.c_code`: the `", ".join` tail
  over the collected arguments. -/
  | cstrArgsRest (elems : List (Token ⊕ Expr))
  /-- The else-if emission loop of `IfStatement.c_code`. -/
  | celifs (blocks : List (Expr × List Stmt))
  /-- The `", ".join` tail over declared arguments of a function or
  lifecycle statement: `", " + type c_code + " " + name` each. -/
  | cfnArgsRest (args : List (Token × Token))

/-- The emitter traversal: the `c_code` methods fused into one fuel-bounded
function over the request type. -/
def cGo : Nat → CReq → String
  | 0, _ => "<recursion fuel exhausted>"
  | fuel + 1, req =>
      match req with
      | CReq.cexpr e =>
          (match e with
           | Expr.binary _ tk left right _ =>
               "(" ++ cGo fuel (CReq.cexpr left) ++ " " ++ tk.token_type.value ++ " " ++
                 cGo fuel (CReq.cexpr right) ++ ")"
           | Expr.call _ inner ct args consumed _ =>
               if consumed then ""
               else
                 let function_name :=
                   match ct with
                   | some c => c.keyword ++ "_" ++ inner.identifierTokenStr
                   | none => inner.identifierTokenStr
                 let arguments_string :=
                   match ct with
                   | some _ => "this" ++ cGo fuel (CReq.cargsRest args)
                   | none =>
                       match args with
                       | [] => ""
                       | a :: rest => cGo fuel (CReq.cexpr a) ++ cGo fuel (CReq.cargsRest rest)
                 function_name ++ "(" ++ arguments_string ++ ")"
           | Expr.identifierExpr l tk inner ct lt t =>
               let self := Expr.identifierExpr l tk inner ct lt t
               let dereference := if t.is_reference then "" else "&"
               (match ct with
                | some c =>
                    (match innerFunctionCall fuel self with
                     | some name =>
                         let full_name := c.keyword ++ "_" ++ name.str
                         full_name ++ "(" ++ dereference ++
                           cGo fuel (CReq.cinner (consumeCall fuel self)) ++
                           cGo fuel (CReq.cargsRest (innerCallArguments fuel self)) ++ ")"
                     | none => cGo fuel (CReq.cinner self))
                | none =>
                    match lt with
                    | some listType =>
                        (match innerFunctionCall fuel self with
                         | some name =>
                             let innerKw := match listType.variant with
                               | TyVariant.listVariant k => k
                               | _ => listType.keyword
                             let full_name := "list_" ++ innerKw ++ "_" ++ name.str
                             full_name ++ "(" ++ dereference ++
                               cGo fuel (CReq.cinner (consumeCall fuel self)) ++
                               cGo fuel (CReq.cargsRest (innerCallArguments fuel self)) ++ ")"
                         | none =>
                             dereference ++ cGo fuel (CReq.cinner self))
                    | none => cGo fuel (CReq.cinner self))
           | Expr.stringEqual _ inner tk _ _ =>
               cGo fuel (CReq.cexpr inner) ++ tk.token_type.value
           | Expr.stringExpr _ elems line_end _ =>
               cGo fuel (CReq.cfmt elems line_end) ++ cGo fuel (CReq.cstrArgsRest elems)
           | Expr.thisExpr _ inner _ =>
               -- `expressions/this_expression.py` is not among the sources;
               -- modelled from the spec: this-prefixed member access lowers
               -- as a dereference of the implicit this pointer
               "this->" ++ cGo fuel (CReq.cexpr inner)
           | Expr.tokenExpr _ tk _ =>
               (match tk.token_type with
                | TokenType.CHARACTER => "\x27" ++ tk.str ++ "\x27"
                | TokenType.NUMBER => tk.str
                | TokenType.STRING_CHARS => "\"" ++ tk.str ++ "\""
                | TokenType.IDENTIFIER => tk.str
                | TokenType.NULL => "0"
                | _ => tk.token_type.value)
           | Expr.typeCast _ cast_to inner _ =>
               "((" ++ cast_to.ty.cCode ++ ")" ++ cGo fuel (CReq.cexpr inner) ++ ")"
           | Expr.unary _ expression_type inner _ =>
               match expression_type with
               | ExpressionType.GROUPING => "(" ++ cGo fuel (CReq.cexpr inner) ++ ")"
               | ExpressionType.NOT => "(!(" ++ cGo fuel (CReq.cexpr inner) ++ "))"
               | ExpressionType.MINUS => "(-(" ++ cGo fuel (CReq.cexpr inner) ++ "))"
               | ExpressionType.POST_DECREMENT => "((" ++ cGo fuel (CReq.cexpr inner) ++ ")--)"
               | ExpressionType.POST_INCREMENT => "((" ++ cGo fuel (CReq.cexpr inner) ++ ")++)"
               | ExpressionType.PRE_DECREMENT => "(--(" ++ cGo fuel (CReq.cexpr inner) ++ "))"
               | ExpressionType.PRE_INCREMENT => "(++(" ++ cGo fuel (CReq.cexpr inner) ++ "))")
      | CReq.cinner e =>
          (match e with
           | Expr.identifierExpr _ tk (some inner) _ _ t =>
               let join := if t.is_reference then "->" else "."
               let inner_code := cGo fuel (CReq.cexpr inner)
               if inner_code ≠ "" then tk.str ++ join ++ cGo fuel (CReq.cexpr inner)
               else tk.str
           | Expr.identifierExpr _ tk none _ _ _ => tk.str
           | _ => "")
      | CReq.cstmt s =>
          (match s with
           | Stmt.assignment _ target assignment_token value =>
               cGo fuel (CReq.cexpr target) ++ " " ++ assignment_token.token_type.value ++ " " ++
                 cGo fuel (CReq.cexpr value) ++ ";"
           | Stmt.breakStmt _ => "break;"
           | Stmt.breakall _ label => "goto " ++ label ++ ";"
           | Stmt.classStmt l class_type variables_ functions ctor dtor =>
               let k := class_type.keyword
               let ctorS := match ctor with
                 | some c => c
                 | none => Stmt.lifecycle l LifecycleStatementType.CONSTRUCTOR class_type [] []
               let dtorS := match dtor with
                 | some d => d
                 | none => Stmt.lifecycle l LifecycleStatementType.DESTRUCTOR class_type [] []
               "typedef struct " ++ k ++ "_struct " ++ k ++ ";\n" ++
                 "struct " ++ k ++ "_struct \x7b\n" ++ cGo fuel (CReq.cstmtsCat variables_) ++
                 "\x7d;\n" ++ cGo fuel (CReq.cstmt ctorS) ++ "\n" ++
                 cGo fuel (CReq.cstmt dtorS) ++ "\n" ++ cGo fuel (CReq.cstmtsCat functions)
           | Stmt.continueStmt _ => "continue;"
           | Stmt.exprStmt _ inner => cGo fuel (CReq.cexpr inner) ++ ";"
           | Stmt.forLoop _ _ breakall_label init check loop statements =>
               let init_code := removeSemicolonSuffix (match init with
                 | some st => cGo fuel (CReq.cstmt st)
                 | none => "")
               let check_code := match check with
                 | some c => cGo fuel (CReq.cexpr c)
                 | none => ""
               let loop_code := removeSemicolonSuffix (match loop with
                 | some st => cGo fuel (CReq.cstmt st)
                 | none => "")
               let code := "for (" ++ init_code ++ "; " ++ check_code ++ "; " ++ loop_code ++
                 ") \x7b\n" ++ cGo fuel (CReq.cstmtsNL statements) ++ "\x7d"
               (match breakall_label with
                | some label => if label = "" then code else code ++ "\n" ++ label ++ ":;"
                | none => code)
           | Stmt.functionStmt _ return_type name class_type arguments statements =>
               let function_name := match class_type with
                 | some c => c.keyword ++ "_" ++ name.str
                 | none => name.str
               let arguments_string := match class_type with
                 | some c => c.keyword ++ "* this" ++ cGo fuel (CReq.cfnArgsRest arguments)
                 | none =>
                     match arguments with
                     | [] => ""
                     | (t, n) :: rest =>
                         t.ty.cCode ++ " " ++ n.str ++ cGo fuel (CReq.cfnArgsRest rest)
               return_type.ty.cCode ++ " " ++ function_name ++ "(" ++ arguments_string ++ ")" ++
                 " \x7b\n" ++ cGo fuel (CReq.cstmtsNL statements) ++ "\x7d"
           | Stmt.ifStmt _ expression statements blocks else_statements =>
               let code := "if (" ++ cGo fuel (CReq.cexpr expression) ++ ") \x7b\n" ++
                 cGo fuel (CReq.cstmtsNL statements) ++ "\x7d" ++ cGo fuel (CReq.celifs blocks)
               (match else_statements with
                | some ss => code ++ " else \x7b\n" ++ cGo fuel (CReq.cstmtsNL ss) ++ "\x7d"
                | none => code)
           | Stmt.lifecycle _ statement_type type_ arguments statements =>
               let head := match statement_type with
                 | LifecycleStatementType.CONSTRUCTOR => "void " ++ type_.cCode ++ "_constructor("
                 | LifecycleStatementType.DESTRUCTOR => "void " ++ type_.cCode ++ "_destructor("
               head ++ type_.cCode ++ "* this" ++ cGo fuel (CReq.cfnArgsRest arguments) ++
                 ")\x7b" ++ cGo fuel (CReq.cstmtsNL statements) ++ "\x7d"
           | Stmt.listStmt _ list_type name =>
               let list_base := list_type.cCode
               list_base ++ " " ++ name.str ++ ";" ++ list_base ++ "_constructor(&" ++
                 name.str ++ ");"
           | Stmt.printStmt _ line_end value =>
               (match value with
                | Expr.stringExpr _ elems _ _ =>
                    "printf(" ++ cGo fuel (CReq.cfmt elems line_end) ++
                      cGo fuel (CReq.cstrArgsRest elems) ++ ");"
                | _ =>
                    "printf(\"" ++ getTypeFormatString fuel value ++ line_end ++ "\", " ++
                      cGo fuel (CReq.cexpr value) ++ ");")
           | Stmt.returnStmt _ value =>
               (match value with
                | some v => "return " ++ cGo fuel (CReq.cexpr v) ++ ";"
                | none => "return;")
           | Stmt.varDecl _ type_token name initial_value =>
               match initial_value with
               | some v =>
                   type_token.ty.cCode ++ " " ++ name.str ++ " = " ++
                     cGo fuel (CReq.cexpr v) ++ ";"
               | none => type_token.str ++ " " ++ name.str ++ ";")
      | CReq.cstmtsNL ss =>
          (match ss with
           | [] => ""
           | s :: rest => cGo fuel (CReq.cstmt s) ++ "\n" ++ cGo fuel (CReq.cstmtsNL rest))
      | CReq.cstmtsCat ss =>
          (match ss with
           | [] => ""
           | s :: rest => cGo fuel (CReq.cstmt s) ++ cGo fuel (CReq.cstmtsCat rest))
      | CReq.cargsRest es =>
          (match es with
           | [] => ""
           | e :: rest => ", " ++ cGo fuel (CReq.cexpr e) ++ cGo fuel (CReq.cargsRest rest))
      | CReq.cfmt elems line_end =>
          (match elems with
           | [] => ""
           | Sum.inl tok :: rest =>
               (match tok.token_type with
                | TokenType.STRING_START => "\""
                | TokenType.STRING_END => line_end ++ "\""
                | TokenType.STRING_CHARS => tok.stringCharsValue
                | _ => "") ++ cGo fuel (CReq.cfmt rest line_end)
           | Sum.inr e :: rest =>
               (match e with
                | Expr.stringEqual _ inner _ _ _ => "%s" ++ getTypeFormatString fuel inner
                | _ => getTypeFormatString fuel e) ++ cGo fuel (CReq.cfmt rest line_end))
      | CReq.cstrArgsRest elems =>
          (match elems with
           | [] => ""
           | Sum.inl _ :: rest => cGo fuel (CReq.cstrArgsRest rest)
           | Sum.inr e :: rest =>
               (match e with
                | Expr.stringEqual loc inner _ content _ =>
                    ", \"" ++ sourceText content loc ++ "\", " ++ cGo fuel (CReq.cexpr inner)
                | _ => ", " ++ cGo fuel (CReq.cexpr e)) ++ cGo fuel (CReq.cstrArgsRest rest))
      | CReq.celifs blocks =>
          (match blocks with
           | [] => ""
           | (e, ss) :: rest =>
               " else " ++ "if (" ++ cGo fuel (CReq.cexpr e) ++ ") \x7b\n" ++
                 cGo fuel (CReq.cstmtsNL ss) ++ "\x7d" ++ cGo fuel (CReq.celifs rest))
      | CReq.cfnArgsRest args =>
          (match args with
           | [] => ""
           | (t, n) :: rest =>
               ", " ++ t.ty.cCode ++ " " ++ n.str ++ cGo fuel (CReq.cfnArgsRest rest))

/-- `Statement.c_code` of one statement, with ample fuel. -/
def stmtCCode (fuel : Nat) (s : Stmt) : String :=
  cGo fuel (CReq.cstmt s)

/-!
Concrete programs used by the claim theorems.  Token streams follow the
tokeniser's output format (INDENT/DEDENT pairs around blocks, NEWLINE
terminators, EOF last); the accompanying strings are the source texts the
offsets index into.
-/

/-- The initial registry's lookup table, as the driver hands it to the
passes. -/
def tyTable : List (String × Ty) := TypesReg.init.table

/-- A user class type named `C`. -/
def cTy : Ty := Ty.mkClass "C"

/-- The list type `list[char]`. -/
def listCharTy : Ty := Ty.mkList Ty.mkCharacter

/-- Token stream of the one-statement program `u8 x = 300`. -/
def c1Tokens : List Token :=
  [tokTy 0 2 u8Ty, tokId 3 "x", tokK 5 1 TokenType.EQUAL, tokNum 7 3 300,
   tokK 10 1 TokenType.NEWLINE, tokK 10 0 TokenType.EOF]

/-- Source text of the `u8 x = 300` program. -/
def c1Src : String := "u8 x = 300\n"

/-- The `u8 x = 300` program as parsed. -/
def c1Parsed : List Stmt × List String := pRun 100 c1Tokens c1Src

/-- The typing pass run over the parsed `u8 x = 300` program. -/
def c1Typed : TpState × List Stmt := tpRun 100 tyTable c1Parsed.1

/-- Source text of the program `u8 x = 5` / `println("value is {x=}")`. -/
def c9Src : String := "u8 x = 5\nprintln(\"value is \x7bx=\x7d\")\n"

/-- Token stream of the `println("value is {x=}")` program. -/
def c9Tokens : List Token :=
  [tokTy 0 2 u8Ty, tokId 3 "x", tokK 5 1 TokenType.EQUAL, tokNum 7 1 5,
   tokK 8 1 TokenType.NEWLINE,
   tokK 9 7 TokenType.PRINTLN, tokK 16 1 TokenType.PAREN_OPEN,
   tokK 17 1 TokenType.STRING_START,
   ⟨⟨18, 9⟩, TokenType.STRING_CHARS, TokenData.stringChars "value is "⟩,
   tokK 27 1 TokenType.STRING_EXPR_START, tokId 28 "x", tokK 29 1 TokenType.EQUAL,
   tokK 30 1 TokenType.STRING_EXPR_END, tokK 31 1 TokenType.STRING_END,
   tokK 32 1 TokenType.PAREN_CLOSE, tokK 33 1 TokenType.NEWLINE, tokK 33 0 TokenType.EOF]

/-- The `println` program as parsed. -/
def c9Parsed : List Stmt × List String := pRun 500 c9Tokens c9Src

/-- The typing pass run over the parsed `println` program. -/
def c9Typed : TpState × List Stmt := tpRun 500 tyTable c9Parsed.1

/-- The C code emitted for the program's print statement. -/
def c9PrintCode : String :=
  match c9Typed.2 with
  | [_, p] => stmtCCode 500 p
  | _ => "<unexpected program shape>"

/-- C3: a class `C` with a constructor taking a `u8 n` argument, followed
by a module-scope variable declaration `u8 y = 1`. -/
def c3Prog : List Stmt :=
  [Stmt.classStmt ⟨0, 20⟩ cTy [] []
     (some (Stmt.lifecycle ⟨9, 10⟩ LifecycleStatementType.CONSTRUCTOR cTy
       [(tokTy 11 2 u8Ty, tokId 14 "n")] [])) none,
   Stmt.varDecl ⟨21, 8⟩ (tokTy 21 2 u8Ty) (tokId 24 "y")
     (some (Expr.tokenExpr ⟨28, 1⟩ (tokNum 28 1 1) Ty.unknown))]

/-- The typing pass run over the C3 program. -/
def c3Typed : TpState × List Stmt := tpRun 200 tyTable c3Prog

/-- C5: class `C` with a method `u32 m()`; a variable `C a`; the chain call
`a.m()` as an expression statement. -/
def c5aProg : List Stmt :=
  [Stmt.classStmt ⟨0, 30⟩ cTy []
     [Stmt.functionStmt ⟨9, 20⟩ (tokTy 9 3 u32Ty) (tokId 13 "m") (some cTy) []
        [Stmt.returnStmt ⟨20, 8⟩ (some (Expr.tokenExpr ⟨27, 1⟩ (tokNum 27 1 1) Ty.unknown))]]
     none none,
   Stmt.varDecl ⟨31, 3⟩ (tokTy 31 1 cTy) (tokId 33 "a") none,
   Stmt.exprStmt ⟨35, 5⟩ (Expr.identifierExpr ⟨35, 5⟩ (tokId 35 "a")
     (some (Expr.call ⟨37, 3⟩ (Expr.identifierExpr ⟨37, 1⟩ (tokId 37 "m") none none none Ty.unknown)
        none [] false Ty.unknown)) none none Ty.unknown)]

/-- The typing pass run over the C5 method-call program. -/
def c5aTyped : TpState × List Stmt := tpRun 300 tyTable c5aProg

/-- The typed chain expression `a.m()` of the C5 method-call program. -/
def c5aChain : Expr :=
  match c5aTyped.2 with
  | [_, _, Stmt.exprStmt _ e] => e
  | _ => default

/-- C5: class `C` with a member `u32 b`; a module variable `u16 b`; a
variable `C a`; the chain `a.b` as an expression statement. -/
def c5bProg : List Stmt :=
  [Stmt.classStmt ⟨0, 12⟩ cTy
     [Stmt.varDecl ⟨9, 5⟩ (tokTy 9 3 u32Ty) (tokId 13 "b") none] [] none none,
   Stmt.varDecl ⟨15, 9⟩ (tokTy 15 3 u16Ty) (tokId 19 "b")
     (some (Expr.tokenExpr ⟨23, 1⟩ (tokNum 23 1 7) Ty.unknown)),
   Stmt.varDecl ⟨26, 3⟩ (tokTy 26 1 cTy) (tokId 28 "a") none,
   Stmt.exprStmt ⟨30, 3⟩ (Expr.identifierExpr ⟨30, 3⟩ (tokId 30 "a")
     (some (Expr.identifierExpr ⟨32, 1⟩ (tokId 32 "b") none none none Ty.unknown))
     none none Ty.unknown)]

/-- The typing pass run over the C5 member-chain program. -/
def c5bTyped : TpState × List Stmt := tpRun 300 tyTable c5bProg

/-- The typed chain expression `a.b` of the C5 member-chain program. -/
def c5bChain : Expr :=
  match c5bTyped.2 with
  | [_, _, _, Stmt.exprStmt _ e] => e
  | _ => default

/-- C6: a `list[char] l`, then the method calls `l.size(1, 2)` (two spurious
arguments) and `l.size()`. -/
def c6Prog : List Stmt :=
  [Stmt.listStmt ⟨0, 12⟩ listCharTy (tokId 11 "l"),
   Stmt.exprStmt ⟨13, 10⟩ (Expr.identifierExpr ⟨13, 10⟩ (tokId 13 "l")
     (some (Expr.call ⟨15, 8⟩ (Expr.identifierExpr ⟨15, 4⟩ (tokId 15 "size") none none none Ty.unknown)
        none [Expr.tokenExpr ⟨20, 1⟩ (tokNum 20 1 1) Ty.unknown,
              Expr.tokenExpr ⟨22, 1⟩ (tokNum 22 1 2) Ty.unknown] false Ty.unknown))
     none none Ty.unknown),
   Stmt.exprStmt ⟨24, 8⟩ (Expr.identifierExpr ⟨24, 8⟩ (tokId 24 "l")
     (some (Expr.call ⟨26, 6⟩ (Expr.identifierExpr ⟨26, 4⟩ (tokId 26 "size") none none none Ty.unknown)
        none [] false Ty.unknown))
     none none Ty.unknown)]

/-- The typing pass run over the C6 list-call program. -/
def c6Typed : TpState × List Stmt := tpRun 300 tyTable c6Prog

/-- C7 / S2: `u8 f(u16 x): return x` followed by the call `f(1000)`. -/
def s2Prog : List Stmt :=
  [Stmt.functionStmt ⟨0, 20⟩ (tokTy 0 2 u8Ty) (tokId 3 "f") none
     [(tokTy 5 3 u16Ty, tokId 9 "x")]
     [Stmt.returnStmt ⟨14, 8⟩ (some (Expr.identifierExpr ⟨21, 1⟩ (tokId 21 "x")
        none none none Ty.unknown))],
   Stmt.exprStmt ⟨23, 7⟩ (Expr.call ⟨23, 7⟩
     (Expr.identifierExpr ⟨23, 1⟩ (tokId 23 "f") none none none Ty.unknown) none
     [Expr.tokenExpr ⟨25, 4⟩ (tokNum 25 4 1000) Ty.unknown] false Ty.unknown)]

/-- The typing pass run over the S2 program. -/
def s2Typed : TpState × List Stmt := tpRun 200 tyTable s2Prog

/-- Token stream of the self-referencing declaration `u8 x = x`. -/
def c10Tokens : List Token :=
  [tokTy 0 2 u8Ty, tokId 3 "x", tokK 5 1 TokenType.EQUAL, tokId 7 "x",
   tokK 8 1 TokenType.NEWLINE, tokK 8 0 TokenType.EOF]

/-- Source text of the `u8 x = x` program. -/
def c10Src : String := "u8 x = x\n"

/-- The `u8 x = x` program as parsed. -/
def c10Parsed : List Stmt × List String := pRun 100 c10Tokens c10Src

/-- The scoping pass run over the parsed `u8 x = x` program. -/
def c10Scoped : SpState := spRun 100 c10Parsed.1

/-- The typing pass run over the parsed `u8 x = x` program. -/
def c10Typed : TpState × List Stmt := tpRun 100 tyTable c10Parsed.1

/-- Token stream of the declaration `u8 x = ++x` (the initializer contains a
`TokenExpression` identifier, which the scoping pass does check). -/
def c10bTokens : List Token :=
  [tokTy 0 2 u8Ty, tokId 3 "x", tokK 5 1 TokenType.EQUAL, tokK 7 2 TokenType.INCREMENT,
   tokId 9 "x", tokK 10 1 TokenType.NEWLINE, tokK 10 0 TokenType.EOF]

/-- The `u8 x = ++x` program as parsed. -/
def c10bParsed : List Stmt × List String := pRun 100 c10bTokens "u8 x = ++x\n"

/-- The scoping pass run over the parsed `u8 x = ++x` program. -/
def c10bScoped : SpState := spRun 100 c10bParsed.1

/-- The typing pass run over the parsed `u8 x = ++x` program. -/
def c10bTyped : TpState × List Stmt := tpRun 100 tyTable c10bParsed.1

/-- C1.  For the one-statement program `u8 x = 300`, the parser accepts, the
scoping pass accepts, and the typing pass also accepts — the error list is
empty, so the compiler does not exit with code 1 — even though the range
checker `_check_number_token` sitting unused in the pass would have produced
exactly the error the spec promises.  The spec's claimed rejection does not
happen: the call to the checker is missing (a `TODO` in
`TypingPass._check_types`), so the out-of-range literal is accepted. -/
theorem tapl_c1_range_check_never_runs :
    c1Parsed.2 = [] ∧
    (spRun 100 c1Parsed.1).errors = [] ∧
    c1Typed.1.errors = [] ∧
    tpCheckNumberToken u8Ty 300 =
      Except.error "can\x27t assign \x27300\x27 to \x27u8\x27, value must be between [0, 255]!" := by
  refine ⟨rfl, rfl, rfl, rfl⟩

/-- C9.  For `u8 x = 5` / `println("value is \x7bx=\x7d")`, the pipeline emits a
single printf call — but its format specifier is `%u` (unsigned `u8`), not
the `%d` the spec claims, and the `%s` argument is the literal source text
`"x="` (the source location of a string-equal expression spans the
identifier and the equals sign), not `"x"`. -/
theorem tapl_c9_println_emission :
    c9Parsed.2 = [] ∧
    c9Typed.1.errors = [] ∧
    c9PrintCode = "printf(\"value is %s%u\\n\", \"x=\", x);" := by
  refine ⟨rfl, rfl, rfl⟩

/-- Whether the second character list is a prefix of the first. -/
def charsHavePrefix : List Char → List Char → Bool
  | _, [] => true
  | [], _ :: _ => false
  | c :: rest, p :: prest => c = p && charsHavePrefix rest prest

/-- Whether the second character list occurs inside the first. -/
def charsHaveSubstr (s pat : List Char) : Bool :=
  match s with
  | [] => pat.isEmpty
  | _ :: rest => charsHavePrefix s pat || charsHaveSubstr rest pat

/-- Whether `pat` occurs as a substring of `s`. -/
def strHasSubstr (s pat : String) : Bool :=
  charsHaveSubstr s.toList pat.toList

/-- Whether `s` ends with `pat`. -/
def strHasSuffix (s pat : String) : Bool :=
  charsHavePrefix s.toList.reverse pat.toList.reverse

/-- C9 counterexample.  The emitted printf's format string does not end in
`%s%d\n"` (it ends in `%s%u\n"`: a `u8` is unsigned) and its string-literal
argument is `"x="`, not `"x"` — both against the spec's sentence. -/
theorem tapl_c9_counterexample :
    strHasSuffix c9PrintCode "%s%u\\n\", \"x=\", x);" = true ∧
    strHasSubstr c9PrintCode "%d" = false ∧
    strHasSubstr c9PrintCode ", \"x\"," = false := by
  refine ⟨rfl, rfl, rfl⟩

/-- The requests of the typing traversal that belong to expression checking:
these never append to the error list themselves (errors surface as
exceptions), so the only possible growth is the fuel-exhaustion message. -/
def TpReq.exprFamily : TpReq → Bool
  | TpReq.expr _ => true
  | TpReq.exprOpt _ => true
  | TpReq.exprList _ => true
  | TpReq.checkFunction _ _ _ => true
  | TpReq.checkArgs _ _ _ _ => true
  | TpReq.strElems _ => true
  | _ => false

/-- Expression checking only ever appends to the error list (and in fact
appends nothing but the fuel-exhaustion message): the initial error list is
a prefix of the final one. -/
theorem tpGo_expr_errors_prefix :
    ∀ fuel st req, TpReq.exprFamily req = true →
      st.errors <+: (tpGo fuel st req).1.errors := by
  intro fuel
  induction fuel with
  | zero =>
      intro st req _
      simpa [tpGo] using List.prefix_append st.errors _
  | succ fuel ih =>
      intro st req hfam
      have step : ∀ (st₀ : TpState) (req₀ : TpReq) {st₁ : TpState} {r₁ : TpRes}
          {e₁ : Option String}, TpReq.exprFamily req₀ = true →
          tpGo fuel st₀ req₀ = (st₁, r₁, e₁) → st₀.errors <+: st₁.errors := by
        intro st₀ req₀ st₁ r₁ e₁ hf h
        have := ih st₀ req₀ hf
        rw [h] at this
        exact this
      match req with
      | TpReq.expr e =>
          match e with
          | Expr.binary loc tk left right ty =>
              rcases h1 : tpGo fuel st (TpReq.expr left) with ⟨st1, rl, e1⟩
              have p1 := step st (TpReq.expr left) rfl h1
              match e1 with
              | some er => simpa [tpGo, h1] using p1
              | none =>
                  rcases h2 : tpGo fuel st1 (TpReq.expr right) with ⟨st2, rr, e2⟩
                  have p2 := p1.trans (step st1 (TpReq.expr right) rfl h2)
                  match e2 with
                  | some er => simpa [tpGo, h1, h2] using p2
                  | none =>
                      rcases h3 : tpCheckTypes (getExpressionType fuel rl.getExpr)
                          (getExpressionType fuel rr.getExpr) with t | t <;>
                        simpa [tpGo, h1, h2, h3] using p2
          | Expr.call loc callee ct0 args cc ty =>
              match callee with
              | Expr.identifierExpr iloc tok inner ict ilt ity =>
                  match inner with
                  | some _ => simpa [tpGo] using List.prefix_rfl
                  | none =>
                      match hstk : st.identifier_stack with
                      | type_ :: _ =>
                          by_cases hl : type_.isList = true
                          · rcases h1 : tpGo fuel st (TpReq.exprList args) with ⟨st1, ra, e1⟩
                            have p1 := step st (TpReq.exprList args) rfl h1
                            match e1 with
                            | some er => simpa [tpGo, hstk, hl, h1] using p1
                            | none =>
                                rcases h2 : lookupStr type_.callable_functions tok.identValue
                                    with _ | rk <;> simpa [tpGo, hstk, hl, h1, h2] using p1
                          · by_cases hc : type_.isClass = true
                            · rcases h2 : lookupStr st.class_scopes type_.keyword with _ | cscope
                              · simpa [tpGo, hstk, hl, hc, h2] using List.prefix_rfl
                              · rcases h3 : lookupFunction cscope tok.identValue with _ | f
                                · simpa [tpGo, hstk, hl, hc, h2, h3] using List.prefix_rfl
                                · rcases h4 : tpGo fuel st (TpReq.checkFunction f tok args)
                                      with ⟨st1, ra, e1⟩
                                  have p1 := step st (TpReq.checkFunction f tok args) rfl h4
                                  match e1 with
                                  | some er => simpa [tpGo, hstk, hl, hc, h2, h3, h4] using p1
                                  | none => simpa [tpGo, hstk, hl, hc, h2, h3, h4] using p1
                            · simpa [tpGo, hstk, hl, hc] using List.prefix_rfl
                      | [] =>
                          rcases h1 : lookupFunction st.scope_wrapper tok.identValue with _ | f
                          · simpa [tpGo, hstk, h1] using List.prefix_rfl
                          · rcases h2 : tpGo fuel st (TpReq.checkFunction f tok args)
                                with ⟨st1, ra, e1⟩
                            have p1 := step st (TpReq.checkFunction f tok args) rfl h2
                            match e1 with
                            | some er => simpa [tpGo, hstk, h1, h2] using p1
                            | none =>
                                rcases h3 : tpGetIdentifierType st1 tok with er | t <;>
                                  simpa [tpGo, hstk, h1, h2, h3] using p1
              | Expr.binary a b c d f => simpa [tpGo] using List.prefix_rfl
              | Expr.call a b c d f g => simpa [tpGo] using List.prefix_rfl
              | Expr.stringEqual a b c d f => simpa [tpGo] using List.prefix_rfl
              | Expr.stringExpr a b c d => simpa [tpGo] using List.prefix_rfl
              | Expr.thisExpr a b c => simpa [tpGo] using List.prefix_rfl
              | Expr.tokenExpr a b c => simpa [tpGo] using List.prefix_rfl
              | Expr.typeCast a b c d => simpa [tpGo] using List.prefix_rfl
              | Expr.unary a b c d => simpa [tpGo] using List.prefix_rfl
          | Expr.identifierExpr loc tok inner ct lt ty =>
              rcases h1 : tpGetIdentifierType
                  { st with scope_wrapper := addScope st.scope_wrapper } tok with er | type_
              · simpa [tpGo, h1] using List.prefix_rfl
              · match inner with
                | some innerE =>
                    rcases h2 : tpGo fuel
                        { st with scope_wrapper := addScope st.scope_wrapper,
                                  identifier_stack := type_ :: st.identifier_stack }
                        (TpReq.expr innerE) with ⟨st3, ri, e2⟩
                    have p2 := step _ (TpReq.expr innerE) rfl h2
                    match e2 with
                    | some er => simpa [tpGo, h1, h2] using p2
                    | none => simpa [tpGo, h1, h2] using p2
                | none =>
                    rcases h2 : tpGetIdentifierType
                        { st with scope_wrapper :=
                            removeScope (addScope st.scope_wrapper) } tok with er | t2 <;>
                      simpa [tpGo, h1, h2] using List.prefix_rfl
          | Expr.stringEqual loc inner tk f ty =>
              rcases h1 : tpGo fuel st (TpReq.expr inner) with ⟨st1, ri, e1⟩
              have p1 := step st (TpReq.expr inner) rfl h1
              match e1 with
              | some er => simpa [tpGo, h1] using p1
              | none => simpa [tpGo, h1] using p1
          | Expr.stringExpr loc elems le ty =>
              rcases h1 : tpGo fuel st (TpReq.strElems elems) with ⟨st1, rs, e1⟩
              have p1 := step st (TpReq.strElems elems) rfl h1
              match e1 with
              | some er => simpa [tpGo, h1] using p1
              | none => simpa [tpGo, h1] using p1
          | Expr.thisExpr loc inner ty =>
              rcases h1 : tpGo fuel st (TpReq.expr inner) with ⟨st1, ri, e1⟩
              have p1 := step st (TpReq.expr inner) rfl h1
              match e1 with
              | some er => simpa [tpGo, h1] using p1
              | none => simpa [tpGo, h1] using p1
          | Expr.tokenExpr loc tok ty =>
              match htok : tok.data with
              | TokenData.character c => simpa [tpGo, htok] using List.prefix_rfl
              | TokenData.number n => simpa [tpGo, htok] using List.prefix_rfl
              | TokenData.stringChars sc => simpa [tpGo, htok] using List.prefix_rfl
              | TokenData.identifier idv =>
                  rcases h1 : tpGetIdentifierType st tok with er | t <;>
                    simpa [tpGo, htok, h1] using List.prefix_rfl
              | TokenData.nothing =>
                  match htt : tok.token_type with
                  | TokenType.TRUE => simpa [tpGo, htok, htt] using List.prefix_rfl
                  | TokenType.FALSE => simpa [tpGo, htok, htt] using List.prefix_rfl
                  | TokenType.NULL => simpa [tpGo, htok, htt] using List.prefix_rfl
                  | t =>
                      simp only [tpGo, htok, htt]
                      split <;> exact List.prefix_rfl
              | TokenData.typeData td =>
                  match htt : tok.token_type with
                  | TokenType.TRUE => simpa [tpGo, htok, htt] using List.prefix_rfl
                  | TokenType.FALSE => simpa [tpGo, htok, htt] using List.prefix_rfl
                  | TokenType.NULL => simpa [tpGo, htok, htt] using List.prefix_rfl
                  | t =>
                      simp only [tpGo, htok, htt]
                      split <;> exact List.prefix_rfl
          | Expr.typeCast loc cast_to expr ty =>
              rcases h1 : tpGo fuel st (TpReq.expr expr) with ⟨st1, ri, e1⟩
              have p1 := step st (TpReq.expr expr) rfl h1
              match e1 with
              | some er => simpa [tpGo, h1] using p1
              | none =>
                  simp only [tpGo, h1]
                  split <;> exact p1
          | Expr.unary loc et expr ty =>
              rcases h1 : tpGo fuel st (TpReq.expr expr) with ⟨st1, ri, e1⟩
              have p1 := step st (TpReq.expr expr) rfl h1
              match e1 with
              | some er => simpa [tpGo, h1] using p1
              | none =>
                  by_cases h2 : et = ExpressionType.GROUPING
                  · simpa [tpGo, h1, h2] using p1
                  · by_cases h3 : (getExpressionType fuel ri.getExpr).isNumeric = true <;>
                      simpa [tpGo, h1, h2, h3] using p1
      | TpReq.exprOpt e =>
          match e with
          | none => simpa [tpGo] using List.prefix_rfl
          | some e' =>
              rcases h1 : tpGo fuel st (TpReq.expr e') with ⟨st1, re, e1⟩
              have p1 := step st (TpReq.expr e') rfl h1
              simpa [tpGo, h1] using p1
      | TpReq.exprList l =>
          match l with
          | [] => simpa [tpGo] using List.prefix_rfl
          | e :: rest =>
              rcases h1 : tpGo fuel st (TpReq.expr e) with ⟨st1, re, e1⟩
              have p1 := step st (TpReq.expr e) rfl h1
              match e1 with
              | some er => simpa [tpGo, h1] using p1
              | none =>
                  rcases h2 : tpGo fuel st1 (TpReq.exprList rest) with ⟨st2, rr, e2⟩
                  have p2 := p1.trans (step st1 (TpReq.exprList rest) rfl h2)
                  simpa [tpGo, h1, h2] using p2
      | TpReq.checkFunction f callTok args =>
          match f with
          | Stmt.functionStmt a b c d params e =>
              by_cases h1 : params.length ≠ args.length
              · simpa [tpGo, h1] using List.prefix_rfl
              · rcases h2 : tpGo fuel st (TpReq.checkArgs callTok params args 0)
                    with ⟨st1, r1, e1⟩
                have p1 := step st (TpReq.checkArgs callTok params args 0) rfl h2
                simpa [tpGo, h1, h2] using p1
          | Stmt.assignment a b c d => simpa [tpGo] using List.prefix_rfl
          | Stmt.breakStmt a => simpa [tpGo] using List.prefix_rfl
          | Stmt.breakall a b => simpa [tpGo] using List.prefix_rfl
          | Stmt.classStmt a b c d e f => simpa [tpGo] using List.prefix_rfl
          | Stmt.continueStmt a => simpa [tpGo] using List.prefix_rfl
          | Stmt.exprStmt a b => simpa [tpGo] using List.prefix_rfl
          | Stmt.forLoop a b c d e f g => simpa [tpGo] using List.prefix_rfl
          | Stmt.ifStmt a b c d e => simpa [tpGo] using List.prefix_rfl
          | Stmt.lifecycle a b c d e => simpa [tpGo] using List.prefix_rfl
          | Stmt.listStmt a b c => simpa [tpGo] using List.prefix_rfl
          | Stmt.printStmt a b c => simpa [tpGo] using List.prefix_rfl
          | Stmt.returnStmt a b => simpa [tpGo] using List.prefix_rfl
          | Stmt.varDecl a b c d => simpa [tpGo] using List.prefix_rfl
      | TpReq.checkArgs fname params args argIndex =>
          match params, args with
          | [], [] => simpa [tpGo] using List.prefix_rfl
          | (ptok, pname) :: prest, a :: arest =>
              rcases h1 : tpGo fuel st (TpReq.expr a) with ⟨st1, ra, e1⟩
              have p1 := step st (TpReq.expr a) rfl h1
              match e1 with
              | some er => simpa [tpGo, h1] using p1
              | none =>
                  rcases h2 : tpCheckTypes ptok.ty (getExpressionType fuel ra.getExpr)
                      with er | t
                  · simpa [tpGo, h1, h2] using p1
                  · rcases h3 : tpGo fuel st1 (TpReq.checkArgs fname prest arest (argIndex + 1))
                        with ⟨st2, rr, e2⟩
                    have p2 := p1.trans
                      (step st1 (TpReq.checkArgs fname prest arest (argIndex + 1)) rfl h3)
                    simpa [tpGo, h1, h2, h3] using p2
          | [], a :: arest => simpa [tpGo] using List.prefix_rfl
          | p :: prest, [] => simpa [tpGo] using List.prefix_rfl
      | TpReq.strElems l =>
          match l with
          | [] => simpa [tpGo] using List.prefix_rfl
          | Sum.inl t :: rest =>
              rcases h1 : tpGo fuel st (TpReq.strElems rest) with ⟨st1, rr, e1⟩
              have p1 := step st (TpReq.strElems rest) rfl h1
              simpa [tpGo, h1] using p1
          | Sum.inr e :: rest =>
              rcases h1 : tpGo fuel st (TpReq.expr e) with ⟨st1, re, e1⟩
              have p1 := step st (TpReq.expr e) rfl h1
              match e1 with
              | some er => simpa [tpGo, h1] using p1
              | none =>
                  rcases h2 : tpGo fuel st1 (TpReq.strElems rest) with ⟨st2, rr, e2⟩
                  have p2 := p1.trans (step st1 (TpReq.strElems rest) rfl h2)
                  simpa [tpGo, h1, h2] using p2

/-- A list sandwiched between a list and itself by the prefix order equals
it: used to propagate "no errors were appended overall" to each
intermediate state. -/
theorem prefix_sandwich {a b c : List String} (h1 : a <+: b) (h2 : b <+: c)
    (h3 : c = a) : b = a := by
  subst h3
  exact h2.eq_of_length (Nat.le_antisymm h2.length_le h1.length_le) ▸ rfl

/-- The argument loop of `_check_function`: when it returns without raising
and without appending errors, the parameter and argument counts agree and
every (rewritten) argument's reported type passed `_check_types` against its
declared parameter type. -/
theorem tpCheckArgs_ok :
    ∀ fuel st fname params args idx st' r,
      tpGo fuel st (TpReq.checkArgs fname params args idx) = (st', r, none) →
      st'.errors = st.errors →
      params.length = args.length ∧
      ∃ args', r = TpRes.exprs args' ∧ args'.length = params.length ∧
        ∀ pr ∈ params.zip args', ∃ fu t,
          tpCheckTypes pr.1.1.ty (getExpressionType fu pr.2) = Except.ok t := by
  intro fuel
  induction fuel with
  | zero =>
      intro st fname params args idx st' r h herr
      simp only [tpGo] at h
      cases h
      exact absurd (congrArg List.length herr) (by simp)
  | succ fuel ih =>
      intro st fname params args idx st' r h herr
      match params, args with
      | [], [] =>
          simp only [tpGo] at h
          cases h
          exact ⟨rfl, [], rfl, rfl, by intro pr hpr; simp at hpr⟩
      | (ptok, pname) :: prest, a :: arest =>
          rcases h1 : tpGo fuel st (TpReq.expr a) with ⟨st1, ra, e1⟩
          have p1 : st.errors <+: st1.errors := by
            have := tpGo_expr_errors_prefix fuel st (TpReq.expr a) rfl
            rw [h1] at this; exact this
          match e1 with
          | some er => simp [tpGo, h1] at h
          | none =>
              rcases h2 : tpCheckTypes ptok.ty (getExpressionType fuel ra.getExpr) with er | t
              · simp [tpGo, h1, h2] at h
              · rcases h3 : tpGo fuel st1 (TpReq.checkArgs fname prest arest (idx + 1))
                    with ⟨st2, rr, e2⟩
                have p2 : st1.errors <+: st2.errors := by
                  have := tpGo_expr_errors_prefix fuel st1
                    (TpReq.checkArgs fname prest arest (idx + 1)) rfl
                  rw [h3] at this; exact this
                simp only [tpGo, h1, h2, h3] at h
                cases h
                have herr1 : st1.errors = st.errors := prefix_sandwich p1 p2 herr
                have hih := ih st1 fname prest arest (idx + 1) _ rr h3
                  (by rw [herr, herr1])
                rcases hih with ⟨hlen, args'', hr'', hlen'', hall⟩
                subst hr''
                refine ⟨by simp [hlen], ra.getExpr :: args'', ?_, by simp [hlen''], ?_⟩
                · simp [TpRes.getExprs]
                · intro pr hpr
                  rcases List.mem_cons.mp hpr with hpr1 | hpr2
                  · subst hpr1
                    exact ⟨fuel, t, h2⟩
                  · exact hall pr hpr2
      | [], a :: arest => simp [tpGo] at h
      | p :: prest, [] => simp [tpGo] at h

/-- C6.  Free-function and class-method calls both go through
`_check_function`: when such a call is accepted (no exception, no appended
error) the argument count equals the declared parameter count and each
rewritten argument's reported type passed `_check_types` against its
parameter type, and an arity mismatch raises exactly the counted error
message.  List-receiver method calls, however, are exempt: the source's
`TODO` leaves their arguments entirely unchecked, so `l.size(1, 2)` sails
through the typing pass with an empty error list (see the
counterexample). -/
theorem tapl_c6_function_call_checking :
    (∀ fuel st a b c d params e tok args st' r,
       tpGo (fuel + 1) st
           (TpReq.checkFunction (Stmt.functionStmt a b c d params e) tok args)
         = (st', r, none) →
       st'.errors = st.errors →
       args.length = params.length ∧
       ∃ args', r = TpRes.exprs args' ∧ args'.length = params.length ∧
         ∀ pr ∈ params.zip args', ∃ fu t,
           tpCheckTypes pr.1.1.ty (getExpressionType fu pr.2) = Except.ok t) ∧
    (∀ fuel st a b c d params e tok args,
       params.length ≠ args.length →
       (tpGo (fuel + 1) st
           (TpReq.checkFunction (Stmt.functionStmt a b c d params e) tok args)).2.2
         = some ("\x27" ++ tok.str ++ "\x27 expected " ++ toString params.length ++
             " argument(s), but " ++ toString args.length ++ " were passed!")) := by
  constructor
  · intro fuel st a b c d params e tok args st' r h herr
    by_cases hlen : params.length ≠ args.length
    · simp [tpGo, hlen] at h
    · push_neg at hlen
      simp only [tpGo, hlen, ne_eq, not_true_eq_false, if_false] at h
      have := tpCheckArgs_ok fuel st tok params args 0 st' r h herr
      exact ⟨this.1.symm, this.2⟩
  · intro fuel st a b c d params e tok args hlen
    simp [tpGo, hlen]

/-- C6 counterexample.  `l.size(1, 2)` passes two arguments to the list
method `size`, which takes none — yet the typing pass accepts the program
with an empty error list, because list-method arguments are never counted
or type-checked. -/
theorem tapl_c6_list_call_counterexample :
    c6Typed.1.errors = [] ∧
    (match c6Prog with
     | [_, Stmt.exprStmt _ (Expr.identifierExpr _ _
         (some (Expr.call _ _ _ callArgs _ _)) _ _ _), _] => callArgs.length
     | _ => 0) = 2 := ⟨rfl, rfl⟩

/-- C6 witness: the acceptance theorem applied to a one-parameter function
`u8 f(u16 x)` called with the single argument `1000`, at the initial typing
state. -/
theorem tapl_c6_function_call_checking_witness :
    ([Expr.tokenExpr ⟨25, 4⟩ (tokNum 25 4 1000) Ty.unknown] : List Expr).length
      = [(tokTy 5 3 u16Ty, tokId 9 "x")].length :=
  (tapl_c6_function_call_checking.1 9 (tpInit tyTable) ⟨0, 20⟩ (tokTy 0 2 u8Ty) (tokId 3 "f")
    none [(tokTy 5 3 u16Ty, tokId 9 "x")] []
    (tokId 3 "f") [Expr.tokenExpr ⟨25, 4⟩ (tokNum 25 4 1000) Ty.unknown]
    (tpGo 10 (tpInit tyTable) (TpReq.checkFunction
      (Stmt.functionStmt ⟨0, 20⟩ (tokTy 0 2 u8Ty) (tokId 3 "f") none
        [(tokTy 5 3 u16Ty, tokId 9 "x")] [])
      (tokId 3 "f") [Expr.tokenExpr ⟨25, 4⟩ (tokNum 25 4 1000) Ty.unknown])).1
    (tpGo 10 (tpInit tyTable) (TpReq.checkFunction
      (Stmt.functionStmt ⟨0, 20⟩ (tokTy 0 2 u8Ty) (tokId 3 "f") none
        [(tokTy 5 3 u16Ty, tokId 9 "x")] [])
      (tokId 3 "f") [Expr.tokenExpr ⟨25, 4⟩ (tokNum 25 4 1000) Ty.unknown])).2.1
    rfl rfl).1

/-- C7.  For a return statement checked under a declared return type: if the
check raises nothing, then the statement carries a value exactly when the
return type is non-void, and a carried value's reported type passed
`_check_types` against the declared return type.  For the S2 program
(`u8 f(u16 x): return x` with the call `f(1000)`), the single reported error
is exactly the claimed message. -/
theorem tapl_c7_return_type_checking :
    (∀ fuel st loc v rt rest st' r,
       st.function_stack = rt :: rest →
       tpGo (fuel + 1) st (TpReq.stmtCore (Stmt.returnStmt loc v)) = (st', r, none) →
       v.isSome = rt.non_void ∧
       ∀ ve, v = some ve → ∃ ve' t,
         r = TpRes.stmt (Stmt.returnStmt loc (some ve')) ∧
         tpCheckTypes rt (getExpressionType fuel ve') = Except.ok t) ∧
    s2Typed.1.errors = ["expected return value of type \x27u8\x27, but found \x27u16\x27!"] := by
  constructor
  · intro fuel st loc v rt rest st' r hstack h
    match v with
    | none =>
        by_cases hnv : rt.non_void = true
        · simp [tpGo, hstack, hnv] at h
        · simp only [Bool.not_eq_true] at hnv
          refine ⟨by simp [hnv], ?_⟩
          intro ve hve
          cases hve
    | some ve =>
        by_cases hnv : rt.non_void = true
        · rcases h1 : tpGo fuel st (TpReq.expr ve) with ⟨st1, rv, e1⟩
          match e1 with
          | some er => simp [tpGo, hstack, hnv, h1] at h
          | none =>
              rcases h2 : tpCheckTypes rt (getExpressionType fuel rv.getExpr) with er | t
              · simp [tpGo, hstack, hnv, h1, h2] at h
              · simp only [tpGo, hstack, hnv, h1, h2] at h
                simp only [Option.isNone_some, Bool.and_false, Bool.false_eq_true, if_false,
                  Option.isSome_some, Bool.and_true, Bool.not_true, Prod.mk.injEq] at h
                refine ⟨by simp [hnv], ?_⟩
                intro ve1 hve1
                exact ⟨rv.getExpr, t, h.2.1.symm, h2⟩
        · simp [tpGo, hstack, hnv] at h
  · rfl

/-- C7 witness: the return-check theorem applied to `return 7` under the
declared return type `u8`, starting from the initial typing state. -/
theorem tapl_c7_return_type_checking_witness :
    (some (Expr.tokenExpr ⟨0, 1⟩ (tokNum 0 1 7) Ty.unknown) : Option Expr).isSome
      = u8Ty.non_void :=
  (tapl_c7_return_type_checking.1 8
    { tpInit tyTable with function_stack := [u8Ty] } ⟨0, 8⟩
    (some (Expr.tokenExpr ⟨0, 1⟩ (tokNum 0 1 7) Ty.unknown)) u8Ty []
    (tpGo 9 { tpInit tyTable with function_stack := [u8Ty] }
      (TpReq.stmtCore (Stmt.returnStmt ⟨0, 8⟩
        (some (Expr.tokenExpr ⟨0, 1⟩ (tokNum 0 1 7) Ty.unknown))))).1
    (tpGo 9 { tpInit tyTable with function_stack := [u8Ty] }
      (TpReq.stmtCore (Stmt.returnStmt ⟨0, 8⟩
        (some (Expr.tokenExpr ⟨0, 1⟩ (tokNum 0 1 7) Ty.unknown))))).2.1
    rfl rfl).1

/-- C10.  `TypingPass` adds a declared variable to the innermost scope
before its initializer is checked ("we may need it already when testing the
initial value"), so the name already resolves while the initializer is
processed: adding a fresh name makes its lookup succeed with the declared
type, and the self-referencing programs `u8 x = x` and `u8 x = ++x` pass the
typing pass with no errors.  The scoping pass does the opposite (initializer
first, `scoping_pass.py` lines 110-115): on `u8 x = ++x` it reports the
unknown identifier the typing pass never sees. -/
theorem tapl_c10_var_decl_self_reference :
    (∀ (st : TpState) (tt n : Token) (sc : Scope) (rest : List Scope),
       st.scope_wrapper = sc :: rest →
       containsStr sc.identifiers n.identValue = false →
       (tpAddIdentifier st n tt.ty).2 = none ∧
       lookupIdentifier (tpAddIdentifier st n tt.ty).1.scope_wrapper n.identValue
         = some tt.ty) ∧
    c10Parsed.2 = [] ∧ c10Typed.1.errors = [] ∧
    c10bParsed.2 = [] ∧ c10bTyped.1.errors = [] ∧
    c10bScoped.errors = ["unknown identifier \x27x\x27!"] := by
  refine ⟨?_, rfl, rfl, rfl, rfl, rfl⟩
  intro st tt n sc rest hw habs
  have habs' : containsStr (innermostIdentifiers st.scope_wrapper) n.identValue = false := by
    rw [hw]; simpa [innermostIdentifiers] using habs
  constructor
  · simp [tpAddIdentifier, habs']
  · simp only [tpAddIdentifier, habs', Bool.false_eq_true, if_false]
    rw [hw]
    simp only [scopeAddIdentifier, lookupIdentifier]
    rw [lookupStr_append_absent sc.identifiers n.identValue tt.ty habs]

/-- C10 witness: adding `x : u8` to the initial typing state's scope
succeeds and the name immediately resolves to `u8`, as the initializer
check will observe. -/
theorem tapl_c10_var_decl_self_reference_witness :
    (tpAddIdentifier (tpInit tyTable) (tokId 3 "x") (tokTy 0 2 u8Ty).ty).2 = none ∧
    lookupIdentifier (tpAddIdentifier (tpInit tyTable) (tokId 3 "x")
      (tokTy 0 2 u8Ty).ty).1.scope_wrapper (tokId 3 "x").identValue
      = some (tokTy 0 2 u8Ty).ty :=
  tapl_c10_var_decl_self_reference.1 (tpInit tyTable) (tokTy 0 2 u8Ty) (tokId 3 "x")
    ((tpInit tyTable).scope_wrapper.headI) ((tpInit tyTable).scope_wrapper.tail)
    (by rfl) (by rfl)

/-- Whether a token carries a resolved type (a `TypeToken`). -/
def Token.isTypeToken (t : Token) : Bool :=
  match t.data with
  | TokenData.typeData _ => true
  | _ => false

/-- Setting the reference flag on a type token makes its carried type a
reference. -/
theorem setReference_is_reference (t : Token) (h : t.isTypeToken = true) :
    t.setReference.ty.is_reference = true := by
  match ht : t.data with
  | TokenData.typeData ty => simp [Token.setReference, Token.ty, ht]
  | TokenData.nothing => simp [Token.isTypeToken, ht] at h
  | TokenData.identifier v => simp [Token.isTypeToken, ht] at h
  | TokenData.number v => simp [Token.isTypeToken, ht] at h
  | TokenData.character v => simp [Token.isTypeToken, ht] at h
  | TokenData.stringChars v => simp [Token.isTypeToken, ht] at h

/-- When the argument loop of the `FunctionStatement` case returns without
raising, every rewritten argument's type token is flagged as a reference. -/
theorem tpAddFunctionArgs_flags :
    ∀ (args : List (Token × Token)) (st st' : TpState) (args' : List (Token × Token)),
      tpAddFunctionArgs st args = (st', args', none) →
      (∀ p ∈ args, p.1.isTypeToken = true) →
      ∀ p ∈ args', p.1.ty.is_reference = true := by
  intro args
  induction args with
  | nil =>
      intro st st' args' h htt p hp
      simp only [tpAddFunctionArgs] at h
      cases h
      simp at hp
  | cons a rest ih =>
      intro st st' args' h htt p hp
      obtain ⟨type_token, identifier_token⟩ := a
      rcases h1 : tpAddIdentifier st identifier_token type_token.setReference.ty
          with ⟨st1, e1⟩
      match e1 with
      | some er => simp [tpAddFunctionArgs, h1] at h
      | none =>
          rcases h2 : tpAddFunctionArgs st1 rest with ⟨st2, rest', e2⟩
          simp only [tpAddFunctionArgs, h1, h2] at h
          cases h
          rcases List.mem_cons.mp hp with hp1 | hp2
          · subst hp1
            exact setReference_is_reference type_token
              (htt (type_token, identifier_token) (List.mem_cons_self _ _))
          · exact ih st1 _ rest' h2
              (fun q hq => htt q (List.mem_cons_of_mem _ hq)) p hp2

/-- C3.  After the typing pass, every parameter of a successfully processed
function statement carries `is_reference = true` — but the parameters of
lifecycle statements are added to scope without the flag (the claimed
"every lifecycle parameter" half fails, see the counterexample), and a
module-scope variable declaration's type stays unflagged (shown on the
concrete C3 program). -/
theorem tapl_c3_reference_flagging :
    (∀ fuel st loc rt name ct args body st' r,
       (∀ p ∈ args, p.1.isTypeToken = true) →
       tpGo (fuel + 1) st (TpReq.stmtCore (Stmt.functionStmt loc rt name ct args body))
         = (st', r, none) →
       ∀ p ∈ (match r.getStmt with
              | Stmt.functionStmt _ _ _ _ args' _ => args'
              | _ => ([] : List (Token × Token))), p.1.ty.is_reference = true) ∧
    c3Typed.1.errors = [] ∧
    (match c3Typed.2 with
     | _ :: Stmt.varDecl _ tt _ _ :: _ => tt.ty.is_reference
     | _ => true) = false := by
  refine ⟨?_, rfl, rfl⟩
  intro fuel st loc rt name ct args body st' r htt h
  rcases h1 : tpAddIdentifier st name rt.ty with ⟨st1, e1⟩
  match e1 with
  | some er => simp [tpGo, h1] at h
  | none =>
      rcases h2 : tpAddFunctionArgs
          { st1 with
              scope_wrapper := addScope (scopeAddFunction st1.scope_wrapper name.identValue
                (Stmt.functionStmt loc rt name ct args body)),
              function_stack := rt.ty :: st1.function_stack } args with ⟨st4, args', e2⟩
      match e2 with
      | some er => simp [tpGo, h1, h2] at h
      | none =>
          rcases h3 : tpGo fuel st4 (TpReq.stmts body) with ⟨st5, rb, e3⟩
          simp only [tpGo, h1, h2, h3] at h
          cases h
          intro p hp
          simp only [TpRes.getStmt] at hp
          exact tpAddFunctionArgs_flags args _ st4 args' h2 htt p hp

/-- C3 counterexample.  The C3 program's class constructor takes `u8 n`; the
typing pass accepts the program, yet the constructor parameter's type token
is not flagged as a reference — refuting the claim's "every lifecycle
parameter" half. -/
theorem tapl_c3_lifecycle_counterexample :
    c3Typed.1.errors = [] ∧
    (match c3Typed.2 with
     | Stmt.classStmt _ _ _ _ (some (Stmt.lifecycle _ _ _ ((tt, _) :: _) _)) _ :: _ =>
         tt.ty.is_reference
     | _ => true) = false := ⟨rfl, rfl⟩

/-- C3 witness: the flagging theorem applied to the function
`u8 g(u16 x):` (empty body) at the initial typing state; the rewritten
parameter's type is a reference. -/
theorem tapl_c3_reference_flagging_witness :
    ((tokTy 5 3 u16Ty).setReference).ty.is_reference = true :=
  tapl_c3_reference_flagging.1 9 (tpInit tyTable) ⟨0, 20⟩ (tokTy 0 2 u8Ty) (tokId 3 "g")
    none [(tokTy 5 3 u16Ty, tokId 9 "x")] []
    (tpGo 10 (tpInit tyTable) (TpReq.stmtCore (Stmt.functionStmt ⟨0, 20⟩ (tokTy 0 2 u8Ty)
      (tokId 3 "g") none [(tokTy 5 3 u16Ty, tokId 9 "x")] []))).1
    (tpGo 10 (tpInit tyTable) (TpReq.stmtCore (Stmt.functionStmt ⟨0, 20⟩ (tokTy 0 2 u8Ty)
      (tokId 3 "g") none [(tokTy 5 3 u16Ty, tokId 9 "x")] []))).2.1
    (by decide) rfl
    ((tokTy 5 3 u16Ty).setReference, tokId 9 "x") (by decide)

/-- C5.  An identifier chain is typed as follows: the pushed scope for the
inner expression is empty, so the inner member lookup resolves through the
enclosing lexical scopes exactly as before (first conjunct — this is where
the claim's "resolved in C\x27s scope" fails for plain members, see the
counterexample); on success the outer expression\x27s own `type_` slot receives
the outer identifier\x27s type (second conjunct); the chain\x27s reported type is
the inner expression\x27s (third conjunct, `Utils.get_expression_type`).  On
the concrete method-call program, `a.m()` resolves `m` in class `C`\x27s scope
and reports the method\x27s return type `u32` while the chain\x27s own slot holds
`C`. -/
theorem tapl_c5_identifier_chain_typing :
    (∀ (w : List Scope) (n : String),
       lookupIdentifier (addScope w) n = lookupIdentifier w n) ∧
    (∀ fuel st loc tok innerE ct lt ty st' r,
       tpGo (fuel + 1) st (TpReq.expr (Expr.identifierExpr loc tok (some innerE) ct lt ty))
         = (st', r, none) →
       ∃ type_ inner',
         tpGetIdentifierType { st with scope_wrapper := addScope st.scope_wrapper } tok
           = Except.ok type_ ∧
         r = TpRes.expr (Expr.identifierExpr loc tok (some inner')
           (if type_.isClass = true then some type_ else ct)
           (if type_.isList = true then some type_ else lt) type_)) ∧
    (∀ (f : Nat) loc tok inner ct lt ty,
       getExpressionType (f + 1) (Expr.identifierExpr loc tok (some inner) ct lt ty)
         = getExpressionType f inner) ∧
    (c5aTyped.1.errors = [] ∧ c5aChain.type_.keyword = "C" ∧
     (getExpressionType 10 c5aChain).keyword = "u32") := by
  refine ⟨?_, ?_, ?_, rfl, rfl, rfl⟩
  · intro w n
    simp [addScope, lookupIdentifier, lookupStr]
  · intro fuel st loc tok innerE ct lt ty st' r h
    rcases h1 : tpGetIdentifierType { st with scope_wrapper := addScope st.scope_wrapper } tok
        with er | type_
    · simp [tpGo, h1] at h
    · rcases h2 : tpGo fuel
          { st with scope_wrapper := addScope st.scope_wrapper,
                    identifier_stack := type_ :: st.identifier_stack }
          (TpReq.expr innerE) with ⟨st3, ri, e2⟩
      match e2 with
      | some er => simp [tpGo, h1, h2] at h
      | none =>
          simp only [tpGo, h1, h2] at h
          cases h
          exact ⟨type_, ri.getExpr, rfl, rfl⟩
  · intro f loc tok inner ct lt ty
    simp [getExpressionType]

/-- C5 counterexample.  In the member-chain program the class member is
declared `u32 b`, but the chain `a.b` reports `u16`: the inner identifier
resolved to the module-scope `u16 b` through the enclosing lexical scope,
not to the class member — and the typing pass reports no error at all. -/
theorem tapl_c5_member_scope_counterexample :
    c5bTyped.1.errors = [] ∧
    (match c5bProg with
     | Stmt.classStmt _ _ [Stmt.varDecl _ tt _ _] _ _ _ :: _ => tt.ty.keyword
     | _ => "") = "u32" ∧
    (getExpressionType 10 c5bChain).keyword = "u16" ∧
    c5bChain.type_.keyword = "C" := ⟨rfl, rfl, rfl, rfl⟩

/-- C5 witness: the chain-typing theorem applied to `a.7`-style input — an
outer identifier `a : u8` with a number-token inner expression — at the
initial typing state extended with `a`. -/
theorem tapl_c5_identifier_chain_typing_witness :
    ∃ type_ inner',
      tpGetIdentifierType
        { (tpAddIdentifier (tpInit tyTable) (tokId 0 "a") u8Ty).1 with
            scope_wrapper :=
              addScope (tpAddIdentifier (tpInit tyTable) (tokId 0 "a")
                u8Ty).1.scope_wrapper } (tokId 0 "a") = Except.ok type_ ∧
      (tpGo 10 (tpAddIdentifier (tpInit tyTable) (tokId 0 "a") u8Ty).1
        (TpReq.expr (Expr.identifierExpr ⟨0, 3⟩ (tokId 0 "a")
          (some (Expr.tokenExpr ⟨2, 1⟩ (tokNum 2 1 7) Ty.unknown))
          none none Ty.unknown))).2.1
        = TpRes.expr (Expr.identifierExpr ⟨0, 3⟩ (tokId 0 "a") (some inner')
            (if type_.isClass = true then some type_ else none)
            (if type_.isList = true then some type_ else none) type_) :=
  tapl_c5_identifier_chain_typing.2.1 9
    (tpAddIdentifier (tpInit tyTable) (tokId 0 "a") u8Ty).1 ⟨0, 3⟩ (tokId 0 "a")
    (Expr.tokenExpr ⟨2, 1⟩ (tokNum 2 1 7) Ty.unknown) none none Ty.unknown
    (tpGo 10 (tpAddIdentifier (tpInit tyTable) (tokId 0 "a") u8Ty).1
      (TpReq.expr (Expr.identifierExpr ⟨0, 3⟩ (tokId 0 "a")
        (some (Expr.tokenExpr ⟨2, 1⟩ (tokNum 2 1 7) Ty.unknown))
        none none Ty.unknown))).1
    (tpGo 10 (tpAddIdentifier (tpInit tyTable) (tokId 0 "a") u8Ty).1
      (TpReq.expr (Expr.identifierExpr ⟨0, 3⟩ (tokId 0 "a")
        (some (Expr.tokenExpr ⟨2, 1⟩ (tokNum 2 1 7) Ty.unknown))
        none none Ty.unknown))).2.1
    rfl

/-!
The breakall-label invariant of the parser (claim C8).

`NestedOk label s` says that inside an outermost loop whose breakall
label is `label`, the statement `s` is well-labelled: every loop in it
carries no label of its own (nested loops never materialise one) and every
`breakall` records exactly `label`.
-/

/-- Well-labelledness of a statement nested inside an outermost loop whose
breakall label is `label`. -/
inductive NestedOk (label : String) : Stmt → Prop where
  | assignment (loc : SourceLocation) (e : Expr) (tk : Token) (v : Expr) :
      NestedOk label (Stmt.assignment loc e tk v)
  | breakStmt (loc : SourceLocation) : NestedOk label (Stmt.breakStmt loc)
  | breakall (loc : SourceLocation) : NestedOk label (Stmt.breakall loc label)
  | classStmt (loc : SourceLocation) (ct : Ty) (vars fns : List Stmt)
      (ctor dtor : Option Stmt)
      (hv : ∀ s ∈ vars, NestedOk label s) (hf : ∀ s ∈ fns, NestedOk label s)
      (hc : ∀ s, ctor = some s → NestedOk label s)
      (hd : ∀ s, dtor = some s → NestedOk label s) :
      NestedOk label (Stmt.classStmt loc ct vars fns ctor dtor)
  | continueStmt (loc : SourceLocation) : NestedOk label (Stmt.continueStmt loc)
  | exprStmt (loc : SourceLocation) (e : Expr) : NestedOk label (Stmt.exprStmt loc e)
  | forLoop (loc : SourceLocation) (tok : Token) (init : Option Stmt) (chk : Option Expr)
      (loop : Option Stmt) (body : List Stmt)
      (hi : ∀ s, init = some s → NestedOk label s)
      (hl : ∀ s, loop = some s → NestedOk label s)
      (hb : ∀ s ∈ body, NestedOk label s) :
      NestedOk label (Stmt.forLoop loc tok none init chk loop body)
  | functionStmt (loc : SourceLocation) (rt name : Token) (ct : Option Ty)
      (args : List (Token × Token)) (body : List Stmt)
      (hb : ∀ s ∈ body, NestedOk label s) :
      NestedOk label (Stmt.functionStmt loc rt name ct args body)
  | ifStmt (loc : SourceLocation) (e : Expr) (ss : List Stmt)
      (elifs : List (Expr × List Stmt)) (els : Option (List Stmt))
      (hs : ∀ s ∈ ss, NestedOk label s)
      (he : ∀ b ∈ elifs, ∀ s ∈ b.2, NestedOk label s)
      (ho : ∀ l, els = some l → ∀ s ∈ l, NestedOk label s) :
      NestedOk label (Stmt.ifStmt loc e ss elifs els)
  | lifecycle (loc : SourceLocation) (t : LifecycleStatementType) (ty : Ty)
      (args : List (Token × Token)) (body : List Stmt)
      (hb : ∀ s ∈ body, NestedOk label s) :
      NestedOk label (Stmt.lifecycle loc t ty args body)
  | listStmt (loc : SourceLocation) (lt : Ty) (n : Token) :
      NestedOk label (Stmt.listStmt loc lt n)
  | printStmt (loc : SourceLocation) (le : String) (v : Expr) :
      NestedOk label (Stmt.printStmt loc le v)
  | returnStmt (loc : SourceLocation) (v : Option Expr) :
      NestedOk label (Stmt.returnStmt loc v)
  | varDecl (loc : SourceLocation) (tt n : Token) (iv : Option Expr) :
      NestedOk label (Stmt.varDecl loc tt n iv)

/-- Well-labelledness of every statement a parse result carries. -/
def PRes.allNested (label : String) : PRes → Prop
  | PRes.stmt s => NestedOk label s
  | PRes.stmtOpt (some s) => NestedOk label s
  | PRes.stmtOpt none => True
  | PRes.stmts l => ∀ s ∈ l, NestedOk label s
  | _ => True

/-- The expression-parsing requests: they never touch the loop counter or
the breakall label and produce no statements. -/
def PReq.exprFam : PReq → Bool
  | PReq.expressionReq => true
  | PReq.booleanReq => true
  | PReq.booleanLoop _ => true
  | PReq.comparisonReq => true
  | PReq.comparisonLoop _ => true
  | PReq.additiveReq => true
  | PReq.additiveLoop _ => true
  | PReq.multiplicativeReq => true
  | PReq.multiplicativeLoop _ => true
  | PReq.primaryReq => true
  | PReq.stringExprLoop _ _ => true
  | PReq.identifierExpressionReq _ => true
  | PReq.callExpressionReq _ => true
  | PReq.callArgsLoop _ => true
  | _ => false

/-- Pre-conditions a request's accumulator arguments must satisfy for the
invariant to carry through (accumulated statements are already
well-labelled). -/
def PReq.inputOk (label : String) : PReq → Prop
  | PReq.blockLoop acc => ∀ s ∈ acc, NestedOk label s
  | PReq.classBody cls => NestedOk label cls
  | PReq.singleIfStatement (some s) => NestedOk label s
  | PReq.elseLoop s => NestedOk label s
  | _ => True

/-- `match` preserves every parser flag except the index. -/
theorem pMatch_flags {tokens ps kinds t ps'}
    (h : pMatch tokens ps kinds = Except.ok (some (t, ps'))) :
    ps'.breakall_label = ps.breakall_label ∧ ps'.loop_count = ps.loop_count := by
  unfold pMatch at h
  split at h
  · cases h
  · split at h
    · cases h
      exact ⟨rfl, rfl⟩
    · simp at h

/-- `consume` preserves every parser flag except the index. -/
theorem pConsume_flags {tokens ps t ps'}
    (h : pConsume tokens ps = Except.ok (t, ps')) :
    ps'.breakall_label = ps.breakall_label ∧ ps'.loop_count = ps.loop_count := by
  unfold pConsume at h
  by_cases h1 : ps.current_index + 1 > tokens.length
  · simp [h1] at h
  · simp only [h1, if_false] at h
    rcases h2 : tokens.get? ps.current_index with _ | tk <;> rw [h2] at h
    · cases h
    · cases h
      exact ⟨rfl, rfl⟩

/-- `expect` preserves every parser flag except the index. -/
theorem pExpect_flags {tokens ps kind msg t ps'}
    (h : pExpect tokens ps kind msg = Except.ok (t, ps')) :
    ps'.breakall_label = ps.breakall_label ∧ ps'.loop_count = ps.loop_count := by
  unfold pExpect at h
  rcases h1 : pMatch tokens ps [kind] with e | r <;> rw [h1] at h
  · cases h
  · match r with
    | some (t0, ps0) =>
        cases h
        exact pMatch_flags h1
    | none =>
        by_cases h2 : msg = "" <;> simp [h2] at h

/-- `expect_newline` preserves every parser flag except the index. -/
theorem pExpectNewline_flags {tokens ps ty must ps'}
    (h : pExpectNewline tokens ps ty must = Except.ok ps') :
    ps'.breakall_label = ps.breakall_label ∧ ps'.loop_count = ps.loop_count := by
  unfold pExpectNewline at h
  by_cases h0 : must = true
  · simp only [h0, Bool.not_true, Bool.false_eq_true, if_false] at h
    rcases h1 : pMatch tokens ps [TokenType.NEWLINE, TokenType.EOF] with e | r <;> rw [h1] at h
    · cases h
    · match r with
      | some (t0, ps0) =>
          cases h
          exact pMatch_flags h1
      | none => cases h
  · simp only [Bool.not_eq_true] at h0
    simp only [h0, Bool.not_false, if_true] at h
    cases h
    exact ⟨rfl, rfl⟩

/-- `_has_indent` preserves every parser flag except the index. -/
theorem pHasIndent_flags {tokens ps b ps'}
    (h : pHasIndent tokens ps = Except.ok (b, ps')) :
    ps'.breakall_label = ps.breakall_label ∧ ps'.loop_count = ps.loop_count := by
  unfold pHasIndent at h
  by_cases h0 : pIsAtEnd tokens ps = true
  · simp only [h0, if_true] at h
    cases h
    exact ⟨rfl, rfl⟩
  · simp only [h0, Bool.false_eq_true, if_false] at h
    rcases h1 : pMatch tokens ps [TokenType.INDENT] with e | r <;> rw [h1] at h
    · cases h
    · match r with
      | some (t0, ps0) =>
          cases h
          exact pMatch_flags h1
      | none =>
          cases h
          exact ⟨rfl, rfl⟩

/-- Setting the breakall label never touches the loop counter, and inside a
loop it does not touch the label either. -/
theorem pSetBreakallLabel_flags (ps : PState) (tok : Token) :
    (pSetBreakallLabel ps tok).loop_count = ps.loop_count ∧
    (1 ≤ ps.loop_count →
      (pSetBreakallLabel ps tok).breakall_label = ps.breakall_label) := by
  unfold pSetBreakallLabel
  by_cases h : ps.loop_count = 0
  · refine ⟨by simp [h], fun h1 => ?_⟩
    omega
  · simp [h]

/-- A well-labelled result's projected statement is well-labelled (the
default statement used by the projection is a bare `break`). -/
theorem allNested_getStmt {label : String} {r : PRes}
    (h : PRes.allNested label r) : NestedOk label r.getStmt := by
  match r with
  | PRes.unit => exact NestedOk.breakStmt _
  | PRes.stmt s => exact h
  | PRes.stmtOpt s => exact NestedOk.breakStmt _
  | PRes.stmts l => exact NestedOk.breakStmt _
  | PRes.expr e => exact NestedOk.breakStmt _
  | PRes.args a => exact NestedOk.breakStmt _
  | PRes.exprs l => exact NestedOk.breakStmt _
  | PRes.prog a b => exact NestedOk.breakStmt _

/-- A well-labelled result's projected optional statement is well-labelled. -/
theorem allNested_getStmtOpt {label : String} {r : PRes} {s : Stmt}
    (h : PRes.allNested label r) (hs : r.getStmtOpt = some s) : NestedOk label s := by
  match r with
  | PRes.stmtOpt (some s') =>
      simp only [PRes.getStmtOpt] at hs
      cases hs
      exact h
  | PRes.stmtOpt none => simp [PRes.getStmtOpt] at hs
  | PRes.unit => simp [PRes.getStmtOpt] at hs
  | PRes.stmt s' =>
      simp only [PRes.getStmtOpt, Option.some.injEq] at hs
      cases hs
      exact h
  | PRes.stmts l => simp [PRes.getStmtOpt] at hs
  | PRes.expr e => simp [PRes.getStmtOpt] at hs
  | PRes.args a => simp [PRes.getStmtOpt] at hs
  | PRes.exprs l => simp [PRes.getStmtOpt] at hs
  | PRes.prog a b => simp [PRes.getStmtOpt] at hs

/-- A well-labelled result's projected statement list is well-labelled. -/
theorem allNested_getStmts {label : String} {r : PRes}
    (h : PRes.allNested label r) : ∀ s ∈ r.getStmts, NestedOk label s := by
  match r with
  | PRes.stmts l => exact h
  | PRes.unit | PRes.stmt _ | PRes.stmtOpt _ | PRes.expr _ | PRes.args _
  | PRes.exprs _ | PRes.prog _ _ =>
      intro s hs
      simp [PRes.getStmts] at hs

/-- Inversion for well-labelled if statements. -/
theorem NestedOk.ifStmt_inv {label : String} {loc : SourceLocation} {e : Expr}
    {ss : List Stmt} {elifs : List (Expr × List Stmt)} {els : Option (List Stmt)}
    (h : NestedOk label (Stmt.ifStmt loc e ss elifs els)) :
    (∀ s ∈ ss, NestedOk label s) ∧
    (∀ b ∈ elifs, ∀ s ∈ b.2, NestedOk label s) ∧
    (∀ l, els = some l → ∀ s ∈ l, NestedOk label s) := by
  cases h with
  | ifStmt _ _ _ _ _ hs he ho => exact ⟨hs, he, ho⟩

/-- Inversion for well-labelled class statements. -/
theorem NestedOk.classStmt_inv {label : String} {loc : SourceLocation} {ct : Ty}
    {vars fns : List Stmt} {ctor dtor : Option Stmt}
    (h : NestedOk label (Stmt.classStmt loc ct vars fns ctor dtor)) :
    (∀ s ∈ vars, NestedOk label s) ∧ (∀ s ∈ fns, NestedOk label s) ∧
    (∀ s, ctor = some s → NestedOk label s) ∧
    (∀ s, dtor = some s → NestedOk label s) := by
  cases h with
  | classStmt _ _ _ _ _ _ hv hf hc hd => exact ⟨hv, hf, hc, hd⟩

/-- A class statement with no members yet is well-labelled. -/
theorem NestedOk.classStmt_empty (label : String) (loc : SourceLocation) (ct : Ty) :
    NestedOk label (Stmt.classStmt loc ct [] [] none none) := by
  refine NestedOk.classStmt _ _ _ _ _ _ ?_ ?_ ?_ ?_
  · intro s hs
    simp at hs
  · intro s hs
    simp at hs
  · intro s hs
    cases hs
  · intro s hs
    cases hs

/-- The parser's loop-nest invariant.  Inside a loop (loop counter at least
one), or on any expression-parsing request, or on a `statement_block_in_loop`
request: the breakall label and the loop counter are restored, and on
success every produced statement is well-labelled under the ambient label
(in particular every nested loop carries no label of its own and every
`breakall` records the ambient label), provided the request's accumulated
statements already were. -/
theorem pGo_loop_invariant (tokens : List Token) (src : String) :
    ∀ fuel ps req ps' res err,
      pGo tokens src fuel ps req = (ps', res, err) →
      (1 ≤ ps.loop_count ∨ PReq.exprFam req = true ∨ req = PReq.statementBlockInLoop) →
      ps'.breakall_label = ps.breakall_label ∧ ps'.loop_count = ps.loop_count ∧
      (err = none → PReq.inputOk ps.breakall_label req →
        PRes.allNested ps.breakall_label res) := by
  intro fuel
  induction fuel with
  | zero =>
      intro ps req ps' res err h hg
      simp only [pGo] at h
      cases h
      exact ⟨rfl, rfl, fun hx => by cases hx⟩
  | succ fuel ih =>
      intro ps req ps' res err h hg
      match req with
      | PReq.statement must =>
          have hcnt : 1 ≤ ps.loop_count := by
            rcases hg with hx | hx | hx
            · exact hx
            · simp [PReq.exprFam] at hx
            · simp at hx
          rcases h1 : pGo tokens src fuel ps (PReq.typeStatement must) with ⟨ps1, r1, e1⟩
          have I1 := ih ps (PReq.typeStatement must) ps1 r1 e1 h1 (Or.inl hcnt)
          have lbl1 : ps1.breakall_label = ps.breakall_label := I1.1
          have cnt1 : ps1.loop_count = ps.loop_count := I1.2.1
          match e1 with
          | some e0 =>
              simp only [pGo, h1] at h
              cases h
              exact ⟨lbl1, cnt1, fun hx => by cases hx⟩
          | none =>
              rcases hs1 : PRes.getStmtOpt r1 with _ | s01
              · -- this alternative did not match; try the next one
                rcases h2 : pGo tokens src fuel ps1 PReq.returnStatement with ⟨ps2, r2, e2⟩
                have I2 := ih ps1 PReq.returnStatement ps2 r2 e2 h2 (Or.inl (by rw [cnt1]; exact hcnt))
                have lbl2 : ps2.breakall_label = ps.breakall_label := I2.1.trans lbl1
                have cnt2 : ps2.loop_count = ps.loop_count := I2.2.1.trans cnt1
                match e2 with
                | some e0 =>
                    simp only [pGo, h1, hs1, h2] at h
                    cases h
                    exact ⟨lbl2, cnt2, fun hx => by cases hx⟩
                | none =>
                    rcases hs2 : PRes.getStmtOpt r2 with _ | s02
                    · -- this alternative did not match; try the next one
                      rcases h3 : pGo tokens src fuel ps2 PReq.printStatement with ⟨ps3, r3, e3⟩
                      have I3 := ih ps2 PReq.printStatement ps3 r3 e3 h3 (Or.inl (by rw [cnt2]; exact hcnt))
                      have lbl3 : ps3.breakall_label = ps.breakall_label := I3.1.trans lbl2
                      have cnt3 : ps3.loop_count = ps.loop_count := I3.2.1.trans cnt2
                      match e3 with
                      | some e0 =>
                          simp only [pGo, h1, hs1, h2, hs2, h3] at h
                          cases h
                          exact ⟨lbl3, cnt3, fun hx => by cases hx⟩
                      | none =>
                          rcases hs3 : PRes.getStmtOpt r3 with _ | s03
                          · -- this alternative did not match; try the next one
                            rcases h4 : pGo tokens src fuel ps3 PReq.ifStatementReq with ⟨ps4, r4, e4⟩
                            have I4 := ih ps3 PReq.ifStatementReq ps4 r4 e4 h4 (Or.inl (by rw [cnt3]; exact hcnt))
                            have lbl4 : ps4.breakall_label = ps.breakall_label := I4.1.trans lbl3
                            have cnt4 : ps4.loop_count = ps.loop_count := I4.2.1.trans cnt3
                            match e4 with
                            | some e0 =>
                                simp only [pGo, h1, hs1, h2, hs2, h3, hs3, h4] at h
                                cases h
                                exact ⟨lbl4, cnt4, fun hx => by cases hx⟩
                            | none =>
                                rcases hs4 : PRes.getStmtOpt r4 with _ | s04
                                · -- this alternative did not match; try the next one
                                  rcases h5 : pGo tokens src fuel ps4 PReq.forLoopStatement with ⟨ps5, r5, e5⟩
                                  have I5 := ih ps4 PReq.forLoopStatement ps5 r5 e5 h5 (Or.inl (by rw [cnt4]; exact hcnt))
                                  have lbl5 : ps5.breakall_label = ps.breakall_label := I5.1.trans lbl4
                                  have cnt5 : ps5.loop_count = ps.loop_count := I5.2.1.trans cnt4
                                  match e5 with
                                  | some e0 =>
                                      simp only [pGo, h1, hs1, h2, hs2, h3, hs3, h4, hs4, h5] at h
                                      cases h
                                      exact ⟨lbl5, cnt5, fun hx => by cases hx⟩
                                  | none =>
                                      rcases hs5 : PRes.getStmtOpt r5 with _ | s05
                                      · -- this alternative did not match; try the next one
                                        rcases h6 : pGo tokens src fuel ps5 PReq.whileLoopStatement with ⟨ps6, r6, e6⟩
                                        have I6 := ih ps5 PReq.whileLoopStatement ps6 r6 e6 h6 (Or.inl (by rw [cnt5]; exact hcnt))
                                        have lbl6 : ps6.breakall_label = ps.breakall_label := I6.1.trans lbl5
                                        have cnt6 : ps6.loop_count = ps.loop_count := I6.2.1.trans cnt5
                                        match e6 with
                                        | some e0 =>
                                            simp only [pGo, h1, hs1, h2, hs2, h3, hs3, h4, hs4, h5, hs5, h6] at h
                                            cases h
                                            exact ⟨lbl6, cnt6, fun hx => by cases hx⟩
                                        | none =>
                                            rcases hs6 : PRes.getStmtOpt r6 with _ | s06
                                            · -- this alternative did not match; try the next one
                                              rcases h7 : pGo tokens src fuel ps6 PReq.classStatement with ⟨ps7, r7, e7⟩
                                              have I7 := ih ps6 PReq.classStatement ps7 r7 e7 h7 (Or.inl (by rw [cnt6]; exact hcnt))
                                              have lbl7 : ps7.breakall_label = ps.breakall_label := I7.1.trans lbl6
                                              have cnt7 : ps7.loop_count = ps.loop_count := I7.2.1.trans cnt6
                                              match e7 with
                                              | some e0 =>
                                                  simp only [pGo, h1, hs1, h2, hs2, h3, hs3, h4, hs4, h5, hs5, h6, hs6, h7] at h
                                                  cases h
                                                  exact ⟨lbl7, cnt7, fun hx => by cases hx⟩
                                              | none =>
                                                  rcases hs7 : PRes.getStmtOpt r7 with _ | s07
                                                  · -- this alternative did not match; try the next one
                                                    rcases h8 : pGo tokens src fuel ps7 PReq.loopControlStatement with ⟨ps8, r8, e8⟩
                                                    have I8 := ih ps7 PReq.loopControlStatement ps8 r8 e8 h8 (Or.inl (by rw [cnt7]; exact hcnt))
                                                    have lbl8 : ps8.breakall_label = ps.breakall_label := I8.1.trans lbl7
                                                    have cnt8 : ps8.loop_count = ps.loop_count := I8.2.1.trans cnt7
                                                    match e8 with
                                                    | some e0 =>
                                                        simp only [pGo, h1, hs1, h2, hs2, h3, hs3, h4, hs4, h5, hs5, h6, hs6, h7, hs7, h8] at h
                                                        cases h
                                                        exact ⟨lbl8, cnt8, fun hx => by cases hx⟩
                                                    | none =>
                                                        rcases hs8 : PRes.getStmtOpt r8 with _ | s08
                                                        · -- this alternative did not match; try the next one
                                                          rcases h9 : pGo tokens src fuel ps8 PReq.expressionReq with ⟨ps9, r9, e9⟩
                                                          have I9 := ih ps8 PReq.expressionReq ps9 r9 e9 h9 (Or.inr (Or.inl rfl))
                                                          have lbl9 : ps9.breakall_label = ps.breakall_label := I9.1.trans lbl8
                                                          have cnt9 : ps9.loop_count = ps.loop_count := I9.2.1.trans cnt8
                                                          match e9 with
                                                          | some e0 =>
                                                              simp only [pGo, h1, hs1, h2, hs2, h3, hs3, h4, hs4, h5, hs5, h6, hs6, h7, hs7, h8, hs8, h9] at h
                                                              cases h
                                                              exact ⟨lbl9, cnt9, fun hx => by cases hx⟩
                                                          | none =>
                                                              rcases h10 : pGo tokens src fuel ps9 (PReq.assignmentStatement (PRes.getExpr r9) must) with ⟨ps10, r10, e10⟩
                                                              have I10 := ih ps9 (PReq.assignmentStatement (PRes.getExpr r9) must) ps10 r10 e10 h10 (Or.inl (by rw [cnt9]; exact hcnt))
                                                              have lbl10 : ps10.breakall_label = ps.breakall_label := I10.1.trans lbl9
                                                              have cnt10 : ps10.loop_count = ps.loop_count := I10.2.1.trans cnt9
                                                              match e10 with
                                                              | some e0 =>
                                                                  simp only [pGo, h1, hs1, h2, hs2, h3, hs3, h4, hs4, h5, hs5, h6, hs6, h7, hs7, h8, hs8, h9, h10] at h
                                                                  cases h
                                                                  exact ⟨lbl10, cnt10, fun hx => by cases hx⟩
                                                              | none =>
                                                                  rcases hs10 : PRes.getStmtOpt r10 with _ | s010
                                                                  · rcases hNL : pExpectNewline tokens ps10 "expression" must with eNL | sNL
                                                                    · simp only [pGo, h1, hs1, h2, hs2, h3, hs3, h4, hs4, h5, hs5, h6, hs6, h7, hs7, h8, hs8, h9, h10, hs10, hNL] at h
                                                                      cases h
                                                                      exact ⟨lbl10, cnt10, fun hx => by cases hx⟩
                                                                    · have FNL := pExpectNewline_flags hNL
                                                                      simp only [pGo, h1, hs1, h2, hs2, h3, hs3, h4, hs4, h5, hs5, h6, hs6, h7, hs7, h8, hs8, h9, h10, hs10, hNL] at h
                                                                      cases h
                                                                      exact ⟨FNL.1.trans lbl10, FNL.2.trans cnt10,
                                                                        fun _ _ => NestedOk.exprStmt _ _⟩
                                                                  · simp only [pGo, h1, hs1, h2, hs2, h3, hs3, h4, hs4, h5, hs5, h6, hs6, h7, hs7, h8, hs8, h9, h10, hs10] at h
                                                                    cases h
                                                                    refine ⟨lbl10, cnt10, fun _ _ => ?_⟩
                                                                    have hn := allNested_getStmtOpt (I10.2.2 rfl trivial) hs10
                                                                    rw [lbl9] at hn
                                                                    exact hn
                                                        · simp only [pGo, h1, hs1, h2, hs2, h3, hs3, h4, hs4, h5, hs5, h6, hs6, h7, hs7, h8, hs8] at h
                                                          cases h
                                                          refine ⟨lbl8, cnt8, fun _ _ => ?_⟩
                                                          have hn := allNested_getStmtOpt (I8.2.2 rfl trivial) hs8
                                                          rw [lbl7] at hn
                                                          exact hn
                                                  · simp only [pGo, h1, hs1, h2, hs2, h3, hs3, h4, hs4, h5, hs5, h6, hs6, h7, hs7] at h
                                                    cases h
                                                    refine ⟨lbl7, cnt7, fun _ _ => ?_⟩
                                                    have hn := allNested_getStmtOpt (I7.2.2 rfl trivial) hs7
                                                    rw [lbl6] at hn
                                                    exact hn
                                            · simp only [pGo, h1, hs1, h2, hs2, h3, hs3, h4, hs4, h5, hs5, h6, hs6] at h
                                              cases h
                                              refine ⟨lbl6, cnt6, fun _ _ => ?_⟩
                                              have hn := allNested_getStmtOpt (I6.2.2 rfl trivial) hs6
                                              rw [lbl5] at hn
                                              exact hn
                                      · simp only [pGo, h1, hs1, h2, hs2, h3, hs3, h4, hs4, h5, hs5] at h
                                        cases h
                                        refine ⟨lbl5, cnt5, fun _ _ => ?_⟩
                                        have hn := allNested_getStmtOpt (I5.2.2 rfl trivial) hs5
                                        rw [lbl4] at hn
                                        exact hn
                                · simp only [pGo, h1, hs1, h2, hs2, h3, hs3, h4, hs4] at h
                                  cases h
                                  refine ⟨lbl4, cnt4, fun _ _ => ?_⟩
                                  have hn := allNested_getStmtOpt (I4.2.2 rfl trivial) hs4
                                  rw [lbl3] at hn
                                  exact hn
                          · simp only [pGo, h1, hs1, h2, hs2, h3, hs3] at h
                            cases h
                            refine ⟨lbl3, cnt3, fun _ _ => ?_⟩
                            have hn := allNested_getStmtOpt (I3.2.2 rfl trivial) hs3
                            rw [lbl2] at hn
                            exact hn
                    · simp only [pGo, h1, hs1, h2, hs2] at h
                      cases h
                      refine ⟨lbl2, cnt2, fun _ _ => ?_⟩
                      have hn := allNested_getStmtOpt (I2.2.2 rfl trivial) hs2
                      rw [lbl1] at hn
                      exact hn
              · simp only [pGo, h1, hs1] at h
                cases h
                refine ⟨lbl1, cnt1, fun _ _ => ?_⟩
                have hn := allNested_getStmtOpt (I1.2.2 rfl trivial) hs1
                exact hn
      | PReq.statementBlock =>
          have hcnt : 1 ≤ ps.loop_count := by
            rcases hg with hx | hx | hx
            · exact hx
            · simp [PReq.exprFam] at hx
            · simp at hx
          rcases h1 : pHasIndent tokens ps with e1 | r1
          · simp only [pGo, h1] at h
            cases h
            exact ⟨rfl, rfl, fun hx => by cases hx⟩
          · match r1 with
            | (false, ps1) =>
                have F1 := pHasIndent_flags h1
                simp only [pGo, h1] at h
                cases h
                refine ⟨F1.1, F1.2, fun _ _ => ?_⟩
                intro st hst
                simp at hst
            | (true, ps1) =>
                have F1 := pHasIndent_flags h1
                rcases h2 : pGo tokens src fuel ps1 (PReq.blockLoop []) with ⟨ps2, r2, e2⟩
                have I2 := ih ps1 (PReq.blockLoop []) ps2 r2 e2 h2
                  (Or.inl (by rw [F1.2]; exact hcnt))
                simp only [pGo, h1, h2] at h
                cases h
                refine ⟨I2.1.trans F1.1, I2.2.1.trans F1.2, fun he _ => ?_⟩
                have hin1 : PReq.inputOk ps1.breakall_label (PReq.blockLoop []) := by
                  intro st hst
                  simp at hst
                exact F1.1 ▸ I2.2.2 he hin1
      | PReq.blockLoop acc =>
          have hcnt : 1 ≤ ps.loop_count := by
            rcases hg with hx | hx | hx
            · exact hx
            · simp [PReq.exprFam] at hx
            · simp at hx
          rcases h1 : pMatch tokens ps [TokenType.DEDENT] with e1 | m1
          · simp only [pGo, h1] at h
            cases h
            exact ⟨rfl, rfl, fun hx => by cases hx⟩
          · match m1 with
            | some (t1, ps1) =>
                have F1 := pMatch_flags h1
                simp only [pGo, h1] at h
                cases h
                exact ⟨F1.1, F1.2, fun _ hin => hin⟩
            | none =>
                rcases h2 : pGo tokens src fuel ps (PReq.statement true) with ⟨ps2, r2, e2⟩
                have I2 := ih ps (PReq.statement true) ps2 r2 e2 h2 (Or.inl hcnt)
                match e2 with
                | some e0 =>
                    simp only [pGo, h1, h2] at h
                    cases h
                    exact ⟨I2.1, I2.2.1, fun hx => by cases hx⟩
                | none =>
                    rcases h3 : pGo tokens src fuel ps2
                        (PReq.blockLoop (acc ++ [r2.getStmt])) with ⟨ps3, r3, e3⟩
                    have I3 := ih ps2 (PReq.blockLoop (acc ++ [r2.getStmt])) ps3 r3 e3 h3
                      (Or.inl (by rw [I2.2.1]; exact hcnt))
                    simp only [pGo, h1, h2, h3] at h
                    cases h
                    refine ⟨I3.1.trans I2.1, I3.2.1.trans I2.2.1, fun he hin => ?_⟩
                    have hnew : NestedOk ps.breakall_label r2.getStmt :=
                      allNested_getStmt (I2.2.2 rfl trivial)
                    have hin3 : PReq.inputOk ps2.breakall_label
                        (PReq.blockLoop (acc ++ [r2.getStmt])) := by
                      intro st hst
                      rw [I2.1]
                      rcases List.mem_append.mp hst with hst1 | hst2
                      · exact hin st hst1
                      · rw [List.mem_singleton.mp hst2]
                        exact hnew
                    exact I2.1 ▸ I3.2.2 he hin3
      | PReq.statementBlockInLoop =>
          rcases h1 : pGo tokens src fuel { ps with loop_count := ps.loop_count + 1 }
              PReq.statementBlock with ⟨ps2, r2, e2⟩
          have I2 := ih { ps with loop_count := ps.loop_count + 1 } PReq.statementBlock
            ps2 r2 e2 h1 (Or.inl (by simp))
          simp only [pGo, h1] at h
          cases h
          refine ⟨I2.1, ?_, fun he _ => I2.2.2 he trivial⟩
          have := I2.2.1
          simp only [PState.loop_count] at this ⊢
          omega
      | PReq.typeStatement must =>
          have hcnt : 1 ≤ ps.loop_count := by
            rcases hg with hx | hx | hx
            · exact hx
            · simp [PReq.exprFam] at hx
            · simp at hx
          rcases h1 : pCurrent tokens ps with e1 | t0
          · simp only [pGo, h1] at h
            cases h
            exact ⟨rfl, rfl, fun hx => by cases hx⟩
          · by_cases ht0 : t0.token_type = TokenType.TYPE
            · rcases h2 : pNext tokens ps 1 with e2 | t1
              · simp only [pGo, h1, ht0, h2, ne_eq, not_true_eq_false, if_false] at h
                cases h
                exact ⟨rfl, rfl, fun hx => by cases hx⟩
              · by_cases ht1 : t1.token_type = TokenType.IDENTIFIER
                · rcases h3 : pNext tokens ps 2 with e3 | t2
                  · simp only [pGo, h1, ht0, h2, ht1, ne_eq, not_true_eq_false, if_false,
                      h3] at h
                    cases h
                    exact ⟨rfl, rfl, fun hx => by cases hx⟩
                  · by_cases ht2 : t2.token_type = TokenType.PAREN_OPEN
                    · rcases h4 : pGo tokens src fuel ps PReq.functionStatement
                          with ⟨ps4, r4, e4⟩
                      have I4 := ih ps PReq.functionStatement ps4 r4 e4 h4 (Or.inl hcnt)
                      simp only [pGo, h1, ht0, h2, ht1, h3, ht2, ne_eq, not_true_eq_false,
                        if_false, if_true, h4] at h
                      cases h
                      exact ⟨I4.1, I4.2.1, fun he _ => I4.2.2 he trivial⟩
                    · rcases h4 : pGo tokens src fuel ps (PReq.varDeclStatement must)
                          with ⟨ps4, r4, e4⟩
                      have I4 := ih ps (PReq.varDeclStatement must) ps4 r4 e4 h4 (Or.inl hcnt)
                      simp only [pGo, h1, ht0, h2, ht1, h3, ht2, ne_eq, not_true_eq_false,
                        if_false, if_true] at h
                      rw [h4] at h
                      cases h
                      exact ⟨I4.1, I4.2.1, fun he _ => I4.2.2 he trivial⟩
                · simp only [pGo, h1, ht0, h2, ht1, ne_eq, not_true_eq_false, if_false,
                    not_false_eq_true, if_true] at h
                  cases h
                  exact ⟨rfl, rfl, fun _ _ => trivial⟩
            · simp only [pGo, h1, ht0, ne_eq, not_false_eq_true, if_true] at h
              cases h
              exact ⟨rfl, rfl, fun _ _ => trivial⟩
      | PReq.functionStatement =>
          have hcnt : 1 ≤ ps.loop_count := by
            rcases hg with hx | hx | hx
            · exact hx
            · simp [PReq.exprFam] at hx
            · simp at hx
          rcases h1 : pConsume tokens ps with e1 | r1
          · simp only [pGo, h1] at h
            cases h
            exact ⟨rfl, rfl, fun hx => by cases hx⟩
          · obtain ⟨return_type, ps1⟩ := r1
            have F1 := pConsume_flags h1
            rcases h2 : pConsume tokens ps1 with e2 | r2
            · simp only [pGo, h1, h2] at h
              cases h
              exact ⟨F1.1, F1.2, fun hx => by cases hx⟩
            · obtain ⟨name, ps2⟩ := r2
              have F2 := pConsume_flags h2
              rcases h3 : pExpect tokens ps2 TokenType.PAREN_OPEN with e3 | r3
              · simp only [pGo, h1, h2, h3] at h
                cases h
                exact ⟨F2.1.trans F1.1, F2.2.trans F1.2, fun hx => by cases hx⟩
              · obtain ⟨po, ps3⟩ := r3
                have F3 := pExpect_flags h3
                rcases h4 : pMatch tokens ps3 [TokenType.PAREN_CLOSE] with e4 | m4
                · simp only [pGo, h1, h2, h3, h4] at h
                  cases h
                  exact ⟨(F3.1.trans F2.1).trans F1.1, (F3.2.trans F2.2).trans F1.2,
                    fun hx => by cases hx⟩
                · match m4 with
                  | some (t4, ps4) =>
                      have F4 := pMatch_flags h4
                      rcases h5 : pGo tokens src fuel ps4
                          (PReq.finishFunctionStatement return_type name []) with ⟨ps5, r5, e5⟩
                      have I5 := ih ps4 _ ps5 r5 e5 h5
                        (Or.inl (by rw [F4.2, F3.2, F2.2, F1.2]; exact hcnt))
                      simp only [pGo, h1, h2, h3, h4, h5] at h
                      cases h
                      exact ⟨((I5.1.trans F4.1).trans (F3.1.trans F2.1)).trans F1.1,
                        ((I5.2.1.trans F4.2).trans (F3.2.trans F2.2)).trans F1.2,
                        fun he _ =>
                          (((F4.1.trans F3.1).trans F2.1).trans F1.1) ▸ I5.2.2 he trivial⟩
                  | none =>
                      rcases h5 : pGo tokens src fuel ps3
                          (PReq.functionArgs return_type name []) with ⟨ps5, r5, e5⟩
                      have I5 := ih ps3 _ ps5 r5 e5 h5
                        (Or.inl (by rw [F3.2, F2.2, F1.2]; exact hcnt))
                      match e5 with
                      | some e0 =>
                          simp only [pGo, h1, h2, h3, h4, h5] at h
                          cases h
                          exact ⟨((I5.1.trans F3.1).trans F2.1).trans F1.1,
                            ((I5.2.1.trans F3.2).trans F2.2).trans F1.2,
                            fun hx => by cases hx⟩
                      | none =>
                          rcases h6 : pExpect tokens ps5 TokenType.PAREN_CLOSE with e6 | r6
                          · simp only [pGo, h1, h2, h3, h4, h5, h6] at h
                            cases h
                            exact ⟨((I5.1.trans F3.1).trans F2.1).trans F1.1,
                              ((I5.2.1.trans F3.2).trans F2.2).trans F1.2,
                              fun hx => by cases hx⟩
                          · obtain ⟨pc, ps6⟩ := r6
                            have F6 := pExpect_flags h6
                            rcases h7 : pGo tokens src fuel ps6
                                (PReq.finishFunctionStatement return_type name r5.getArgs)
                              with ⟨ps7, r7, e7⟩
                            have I7 := ih ps6 _ ps7 r7 e7 h7
                              (Or.inl (by rw [F6.2, I5.2.1, F3.2, F2.2, F1.2]; exact hcnt))
                            simp only [pGo, h1, h2, h3, h4, h5, h6, h7] at h
                            cases h
                            exact ⟨(((I7.1.trans F6.1).trans I5.1).trans
                                (F3.1.trans F2.1)).trans F1.1,
                              (((I7.2.1.trans F6.2).trans I5.2.1).trans
                                (F3.2.trans F2.2)).trans F1.2,
                              fun he _ =>
                                ((((F6.1.trans I5.1).trans F3.1).trans F2.1).trans F1.1) ▸
                                  I7.2.2 he trivial⟩
      | PReq.functionArgs rt name acc =>
          have hcnt : 1 ≤ ps.loop_count := by
            rcases hg with hx | hx | hx
            · exact hx
            · simp [PReq.exprFam] at hx
            · simp at hx
          rcases h1 : pExpect tokens ps TokenType.TYPE with e1 | r1
          · simp only [pGo, h1] at h
            cases h
            exact ⟨rfl, rfl, fun hx => by cases hx⟩
          · obtain ⟨argument_type, ps1⟩ := r1
            have F1 := pExpect_flags h1
            by_cases hv : argument_type.ty.non_void = true
            · rcases h2 : pExpect tokens ps1 TokenType.IDENTIFIER with e2 | r2
              · simp only [pGo, h1, hv, Bool.not_true, Bool.false_eq_true, if_false, h2] at h
                cases h
                exact ⟨F1.1, F1.2, fun hx => by cases hx⟩
              · obtain ⟨argument_name, ps2⟩ := r2
                have F2 := pExpect_flags h2
                rcases h3 : pMatch tokens ps2 [TokenType.COMMA] with e3 | m3
                · simp only [pGo, h1, hv, Bool.not_true, Bool.false_eq_true, if_false, h2,
                    h3] at h
                  cases h
                  exact ⟨F2.1.trans F1.1, F2.2.trans F1.2, fun hx => by cases hx⟩
                · match m3 with
                  | some (t3, ps3) =>
                      have F3 := pMatch_flags h3
                      rcases h4 : pGo tokens src fuel ps3 (PReq.functionArgs rt name
                          (acc ++ [(argument_type, argument_name)])) with ⟨ps4, r4, e4⟩
                      have I4 := ih ps3 _ ps4 r4 e4 h4
                        (Or.inl (by rw [F3.2, F2.2, F1.2]; exact hcnt))
                      simp only [pGo, h1, hv, Bool.not_true, Bool.false_eq_true, if_false,
                        h2, h3, h4] at h
                      cases h
                      exact ⟨((I4.1.trans F3.1).trans F2.1).trans F1.1,
                        ((I4.2.1.trans F3.2).trans F2.2).trans F1.2,
                        fun he _ => ((F3.1.trans F2.1).trans F1.1) ▸ I4.2.2 he trivial⟩
                  | none =>
                      simp only [pGo, h1, hv, Bool.not_true, Bool.false_eq_true, if_false,
                        h2, h3] at h
                      cases h
                      exact ⟨F2.1.trans F1.1, F2.2.trans F1.2, fun _ _ => trivial⟩
            · simp only [Bool.not_eq_true] at hv
              simp only [pGo, h1, hv, Bool.not_false, if_true] at h
              cases h
              exact ⟨F1.1, F1.2, fun hx => by cases hx⟩
      | PReq.finishFunctionStatement rt name args =>
          have hcnt : 1 ≤ ps.loop_count := by
            rcases hg with hx | hx | hx
            · exact hx
            · simp [PReq.exprFam] at hx
            · simp at hx
          rcases h1 : pExpect tokens ps TokenType.COLON with e1 | r1
          · simp only [pGo, h1] at h
            cases h
            exact ⟨rfl, rfl, fun hx => by cases hx⟩
          · obtain ⟨ct1, ps1⟩ := r1
            have F1 := pExpect_flags h1
            rcases h2 : pExpectNewline tokens ps1 with e2 | ps2
            · simp only [pGo, h1, h2] at h
              cases h
              exact ⟨F1.1, F1.2, fun hx => by cases hx⟩
            · have F2 := pExpectNewline_flags h2
              rcases h3 : pGo tokens src fuel { ps2 with in_function := true }
                  PReq.statementBlock with ⟨ps4, rb, e3⟩
              have I3 := ih { ps2 with in_function := true } PReq.statementBlock ps4 rb e3 h3
                (Or.inl (by simp only [PState.loop_count]; rw [F2.2, F1.2]; exact hcnt))
              match e3 with
              | some e0 =>
                  simp only [pGo, h1, h2, h3] at h
                  cases h
                  exact ⟨(I3.1.trans F2.1).trans F1.1, (I3.2.1.trans F2.2).trans F1.2,
                    fun hx => by cases hx⟩
              | none =>
                  simp only [pGo, h1, h2, h3] at h
                  cases h
                  refine ⟨(I3.1.trans F2.1).trans F1.1, (I3.2.1.trans F2.2).trans F1.2,
                    fun _ _ => ?_⟩
                  refine NestedOk.functionStmt _ _ _ _ _ _ ?_
                  intro st hst
                  exact ((F2.1.trans F1.1) ▸ allNested_getStmts (I3.2.2 rfl trivial)) st hst
      | PReq.varDeclStatement must =>
          have hcnt : 1 ≤ ps.loop_count := by
            rcases hg with hx | hx | hx
            · exact hx
            · simp [PReq.exprFam] at hx
            · simp at hx
          rcases h1 : pConsume tokens ps with e1 | r1
          · simp only [pGo, h1] at h
            cases h
            exact ⟨rfl, rfl, fun hx => by cases hx⟩
          · obtain ⟨type_token, ps1⟩ := r1
            have F1 := pConsume_flags h1
            rcases h2 : pConsume tokens ps1 with e2 | r2
            · simp only [pGo, h1, h2] at h
              cases h
              exact ⟨F1.1, F1.2, fun hx => by cases hx⟩
            · obtain ⟨name, ps2⟩ := r2
              have F2 := pConsume_flags h2
              rcases h3 : pMatch tokens ps2 [TokenType.EQUAL] with e3 | m3
              · simp only [pGo, h1, h2, h3] at h
                cases h
                exact ⟨F2.1.trans F1.1, F2.2.trans F1.2, fun hx => by cases hx⟩
              · match m3 with
                | some (t3, ps3) =>
                    have F3 := pMatch_flags h3
                    rcases h4 : pGo tokens src fuel ps3 PReq.expressionReq with ⟨ps4, r4, e4⟩
                    have I4 := ih ps3 PReq.expressionReq ps4 r4 e4 h4 (Or.inr (Or.inl rfl))
                    match e4 with
                    | some e0 =>
                        simp only [pGo, h1, h2, h3, h4] at h
                        cases h
                        exact ⟨((I4.1.trans F3.1).trans F2.1).trans F1.1,
                          ((I4.2.1.trans F3.2).trans F2.2).trans F1.2, fun hx => by cases hx⟩
                    | none =>
                        rcases h5 : pExpectNewline tokens ps4 "statement" must with e5 | ps5
                        · simp only [pGo, h1, h2, h3, h4, h5] at h
                          cases h
                          exact ⟨((I4.1.trans F3.1).trans F2.1).trans F1.1,
                            ((I4.2.1.trans F3.2).trans F2.2).trans F1.2, fun hx => by cases hx⟩
                        · have F5 := pExpectNewline_flags h5
                          by_cases hl : type_token.ty.isList = true
                          · simp only [pGo, h1, h2, h3, h4, h5, hl, if_true] at h
                            cases h
                            exact ⟨(((F5.1.trans I4.1).trans F3.1).trans F2.1).trans F1.1,
                              (((F5.2.trans I4.2.1).trans F3.2).trans F2.2).trans F1.2,
                              fun _ _ => NestedOk.listStmt _ _ _⟩
                          · simp only [pGo, h1, h2, h3, h4, h5, hl, Bool.false_eq_true,
                              if_false] at h
                            cases h
                            exact ⟨(((F5.1.trans I4.1).trans F3.1).trans F2.1).trans F1.1,
                              (((F5.2.trans I4.2.1).trans F3.2).trans F2.2).trans F1.2,
                              fun _ _ => NestedOk.varDecl _ _ _ _⟩
                | none =>
                    rcases h6 : pExpectNewline tokens ps2 "statement" must with e6 | ps6
                    · simp only [pGo, h1, h2, h3, h6] at h
                      cases h
                      exact ⟨F2.1.trans F1.1, F2.2.trans F1.2, fun hx => by cases hx⟩
                    · have F6 := pExpectNewline_flags h6
                      by_cases hl : type_token.ty.isList = true
                      · simp only [pGo, h1, h2, h3, h6, hl, if_true] at h
                        cases h
                        exact ⟨(F6.1.trans F2.1).trans F1.1, (F6.2.trans F2.2).trans F1.2,
                          fun _ _ => NestedOk.listStmt _ _ _⟩
                      · simp only [pGo, h1, h2, h3, h6, hl, Bool.false_eq_true, if_false] at h
                        cases h
                        exact ⟨(F6.1.trans F2.1).trans F1.1, (F6.2.trans F2.2).trans F1.2,
                          fun _ _ => NestedOk.varDecl _ _ _ _⟩
      | PReq.forLoopStatement =>
          have hcnt : 1 ≤ ps.loop_count := by
            rcases hg with hx | hx | hx
            · exact hx
            · simp [PReq.exprFam] at hx
            · simp at hx
          rcases hF : pMatch tokens ps [TokenType.FOR] with eF | mF
          · simp only [pGo, hF] at h
            cases h
            exact ⟨rfl, rfl, fun hx => by cases hx⟩
          · match mF with
            | none =>
                simp only [pGo, hF] at h
                cases h
                exact ⟨rfl, rfl, fun _ _ => trivial⟩
            | some (token, s1) =>
                have FF := pMatch_flags hF
                have c2 : (pSetBreakallLabel s1 token).loop_count = ps.loop_count :=
                  (pSetBreakallLabel_flags s1 token).1.trans FF.2
                have l2 : (pSetBreakallLabel s1 token).breakall_label = ps.breakall_label :=
                  ((pSetBreakallLabel_flags s1 token).2
                    (by rw [FF.2]; exact hcnt)).trans FF.1
                rcases hmI : pMatch tokens (pSetBreakallLabel s1 token) [TokenType.SEMICOLON] with emI | mmI
                · simp only [pGo, hF, hmI] at h
                  cases h
                  exact ⟨l2, c2, fun hx => by cases hx⟩
                · match mmI with
                  | some (tdI, sdI) =>
                      rcases hmC : pMatch tokens sdI [TokenType.SEMICOLON] with emC | mmC
                      · simp only [pGo, hF, hmI, hmC] at h
                        cases h
                        exact ⟨((pMatch_flags hmI).1.trans l2), ((pMatch_flags hmI).2.trans c2), fun hx => by cases hx⟩
                      · match mmC with
                        | some (tdC, sdC) =>
                            rcases hmL : pMatch tokens sdC [TokenType.COLON] with emL | mmL
                            · simp only [pGo, hF, hmI, hmC, hmL] at h
                              cases h
                              exact ⟨((pMatch_flags hmC).1.trans ((pMatch_flags hmI).1.trans l2)), ((pMatch_flags hmC).2.trans ((pMatch_flags hmI).2.trans c2)), fun hx => by cases hx⟩
                            · match mmL with
                              | some (tdL, sdL) =>
                                  rcases hNL : pExpectNewline tokens sdL with eNL | sNL
                                  · simp only [pGo, hF, hmI, hmC, hmL, hNL] at h
                                    cases h
                                    exact ⟨((pMatch_flags hmL).1.trans ((pMatch_flags hmC).1.trans ((pMatch_flags hmI).1.trans l2))), ((pMatch_flags hmL).2.trans ((pMatch_flags hmC).2.trans ((pMatch_flags hmI).2.trans c2))), fun hx => by cases hx⟩
                                  · have FNL := pExpectNewline_flags hNL
                                    have lNL : sNL.breakall_label = ps.breakall_label := FNL.1.trans ((pMatch_flags hmL).1.trans ((pMatch_flags hmC).1.trans ((pMatch_flags hmI).1.trans l2)))
                                    rcases hB : pGo tokens src fuel sNL PReq.statementBlockInLoop with ⟨sB, rB, eB⟩
                                    have IB := ih sNL PReq.statementBlockInLoop sB rB eB hB (Or.inr (Or.inr rfl))
                                    match eB with
                                    | some e0 =>
                                        simp only [pGo, hF, hmI, hmC, hmL, hNL, hB] at h
                                        cases h
                                        exact ⟨((IB.1.trans FNL.1).trans ((pMatch_flags hmL).1.trans ((pMatch_flags hmC).1.trans ((pMatch_flags hmI).1.trans l2)))), ((IB.2.1.trans FNL.2).trans ((pMatch_flags hmL).2.trans ((pMatch_flags hmC).2.trans ((pMatch_flags hmI).2.trans c2)))), fun hx => by cases hx⟩
                                    | none =>
                                        have hlb : pGetBreakallLabel sB = none := by
                                          have hc : sB.loop_count = ps.loop_count := ((IB.2.1.trans FNL.2).trans ((pMatch_flags hmL).2.trans ((pMatch_flags hmC).2.trans ((pMatch_flags hmI).2.trans c2))))
                                          unfold pGetBreakallLabel
                                          rw [hc]
                                          simp only [ite_eq_right_iff]
                                          intro hz
                                          omega
                                        have hbody : ∀ st ∈ rB.getStmts, NestedOk ps.breakall_label st := by
                                          intro st hst
                                          have := allNested_getStmts (IB.2.2 rfl trivial) st hst
                                          rwa [lNL] at this
                                        simp only [pGo, hF, hmI, hmC, hmL, hNL, hB] at h
                                        cases h
                                        refine ⟨((IB.1.trans FNL.1).trans ((pMatch_flags hmL).1.trans ((pMatch_flags hmC).1.trans ((pMatch_flags hmI).1.trans l2)))), ((IB.2.1.trans FNL.2).trans ((pMatch_flags hmL).2.trans ((pMatch_flags hmC).2.trans ((pMatch_flags hmI).2.trans c2)))), fun _ _ => ?_⟩
                                        rw [PRes.allNested, hlb]
                                        refine NestedOk.forLoop _ _ _ _ _ _ ?_ ?_ ?_
                                        · intro st hst
                                          simp [PRes.getStmtOpt] at hst
                                        · intro st hst
                                          simp [PRes.getStmtOpt] at hst
                                        · exact hbody
                              | none =>
                                  rcases hpL : pGo tokens src fuel sdC (PReq.statement false)
                                      with ⟨spL, rpL, epL⟩
                                  have IpL := ih sdC (PReq.statement false) spL rpL epL hpL
                                    (Or.inl (by rw [((pMatch_flags hmC).2.trans ((pMatch_flags hmI).2.trans c2))]; exact hcnt))
                                  match epL with
                                  | some e0 =>
                                      simp only [pGo, hF, hmI, hmC, hmL, hpL] at h
                                      cases h
                                      exact ⟨((IpL.1).trans ((pMatch_flags hmC).1.trans ((pMatch_flags hmI).1.trans l2))), ((IpL.2.1).trans ((pMatch_flags hmC).2.trans ((pMatch_flags hmI).2.trans c2))), fun hx => by cases hx⟩
                                  | none =>
                                      rcases hxL : pExpect tokens spL TokenType.COLON with exL | rxL
                                      · simp only [pGo, hF, hmI, hmC, hmL, hpL, hxL] at h
                                        cases h
                                        exact ⟨((IpL.1).trans ((pMatch_flags hmC).1.trans ((pMatch_flags hmI).1.trans l2))), ((IpL.2.1).trans ((pMatch_flags hmC).2.trans ((pMatch_flags hmI).2.trans c2))), fun hx => by cases hx⟩
                                      · obtain ⟨tbL, sbL⟩ := rxL
                                        rcases hNL : pExpectNewline tokens sbL with eNL | sNL
                                        · simp only [pGo, hF, hmI, hmC, hmL, hpL, hxL, hNL] at h
                                          cases h
                                          exact ⟨(((pExpect_flags hxL).1.trans (IpL.1)).trans ((pMatch_flags hmC).1.trans ((pMatch_flags hmI).1.trans l2))), (((pExpect_flags hxL).2.trans (IpL.2.1)).trans ((pMatch_flags hmC).2.trans ((pMatch_flags hmI).2.trans c2))), fun hx => by cases hx⟩
                                        · have FNL := pExpectNewline_flags hNL
                                          have lNL : sNL.breakall_label = ps.breakall_label := FNL.1.trans (((pExpect_flags hxL).1.trans (IpL.1)).trans ((pMatch_flags hmC).1.trans ((pMatch_flags hmI).1.trans l2)))
                                          rcases hB : pGo tokens src fuel sNL PReq.statementBlockInLoop with ⟨sB, rB, eB⟩
                                          have IB := ih sNL PReq.statementBlockInLoop sB rB eB hB (Or.inr (Or.inr rfl))
                                          match eB with
                                          | some e0 =>
                                              simp only [pGo, hF, hmI, hmC, hmL, hpL, hxL, hNL, hB] at h
                                              cases h
                                              exact ⟨((IB.1.trans FNL.1).trans (((pExpect_flags hxL).1.trans (IpL.1)).trans ((pMatch_flags hmC).1.trans ((pMatch_flags hmI).1.trans l2)))), ((IB.2.1.trans FNL.2).trans (((pExpect_flags hxL).2.trans (IpL.2.1)).trans ((pMatch_flags hmC).2.trans ((pMatch_flags hmI).2.trans c2)))), fun hx => by cases hx⟩
                                          | none =>
                                              have hlb : pGetBreakallLabel sB = none := by
                                                have hc : sB.loop_count = ps.loop_count := ((IB.2.1.trans FNL.2).trans (((pExpect_flags hxL).2.trans (IpL.2.1)).trans ((pMatch_flags hmC).2.trans ((pMatch_flags hmI).2.trans c2))))
                                                unfold pGetBreakallLabel
                                                rw [hc]
                                                simp only [ite_eq_right_iff]
                                                intro hz
                                                omega
                                              have hbody : ∀ st ∈ rB.getStmts, NestedOk ps.breakall_label st := by
                                                intro st hst
                                                have := allNested_getStmts (IB.2.2 rfl trivial) st hst
                                                rwa [lNL] at this
                                              simp only [pGo, hF, hmI, hmC, hmL, hpL, hxL, hNL, hB] at h
                                              cases h
                                              refine ⟨((IB.1.trans FNL.1).trans (((pExpect_flags hxL).1.trans (IpL.1)).trans ((pMatch_flags hmC).1.trans ((pMatch_flags hmI).1.trans l2)))), ((IB.2.1.trans FNL.2).trans (((pExpect_flags hxL).2.trans (IpL.2.1)).trans ((pMatch_flags hmC).2.trans ((pMatch_flags hmI).2.trans c2)))), fun _ _ => ?_⟩
                                              rw [PRes.allNested, hlb]
                                              refine NestedOk.forLoop _ _ _ _ _ _ ?_ ?_ ?_
                                              · intro st hst
                                                simp [PRes.getStmtOpt] at hst
                                              · intro st hst
                                                simp only [PRes.getStmtOpt, Option.some.injEq] at hst
                                                subst hst
                                                exact (((pMatch_flags hmC).1.trans ((pMatch_flags hmI).1.trans l2)) ▸ allNested_getStmt (IpL.2.2 rfl trivial))
                                              · exact hbody
                        | none =>
                            rcases hpC : pGo tokens src fuel sdI PReq.expressionReq
                                with ⟨spC, rpC, epC⟩
                            have IpC := ih sdI PReq.expressionReq spC rpC epC hpC
                              (Or.inr (Or.inl rfl))
                            match epC with
                            | some e0 =>
                                simp only [pGo, hF, hmI, hmC, hpC] at h
                                cases h
                                exact ⟨((IpC.1).trans ((pMatch_flags hmI).1.trans l2)), ((IpC.2.1).trans ((pMatch_flags hmI).2.trans c2)), fun hx => by cases hx⟩
                            | none =>
                                rcases hxC : pExpect tokens spC TokenType.SEMICOLON with exC | rxC
                                · simp only [pGo, hF, hmI, hmC, hpC, hxC] at h
                                  cases h
                                  exact ⟨((IpC.1).trans ((pMatch_flags hmI).1.trans l2)), ((IpC.2.1).trans ((pMatch_flags hmI).2.trans c2)), fun hx => by cases hx⟩
                                · obtain ⟨tbC, sbC⟩ := rxC
                                  rcases hmL : pMatch tokens sbC [TokenType.COLON] with emL | mmL
                                  · simp only [pGo, hF, hmI, hmC, hpC, hxC, hmL] at h
                                    cases h
                                    exact ⟨(((pExpect_flags hxC).1.trans (IpC.1)).trans ((pMatch_flags hmI).1.trans l2)), (((pExpect_flags hxC).2.trans (IpC.2.1)).trans ((pMatch_flags hmI).2.trans c2)), fun hx => by cases hx⟩
                                  · match mmL with
                                    | some (tdL, sdL) =>
                                        rcases hNL : pExpectNewline tokens sdL with eNL | sNL
                                        · simp only [pGo, hF, hmI, hmC, hpC, hxC, hmL, hNL] at h
                                          cases h
                                          exact ⟨((pMatch_flags hmL).1.trans (((pExpect_flags hxC).1.trans (IpC.1)).trans ((pMatch_flags hmI).1.trans l2))), ((pMatch_flags hmL).2.trans (((pExpect_flags hxC).2.trans (IpC.2.1)).trans ((pMatch_flags hmI).2.trans c2))), fun hx => by cases hx⟩
                                        · have FNL := pExpectNewline_flags hNL
                                          have lNL : sNL.breakall_label = ps.breakall_label := FNL.1.trans ((pMatch_flags hmL).1.trans (((pExpect_flags hxC).1.trans (IpC.1)).trans ((pMatch_flags hmI).1.trans l2)))
                                          rcases hB : pGo tokens src fuel sNL PReq.statementBlockInLoop with ⟨sB, rB, eB⟩
                                          have IB := ih sNL PReq.statementBlockInLoop sB rB eB hB (Or.inr (Or.inr rfl))
                                          match eB with
                                          | some e0 =>
                                              simp only [pGo, hF, hmI, hmC, hpC, hxC, hmL, hNL, hB] at h
                                              cases h
                                              exact ⟨((IB.1.trans FNL.1).trans ((pMatch_flags hmL).1.trans (((pExpect_flags hxC).1.trans (IpC.1)).trans ((pMatch_flags hmI).1.trans l2)))), ((IB.2.1.trans FNL.2).trans ((pMatch_flags hmL).2.trans (((pExpect_flags hxC).2.trans (IpC.2.1)).trans ((pMatch_flags hmI).2.trans c2)))), fun hx => by cases hx⟩
                                          | none =>
                                              have hlb : pGetBreakallLabel sB = none := by
                                                have hc : sB.loop_count = ps.loop_count := ((IB.2.1.trans FNL.2).trans ((pMatch_flags hmL).2.trans (((pExpect_flags hxC).2.trans (IpC.2.1)).trans ((pMatch_flags hmI).2.trans c2))))
                                                unfold pGetBreakallLabel
                                                rw [hc]
                                                simp only [ite_eq_right_iff]
                                                intro hz
                                                omega
                                              have hbody : ∀ st ∈ rB.getStmts, NestedOk ps.breakall_label st := by
                                                intro st hst
                                                have := allNested_getStmts (IB.2.2 rfl trivial) st hst
                                                rwa [lNL] at this
                                              simp only [pGo, hF, hmI, hmC, hpC, hxC, hmL, hNL, hB] at h
                                              cases h
                                              refine ⟨((IB.1.trans FNL.1).trans ((pMatch_flags hmL).1.trans (((pExpect_flags hxC).1.trans (IpC.1)).trans ((pMatch_flags hmI).1.trans l2)))), ((IB.2.1.trans FNL.2).trans ((pMatch_flags hmL).2.trans (((pExpect_flags hxC).2.trans (IpC.2.1)).trans ((pMatch_flags hmI).2.trans c2)))), fun _ _ => ?_⟩
                                              rw [PRes.allNested, hlb]
                                              refine NestedOk.forLoop _ _ _ _ _ _ ?_ ?_ ?_
                                              · intro st hst
                                                simp [PRes.getStmtOpt] at hst
                                              · intro st hst
                                                simp [PRes.getStmtOpt] at hst
                                              · exact hbody
                                    | none =>
                                        rcases hpL : pGo tokens src fuel sbC (PReq.statement false)
                                            with ⟨spL, rpL, epL⟩
                                        have IpL := ih sbC (PReq.statement false) spL rpL epL hpL
                                          (Or.inl (by rw [(((pExpect_flags hxC).2.trans (IpC.2.1)).trans ((pMatch_flags hmI).2.trans c2))]; exact hcnt))
                                        match epL with
                                        | some e0 =>
                                            simp only [pGo, hF, hmI, hmC, hpC, hxC, hmL, hpL] at h
                                            cases h
                                            exact ⟨((IpL.1).trans (((pExpect_flags hxC).1.trans (IpC.1)).trans ((pMatch_flags hmI).1.trans l2))), ((IpL.2.1).trans (((pExpect_flags hxC).2.trans (IpC.2.1)).trans ((pMatch_flags hmI).2.trans c2))), fun hx => by cases hx⟩
                                        | none =>
                                            rcases hxL : pExpect tokens spL TokenType.COLON with exL | rxL
                                            · simp only [pGo, hF, hmI, hmC, hpC, hxC, hmL, hpL, hxL] at h
                                              cases h
                                              exact ⟨((IpL.1).trans (((pExpect_flags hxC).1.trans (IpC.1)).trans ((pMatch_flags hmI).1.trans l2))), ((IpL.2.1).trans (((pExpect_flags hxC).2.trans (IpC.2.1)).trans ((pMatch_flags hmI).2.trans c2))), fun hx => by cases hx⟩
                                            · obtain ⟨tbL, sbL⟩ := rxL
                                              rcases hNL : pExpectNewline tokens sbL with eNL | sNL
                                              · simp only [pGo, hF, hmI, hmC, hpC, hxC, hmL, hpL, hxL, hNL] at h
                                                cases h
                                                exact ⟨(((pExpect_flags hxL).1.trans (IpL.1)).trans (((pExpect_flags hxC).1.trans (IpC.1)).trans ((pMatch_flags hmI).1.trans l2))), (((pExpect_flags hxL).2.trans (IpL.2.1)).trans (((pExpect_flags hxC).2.trans (IpC.2.1)).trans ((pMatch_flags hmI).2.trans c2))), fun hx => by cases hx⟩
                                              · have FNL := pExpectNewline_flags hNL
                                                have lNL : sNL.breakall_label = ps.breakall_label := FNL.1.trans (((pExpect_flags hxL).1.trans (IpL.1)).trans (((pExpect_flags hxC).1.trans (IpC.1)).trans ((pMatch_flags hmI).1.trans l2)))
                                                rcases hB : pGo tokens src fuel sNL PReq.statementBlockInLoop with ⟨sB, rB, eB⟩
                                                have IB := ih sNL PReq.statementBlockInLoop sB rB eB hB (Or.inr (Or.inr rfl))
                                                match eB with
                                                | some e0 =>
                                                    simp only [pGo, hF, hmI, hmC, hpC, hxC, hmL, hpL, hxL, hNL, hB] at h
                                                    cases h
                                                    exact ⟨((IB.1.trans FNL.1).trans (((pExpect_flags hxL).1.trans (IpL.1)).trans (((pExpect_flags hxC).1.trans (IpC.1)).trans ((pMatch_flags hmI).1.trans l2)))), ((IB.2.1.trans FNL.2).trans (((pExpect_flags hxL).2.trans (IpL.2.1)).trans (((pExpect_flags hxC).2.trans (IpC.2.1)).trans ((pMatch_flags hmI).2.trans c2)))), fun hx => by cases hx⟩
                                                | none =>
                                                    have hlb : pGetBreakallLabel sB = none := by
                                                      have hc : sB.loop_count = ps.loop_count := ((IB.2.1.trans FNL.2).trans (((pExpect_flags hxL).2.trans (IpL.2.1)).trans (((pExpect_flags hxC).2.trans (IpC.2.1)).trans ((pMatch_flags hmI).2.trans c2))))
                                                      unfold pGetBreakallLabel
                                                      rw [hc]
                                                      simp only [ite_eq_right_iff]
                                                      intro hz
                                                      omega
                                                    have hbody : ∀ st ∈ rB.getStmts, NestedOk ps.breakall_label st := by
                                                      intro st hst
                                                      have := allNested_getStmts (IB.2.2 rfl trivial) st hst
                                                      rwa [lNL] at this
                                                    simp only [pGo, hF, hmI, hmC, hpC, hxC, hmL, hpL, hxL, hNL, hB] at h
                                                    cases h
                                                    refine ⟨((IB.1.trans FNL.1).trans (((pExpect_flags hxL).1.trans (IpL.1)).trans (((pExpect_flags hxC).1.trans (IpC.1)).trans ((pMatch_flags hmI).1.trans l2)))), ((IB.2.1.trans FNL.2).trans (((pExpect_flags hxL).2.trans (IpL.2.1)).trans (((pExpect_flags hxC).2.trans (IpC.2.1)).trans ((pMatch_flags hmI).2.trans c2)))), fun _ _ => ?_⟩
                                                    rw [PRes.allNested, hlb]
                                                    refine NestedOk.forLoop _ _ _ _ _ _ ?_ ?_ ?_
                                                    · intro st hst
                                                      simp [PRes.getStmtOpt] at hst
                                                    · intro st hst
                                                      simp only [PRes.getStmtOpt, Option.some.injEq] at hst
                                                      subst hst
                                                      exact ((((pExpect_flags hxC).1.trans (IpC.1)).trans ((pMatch_flags hmI).1.trans l2)) ▸ allNested_getStmt (IpL.2.2 rfl trivial))
                                                    · exact hbody
                  | none =>
                      rcases hpI : pGo tokens src fuel (pSetBreakallLabel s1 token) (PReq.statement false)
                          with ⟨spI, rpI, epI⟩
                      have IpI := ih (pSetBreakallLabel s1 token) (PReq.statement false) spI rpI epI hpI
                        (Or.inl (by rw [c2]; exact hcnt))
                      match epI with
                      | some e0 =>
                          simp only [pGo, hF, hmI, hpI] at h
                          cases h
                          exact ⟨((IpI.1).trans l2), ((IpI.2.1).trans c2), fun hx => by cases hx⟩
                      | none =>
                          rcases hxI : pExpect tokens spI TokenType.SEMICOLON with exI | rxI
                          · simp only [pGo, hF, hmI, hpI, hxI] at h
                            cases h
                            exact ⟨((IpI.1).trans l2), ((IpI.2.1).trans c2), fun hx => by cases hx⟩
                          · obtain ⟨tbI, sbI⟩ := rxI
                            rcases hmC : pMatch tokens sbI [TokenType.SEMICOLON] with emC | mmC
                            · simp only [pGo, hF, hmI, hpI, hxI, hmC] at h
                              cases h
                              exact ⟨(((pExpect_flags hxI).1.trans (IpI.1)).trans l2), (((pExpect_flags hxI).2.trans (IpI.2.1)).trans c2), fun hx => by cases hx⟩
                            · match mmC with
                              | some (tdC, sdC) =>
                                  rcases hmL : pMatch tokens sdC [TokenType.COLON] with emL | mmL
                                  · simp only [pGo, hF, hmI, hpI, hxI, hmC, hmL] at h
                                    cases h
                                    exact ⟨((pMatch_flags hmC).1.trans (((pExpect_flags hxI).1.trans (IpI.1)).trans l2)), ((pMatch_flags hmC).2.trans (((pExpect_flags hxI).2.trans (IpI.2.1)).trans c2)), fun hx => by cases hx⟩
                                  · match mmL with
                                    | some (tdL, sdL) =>
                                        rcases hNL : pExpectNewline tokens sdL with eNL | sNL
                                        · simp only [pGo, hF, hmI, hpI, hxI, hmC, hmL, hNL] at h
                                          cases h
                                          exact ⟨((pMatch_flags hmL).1.trans ((pMatch_flags hmC).1.trans (((pExpect_flags hxI).1.trans (IpI.1)).trans l2))), ((pMatch_flags hmL).2.trans ((pMatch_flags hmC).2.trans (((pExpect_flags hxI).2.trans (IpI.2.1)).trans c2))), fun hx => by cases hx⟩
                                        · have FNL := pExpectNewline_flags hNL
                                          have lNL : sNL.breakall_label = ps.breakall_label := FNL.1.trans ((pMatch_flags hmL).1.trans ((pMatch_flags hmC).1.trans (((pExpect_flags hxI).1.trans (IpI.1)).trans l2)))
                                          rcases hB : pGo tokens src fuel sNL PReq.statementBlockInLoop with ⟨sB, rB, eB⟩
                                          have IB := ih sNL PReq.statementBlockInLoop sB rB eB hB (Or.inr (Or.inr rfl))
                                          match eB with
                                          | some e0 =>
                                              simp only [pGo, hF, hmI, hpI, hxI, hmC, hmL, hNL, hB] at h
                                              cases h
                                              exact ⟨((IB.1.trans FNL.1).trans ((pMatch_flags hmL).1.trans ((pMatch_flags hmC).1.trans (((pExpect_flags hxI).1.trans (IpI.1)).trans l2)))), ((IB.2.1.trans FNL.2).trans ((pMatch_flags hmL).2.trans ((pMatch_flags hmC).2.trans (((pExpect_flags hxI).2.trans (IpI.2.1)).trans c2)))), fun hx => by cases hx⟩
                                          | none =>
                                              have hlb : pGetBreakallLabel sB = none := by
                                                have hc : sB.loop_count = ps.loop_count := ((IB.2.1.trans FNL.2).trans ((pMatch_flags hmL).2.trans ((pMatch_flags hmC).2.trans (((pExpect_flags hxI).2.trans (IpI.2.1)).trans c2))))
                                                unfold pGetBreakallLabel
                                                rw [hc]
                                                simp only [ite_eq_right_iff]
                                                intro hz
                                                omega
                                              have hbody : ∀ st ∈ rB.getStmts, NestedOk ps.breakall_label st := by
                                                intro st hst
                                                have := allNested_getStmts (IB.2.2 rfl trivial) st hst
                                                rwa [lNL] at this
                                              simp only [pGo, hF, hmI, hpI, hxI, hmC, hmL, hNL, hB] at h
                                              cases h
                                              refine ⟨((IB.1.trans FNL.1).trans ((pMatch_flags hmL).1.trans ((pMatch_flags hmC).1.trans (((pExpect_flags hxI).1.trans (IpI.1)).trans l2)))), ((IB.2.1.trans FNL.2).trans ((pMatch_flags hmL).2.trans ((pMatch_flags hmC).2.trans (((pExpect_flags hxI).2.trans (IpI.2.1)).trans c2)))), fun _ _ => ?_⟩
                                              rw [PRes.allNested, hlb]
                                              refine NestedOk.forLoop _ _ _ _ _ _ ?_ ?_ ?_
                                              · intro st hst
                                                simp only [PRes.getStmtOpt, Option.some.injEq] at hst
                                                subst hst
                                                exact (l2 ▸ allNested_getStmt (IpI.2.2 rfl trivial))
                                              · intro st hst
                                                simp [PRes.getStmtOpt] at hst
                                              · exact hbody
                                    | none =>
                                        rcases hpL : pGo tokens src fuel sdC (PReq.statement false)
                                            with ⟨spL, rpL, epL⟩
                                        have IpL := ih sdC (PReq.statement false) spL rpL epL hpL
                                          (Or.inl (by rw [((pMatch_flags hmC).2.trans (((pExpect_flags hxI).2.trans (IpI.2.1)).trans c2))]; exact hcnt))
                                        match epL with
                                        | some e0 =>
                                            simp only [pGo, hF, hmI, hpI, hxI, hmC, hmL, hpL] at h
                                            cases h
                                            exact ⟨((IpL.1).trans ((pMatch_flags hmC).1.trans (((pExpect_flags hxI).1.trans (IpI.1)).trans l2))), ((IpL.2.1).trans ((pMatch_flags hmC).2.trans (((pExpect_flags hxI).2.trans (IpI.2.1)).trans c2))), fun hx => by cases hx⟩
                                        | none =>
                                            rcases hxL : pExpect tokens spL TokenType.COLON with exL | rxL
                                            · simp only [pGo, hF, hmI, hpI, hxI, hmC, hmL, hpL, hxL] at h
                                              cases h
                                              exact ⟨((IpL.1).trans ((pMatch_flags hmC).1.trans (((pExpect_flags hxI).1.trans (IpI.1)).trans l2))), ((IpL.2.1).trans ((pMatch_flags hmC).2.trans (((pExpect_flags hxI).2.trans (IpI.2.1)).trans c2))), fun hx => by cases hx⟩
                                            · obtain ⟨tbL, sbL⟩ := rxL
                                              rcases hNL : pExpectNewline tokens sbL with eNL | sNL
                                              · simp only [pGo, hF, hmI, hpI, hxI, hmC, hmL, hpL, hxL, hNL] at h
                                                cases h
                                                exact ⟨(((pExpect_flags hxL).1.trans (IpL.1)).trans ((pMatch_flags hmC).1.trans (((pExpect_flags hxI).1.trans (IpI.1)).trans l2))), (((pExpect_flags hxL).2.trans (IpL.2.1)).trans ((pMatch_flags hmC).2.trans (((pExpect_flags hxI).2.trans (IpI.2.1)).trans c2))), fun hx => by cases hx⟩
                                              · have FNL := pExpectNewline_flags hNL
                                                have lNL : sNL.breakall_label = ps.breakall_label := FNL.1.trans (((pExpect_flags hxL).1.trans (IpL.1)).trans ((pMatch_flags hmC).1.trans (((pExpect_flags hxI).1.trans (IpI.1)).trans l2)))
                                                rcases hB : pGo tokens src fuel sNL PReq.statementBlockInLoop with ⟨sB, rB, eB⟩
                                                have IB := ih sNL PReq.statementBlockInLoop sB rB eB hB (Or.inr (Or.inr rfl))
                                                match eB with
                                                | some e0 =>
                                                    simp only [pGo, hF, hmI, hpI, hxI, hmC, hmL, hpL, hxL, hNL, hB] at h
                                                    cases h
                                                    exact ⟨((IB.1.trans FNL.1).trans (((pExpect_flags hxL).1.trans (IpL.1)).trans ((pMatch_flags hmC).1.trans (((pExpect_flags hxI).1.trans (IpI.1)).trans l2)))), ((IB.2.1.trans FNL.2).trans (((pExpect_flags hxL).2.trans (IpL.2.1)).trans ((pMatch_flags hmC).2.trans (((pExpect_flags hxI).2.trans (IpI.2.1)).trans c2)))), fun hx => by cases hx⟩
                                                | none =>
                                                    have hlb : pGetBreakallLabel sB = none := by
                                                      have hc : sB.loop_count = ps.loop_count := ((IB.2.1.trans FNL.2).trans (((pExpect_flags hxL).2.trans (IpL.2.1)).trans ((pMatch_flags hmC).2.trans (((pExpect_flags hxI).2.trans (IpI.2.1)).trans c2))))
                                                      unfold pGetBreakallLabel
                                                      rw [hc]
                                                      simp only [ite_eq_right_iff]
                                                      intro hz
                                                      omega
                                                    have hbody : ∀ st ∈ rB.getStmts, NestedOk ps.breakall_label st := by
                                                      intro st hst
                                                      have := allNested_getStmts (IB.2.2 rfl trivial) st hst
                                                      rwa [lNL] at this
                                                    simp only [pGo, hF, hmI, hpI, hxI, hmC, hmL, hpL, hxL, hNL, hB] at h
                                                    cases h
                                                    refine ⟨((IB.1.trans FNL.1).trans (((pExpect_flags hxL).1.trans (IpL.1)).trans ((pMatch_flags hmC).1.trans (((pExpect_flags hxI).1.trans (IpI.1)).trans l2)))), ((IB.2.1.trans FNL.2).trans (((pExpect_flags hxL).2.trans (IpL.2.1)).trans ((pMatch_flags hmC).2.trans (((pExpect_flags hxI).2.trans (IpI.2.1)).trans c2)))), fun _ _ => ?_⟩
                                                    rw [PRes.allNested, hlb]
                                                    refine NestedOk.forLoop _ _ _ _ _ _ ?_ ?_ ?_
                                                    · intro st hst
                                                      simp only [PRes.getStmtOpt, Option.some.injEq] at hst
                                                      subst hst
                                                      exact (l2 ▸ allNested_getStmt (IpI.2.2 rfl trivial))
                                                    · intro st hst
                                                      simp only [PRes.getStmtOpt, Option.some.injEq] at hst
                                                      subst hst
                                                      exact (((pMatch_flags hmC).1.trans (((pExpect_flags hxI).1.trans (IpI.1)).trans l2)) ▸ allNested_getStmt (IpL.2.2 rfl trivial))
                                                    · exact hbody
                              | none =>
                                  rcases hpC : pGo tokens src fuel sbI PReq.expressionReq
                                      with ⟨spC, rpC, epC⟩
                                  have IpC := ih sbI PReq.expressionReq spC rpC epC hpC
                                    (Or.inr (Or.inl rfl))
                                  match epC with
                                  | some e0 =>
                                      simp only [pGo, hF, hmI, hpI, hxI, hmC, hpC] at h
                                      cases h
                                      exact ⟨((IpC.1).trans (((pExpect_flags hxI).1.trans (IpI.1)).trans l2)), ((IpC.2.1).trans (((pExpect_flags hxI).2.trans (IpI.2.1)).trans c2)), fun hx => by cases hx⟩
                                  | none =>
                                      rcases hxC : pExpect tokens spC TokenType.SEMICOLON with exC | rxC
                                      · simp only [pGo, hF, hmI, hpI, hxI, hmC, hpC, hxC] at h
                                        cases h
                                        exact ⟨((IpC.1).trans (((pExpect_flags hxI).1.trans (IpI.1)).trans l2)), ((IpC.2.1).trans (((pExpect_flags hxI).2.trans (IpI.2.1)).trans c2)), fun hx => by cases hx⟩
                                      · obtain ⟨tbC, sbC⟩ := rxC
                                        rcases hmL : pMatch tokens sbC [TokenType.COLON] with emL | mmL
                                        · simp only [pGo, hF, hmI, hpI, hxI, hmC, hpC, hxC, hmL] at h
                                          cases h
                                          exact ⟨(((pExpect_flags hxC).1.trans (IpC.1)).trans (((pExpect_flags hxI).1.trans (IpI.1)).trans l2)), (((pExpect_flags hxC).2.trans (IpC.2.1)).trans (((pExpect_flags hxI).2.trans (IpI.2.1)).trans c2)), fun hx => by cases hx⟩
                                        · match mmL with
                                          | some (tdL, sdL) =>
                                              rcases hNL : pExpectNewline tokens sdL with eNL | sNL
                                              · simp only [pGo, hF, hmI, hpI, hxI, hmC, hpC, hxC, hmL, hNL] at h
                                                cases h
                                                exact ⟨((pMatch_flags hmL).1.trans (((pExpect_flags hxC).1.trans (IpC.1)).trans (((pExpect_flags hxI).1.trans (IpI.1)).trans l2))), ((pMatch_flags hmL).2.trans (((pExpect_flags hxC).2.trans (IpC.2.1)).trans (((pExpect_flags hxI).2.trans (IpI.2.1)).trans c2))), fun hx => by cases hx⟩
                                              · have FNL := pExpectNewline_flags hNL
                                                have lNL : sNL.breakall_label = ps.breakall_label := FNL.1.trans ((pMatch_flags hmL).1.trans (((pExpect_flags hxC).1.trans (IpC.1)).trans (((pExpect_flags hxI).1.trans (IpI.1)).trans l2)))
                                                rcases hB : pGo tokens src fuel sNL PReq.statementBlockInLoop with ⟨sB, rB, eB⟩
                                                have IB := ih sNL PReq.statementBlockInLoop sB rB eB hB (Or.inr (Or.inr rfl))
                                                match eB with
                                                | some e0 =>
                                                    simp only [pGo, hF, hmI, hpI, hxI, hmC, hpC, hxC, hmL, hNL, hB] at h
                                                    cases h
                                                    exact ⟨((IB.1.trans FNL.1).trans ((pMatch_flags hmL).1.trans (((pExpect_flags hxC).1.trans (IpC.1)).trans (((pExpect_flags hxI).1.trans (IpI.1)).trans l2)))), ((IB.2.1.trans FNL.2).trans ((pMatch_flags hmL).2.trans (((pExpect_flags hxC).2.trans (IpC.2.1)).trans (((pExpect_flags hxI).2.trans (IpI.2.1)).trans c2)))), fun hx => by cases hx⟩
                                                | none =>
                                                    have hlb : pGetBreakallLabel sB = none := by
                                                      have hc : sB.loop_count = ps.loop_count := ((IB.2.1.trans FNL.2).trans ((pMatch_flags hmL).2.trans (((pExpect_flags hxC).2.trans (IpC.2.1)).trans (((pExpect_flags hxI).2.trans (IpI.2.1)).trans c2))))
                                                      unfold pGetBreakallLabel
                                                      rw [hc]
                                                      simp only [ite_eq_right_iff]
                                                      intro hz
                                                      omega
                                                    have hbody : ∀ st ∈ rB.getStmts, NestedOk ps.breakall_label st := by
                                                      intro st hst
                                                      have := allNested_getStmts (IB.2.2 rfl trivial) st hst
                                                      rwa [lNL] at this
                                                    simp only [pGo, hF, hmI, hpI, hxI, hmC, hpC, hxC, hmL, hNL, hB] at h
                                                    cases h
                                                    refine ⟨((IB.1.trans FNL.1).trans ((pMatch_flags hmL).1.trans (((pExpect_flags hxC).1.trans (IpC.1)).trans (((pExpect_flags hxI).1.trans (IpI.1)).trans l2)))), ((IB.2.1.trans FNL.2).trans ((pMatch_flags hmL).2.trans (((pExpect_flags hxC).2.trans (IpC.2.1)).trans (((pExpect_flags hxI).2.trans (IpI.2.1)).trans c2)))), fun _ _ => ?_⟩
                                                    rw [PRes.allNested, hlb]
                                                    refine NestedOk.forLoop _ _ _ _ _ _ ?_ ?_ ?_
                                                    · intro st hst
                                                      simp only [PRes.getStmtOpt, Option.some.injEq] at hst
                                                      subst hst
                                                      exact (l2 ▸ allNested_getStmt (IpI.2.2 rfl trivial))
                                                    · intro st hst
                                                      simp [PRes.getStmtOpt] at hst
                                                    · exact hbody
                                          | none =>
                                              rcases hpL : pGo tokens src fuel sbC (PReq.statement false)
                                                  with ⟨spL, rpL, epL⟩
                                              have IpL := ih sbC (PReq.statement false) spL rpL epL hpL
                                                (Or.inl (by rw [(((pExpect_flags hxC).2.trans (IpC.2.1)).trans (((pExpect_flags hxI).2.trans (IpI.2.1)).trans c2))]; exact hcnt))
                                              match epL with
                                              | some e0 =>
                                                  simp only [pGo, hF, hmI, hpI, hxI, hmC, hpC, hxC, hmL, hpL] at h
                                                  cases h
                                                  exact ⟨((IpL.1).trans (((pExpect_flags hxC).1.trans (IpC.1)).trans (((pExpect_flags hxI).1.trans (IpI.1)).trans l2))), ((IpL.2.1).trans (((pExpect_flags hxC).2.trans (IpC.2.1)).trans (((pExpect_flags hxI).2.trans (IpI.2.1)).trans c2))), fun hx => by cases hx⟩
                                              | none =>
                                                  rcases hxL : pExpect tokens spL TokenType.COLON with exL | rxL
                                                  · simp only [pGo, hF, hmI, hpI, hxI, hmC, hpC, hxC, hmL, hpL, hxL] at h
                                                    cases h
                                                    exact ⟨((IpL.1).trans (((pExpect_flags hxC).1.trans (IpC.1)).trans (((pExpect_flags hxI).1.trans (IpI.1)).trans l2))), ((IpL.2.1).trans (((pExpect_flags hxC).2.trans (IpC.2.1)).trans (((pExpect_flags hxI).2.trans (IpI.2.1)).trans c2))), fun hx => by cases hx⟩
                                                  · obtain ⟨tbL, sbL⟩ := rxL
                                                    rcases hNL : pExpectNewline tokens sbL with eNL | sNL
                                                    · simp only [pGo, hF, hmI, hpI, hxI, hmC, hpC, hxC, hmL, hpL, hxL, hNL] at h
                                                      cases h
                                                      exact ⟨(((pExpect_flags hxL).1.trans (IpL.1)).trans (((pExpect_flags hxC).1.trans (IpC.1)).trans (((pExpect_flags hxI).1.trans (IpI.1)).trans l2))), (((pExpect_flags hxL).2.trans (IpL.2.1)).trans (((pExpect_flags hxC).2.trans (IpC.2.1)).trans (((pExpect_flags hxI).2.trans (IpI.2.1)).trans c2))), fun hx => by cases hx⟩
                                                    · have FNL := pExpectNewline_flags hNL
                                                      have lNL : sNL.breakall_label = ps.breakall_label := FNL.1.trans (((pExpect_flags hxL).1.trans (IpL.1)).trans (((pExpect_flags hxC).1.trans (IpC.1)).trans (((pExpect_flags hxI).1.trans (IpI.1)).trans l2)))
                                                      rcases hB : pGo tokens src fuel sNL PReq.statementBlockInLoop with ⟨sB, rB, eB⟩
                                                      have IB := ih sNL PReq.statementBlockInLoop sB rB eB hB (Or.inr (Or.inr rfl))
                                                      match eB with
                                                      | some e0 =>
                                                          simp only [pGo, hF, hmI, hpI, hxI, hmC, hpC, hxC, hmL, hpL, hxL, hNL, hB] at h
                                                          cases h
                                                          exact ⟨((IB.1.trans FNL.1).trans (((pExpect_flags hxL).1.trans (IpL.1)).trans (((pExpect_flags hxC).1.trans (IpC.1)).trans (((pExpect_flags hxI).1.trans (IpI.1)).trans l2)))), ((IB.2.1.trans FNL.2).trans (((pExpect_flags hxL).2.trans (IpL.2.1)).trans (((pExpect_flags hxC).2.trans (IpC.2.1)).trans (((pExpect_flags hxI).2.trans (IpI.2.1)).trans c2)))), fun hx => by cases hx⟩
                                                      | none =>
                                                          have hlb : pGetBreakallLabel sB = none := by
                                                            have hc : sB.loop_count = ps.loop_count := ((IB.2.1.trans FNL.2).trans (((pExpect_flags hxL).2.trans (IpL.2.1)).trans (((pExpect_flags hxC).2.trans (IpC.2.1)).trans (((pExpect_flags hxI).2.trans (IpI.2.1)).trans c2))))
                                                            unfold pGetBreakallLabel
                                                            rw [hc]
                                                            simp only [ite_eq_right_iff]
                                                            intro hz
                                                            omega
                                                          have hbody : ∀ st ∈ rB.getStmts, NestedOk ps.breakall_label st := by
                                                            intro st hst
                                                            have := allNested_getStmts (IB.2.2 rfl trivial) st hst
                                                            rwa [lNL] at this
                                                          simp only [pGo, hF, hmI, hpI, hxI, hmC, hpC, hxC, hmL, hpL, hxL, hNL, hB] at h
                                                          cases h
                                                          refine ⟨((IB.1.trans FNL.1).trans (((pExpect_flags hxL).1.trans (IpL.1)).trans (((pExpect_flags hxC).1.trans (IpC.1)).trans (((pExpect_flags hxI).1.trans (IpI.1)).trans l2)))), ((IB.2.1.trans FNL.2).trans (((pExpect_flags hxL).2.trans (IpL.2.1)).trans (((pExpect_flags hxC).2.trans (IpC.2.1)).trans (((pExpect_flags hxI).2.trans (IpI.2.1)).trans c2)))), fun _ _ => ?_⟩
                                                          rw [PRes.allNested, hlb]
                                                          refine NestedOk.forLoop _ _ _ _ _ _ ?_ ?_ ?_
                                                          · intro st hst
                                                            simp only [PRes.getStmtOpt, Option.some.injEq] at hst
                                                            subst hst
                                                            exact (l2 ▸ allNested_getStmt (IpI.2.2 rfl trivial))
                                                          · intro st hst
                                                            simp only [PRes.getStmtOpt, Option.some.injEq] at hst
                                                            subst hst
                                                            exact ((((pExpect_flags hxC).1.trans (IpC.1)).trans (((pExpect_flags hxI).1.trans (IpI.1)).trans l2)) ▸ allNested_getStmt (IpL.2.2 rfl trivial))
                                                          · exact hbody
      | PReq.whileLoopStatement =>
          have hcnt : 1 ≤ ps.loop_count := by
            rcases hg with hx | hx | hx
            · exact hx
            · simp [PReq.exprFam] at hx
            · simp at hx
          rcases hW : pMatch tokens ps [TokenType.WHILE] with eW | mW
          · simp only [pGo, hW] at h
            cases h
            exact ⟨rfl, rfl, fun hx => by cases hx⟩
          · match mW with
            | none =>
                simp only [pGo, hW] at h
                cases h
                exact ⟨rfl, rfl, fun _ _ => trivial⟩
            | some (token, s1) =>
                have FF := pMatch_flags hW
                have c2 : (pSetBreakallLabel s1 token).loop_count = ps.loop_count :=
                  (pSetBreakallLabel_flags s1 token).1.trans FF.2
                have l2 : (pSetBreakallLabel s1 token).breakall_label = ps.breakall_label :=
                  ((pSetBreakallLabel_flags s1 token).2
                    (by rw [FF.2]; exact hcnt)).trans FF.1
                rcases hpC : pGo tokens src fuel (pSetBreakallLabel s1 token)
                    PReq.expressionReq with ⟨spC, rpC, epC⟩
                have IpC := ih (pSetBreakallLabel s1 token) PReq.expressionReq spC rpC epC
                  hpC (Or.inr (Or.inl rfl))
                match epC with
                | some e0 =>
                    simp only [pGo, hW, hpC] at h
                    cases h
                    exact ⟨IpC.1.trans l2, IpC.2.1.trans c2, fun hx => by cases hx⟩
                | none =>
                    rcases hxC : pExpect tokens spC TokenType.COLON with exC | rxC
                    · simp only [pGo, hW, hpC, hxC] at h
                      cases h
                      exact ⟨IpC.1.trans l2, IpC.2.1.trans c2, fun hx => by cases hx⟩
                    · obtain ⟨tbC, sbC⟩ := rxC
                      rcases hNL : pExpectNewline tokens sbC with eNL | sNL
                      · simp only [pGo, hW, hpC, hxC, hNL] at h
                        cases h
                        exact ⟨((pExpect_flags hxC).1.trans IpC.1).trans l2,
                          ((pExpect_flags hxC).2.trans IpC.2.1).trans c2,
                          fun hx => by cases hx⟩
                      · have FNL := pExpectNewline_flags hNL
                        have lNL : sNL.breakall_label = ps.breakall_label :=
                          FNL.1.trans (((pExpect_flags hxC).1.trans IpC.1).trans l2)
                        have cNL : sNL.loop_count = ps.loop_count :=
                          FNL.2.trans (((pExpect_flags hxC).2.trans IpC.2.1).trans c2)
                        rcases hB : pGo tokens src fuel sNL PReq.statementBlockInLoop
                            with ⟨sB, rB, eB⟩
                        have IB := ih sNL PReq.statementBlockInLoop sB rB eB hB
                          (Or.inr (Or.inr rfl))
                        have flbl : sB.breakall_label = ps.breakall_label := IB.1.trans lNL
                        have fcnt : sB.loop_count = ps.loop_count := IB.2.1.trans cNL
                        match eB with
                        | some e0 =>
                            simp only [pGo, hW, hpC, hxC, hNL, hB] at h
                            cases h
                            exact ⟨flbl, fcnt, fun hx => by cases hx⟩
                        | none =>
                            have hlb : pGetBreakallLabel sB = none := by
                              unfold pGetBreakallLabel
                              rw [fcnt]
                              simp only [ite_eq_right_iff]
                              intro hz
                              omega
                            have hbody : ∀ st ∈ rB.getStmts,
                                NestedOk ps.breakall_label st := by
                              intro st hst
                              have := allNested_getStmts (IB.2.2 rfl trivial) st hst
                              rwa [lNL] at this
                            simp only [pGo, hW, hpC, hxC, hNL, hB] at h
                            cases h
                            refine ⟨flbl, fcnt, fun _ _ => ?_⟩
                            rw [PRes.allNested, hlb]
                            refine NestedOk.forLoop _ _ _ _ _ _ ?_ ?_ ?_
                            · intro st hst
                              cases hst
                            · intro st hst
                              cases hst
                            · exact hbody
      | PReq.ifStatementReq =>
          have hcnt : 1 ≤ ps.loop_count := by
            rcases hg with hx | hx | hx
            · exact hx
            · simp [PReq.exprFam] at hx
            · simp at hx
          rcases h1 : pGo tokens src fuel ps (PReq.singleIfStatement none)
              with ⟨ps1, r1, e1⟩
          have I1 := ih ps (PReq.singleIfStatement none) ps1 r1 e1 h1 (Or.inl hcnt)
          match e1 with
          | some e0 =>
              simp only [pGo, h1] at h
              cases h
              exact ⟨I1.1, I1.2.1, fun hx => by cases hx⟩
          | none =>
              rcases hs1 : PRes.getStmtOpt r1 with _ | st1
              · simp only [pGo, h1, hs1] at h
                cases h
                exact ⟨I1.1, I1.2.1, fun _ _ => trivial⟩
              · have hn1 : NestedOk ps.breakall_label st1 :=
                  allNested_getStmtOpt (I1.2.2 rfl trivial) hs1
                by_cases hend : pIsAtEnd tokens ps1 = true
                · simp only [pGo, h1, hs1] at h
                  rw [if_pos hend] at h
                  cases h
                  exact ⟨I1.1, I1.2.1, fun _ _ => hn1⟩
                · rcases h2 : pGo tokens src fuel ps1 (PReq.elseLoop st1) with ⟨ps2, r2, e2⟩
                  have I2 := ih ps1 (PReq.elseLoop st1) ps2 r2 e2 h2
                    (Or.inl (by rw [I1.2.1]; exact hcnt))
                  match e2 with
                  | some e0 =>
                      simp only [pGo, h1, hs1, h2] at h
                      rw [if_neg hend] at h
                      cases h
                      exact ⟨I2.1.trans I1.1, I2.2.1.trans I1.2.1, fun hx => by cases hx⟩
                  | none =>
                      have hn2 : NestedOk ps.breakall_label (PRes.getStmt r2) := by
                        have hin2 : PReq.inputOk ps1.breakall_label (PReq.elseLoop st1) := by
                          rw [I1.1]
                          exact hn1
                        have := allNested_getStmt (I2.2.2 rfl hin2)
                        rwa [I1.1] at this
                      simp only [pGo, h1, hs1, h2] at h
                      rw [if_neg hend] at h
                      cases h
                      exact ⟨I2.1.trans I1.1, I2.2.1.trans I1.2.1, fun _ _ => hn2⟩
      | PReq.singleIfStatement acc =>
          have hcnt : 1 ≤ ps.loop_count := by
            rcases hg with hx | hx | hx
            · exact hx
            · simp [PReq.exprFam] at hx
            · simp at hx
          rcases hM : pMatch tokens ps [TokenType.IF] with eM | mM
          · simp only [pGo, hM] at h
            cases h
            exact ⟨rfl, rfl, fun hx => by cases hx⟩
          · match mM with
            | none =>
                simp only [pGo, hM] at h
                cases h
                exact ⟨rfl, rfl, fun _ _ => trivial⟩
            | some (token, s1) =>
                have FM := pMatch_flags hM
                rcases hpE : pGo tokens src fuel s1 PReq.expressionReq with ⟨sE, rE, eE⟩
                have IE := ih s1 PReq.expressionReq sE rE eE hpE (Or.inr (Or.inl rfl))
                have lE : sE.breakall_label = ps.breakall_label := IE.1.trans FM.1
                have cE : sE.loop_count = ps.loop_count := IE.2.1.trans FM.2
                match eE with
                | some e0 =>
                    simp only [pGo, hM, hpE] at h
                    cases h
                    exact ⟨lE, cE, fun hx => by cases hx⟩
                | none =>
                    rcases hxC : pExpect tokens sE TokenType.COLON with exC | rxC
                    · simp only [pGo, hM, hpE, hxC] at h
                      cases h
                      exact ⟨lE, cE, fun hx => by cases hx⟩
                    · obtain ⟨tC, sC⟩ := rxC
                      have lC : sC.breakall_label = ps.breakall_label :=
                        (pExpect_flags hxC).1.trans lE
                      have cC : sC.loop_count = ps.loop_count :=
                        (pExpect_flags hxC).2.trans cE
                      rcases hNL : pExpectNewline tokens sC with eNL | sNL
                      · simp only [pGo, hM, hpE, hxC, hNL] at h
                        cases h
                        exact ⟨lC, cC, fun hx => by cases hx⟩
                      · have FNL := pExpectNewline_flags hNL
                        have lN : sNL.breakall_label = ps.breakall_label := FNL.1.trans lC
                        have cN : sNL.loop_count = ps.loop_count := FNL.2.trans cC
                        rcases hBk : pGo tokens src fuel sNL PReq.statementBlock
                            with ⟨sB, rB, eB⟩
                        have IB := ih sNL PReq.statementBlock sB rB eB hBk
                          (Or.inl (by rw [cN]; exact hcnt))
                        have lB : sB.breakall_label = ps.breakall_label := IB.1.trans lN
                        have cB : sB.loop_count = ps.loop_count := IB.2.1.trans cN
                        match eB with
                        | some e0 =>
                            simp only [pGo, hM, hpE, hxC, hNL, hBk] at h
                            cases h
                            exact ⟨lB, cB, fun hx => by cases hx⟩
                        | none =>
                            have hstmts : ∀ st ∈ PRes.getStmts rB,
                                NestedOk ps.breakall_label st := by
                              intro st hst
                              have := allNested_getStmts (IB.2.2 rfl trivial) st hst
                              rwa [lN] at this
                            rcases acc with _ | st0
                            · simp only [pGo, hM, hpE, hxC, hNL, hBk] at h
                              cases h
                              refine ⟨lB, cB, fun _ _ => ?_⟩
                              refine NestedOk.ifStmt _ _ _ _ _ hstmts ?_ ?_
                              · intro b hb
                                simp at hb
                              · intro l hl
                                cases hl
                            · cases st0
                              case ifStmt loc0 ex0 ss0 elifs0 els0 =>
                                simp only [pGo, hM, hpE, hxC, hNL, hBk] at h
                                cases h
                                refine ⟨lB, cB, fun _ hin => ?_⟩
                                have hn0 := NestedOk.ifStmt_inv hin
                                refine NestedOk.ifStmt _ _ _ _ _ hn0.1 ?_ hn0.2.2
                                intro b hb
                                rcases List.mem_append.mp hb with hb1 | hb2
                                · exact hn0.2.1 b hb1
                                · rw [List.mem_singleton.mp hb2]
                                  intro st hst
                                  exact hstmts st hst
                              all_goals
                                simp only [pGo, hM, hpE, hxC, hNL, hBk] at h
                              all_goals
                                cases h
                              all_goals
                                exact ⟨lB, cB, fun _ hin => hin⟩
      | PReq.elseLoop statement =>
          have hcnt : 1 ≤ ps.loop_count := by
            rcases hg with hx | hx | hx
            · exact hx
            · simp [PReq.exprFam] at hx
            · simp at hx
          rcases hM : pMatch tokens ps [TokenType.ELSE] with eM | mM
          · simp only [pGo, hM] at h
            cases h
            exact ⟨rfl, rfl, fun hx => by cases hx⟩
          · match mM with
            | none =>
                simp only [pGo, hM] at h
                cases h
                exact ⟨rfl, rfl, fun _ hin => hin⟩
            | some (te, s1) =>
                have FM := pMatch_flags hM
                rcases h1 : pGo tokens src fuel s1 (PReq.singleIfStatement (some statement))
                    with ⟨ps2, r1, e1⟩
                have I1 := ih s1 (PReq.singleIfStatement (some statement)) ps2 r1 e1 h1
                  (Or.inl (by rw [FM.2]; exact hcnt))
                have l1 : ps2.breakall_label = ps.breakall_label := I1.1.trans FM.1
                have c1 : ps2.loop_count = ps.loop_count := I1.2.1.trans FM.2
                match e1 with
                | some e0 =>
                    simp only [pGo, hM, h1] at h
                    cases h
                    exact ⟨l1, c1, fun hx => by cases hx⟩
                | none =>
                    rcases hs1 : PRes.getStmtOpt r1 with _ | upd
                    · rcases hxC : pExpect tokens ps2 TokenType.COLON with exC | rxC
                      · simp only [pGo, hM, h1, hs1, hxC] at h
                        cases h
                        exact ⟨l1, c1, fun hx => by cases hx⟩
                      · obtain ⟨tC, sC⟩ := rxC
                        have lC : sC.breakall_label = ps.breakall_label :=
                          (pExpect_flags hxC).1.trans l1
                        have cC : sC.loop_count = ps.loop_count :=
                          (pExpect_flags hxC).2.trans c1
                        rcases hNL : pExpectNewline tokens sC with eNL | sNL
                        · simp only [pGo, hM, h1, hs1, hxC, hNL] at h
                          cases h
                          exact ⟨lC, cC, fun hx => by cases hx⟩
                        · have FNL := pExpectNewline_flags hNL
                          have lN : sNL.breakall_label = ps.breakall_label := FNL.1.trans lC
                          have cN : sNL.loop_count = ps.loop_count := FNL.2.trans cC
                          rcases hBk : pGo tokens src fuel sNL PReq.statementBlock
                              with ⟨sB, rB, eB⟩
                          have IB := ih sNL PReq.statementBlock sB rB eB hBk
                            (Or.inl (by rw [cN]; exact hcnt))
                          have lB : sB.breakall_label = ps.breakall_label := IB.1.trans lN
                          have cB : sB.loop_count = ps.loop_count := IB.2.1.trans cN
                          match eB with
                          | some e0 =>
                              simp only [pGo, hM, h1, hs1, hxC, hNL, hBk] at h
                              cases h
                              exact ⟨lB, cB, fun hx => by cases hx⟩
                          | none =>
                              have hstmts : ∀ st ∈ PRes.getStmts rB,
                                  NestedOk ps.breakall_label st := by
                                intro st hst
                                have := allNested_getStmts (IB.2.2 rfl trivial) st hst
                                rwa [lN] at this
                              cases statement
                              case ifStmt loc0 ex0 ss0 elifs0 els0 =>
                                simp only [pGo, hM, h1, hs1, hxC, hNL, hBk] at h
                                cases h
                                refine ⟨lB, cB, fun _ hin => ?_⟩
                                have hn0 := NestedOk.ifStmt_inv hin
                                refine NestedOk.ifStmt _ _ _ _ _ hn0.1 hn0.2.1 ?_
                                intro l hl
                                cases hl
                                intro st hst
                                exact hstmts st hst
                              all_goals
                                simp only [pGo, hM, h1, hs1, hxC, hNL, hBk] at h
                              all_goals
                                cases h
                              all_goals
                                exact ⟨lB, cB, fun _ hin => hin⟩
                    · rcases h2 : pGo tokens src fuel ps2 (PReq.elseLoop upd)
                          with ⟨psF, rF, eF⟩
                      have I2 := ih ps2 (PReq.elseLoop upd) psF rF eF h2
                        (Or.inl (by rw [c1]; exact hcnt))
                      simp only [pGo, hM, h1, hs1, h2] at h
                      cases h
                      refine ⟨I2.1.trans l1, I2.2.1.trans c1, fun he hin => ?_⟩
                      have hin2 : PReq.inputOk ps2.breakall_label (PReq.elseLoop upd) := by
                        have hn1 : PReq.inputOk s1.breakall_label
                            (PReq.singleIfStatement (some statement)) := by
                          rw [FM.1]
                          exact hin
                        have hupd := allNested_getStmtOpt (I1.2.2 rfl hn1) hs1
                        rw [FM.1, ← l1] at hupd
                        exact hupd
                      have := I2.2.2 he hin2
                      rwa [l1] at this
      | PReq.printStatement =>
          have hcnt : 1 ≤ ps.loop_count := by
            rcases hg with hx | hx | hx
            · exact hx
            · simp [PReq.exprFam] at hx
            · simp at hx
          rcases h1 : pMatch tokens ps [TokenType.PRINT, TokenType.PRINTLN] with e1 | m1
          · simp only [pGo, h1] at h
            cases h
            exact ⟨rfl, rfl, fun hx => by cases hx⟩
          · match m1 with
            | none =>
                simp only [pGo, h1] at h
                cases h
                exact ⟨rfl, rfl, fun _ _ => trivial⟩
            | some (token, ps1) =>
                have F1 := pMatch_flags h1
                rcases h2 : pExpect tokens ps1 TokenType.PAREN_OPEN with e2 | r2
                · simp only [pGo, h1, h2] at h
                  cases h
                  exact ⟨F1.1, F1.2, fun hx => by cases hx⟩
                · obtain ⟨po, ps2⟩ := r2
                  have F2 := pExpect_flags h2
                  rcases h3 : pGo tokens src fuel ps2 PReq.expressionReq with ⟨ps3, r3, e3⟩
                  have I3 := ih ps2 PReq.expressionReq ps3 r3 e3 h3 (Or.inr (Or.inl rfl))
                  match e3 with
                  | some e0 =>
                      simp only [pGo, h1, h2, h3] at h
                      cases h
                      exact ⟨(I3.1.trans F2.1).trans F1.1, (I3.2.1.trans F2.2).trans F1.2,
                        fun hx => by cases hx⟩
                  | none =>
                      rcases h4 : pExpect tokens ps3 TokenType.PAREN_CLOSE with e4 | r4
                      · simp only [pGo, h1, h2, h3, h4] at h
                        cases h
                        exact ⟨(I3.1.trans F2.1).trans F1.1, (I3.2.1.trans F2.2).trans F1.2,
                          fun hx => by cases hx⟩
                      · obtain ⟨pc, ps4⟩ := r4
                        have F4 := pExpect_flags h4
                        rcases h5 : pExpectNewline tokens ps4 with e5 | ps5
                        · simp only [pGo, h1, h2, h3, h4, h5] at h
                          cases h
                          exact ⟨((F4.1.trans I3.1).trans F2.1).trans F1.1,
                            ((F4.2.trans I3.2.1).trans F2.2).trans F1.2, fun hx => by cases hx⟩
                        · have F5 := pExpectNewline_flags h5
                          simp only [pGo, h1, h2, h3, h4, h5] at h
                          cases h
                          exact ⟨(((F5.1.trans F4.1).trans I3.1).trans F2.1).trans F1.1,
                            (((F5.2.trans F4.2).trans I3.2.1).trans F2.2).trans F1.2,
                            fun _ _ => NestedOk.printStmt _ _ _⟩
      | PReq.returnStatement =>
          have hcnt : 1 ≤ ps.loop_count := by
            rcases hg with hx | hx | hx
            · exact hx
            · simp [PReq.exprFam] at hx
            · simp at hx
          rcases h1 : pMatch tokens ps [TokenType.RETURN] with e1 | m1
          · simp only [pGo, h1] at h
            cases h
            exact ⟨rfl, rfl, fun hx => by cases hx⟩
          · match m1 with
            | none =>
                simp only [pGo, h1] at h
                cases h
                exact ⟨rfl, rfl, fun _ _ => trivial⟩
            | some (token, ps1) =>
                have F1 := pMatch_flags h1
                by_cases hif : ps1.in_function = true
                · rcases h2 : pMatch tokens ps1 [TokenType.NEWLINE, TokenType.EOF] with e2 | m2
                  · simp only [pGo, h1, hif, Bool.not_true, Bool.false_eq_true, if_false,
                      h2] at h
                    cases h
                    exact ⟨F1.1, F1.2, fun hx => by cases hx⟩
                  · match m2 with
                    | some (t2, ps2) =>
                        have F2 := pMatch_flags h2
                        simp only [pGo, h1, hif, Bool.not_true, Bool.false_eq_true, if_false,
                          h2] at h
                        cases h
                        exact ⟨F2.1.trans F1.1, F2.2.trans F1.2,
                          fun _ _ => NestedOk.returnStmt _ _⟩
                    | none =>
                        rcases h3 : pGo tokens src fuel ps1 PReq.expressionReq with ⟨ps3, r3, e3⟩
                        have I3 := ih ps1 PReq.expressionReq ps3 r3 e3 h3 (Or.inr (Or.inl rfl))
                        match e3 with
                        | some e0 =>
                            simp only [pGo, h1, hif, Bool.not_true, Bool.false_eq_true,
                              if_false, h2, h3] at h
                            cases h
                            exact ⟨I3.1.trans F1.1, I3.2.1.trans F1.2, fun hx => by cases hx⟩
                        | none =>
                            rcases h4 : pExpectNewline tokens ps3 with e4 | ps4
                            · simp only [pGo, h1, hif, Bool.not_true, Bool.false_eq_true,
                                if_false, h2, h3, h4] at h
                              cases h
                              exact ⟨I3.1.trans F1.1, I3.2.1.trans F1.2, fun hx => by cases hx⟩
                            · have F4 := pExpectNewline_flags h4
                              simp only [pGo, h1, hif, Bool.not_true, Bool.false_eq_true,
                                if_false, h2, h3, h4] at h
                              cases h
                              exact ⟨(F4.1.trans I3.1).trans F1.1, (F4.2.trans I3.2.1).trans F1.2,
                                fun _ _ => NestedOk.returnStmt _ _⟩
                · simp only [Bool.not_eq_true] at hif
                  simp only [pGo, h1, hif, Bool.not_false, if_true] at h
                  cases h
                  exact ⟨F1.1, F1.2, fun hx => by cases hx⟩
      | PReq.classStatement =>
          have hcnt : 1 ≤ ps.loop_count := by
            rcases hg with hx | hx | hx
            · exact hx
            · simp [PReq.exprFam] at hx
            · simp at hx
          rcases hM : pMatch tokens ps [TokenType.CLASS] with eM | mM
          · simp only [pGo, hM] at h
            cases h
            exact ⟨rfl, rfl, fun hx => by cases hx⟩
          · match mM with
            | none =>
                simp only [pGo, hM] at h
                cases h
                exact ⟨rfl, rfl, fun _ _ => trivial⟩
            | some (token, s1) =>
                have FM := pMatch_flags hM
                rcases hxT : pExpect tokens s1 TokenType.TYPE with exT | rxT
                · simp only [pGo, hM, hxT] at h
                  cases h
                  exact ⟨FM.1, FM.2, fun hx => by cases hx⟩
                · obtain ⟨name, s2⟩ := rxT
                  have l2 : s2.breakall_label = ps.breakall_label :=
                    (pExpect_flags hxT).1.trans FM.1
                  have c2 : s2.loop_count = ps.loop_count :=
                    (pExpect_flags hxT).2.trans FM.2
                  rcases hxC : pExpect tokens s2 TokenType.COLON with exC | rxC
                  · simp only [pGo, hM, hxT, hxC] at h
                    cases h
                    exact ⟨l2, c2, fun hx => by cases hx⟩
                  · obtain ⟨tc, s3⟩ := rxC
                    have l3 : s3.breakall_label = ps.breakall_label :=
                      (pExpect_flags hxC).1.trans l2
                    have c3 : s3.loop_count = ps.loop_count :=
                      (pExpect_flags hxC).2.trans c2
                    rcases hNL : pExpectNewline tokens s3 with eNL | s4
                    · simp only [pGo, hM, hxT, hxC, hNL] at h
                      cases h
                      exact ⟨l3, c3, fun hx => by cases hx⟩
                    · have FNL := pExpectNewline_flags hNL
                      have l4 : s4.breakall_label = ps.breakall_label := FNL.1.trans l3
                      have c4 : s4.loop_count = ps.loop_count := FNL.2.trans c3
                      rcases hHI : pHasIndent tokens s4 with eHI | rHI
                      · simp only [pGo, hM, hxT, hxC, hNL, hHI] at h
                        cases h
                        exact ⟨l4, c4, fun hx => by cases hx⟩
                      · match rHI with
                        | (false, s5) =>
                            have FHI := pHasIndent_flags hHI
                            simp only [pGo, hM, hxT, hxC, hNL, hHI] at h
                            cases h
                            exact ⟨FHI.1.trans l4, FHI.2.trans c4,
                              fun _ _ => NestedOk.classStmt_empty _ _ _⟩
                        | (true, s5) =>
                            have FHI := pHasIndent_flags hHI
                            have l5 : s5.breakall_label = ps.breakall_label :=
                              FHI.1.trans l4
                            have c5 : s5.loop_count = ps.loop_count := FHI.2.trans c4
                            rcases hCB : pGo tokens src fuel
                                { s5 with class_type := some name.ty }
                                (PReq.classBody (Stmt.classStmt
                                  (token.source_location.add name.source_location)
                                  name.ty [] [] none none)) with ⟨ps7, rC, eC⟩
                            have ICB := ih { s5 with class_type := some name.ty }
                              (PReq.classBody (Stmt.classStmt
                                (token.source_location.add name.source_location)
                                name.ty [] [] none none)) ps7 rC eC hCB
                              (Or.inl (by show 1 ≤ s5.loop_count; rw [c5]; exact hcnt))
                            have l7 : ps7.breakall_label = ps.breakall_label := by
                              have := ICB.1
                              exact this.trans l5
                            have c7 : ps7.loop_count = ps.loop_count := by
                              have := ICB.2.1
                              exact this.trans c5
                            match eC with
                            | some e0 =>
                                simp only [pGo, hM, hxT, hxC, hNL, hHI, hCB] at h
                                cases h
                                exact ⟨l7, c7, fun hx => by cases hx⟩
                            | none =>
                                have hres : NestedOk ps.breakall_label (PRes.getStmt rC) := by
                                  have hin : PReq.inputOk
                                      ({ s5 with class_type := some name.ty }).breakall_label
                                      (PReq.classBody (Stmt.classStmt
                                        (token.source_location.add name.source_location)
                                        name.ty [] [] none none)) :=
                                    NestedOk.classStmt_empty _ _ _
                                  have h0 := allNested_getStmt (ICB.2.2 rfl hin)
                                  have h0' : NestedOk s5.breakall_label
                                      (PRes.getStmt rC) := h0
                                  rwa [l5] at h0'
                                simp only [pGo, hM, hxT, hxC, hNL, hHI, hCB] at h
                                cases h
                                exact ⟨l7, c7, fun _ _ => hres⟩
      | PReq.classBody cls =>
          have hcnt : 1 ≤ ps.loop_count := by
            rcases hg with hx | hx | hx
            · exact hx
            · simp [PReq.exprFam] at hx
            · simp at hx
          rcases hM : pMatch tokens ps [TokenType.DEDENT] with eM | mM
          · simp only [pGo, hM] at h
            cases h
            exact ⟨rfl, rfl, fun hx => by cases hx⟩
          · match mM with
            | some (td, s1) =>
                have FM := pMatch_flags hM
                simp only [pGo, hM] at h
                cases h
                exact ⟨FM.1, FM.2, fun _ hin => hin⟩
            | none =>
                cases cls
                case classStmt loc ct vars fns ctor dtor =>
                  rcases h1 : pGo tokens src fuel ps (PReq.typeStatement true)
                      with ⟨ps1, r1, e1⟩
                  have I1 := ih ps (PReq.typeStatement true) ps1 r1 e1 h1 (Or.inl hcnt)
                  match e1 with
                  | some e0 =>
                      simp only [pGo, hM, h1] at h
                      cases h
                      exact ⟨I1.1, I1.2.1, fun hx => by cases hx⟩
                  | none =>
                      rcases hs1 : PRes.getStmtOpt r1 with _ | st1
                      · rcases h2 : pGo tokens src fuel ps1 (PReq.constructorReq ct)
                            with ⟨ps2, r2, e2⟩
                        have I2 := ih ps1 (PReq.constructorReq ct) ps2 r2 e2 h2
                          (Or.inl (by rw [I1.2.1]; exact hcnt))
                        have l2 : ps2.breakall_label = ps.breakall_label := I2.1.trans I1.1
                        have c2 : ps2.loop_count = ps.loop_count := I2.2.1.trans I1.2.1
                        match e2 with
                        | some e0 =>
                            simp only [pGo, hM, h1, hs1, h2] at h
                            cases h
                            exact ⟨l2, c2, fun hx => by cases hx⟩
                        | none =>
                            rcases hs2 : PRes.getStmtOpt r2 with _ | c0
                            · rcases h3 : pGo tokens src fuel ps2 (PReq.destructorReq ct)
                                  with ⟨ps3, r3, e3⟩
                              have I3 := ih ps2 (PReq.destructorReq ct) ps3 r3 e3 h3
                                (Or.inl (by rw [c2]; exact hcnt))
                              have l3 : ps3.breakall_label = ps.breakall_label :=
                                I3.1.trans l2
                              have c3 : ps3.loop_count = ps.loop_count := I3.2.1.trans c2
                              match e3 with
                              | some e0 =>
                                  simp only [pGo, hM, h1, hs1, h2, hs2, h3] at h
                                  cases h
                                  exact ⟨l3, c3, fun hx => by cases hx⟩
                              | none =>
                                  rcases hs3 : PRes.getStmtOpt r3 with _ | d0
                                  · simp only [pGo, hM, h1, hs1, h2, hs2, h3, hs3] at h
                                    cases h
                                    exact ⟨l3, c3, fun hx => by cases hx⟩
                                  · have hnd : NestedOk ps.breakall_label d0 := by
                                      have := allNested_getStmtOpt (I3.2.2 rfl trivial) hs3
                                      rwa [l2] at this
                                    by_cases hdt : dtor.isSome = true
                                    · simp only [pGo, hM, h1, hs1, h2, hs2, h3, hs3] at h
                                      rw [if_pos hdt] at h
                                      cases h
                                      exact ⟨l3, c3, fun hx => by cases hx⟩
                                    · rcases h4 : pGo tokens src fuel ps3 (PReq.classBody
                                          (Stmt.classStmt loc ct vars fns ctor (some d0)))
                                          with ⟨psF, rF, eF⟩
                                      have I4 := ih ps3 (PReq.classBody
                                        (Stmt.classStmt loc ct vars fns ctor (some d0)))
                                        psF rF eF h4 (Or.inl (by rw [c3]; exact hcnt))
                                      simp only [pGo, hM, h1, hs1, h2, hs2, h3, hs3,
                                        h4] at h
                                      rw [if_neg hdt] at h
                                      cases h
                                      refine ⟨I4.1.trans l3, I4.2.1.trans c3,
                                        fun he hin => ?_⟩
                                      have hinv := NestedOk.classStmt_inv hin
                                      have hin2 : PReq.inputOk ps3.breakall_label
                                          (PReq.classBody (Stmt.classStmt loc ct vars fns
                                            ctor (some d0))) := by
                                        rw [l3]
                                        refine NestedOk.classStmt _ _ _ _ _ _ hinv.1
                                          hinv.2.1 hinv.2.2.1 ?_
                                        intro s0 hs0
                                        cases hs0
                                        exact hnd
                                      have hres := I4.2.2 he hin2
                                      rwa [l3] at hres
                            · have hnc : NestedOk ps.breakall_label c0 := by
                                have := allNested_getStmtOpt (I2.2.2 rfl trivial) hs2
                                rwa [I1.1] at this
                              by_cases hct : ctor.isSome = true
                              · simp only [pGo, hM, h1, hs1, h2, hs2] at h
                                rw [if_pos hct] at h
                                cases h
                                exact ⟨l2, c2, fun hx => by cases hx⟩
                              · rcases h3 : pGo tokens src fuel ps2 (PReq.classBody
                                    (Stmt.classStmt loc ct vars fns (some c0) dtor))
                                    with ⟨psF, rF, eF⟩
                                have I3 := ih ps2 (PReq.classBody
                                  (Stmt.classStmt loc ct vars fns (some c0) dtor))
                                  psF rF eF h3 (Or.inl (by rw [c2]; exact hcnt))
                                simp only [pGo, hM, h1, hs1, h2, hs2, h3] at h
                                rw [if_neg hct] at h
                                cases h
                                refine ⟨I3.1.trans l2, I3.2.1.trans c2, fun he hin => ?_⟩
                                have hinv := NestedOk.classStmt_inv hin
                                have hin2 : PReq.inputOk ps2.breakall_label
                                    (PReq.classBody (Stmt.classStmt loc ct vars fns
                                      (some c0) dtor)) := by
                                  rw [l2]
                                  refine NestedOk.classStmt _ _ _ _ _ _ hinv.1 hinv.2.1
                                    ?_ hinv.2.2.2
                                  intro s0 hs0
                                  cases hs0
                                  exact hnc
                                have hres := I3.2.2 he hin2
                                rwa [l2] at hres
                      · have hnst : NestedOk ps.breakall_label st1 :=
                          allNested_getStmtOpt (I1.2.2 rfl trivial) hs1
                        cases st1
                        case functionStmt fa fb fc fd fe ff =>
                          rcases h2 : pGo tokens src fuel ps1 (PReq.classBody
                              (Stmt.classStmt loc ct vars (fns ++ [Stmt.functionStmt fa fb fc fd fe ff]) ctor dtor)) with ⟨psF, rF, eF⟩
                          have I2 := ih ps1 (PReq.classBody
                            (Stmt.classStmt loc ct vars (fns ++ [Stmt.functionStmt fa fb fc fd fe ff]) ctor dtor)) psF rF eF h2
                            (Or.inl (by rw [I1.2.1]; exact hcnt))
                          simp only [pGo, hM, h1, hs1, h2] at h
                          cases h
                          refine ⟨I2.1.trans I1.1, I2.2.1.trans I1.2.1, fun he hin => ?_⟩
                          have hinv := NestedOk.classStmt_inv hin
                          have hin2 : PReq.inputOk ps1.breakall_label (PReq.classBody
                              (Stmt.classStmt loc ct vars (fns ++ [Stmt.functionStmt fa fb fc fd fe ff]) ctor dtor)) := by
                            rw [I1.1]
                            refine NestedOk.classStmt _ _ _ _ _ _ hinv.1 ?_ hinv.2.2.1 hinv.2.2.2
                            intro s0 hs0
                            rcases List.mem_append.mp hs0 with hA | hB
                            · exact hinv.2.1 s0 hA
                            · rw [List.mem_singleton.mp hB]
                              exact hnst
                          have hres := I2.2.2 he hin2
                          rwa [I1.1] at hres
                        case varDecl va vb vc vd =>
                          rcases h2 : pGo tokens src fuel ps1 (PReq.classBody
                              (Stmt.classStmt loc ct (vars ++ [Stmt.varDecl va vb vc vd]) fns ctor dtor)) with ⟨psF, rF, eF⟩
                          have I2 := ih ps1 (PReq.classBody
                            (Stmt.classStmt loc ct (vars ++ [Stmt.varDecl va vb vc vd]) fns ctor dtor)) psF rF eF h2
                            (Or.inl (by rw [I1.2.1]; exact hcnt))
                          simp only [pGo, hM, h1, hs1, h2] at h
                          cases h
                          refine ⟨I2.1.trans I1.1, I2.2.1.trans I1.2.1, fun he hin => ?_⟩
                          have hinv := NestedOk.classStmt_inv hin
                          have hin2 : PReq.inputOk ps1.breakall_label (PReq.classBody
                              (Stmt.classStmt loc ct (vars ++ [Stmt.varDecl va vb vc vd]) fns ctor dtor)) := by
                            rw [I1.1]
                            refine NestedOk.classStmt _ _ _ _ _ _ ?_ hinv.2.1 hinv.2.2.1 hinv.2.2.2
                            intro s0 hs0
                            rcases List.mem_append.mp hs0 with hA | hB
                            · exact hinv.1 s0 hA
                            · rw [List.mem_singleton.mp hB]
                              exact hnst
                          have hres := I2.2.2 he hin2
                          rwa [I1.1] at hres
                        case listStmt la lb lc =>
                          rcases h2 : pGo tokens src fuel ps1 (PReq.classBody
                              (Stmt.classStmt loc ct (vars ++ [Stmt.listStmt la lb lc]) fns ctor dtor)) with ⟨psF, rF, eF⟩
                          have I2 := ih ps1 (PReq.classBody
                            (Stmt.classStmt loc ct (vars ++ [Stmt.listStmt la lb lc]) fns ctor dtor)) psF rF eF h2
                            (Or.inl (by rw [I1.2.1]; exact hcnt))
                          simp only [pGo, hM, h1, hs1, h2] at h
                          cases h
                          refine ⟨I2.1.trans I1.1, I2.2.1.trans I1.2.1, fun he hin => ?_⟩
                          have hinv := NestedOk.classStmt_inv hin
                          have hin2 : PReq.inputOk ps1.breakall_label (PReq.classBody
                              (Stmt.classStmt loc ct (vars ++ [Stmt.listStmt la lb lc]) fns ctor dtor)) := by
                            rw [I1.1]
                            refine NestedOk.classStmt _ _ _ _ _ _ ?_ hinv.2.1 hinv.2.2.1 hinv.2.2.2
                            intro s0 hs0
                            rcases List.mem_append.mp hs0 with hA | hB
                            · exact hinv.1 s0 hA
                            · rw [List.mem_singleton.mp hB]
                              exact hnst
                          have hres := I2.2.2 he hin2
                          rwa [I1.1] at hres
                        all_goals
                          simp only [pGo, hM, h1, hs1] at h
                        all_goals
                          cases h
                        all_goals
                          exact ⟨I1.1, I1.2.1, fun hx => by cases hx⟩
                all_goals
                  simp only [pGo, hM] at h
                all_goals
                  cases h
                all_goals
                  exact ⟨rfl, rfl, fun hx => by cases hx⟩
      | PReq.constructorReq type_ =>
          have hcnt : 1 ≤ ps.loop_count := by
            rcases hg with hx | hx | hx
            · exact hx
            · simp [PReq.exprFam] at hx
            · simp at hx
          rcases h1 : pMatch tokens ps [TokenType.TYPE] with e1 | m1
          · simp only [pGo, h1] at h
            cases h
            exact ⟨rfl, rfl, fun hx => by cases hx⟩
          · match m1 with
            | none =>
                simp only [pGo, h1] at h
                cases h
                exact ⟨rfl, rfl, fun _ _ => trivial⟩
            | some (name, ps1) =>
                have F1 := pMatch_flags h1
                by_cases hne : name.ty = type_
                · rcases h2 : pExpect tokens ps1 TokenType.PAREN_OPEN with e2 | r2
                  · simp only [pGo, h1, hne, ne_eq, not_true_eq_false, if_false, h2] at h
                    cases h
                    exact ⟨F1.1, F1.2, fun hx => by cases hx⟩
                  · obtain ⟨po, ps2⟩ := r2
                    have F2 := pExpect_flags h2
                    rcases h3 : pMatch tokens ps2 [TokenType.PAREN_CLOSE] with e3 | m3
                    · simp only [pGo, h1, hne, ne_eq, not_true_eq_false, if_false, h2,
                        h3] at h
                      cases h
                      exact ⟨F2.1.trans F1.1, F2.2.trans F1.2, fun hx => by cases hx⟩
                    · match m3 with
                      | some (t3, ps3) =>
                          have F3 := pMatch_flags h3
                          rcases h4 : pGo tokens src fuel ps3 (PReq.finishLifecycle
                              LifecycleStatementType.CONSTRUCTOR type_ name.source_location [])
                            with ⟨ps4, r4, e4⟩
                          have I4 := ih ps3 _ ps4 r4 e4 h4
                            (Or.inl (by rw [F3.2, F2.2, F1.2]; exact hcnt))
                          simp only [pGo, h1, hne, ne_eq, not_true_eq_false, if_false, h2,
                            h3, h4] at h
                          cases h
                          exact ⟨((I4.1.trans F3.1).trans F2.1).trans F1.1,
                            ((I4.2.1.trans F3.2).trans F2.2).trans F1.2,
                            fun he _ =>
                              ((F3.1.trans F2.1).trans F1.1) ▸ I4.2.2 he trivial⟩
                      | none =>
                          rcases h4 : pGo tokens src fuel ps2 (PReq.lifecycleArgs
                              LifecycleStatementType.CONSTRUCTOR type_ name.source_location [])
                            with ⟨ps4, r4, e4⟩
                          have I4 := ih ps2 _ ps4 r4 e4 h4
                            (Or.inl (by rw [F2.2, F1.2]; exact hcnt))
                          match e4 with
                          | some e0 =>
                              simp only [pGo, h1, hne, ne_eq, not_true_eq_false, if_false,
                                h2, h3, h4] at h
                              cases h
                              exact ⟨(I4.1.trans F2.1).trans F1.1,
                                (I4.2.1.trans F2.2).trans F1.2, fun hx => by cases hx⟩
                          | none =>
                              rcases h5 : pExpect tokens ps4 TokenType.PAREN_CLOSE with e5 | r5
                              · simp only [pGo, h1, hne, ne_eq, not_true_eq_false, if_false,
                                  h2, h3, h4, h5] at h
                                cases h
                                exact ⟨(I4.1.trans F2.1).trans F1.1,
                                  (I4.2.1.trans F2.2).trans F1.2, fun hx => by cases hx⟩
                              · obtain ⟨pc, ps5⟩ := r5
                                have F5 := pExpect_flags h5
                                rcases h6 : pGo tokens src fuel ps5 (PReq.finishLifecycle
                                    LifecycleStatementType.CONSTRUCTOR type_
                                    name.source_location r4.getArgs) with ⟨ps6, r6, e6⟩
                                have I6 := ih ps5 _ ps6 r6 e6 h6
                                  (Or.inl (by rw [F5.2, I4.2.1, F2.2, F1.2]; exact hcnt))
                                simp only [pGo, h1, hne, ne_eq, not_true_eq_false, if_false,
                                  h2, h3, h4, h5, h6] at h
                                cases h
                                exact ⟨(((I6.1.trans F5.1).trans I4.1).trans F2.1).trans F1.1,
                                  (((I6.2.1.trans F5.2).trans I4.2.1).trans F2.2).trans F1.2,
                                  fun he _ =>
                                    (((F5.1.trans I4.1).trans F2.1).trans F1.1) ▸
                                      I6.2.2 he trivial⟩
                · simp only [pGo, h1, hne, ne_eq, not_false_eq_true, if_true] at h
                  cases h
                  exact ⟨F1.1, F1.2, fun hx => by cases hx⟩
      | PReq.lifecycleArgs stype type_ loc acc =>
          have hcnt : 1 ≤ ps.loop_count := by
            rcases hg with hx | hx | hx
            · exact hx
            · simp [PReq.exprFam] at hx
            · simp at hx
          rcases h1 : pExpect tokens ps TokenType.TYPE with e1 | r1
          · simp only [pGo, h1] at h
            cases h
            exact ⟨rfl, rfl, fun hx => by cases hx⟩
          · obtain ⟨argument_type, ps1⟩ := r1
            have F1 := pExpect_flags h1
            by_cases hv : argument_type.ty.non_void = true
            · rcases h2 : pExpect tokens ps1 TokenType.IDENTIFIER with e2 | r2
              · simp only [pGo, h1, hv, Bool.not_true, Bool.false_eq_true, if_false, h2] at h
                cases h
                exact ⟨F1.1, F1.2, fun hx => by cases hx⟩
              · obtain ⟨argument_name, ps2⟩ := r2
                have F2 := pExpect_flags h2
                rcases h3 : pMatch tokens ps2 [TokenType.COMMA] with e3 | m3
                · simp only [pGo, h1, hv, Bool.not_true, Bool.false_eq_true, if_false, h2,
                    h3] at h
                  cases h
                  exact ⟨F2.1.trans F1.1, F2.2.trans F1.2, fun hx => by cases hx⟩
                · match m3 with
                  | some (t3, ps3) =>
                      have F3 := pMatch_flags h3
                      rcases h4 : pGo tokens src fuel ps3 (PReq.lifecycleArgs stype type_ loc
                          (acc ++ [(argument_type, argument_name)])) with ⟨ps4, r4, e4⟩
                      have I4 := ih ps3 _ ps4 r4 e4 h4
                        (Or.inl (by rw [F3.2, F2.2, F1.2]; exact hcnt))
                      simp only [pGo, h1, hv, Bool.not_true, Bool.false_eq_true, if_false,
                        h2, h3, h4] at h
                      cases h
                      exact ⟨((I4.1.trans F3.1).trans F2.1).trans F1.1,
                        ((I4.2.1.trans F3.2).trans F2.2).trans F1.2,
                        fun he _ => ((F3.1.trans F2.1).trans F1.1) ▸ I4.2.2 he trivial⟩
                  | none =>
                      simp only [pGo, h1, hv, Bool.not_true, Bool.false_eq_true, if_false,
                        h2, h3] at h
                      cases h
                      exact ⟨F2.1.trans F1.1, F2.2.trans F1.2, fun _ _ => trivial⟩
            · simp only [Bool.not_eq_true] at hv
              simp only [pGo, h1, hv, Bool.not_false, if_true] at h
              cases h
              exact ⟨F1.1, F1.2, fun hx => by cases hx⟩
      | PReq.finishLifecycle stype type_ loc args =>
          have hcnt : 1 ≤ ps.loop_count := by
            rcases hg with hx | hx | hx
            · exact hx
            · simp [PReq.exprFam] at hx
            · simp at hx
          rcases h1 : pExpect tokens ps TokenType.COLON with e1 | r1
          · simp only [pGo, h1] at h
            cases h
            exact ⟨rfl, rfl, fun hx => by cases hx⟩
          · obtain ⟨ct1, ps1⟩ := r1
            have F1 := pExpect_flags h1
            rcases h2 : pExpectNewline tokens ps1 with e2 | ps2
            · simp only [pGo, h1, h2] at h
              cases h
              exact ⟨F1.1, F1.2, fun hx => by cases hx⟩
            · have F2 := pExpectNewline_flags h2
              rcases h3 : pGo tokens src fuel { ps2 with in_function := true }
                  PReq.statementBlock with ⟨ps4, rb, e3⟩
              have I3 := ih { ps2 with in_function := true } PReq.statementBlock ps4 rb e3 h3
                (Or.inl (by simp only [PState.loop_count]; rw [F2.2, F1.2]; exact hcnt))
              match e3 with
              | some e0 =>
                  simp only [pGo, h1, h2, h3] at h
                  cases h
                  exact ⟨(I3.1.trans F2.1).trans F1.1, (I3.2.1.trans F2.2).trans F1.2,
                    fun hx => by cases hx⟩
              | none =>
                  simp only [pGo, h1, h2, h3] at h
                  cases h
                  refine ⟨(I3.1.trans F2.1).trans F1.1, (I3.2.1.trans F2.2).trans F1.2,
                    fun _ _ => ?_⟩
                  refine NestedOk.lifecycle _ _ _ _ _ ?_
                  intro st hst
                  exact ((F2.1.trans F1.1) ▸ allNested_getStmts (I3.2.2 rfl trivial)) st hst
      | PReq.destructorReq type_ =>
          have hcnt : 1 ≤ ps.loop_count := by
            rcases hg with hx | hx | hx
            · exact hx
            · simp [PReq.exprFam] at hx
            · simp at hx
          rcases h1 : pMatch tokens ps [TokenType.TILDE] with e1 | m1
          · simp only [pGo, h1] at h
            cases h
            exact ⟨rfl, rfl, fun hx => by cases hx⟩
          · match m1 with
            | none =>
                simp only [pGo, h1] at h
                cases h
                exact ⟨rfl, rfl, fun _ _ => trivial⟩
            | some (t1, ps1) =>
                have F1 := pMatch_flags h1
                rcases h2 : pMatch tokens ps1 [TokenType.TYPE] with e2 | m2
                · simp only [pGo, h1, h2] at h
                  cases h
                  exact ⟨F1.1, F1.2, fun hx => by cases hx⟩
                · match m2 with
                  | none =>
                      simp only [pGo, h1, h2] at h
                      cases h
                      exact ⟨F1.1, F1.2, fun hx => by cases hx⟩
                  | some (name, ps2) =>
                      have F2 := pMatch_flags h2
                      by_cases hne : name.ty = type_
                      · rcases h3 : pExpect tokens ps2 TokenType.PAREN_OPEN with e3 | r3
                        · simp only [pGo, h1, h2, hne, ne_eq, not_true_eq_false, if_false,
                            h3] at h
                          cases h
                          exact ⟨F2.1.trans F1.1, F2.2.trans F1.2, fun hx => by cases hx⟩
                        · obtain ⟨po, ps3⟩ := r3
                          have F3 := pExpect_flags h3
                          rcases h4 : pExpect tokens ps3 TokenType.PAREN_CLOSE with e4 | r4
                          · simp only [pGo, h1, h2, hne, ne_eq, not_true_eq_false, if_false,
                              h3, h4] at h
                            cases h
                            exact ⟨(F3.1.trans F2.1).trans F1.1, (F3.2.trans F2.2).trans F1.2,
                              fun hx => by cases hx⟩
                          · obtain ⟨pc, ps4⟩ := r4
                            have F4 := pExpect_flags h4
                            rcases h5 : pGo tokens src fuel ps4 (PReq.finishLifecycle
                                LifecycleStatementType.DESTRUCTOR type_ name.source_location [])
                              with ⟨ps5, r5, e5⟩
                            have I5 := ih ps4 _ ps5 r5 e5 h5
                              (Or.inl (by rw [F4.2, F3.2, F2.2, F1.2]; exact hcnt))
                            simp only [pGo, h1, h2, hne, ne_eq, not_true_eq_false, if_false,
                              h3, h4, h5] at h
                            cases h
                            exact ⟨(((I5.1.trans F4.1).trans F3.1).trans F2.1).trans F1.1,
                              (((I5.2.1.trans F4.2).trans F3.2).trans F2.2).trans F1.2,
                              fun he _ =>
                                (((F4.1.trans F3.1).trans F2.1).trans F1.1) ▸
                                  I5.2.2 he trivial⟩
                      · simp only [pGo, h1, h2, hne, ne_eq, not_false_eq_true, if_true] at h
                        cases h
                        exact ⟨F2.1.trans F1.1, F2.2.trans F1.2, fun hx => by cases hx⟩
      | PReq.loopControlStatement =>
          by_cases h0 : ps.loop_count = 0
          · simp only [pGo, h0, if_true] at h
            cases h
            exact ⟨rfl, rfl, fun _ _ => trivial⟩
          · rcases h1 : pMatch tokens ps [TokenType.BREAK] with e1 | m1
            · simp only [pGo, h0, if_false, h1] at h
              cases h
              exact ⟨rfl, rfl, fun hx => by cases hx⟩
            · match m1 with
              | some (token, ps1) =>
                  have F1 := pMatch_flags h1
                  rcases h2 : pExpectNewline tokens ps1 "break" with e2 | ps2
                  · simp only [pGo, h0, if_false, h1, h2] at h
                    cases h
                    exact ⟨F1.1, F1.2, fun hx => by cases hx⟩
                  · have F2 := pExpectNewline_flags h2
                    simp only [pGo, h0, if_false, h1, h2] at h
                    cases h
                    exact ⟨F2.1.trans F1.1, F2.2.trans F1.2,
                      fun _ _ => NestedOk.breakStmt _⟩
              | none =>
                  rcases h3 : pMatch tokens ps [TokenType.BREAKALL] with e3 | m3
                  · simp only [pGo, h0, if_false, h1, h3] at h
                    cases h
                    exact ⟨rfl, rfl, fun hx => by cases hx⟩
                  · match m3 with
                    | some (token, ps1) =>
                        have F1 := pMatch_flags h3
                        rcases h4 : pExpectNewline tokens ps1 "breakall" with e4 | ps2
                        · simp only [pGo, h0, if_false, h1, h3, h4] at h
                          cases h
                          exact ⟨F1.1, F1.2, fun hx => by cases hx⟩
                        · have F2 := pExpectNewline_flags h4
                          simp only [pGo, h0, if_false, h1, h3, h4] at h
                          cases h
                          refine ⟨F2.1.trans F1.1, F2.2.trans F1.2, fun _ _ => ?_⟩
                          rw [PRes.allNested, F2.1, F1.1]
                          exact NestedOk.breakall _
                    | none =>
                        rcases h5 : pMatch tokens ps [TokenType.CONTINUE] with e5 | m5
                        · simp only [pGo, h0, if_false, h1, h3, h5] at h
                          cases h
                          exact ⟨rfl, rfl, fun hx => by cases hx⟩
                        · match m5 with
                          | some (token, ps1) =>
                              have F1 := pMatch_flags h5
                              rcases h6 : pExpectNewline tokens ps1 "continue" with e6 | ps2
                              · simp only [pGo, h0, if_false, h1, h3, h5, h6] at h
                                cases h
                                exact ⟨F1.1, F1.2, fun hx => by cases hx⟩
                              · have F2 := pExpectNewline_flags h6
                                simp only [pGo, h0, if_false, h1, h3, h5, h6] at h
                                cases h
                                exact ⟨F2.1.trans F1.1, F2.2.trans F1.2,
                                  fun _ _ => NestedOk.continueStmt _⟩
                          | none =>
                              simp only [pGo, h0, if_false, h1, h3, h5] at h
                              cases h
                              exact ⟨rfl, rfl, fun _ _ => trivial⟩
      | PReq.assignmentStatement expression must =>
          have hcnt : 1 ≤ ps.loop_count := by
            rcases hg with hx | hx | hx
            · exact hx
            · simp [PReq.exprFam] at hx
            · simp at hx
          match expression with
            | Expr.thisExpr a0 a1 a2 =>
              rcases hc : pCurrent tokens ps with ec | cur
              · simp only [pGo, hc] at h
                cases h
                exact ⟨rfl, rfl, fun hx => by cases hx⟩
              · by_cases hf : isAssignmentFormToken cur = true
                · rcases hx1 : pExpect tokens ps cur.token_type with ee | rr
                  · simp only [pGo, hc, hf, Bool.not_true, Bool.false_eq_true, if_false,
                      hx1] at h
                    cases h
                    exact ⟨rfl, rfl, fun hx => by cases hx⟩
                  · obtain ⟨assignment_token, ps1⟩ := rr
                    have F1 := pExpect_flags hx1
                    rcases hx2 : pGo tokens src fuel ps1 PReq.expressionReq with ⟨ps2, r2, e2⟩
                    have I2 := ih ps1 PReq.expressionReq ps2 r2 e2 hx2 (Or.inr (Or.inl rfl))
                    match e2 with
                    | some e0 =>
                        simp only [pGo, hc, hf, Bool.not_true, Bool.false_eq_true, if_false,
                          hx1, hx2] at h
                        cases h
                        exact ⟨I2.1.trans F1.1, I2.2.1.trans F1.2, fun hx => by cases hx⟩
                    | none =>
                        rcases hx3 : pExpectNewline tokens ps2 "statement" must with e3 | ps3
                        · simp only [pGo, hc, hf, Bool.not_true, Bool.false_eq_true, if_false,
                            hx1, hx2, hx3] at h
                          cases h
                          exact ⟨I2.1.trans F1.1, I2.2.1.trans F1.2, fun hx => by cases hx⟩
                        · have F3 := pExpectNewline_flags hx3
                          simp only [pGo, hc, hf, Bool.not_true, Bool.false_eq_true, if_false,
                            hx1, hx2, hx3] at h
                          cases h
                          exact ⟨(F3.1.trans I2.1).trans F1.1, (F3.2.trans I2.2.1).trans F1.2,
                            fun _ _ => NestedOk.assignment _ _ _ _⟩
                · simp only [Bool.not_eq_true] at hf
                  simp only [pGo, hc, hf, Bool.not_false, if_true] at h
                  cases h
                  exact ⟨rfl, rfl, fun _ _ => trivial⟩
            | Expr.identifierExpr a0 a1 a2 a3 a4 a5 =>
              rcases hc : pCurrent tokens ps with ec | cur
              · simp only [pGo, hc] at h
                cases h
                exact ⟨rfl, rfl, fun hx => by cases hx⟩
              · by_cases hf : isAssignmentFormToken cur = true
                · rcases hx1 : pExpect tokens ps cur.token_type with ee | rr
                  · simp only [pGo, hc, hf, Bool.not_true, Bool.false_eq_true, if_false,
                      hx1] at h
                    cases h
                    exact ⟨rfl, rfl, fun hx => by cases hx⟩
                  · obtain ⟨assignment_token, ps1⟩ := rr
                    have F1 := pExpect_flags hx1
                    rcases hx2 : pGo tokens src fuel ps1 PReq.expressionReq with ⟨ps2, r2, e2⟩
                    have I2 := ih ps1 PReq.expressionReq ps2 r2 e2 hx2 (Or.inr (Or.inl rfl))
                    match e2 with
                    | some e0 =>
                        simp only [pGo, hc, hf, Bool.not_true, Bool.false_eq_true, if_false,
                          hx1, hx2] at h
                        cases h
                        exact ⟨I2.1.trans F1.1, I2.2.1.trans F1.2, fun hx => by cases hx⟩
                    | none =>
                        rcases hx3 : pExpectNewline tokens ps2 "statement" must with e3 | ps3
                        · simp only [pGo, hc, hf, Bool.not_true, Bool.false_eq_true, if_false,
                            hx1, hx2, hx3] at h
                          cases h
                          exact ⟨I2.1.trans F1.1, I2.2.1.trans F1.2, fun hx => by cases hx⟩
                        · have F3 := pExpectNewline_flags hx3
                          simp only [pGo, hc, hf, Bool.not_true, Bool.false_eq_true, if_false,
                            hx1, hx2, hx3] at h
                          cases h
                          exact ⟨(F3.1.trans I2.1).trans F1.1, (F3.2.trans I2.2.1).trans F1.2,
                            fun _ _ => NestedOk.assignment _ _ _ _⟩
                · simp only [Bool.not_eq_true] at hf
                  simp only [pGo, hc, hf, Bool.not_false, if_true] at h
                  cases h
                  exact ⟨rfl, rfl, fun _ _ => trivial⟩
            | Expr.binary a0 a1 a2 a3 a4 =>
                simp only [pGo] at h
                cases h
                exact ⟨rfl, rfl, fun _ _ => trivial⟩
            | Expr.call a0 a1 a2 a3 a4 a5 =>
                simp only [pGo] at h
                cases h
                exact ⟨rfl, rfl, fun _ _ => trivial⟩
            | Expr.stringEqual a0 a1 a2 a3 a4 =>
                simp only [pGo] at h
                cases h
                exact ⟨rfl, rfl, fun _ _ => trivial⟩
            | Expr.stringExpr a0 a1 a2 a3 =>
                simp only [pGo] at h
                cases h
                exact ⟨rfl, rfl, fun _ _ => trivial⟩
            | Expr.tokenExpr a0 a1 a2 =>
                simp only [pGo] at h
                cases h
                exact ⟨rfl, rfl, fun _ _ => trivial⟩
            | Expr.typeCast a0 a1 a2 a3 =>
                simp only [pGo] at h
                cases h
                exact ⟨rfl, rfl, fun _ _ => trivial⟩
            | Expr.unary a0 a1 a2 a3 =>
                simp only [pGo] at h
                cases h
                exact ⟨rfl, rfl, fun _ _ => trivial⟩
      | PReq.expressionReq =>
          simp only [pGo] at h
          have I := ih ps PReq.booleanReq ps' res err h (Or.inr (Or.inl rfl))
          exact ⟨I.1, I.2.1, fun he _ => I.2.2 he trivial⟩
      | PReq.booleanReq =>
          rcases h1 : pGo tokens src fuel ps PReq.comparisonReq with ⟨ps1, r1, e1⟩
          have I1 := ih ps PReq.comparisonReq ps1 r1 e1 h1 (Or.inr (Or.inl rfl))
          match e1 with
          | some er =>
              simp only [pGo, h1] at h
              cases h
              exact ⟨I1.1, I1.2.1, fun hx => by cases hx⟩
          | none =>
              rcases h2 : pGo tokens src fuel ps1 (PReq.booleanLoop r1.getExpr) with ⟨ps2, r2, e2⟩
              have I2 := ih ps1 (PReq.booleanLoop r1.getExpr) ps2 r2 e2 h2 (Or.inr (Or.inl rfl))
              simp only [pGo, h1, h2] at h
              cases h
              exact ⟨I2.1.trans I1.1, I2.2.1.trans I1.2.1, fun he _ => I1.1 ▸ I2.2.2 he trivial⟩
      | PReq.booleanLoop acc =>
          rcases h1 : pMatch tokens ps [TokenType.AND_AND, TokenType.OR_OR] with e1 | m1
          · simp only [pGo, h1] at h
            cases h
            exact ⟨rfl, rfl, fun hx => by cases hx⟩
          · match m1 with
            | none =>
                simp only [pGo, h1] at h
                cases h
                exact ⟨rfl, rfl, fun _ _ => trivial⟩
            | some (token, ps1) =>
                have F1 := pMatch_flags h1
                rcases h2 : pGo tokens src fuel ps1 PReq.comparisonReq with ⟨ps2, r2, e2⟩
                have I2 := ih ps1 PReq.comparisonReq ps2 r2 e2 h2 (Or.inr (Or.inl rfl))
                match e2 with
                | some er =>
                    simp only [pGo, h1, h2] at h
                    cases h
                    exact ⟨I2.1.trans F1.1, I2.2.1.trans F1.2, fun hx => by cases hx⟩
                | none =>
                    rcases h3 : pGo tokens src fuel ps2 (PReq.booleanLoop (Expr.binary
                        ((acc.source_location.add token.source_location).add
                          r2.getExpr.source_location) token acc r2.getExpr Ty.unknown))
                      with ⟨ps3, r3, e3⟩
                    have I3 := ih ps2 _ ps3 r3 e3 h3 (Or.inr (Or.inl rfl))
                    simp only [pGo, h1, h2, h3] at h
                    cases h
                    exact ⟨(I3.1.trans I2.1).trans F1.1, (I3.2.1.trans I2.2.1).trans F1.2,
                      fun he _ => (I2.1.trans F1.1) ▸ I3.2.2 he trivial⟩
      | PReq.comparisonReq =>
          rcases h1 : pGo tokens src fuel ps PReq.additiveReq with ⟨ps1, r1, e1⟩
          have I1 := ih ps PReq.additiveReq ps1 r1 e1 h1 (Or.inr (Or.inl rfl))
          match e1 with
          | some er =>
              simp only [pGo, h1] at h
              cases h
              exact ⟨I1.1, I1.2.1, fun hx => by cases hx⟩
          | none =>
              rcases h2 : pGo tokens src fuel ps1 (PReq.comparisonLoop r1.getExpr) with ⟨ps2, r2, e2⟩
              have I2 := ih ps1 (PReq.comparisonLoop r1.getExpr) ps2 r2 e2 h2 (Or.inr (Or.inl rfl))
              simp only [pGo, h1, h2] at h
              cases h
              exact ⟨I2.1.trans I1.1, I2.2.1.trans I1.2.1, fun he _ => I1.1 ▸ I2.2.2 he trivial⟩
      | PReq.comparisonLoop acc =>
          rcases h1 : pMatch tokens ps [TokenType.EQUAL_EQUAL, TokenType.GREATER,
              TokenType.GREATER_EQUAL, TokenType.LESS, TokenType.LESS_EQUAL,
              TokenType.NOT_EQUAL] with e1 | m1
          · simp only [pGo, h1] at h
            cases h
            exact ⟨rfl, rfl, fun hx => by cases hx⟩
          · match m1 with
            | none =>
                simp only [pGo, h1] at h
                cases h
                exact ⟨rfl, rfl, fun _ _ => trivial⟩
            | some (token, ps1) =>
                have F1 := pMatch_flags h1
                rcases h2 : pGo tokens src fuel ps1 PReq.additiveReq with ⟨ps2, r2, e2⟩
                have I2 := ih ps1 PReq.additiveReq ps2 r2 e2 h2 (Or.inr (Or.inl rfl))
                match e2 with
                | some er =>
                    simp only [pGo, h1, h2] at h
                    cases h
                    exact ⟨I2.1.trans F1.1, I2.2.1.trans F1.2, fun hx => by cases hx⟩
                | none =>
                    rcases h3 : pGo tokens src fuel ps2 (PReq.comparisonLoop (Expr.binary
                        ((acc.source_location.add token.source_location).add
                          r2.getExpr.source_location) token acc r2.getExpr Ty.unknown))
                      with ⟨ps3, r3, e3⟩
                    have I3 := ih ps2 _ ps3 r3 e3 h3 (Or.inr (Or.inl rfl))
                    simp only [pGo, h1, h2, h3] at h
                    cases h
                    exact ⟨(I3.1.trans I2.1).trans F1.1, (I3.2.1.trans I2.2.1).trans F1.2,
                      fun he _ => (I2.1.trans F1.1) ▸ I3.2.2 he trivial⟩
      | PReq.additiveReq =>
          rcases h1 : pGo tokens src fuel ps PReq.multiplicativeReq with ⟨ps1, r1, e1⟩
          have I1 := ih ps PReq.multiplicativeReq ps1 r1 e1 h1 (Or.inr (Or.inl rfl))
          match e1 with
          | some er =>
              simp only [pGo, h1] at h
              cases h
              exact ⟨I1.1, I1.2.1, fun hx => by cases hx⟩
          | none =>
              rcases h2 : pGo tokens src fuel ps1 (PReq.additiveLoop r1.getExpr) with ⟨ps2, r2, e2⟩
              have I2 := ih ps1 (PReq.additiveLoop r1.getExpr) ps2 r2 e2 h2 (Or.inr (Or.inl rfl))
              simp only [pGo, h1, h2] at h
              cases h
              exact ⟨I2.1.trans I1.1, I2.2.1.trans I1.2.1, fun he _ => I1.1 ▸ I2.2.2 he trivial⟩
      | PReq.additiveLoop acc =>
          rcases h1 : pMatch tokens ps [TokenType.PLUS, TokenType.MINUS] with e1 | m1
          · simp only [pGo, h1] at h
            cases h
            exact ⟨rfl, rfl, fun hx => by cases hx⟩
          · match m1 with
            | none =>
                simp only [pGo, h1] at h
                cases h
                exact ⟨rfl, rfl, fun _ _ => trivial⟩
            | some (token, ps1) =>
                have F1 := pMatch_flags h1
                rcases h2 : pGo tokens src fuel ps1 PReq.multiplicativeReq with ⟨ps2, r2, e2⟩
                have I2 := ih ps1 PReq.multiplicativeReq ps2 r2 e2 h2 (Or.inr (Or.inl rfl))
                match e2 with
                | some er =>
                    simp only [pGo, h1, h2] at h
                    cases h
                    exact ⟨I2.1.trans F1.1, I2.2.1.trans F1.2, fun hx => by cases hx⟩
                | none =>
                    rcases h3 : pGo tokens src fuel ps2 (PReq.additiveLoop (Expr.binary
                        ((acc.source_location.add token.source_location).add
                          r2.getExpr.source_location) token acc r2.getExpr Ty.unknown))
                      with ⟨ps3, r3, e3⟩
                    have I3 := ih ps2 _ ps3 r3 e3 h3 (Or.inr (Or.inl rfl))
                    simp only [pGo, h1, h2, h3] at h
                    cases h
                    exact ⟨(I3.1.trans I2.1).trans F1.1, (I3.2.1.trans I2.2.1).trans F1.2,
                      fun he _ => (I2.1.trans F1.1) ▸ I3.2.2 he trivial⟩
      | PReq.multiplicativeReq =>
          rcases h1 : pGo tokens src fuel ps PReq.primaryReq with ⟨ps1, r1, e1⟩
          have I1 := ih ps PReq.primaryReq ps1 r1 e1 h1 (Or.inr (Or.inl rfl))
          match e1 with
          | some er =>
              simp only [pGo, h1] at h
              cases h
              exact ⟨I1.1, I1.2.1, fun hx => by cases hx⟩
          | none =>
              rcases h2 : pGo tokens src fuel ps1 (PReq.multiplicativeLoop r1.getExpr) with ⟨ps2, r2, e2⟩
              have I2 := ih ps1 (PReq.multiplicativeLoop r1.getExpr) ps2 r2 e2 h2 (Or.inr (Or.inl rfl))
              simp only [pGo, h1, h2] at h
              cases h
              exact ⟨I2.1.trans I1.1, I2.2.1.trans I1.2.1, fun he _ => I1.1 ▸ I2.2.2 he trivial⟩
      | PReq.multiplicativeLoop acc =>
          rcases h1 : pMatch tokens ps [TokenType.STAR, TokenType.SLASH] with e1 | m1
          · simp only [pGo, h1] at h
            cases h
            exact ⟨rfl, rfl, fun hx => by cases hx⟩
          · match m1 with
            | none =>
                simp only [pGo, h1] at h
                cases h
                exact ⟨rfl, rfl, fun _ _ => trivial⟩
            | some (token, ps1) =>
                have F1 := pMatch_flags h1
                rcases h2 : pGo tokens src fuel ps1 PReq.primaryReq with ⟨ps2, r2, e2⟩
                have I2 := ih ps1 PReq.primaryReq ps2 r2 e2 h2 (Or.inr (Or.inl rfl))
                match e2 with
                | some er =>
                    simp only [pGo, h1, h2] at h
                    cases h
                    exact ⟨I2.1.trans F1.1, I2.2.1.trans F1.2, fun hx => by cases hx⟩
                | none =>
                    rcases h3 : pGo tokens src fuel ps2 (PReq.multiplicativeLoop (Expr.binary
                        ((acc.source_location.add token.source_location).add
                          r2.getExpr.source_location) token acc r2.getExpr Ty.unknown))
                      with ⟨ps3, r3, e3⟩
                    have I3 := ih ps2 _ ps3 r3 e3 h3 (Or.inr (Or.inl rfl))
                    simp only [pGo, h1, h2, h3] at h
                    cases h
                    exact ⟨(I3.1.trans I2.1).trans F1.1, (I3.2.1.trans I2.2.1).trans F1.2,
                      fun he _ => (I2.1.trans F1.1) ▸ I3.2.2 he trivial⟩
      | PReq.primaryReq =>
          rcases h1 : pMatch tokens ps [TokenType.FALSE] with e1 | m1
          · simp only [pGo, h1] at h
            cases h
            exact ⟨rfl, rfl, fun hx => by cases hx⟩
          · match m1 with
            | some (t1, s1) =>
                have F1 := pMatch_flags h1
                simp only [pGo, h1] at h
                cases h
                exact ⟨F1.1, F1.2, fun _ _ => trivial⟩
            | none =>
                rcases h2 : pMatch tokens ps [TokenType.NULL] with e2 | m2
                · simp only [pGo, h1, h2] at h
                  cases h
                  exact ⟨rfl, rfl, fun hx => by cases hx⟩
                · match m2 with
                  | some (t2, s2) =>
                      have F2 := pMatch_flags h2
                      simp only [pGo, h1, h2] at h
                      cases h
                      exact ⟨F2.1, F2.2, fun _ _ => trivial⟩
                  | none =>
                      rcases h3 : pMatch tokens ps [TokenType.TRUE] with e3 | m3
                      · simp only [pGo, h1, h2, h3] at h
                        cases h
                        exact ⟨rfl, rfl, fun hx => by cases hx⟩
                      · match m3 with
                        | some (t3, s3) =>
                            have F3 := pMatch_flags h3
                            simp only [pGo, h1, h2, h3] at h
                            cases h
                            exact ⟨F3.1, F3.2, fun _ _ => trivial⟩
                        | none =>
                            rcases h4 : pMatch tokens ps [TokenType.CHARACTER] with e4 | m4
                            · simp only [pGo, h1, h2, h3, h4] at h
                              cases h
                              exact ⟨rfl, rfl, fun hx => by cases hx⟩
                            · match m4 with
                              | some (t4, s4) =>
                                  have F4 := pMatch_flags h4
                                  simp only [pGo, h1, h2, h3, h4] at h
                                  cases h
                                  exact ⟨F4.1, F4.2, fun _ _ => trivial⟩
                              | none =>
                                  rcases h5 : pMatch tokens ps [TokenType.NUMBER] with e5 | m5
                                  · simp only [pGo, h1, h2, h3, h4, h5] at h
                                    cases h
                                    exact ⟨rfl, rfl, fun hx => by cases hx⟩
                                  · match m5 with
                                    | some (t5, s5) =>
                                        have F5 := pMatch_flags h5
                                        simp only [pGo, h1, h2, h3, h4, h5] at h
                                        cases h
                                        exact ⟨F5.1, F5.2, fun _ _ => trivial⟩
                                    | none =>
                                        rcases h6 : pMatch tokens ps [TokenType.STRING_START] with e6 | m6
                                        · simp only [pGo, h1, h2, h3, h4, h5, h6] at h
                                          cases h
                                          exact ⟨rfl, rfl, fun hx => by cases hx⟩
                                        · match m6 with
                                          | some (t6, s6) =>
                                              have F6 := pMatch_flags h6
                                              rcases hr6 : pGo tokens src fuel s6 (PReq.stringExprLoop [Sum.inl t6] t6.source_location) with ⟨psr, rr, er⟩
                                              have IR := ih s6 _ psr rr er hr6 (Or.inr (Or.inl rfl))
                                              simp only [pGo, h1, h2, h3, h4, h5, h6, hr6] at h
                                              cases h
                                              exact ⟨IR.1.trans F6.1, IR.2.1.trans F6.2,
                                                fun he hin => F6.1 ▸ IR.2.2 he trivial⟩
                                          | none =>
                                              rcases h7 : pMatch tokens ps [TokenType.PAREN_OPEN] with e7 | m7
                                              · simp only [pGo, h1, h2, h3, h4, h5, h6, h7] at h
                                                cases h
                                                exact ⟨rfl, rfl, fun hx => by cases hx⟩
                                              · match m7 with
                                                | some (t7, s7) =>
                                                    have F7 := pMatch_flags h7
                                                    rcases ht : pMatch tokens s7 [TokenType.TYPE] with et | mt
                                                    · simp only [pGo, h1, h2, h3, h4, h5, h6, h7, ht] at h
                                                      cases h
                                                      exact ⟨F7.1, F7.2, fun hx => by cases hx⟩
                                                    · match mt with
                                                      | some (type_, st) =>
                                                          have FT := pMatch_flags ht
                                                          rcases hc : pExpect tokens st TokenType.PAREN_CLOSE with ec | rc
                                                          · simp only [pGo, h1, h2, h3, h4, h5, h6, h7, ht, hc] at h
                                                            cases h
                                                            exact ⟨FT.1.trans F7.1, FT.2.trans F7.2, fun hx => by cases hx⟩
                                                          · obtain ⟨cp, sc⟩ := rc
                                                            have FC := pExpect_flags hc
                                                            rcases hp : pGo tokens src fuel sc PReq.primaryReq with ⟨psp, rp, ep⟩
                                                            have IP := ih sc PReq.primaryReq psp rp ep hp (Or.inr (Or.inl rfl))
                                                            match ep with
                                                            | some e0 =>
                                                                simp only [pGo, h1, h2, h3, h4, h5, h6, h7, ht, hc, hp] at h
                                                                cases h
                                                                exact ⟨((IP.1.trans FC.1).trans FT.1).trans F7.1,
                                                                  ((IP.2.1.trans FC.2).trans FT.2).trans F7.2, fun hx => by cases hx⟩
                                                            | none =>
                                                                simp only [pGo, h1, h2, h3, h4, h5, h6, h7, ht, hc, hp] at h
                                                                cases h
                                                                exact ⟨((IP.1.trans FC.1).trans FT.1).trans F7.1,
                                                                  ((IP.2.1.trans FC.2).trans FT.2).trans F7.2, fun _ _ => trivial⟩
                                                      | none =>
                                                          rcases he1 : pGo tokens src fuel s7 PReq.expressionReq with ⟨pse, re, ee⟩
                                                          have IE := ih s7 PReq.expressionReq pse re ee he1 (Or.inr (Or.inl rfl))
                                                          match ee with
                                                          | some e0 =>
                                                              simp only [pGo, h1, h2, h3, h4, h5, h6, h7, ht, he1] at h
                                                              cases h
                                                              exact ⟨IE.1.trans F7.1, IE.2.1.trans F7.2, fun hx => by cases hx⟩
                                                          | none =>
                                                              rcases hc2 : pExpect tokens pse TokenType.PAREN_CLOSE
                                                                  "expected closing parenthesis!" with ec | rc
                                                              · simp only [pGo, h1, h2, h3, h4, h5, h6, h7, ht, he1, hc2] at h
                                                                cases h
                                                                exact ⟨IE.1.trans F7.1, IE.2.1.trans F7.2, fun hx => by cases hx⟩
                                                              · obtain ⟨cp, sc⟩ := rc
                                                                have FC := pExpect_flags hc2
                                                                simp only [pGo, h1, h2, h3, h4, h5, h6, h7, ht, he1, hc2] at h
                                                                cases h
                                                                exact ⟨(FC.1.trans IE.1).trans F7.1, (FC.2.trans IE.2.1).trans F7.2,
                                                                  fun _ _ => trivial⟩
                                                | none =>
                                                    rcases h8 : pMatch tokens ps [TokenType.NOT] with e8 | m8
                                                    · simp only [pGo, h1, h2, h3, h4, h5, h6, h7, h8] at h
                                                      cases h
                                                      exact ⟨rfl, rfl, fun hx => by cases hx⟩
                                                    · match m8 with
                                                      | some (t8, s8) =>
                                                          have F8 := pMatch_flags h8
                                                          rcases hr8 : pGo tokens src fuel s8 PReq.primaryReq with ⟨psr, rr, er⟩
                                                          have IR := ih s8 PReq.primaryReq psr rr er hr8 (Or.inr (Or.inl rfl))
                                                          match er with
                                                          | some e0 =>
                                                              simp only [pGo, h1, h2, h3, h4, h5, h6, h7, h8, hr8] at h
                                                              cases h
                                                              exact ⟨IR.1.trans F8.1, IR.2.1.trans F8.2, fun hx => by cases hx⟩
                                                          | none =>
                                                              simp only [pGo, h1, h2, h3, h4, h5, h6, h7, h8, hr8] at h
                                                              cases h
                                                              exact ⟨IR.1.trans F8.1, IR.2.1.trans F8.2, fun _ _ => trivial⟩
                                                      | none =>
                                                          rcases h9 : pMatch tokens ps [TokenType.MINUS] with e9 | m9
                                                          · simp only [pGo, h1, h2, h3, h4, h5, h6, h7, h8, h9] at h
                                                            cases h
                                                            exact ⟨rfl, rfl, fun hx => by cases hx⟩
                                                          · match m9 with
                                                            | some (t9, s9) =>
                                                                have F9 := pMatch_flags h9
                                                                rcases hr9 : pGo tokens src fuel s9 PReq.primaryReq with ⟨psr, rr, er⟩
                                                                have IR := ih s9 PReq.primaryReq psr rr er hr9 (Or.inr (Or.inl rfl))
                                                                match er with
                                                                | some e0 =>
                                                                    simp only [pGo, h1, h2, h3, h4, h5, h6, h7, h8, h9, hr9] at h
                                                                    cases h
                                                                    exact ⟨IR.1.trans F9.1, IR.2.1.trans F9.2, fun hx => by cases hx⟩
                                                                | none =>
                                                                    simp only [pGo, h1, h2, h3, h4, h5, h6, h7, h8, h9, hr9] at h
                                                                    cases h
                                                                    exact ⟨IR.1.trans F9.1, IR.2.1.trans F9.2, fun _ _ => trivial⟩
                                                            | none =>
                                                                rcases h10 : pMatch tokens ps [TokenType.INCREMENT] with e10 | m10
                                                                · simp only [pGo, h1, h2, h3, h4, h5, h6, h7, h8, h9, h10] at h
                                                                  cases h
                                                                  exact ⟨rfl, rfl, fun hx => by cases hx⟩
                                                                · match m10 with
                                                                  | some (t10, s10) =>
                                                                      have F10 := pMatch_flags h10
                                                                      rcases hx10 : pExpect tokens s10 TokenType.IDENTIFIER with ex | rx
                                                                      · simp only [pGo, h1, h2, h3, h4, h5, h6, h7, h8, h9, h10, hx10] at h
                                                                        cases h
                                                                        exact ⟨F10.1, F10.2, fun hx => by cases hx⟩
                                                                      · obtain ⟨idt, sx⟩ := rx
                                                                        have FX := pExpect_flags hx10
                                                                        simp only [pGo, h1, h2, h3, h4, h5, h6, h7, h8, h9, h10, hx10] at h
                                                                        cases h
                                                                        exact ⟨FX.1.trans F10.1, FX.2.trans F10.2, fun _ _ => trivial⟩
                                                                  | none =>
                                                                      rcases h11 : pMatch tokens ps [TokenType.DECREMENT] with e11 | m11
                                                                      · simp only [pGo, h1, h2, h3, h4, h5, h6, h7, h8, h9, h10, h11] at h
                                                                        cases h
                                                                        exact ⟨rfl, rfl, fun hx => by cases hx⟩
                                                                      · match m11 with
                                                                        | some (t11, s11) =>
                                                                            have F11 := pMatch_flags h11
                                                                            rcases hx11 : pExpect tokens s11 TokenType.IDENTIFIER with ex | rx
                                                                            · simp only [pGo, h1, h2, h3, h4, h5, h6, h7, h8, h9, h10, h11, hx11] at h
                                                                              cases h
                                                                              exact ⟨F11.1, F11.2, fun hx => by cases hx⟩
                                                                            · obtain ⟨idt, sx⟩ := rx
                                                                              have FX := pExpect_flags hx11
                                                                              simp only [pGo, h1, h2, h3, h4, h5, h6, h7, h8, h9, h10, h11, hx11] at h
                                                                              cases h
                                                                              exact ⟨FX.1.trans F11.1, FX.2.trans F11.2, fun _ _ => trivial⟩
                                                                        | none =>
                                                                            rcases h12 : pMatch tokens ps [TokenType.IDENTIFIER] with e12 | m12
                                                                            · simp only [pGo, h1, h2, h3, h4, h5, h6, h7, h8, h9, h10, h11, h12] at h
                                                                              cases h
                                                                              exact ⟨rfl, rfl, fun hx => by cases hx⟩
                                                                            · match m12 with
                                                                              | some (t12, s12) =>
                                                                                  have F12 := pMatch_flags h12
                                                                                  rcases hr12 : pGo tokens src fuel s12 (PReq.identifierExpressionReq t12) with ⟨psr, rr, er⟩
                                                                                  have IR := ih s12 _ psr rr er hr12 (Or.inr (Or.inl rfl))
                                                                                  simp only [pGo, h1, h2, h3, h4, h5, h6, h7, h8, h9, h10, h11, h12, hr12] at h
                                                                                  cases h
                                                                                  exact ⟨IR.1.trans F12.1, IR.2.1.trans F12.2,
                                                                                    fun he hin => F12.1 ▸ IR.2.2 he trivial⟩
                                                                              | none =>
                                                                                  rcases h13 : pMatch tokens ps [TokenType.THIS] with e13 | m13
                                                                                  · simp only [pGo, h1, h2, h3, h4, h5, h6, h7, h8, h9, h10, h11, h12, h13] at h
                                                                                    cases h
                                                                                    exact ⟨rfl, rfl, fun hx => by cases hx⟩
                                                                                  · match m13 with
                                                                                    | some (t13, s13) =>
                                                                                        have F13 := pMatch_flags h13
                                                                                        by_cases hcl : s13.class_type.isNone = true
                                                                                        · simp only [pGo, h1, h2, h3, h4, h5, h6, h7, h8, h9, h10, h11, h12, h13, hcl, if_true] at h
                                                                                          cases h
                                                                                          exact ⟨F13.1, F13.2, fun hx => by cases hx⟩
                                                                                        · simp only [Bool.not_eq_true] at hcl
                                                                                          rcases hd : pExpect tokens s13 TokenType.DOT with ed | rd
                                                                                          · simp only [pGo, h1, h2, h3, h4, h5, h6, h7, h8, h9, h10, h11, h12, h13, hcl, Bool.false_eq_true, if_false, hd] at h
                                                                                            cases h
                                                                                            exact ⟨F13.1, F13.2, fun hx => by cases hx⟩
                                                                                          · obtain ⟨dt, sd⟩ := rd
                                                                                            have FD := pExpect_flags hd
                                                                                            rcases hi : pExpect tokens sd TokenType.IDENTIFIER with ei | ri
                                                                                            · simp only [pGo, h1, h2, h3, h4, h5, h6, h7, h8, h9, h10, h11, h12, h13, hcl, Bool.false_eq_true, if_false, hd, hi] at h
                                                                                              cases h
                                                                                              exact ⟨FD.1.trans F13.1, FD.2.trans F13.2, fun hx => by cases hx⟩
                                                                                            · obtain ⟨idt, si⟩ := ri
                                                                                              have FI := pExpect_flags hi
                                                                                              rcases hr : pGo tokens src fuel si (PReq.identifierExpressionReq idt)
                                                                                                  with ⟨psr, rr, er⟩
                                                                                              have IR := ih si _ psr rr er hr (Or.inr (Or.inl rfl))
                                                                                              match er with
                                                                                              | some e0 =>
                                                                                                  simp only [pGo, h1, h2, h3, h4, h5, h6, h7, h8, h9, h10, h11, h12, h13, hcl, Bool.false_eq_true, if_false, hd, hi, hr] at h
                                                                                                  cases h
                                                                                                  exact ⟨((IR.1.trans FI.1).trans FD.1).trans F13.1,
                                                                                                    ((IR.2.1.trans FI.2).trans FD.2).trans F13.2, fun hx => by cases hx⟩
                                                                                              | none =>
                                                                                                  simp only [pGo, h1, h2, h3, h4, h5, h6, h7, h8, h9, h10, h11, h12, h13, hcl, Bool.false_eq_true, if_false, hd, hi, hr] at h
                                                                                                  cases h
                                                                                                  exact ⟨((IR.1.trans FI.1).trans FD.1).trans F13.1,
                                                                                                    ((IR.2.1.trans FI.2).trans FD.2).trans F13.2, fun _ _ => trivial⟩
                                                                                    | none =>
                                                                                        simp only [pGo, h1, h2, h3, h4, h5, h6, h7, h8, h9, h10, h11, h12, h13] at h
                                                                                        cases h
                                                                                        exact ⟨rfl, rfl, fun hx => by cases hx⟩
      | PReq.stringExprLoop acc loc =>
          rcases h1 : pConsume tokens ps with e1 | r1
          · simp only [pGo, h1] at h
            cases h
            exact ⟨rfl, rfl, fun hx => by cases hx⟩
          · obtain ⟨token, ps1⟩ := r1
            have F1 := pConsume_flags h1
            by_cases hEnd : token.token_type = TokenType.STRING_END
            · simp only [pGo, h1, hEnd, if_true] at h
              cases h
              exact ⟨F1.1, F1.2, fun _ _ => trivial⟩
            · by_cases hStart : token.token_type = TokenType.STRING_EXPR_START
              · rcases h2 : pGo tokens src fuel ps1 PReq.expressionReq with ⟨ps2, r2, e2⟩
                have I2 := ih ps1 PReq.expressionReq ps2 r2 e2 h2 (Or.inr (Or.inl rfl))
                match e2 with
                | some e0 =>
                    simp only [pGo, h1, hEnd, if_false, hStart, if_true, h2] at h
                    cases h
                    exact ⟨I2.1.trans F1.1, I2.2.1.trans F1.2, fun hx => by cases hx⟩
                | none =>
                    rcases h3 : pMatch tokens ps2 [TokenType.STRING_EXPR_END] with e3 | m3
                    · simp only [pGo, h1, hEnd, if_false, hStart, if_true, h2, h3] at h
                      cases h
                      exact ⟨I2.1.trans F1.1, I2.2.1.trans F1.2, fun hx => by cases hx⟩
                    · match m3 with
                      | some (t3, ps3) =>
                          have F3 := pMatch_flags h3
                          rcases h4 : pGo tokens src fuel ps3 (PReq.stringExprLoop
                              ((acc ++ [Sum.inl token]) ++ [Sum.inr r2.getExpr])
                              ((loc.add token.source_location).add r2.getExpr.source_location))
                            with ⟨ps4, r4, e4⟩
                          have I4 := ih ps3 _ ps4 r4 e4 h4 (Or.inr (Or.inl rfl))
                          simp only [pGo, h1, hEnd, if_false, hStart, if_true, h2, h3, h4] at h
                          cases h
                          exact ⟨((I4.1.trans F3.1).trans I2.1).trans F1.1,
                            ((I4.2.1.trans F3.2).trans I2.2.1).trans F1.2,
                            fun he hin =>
                              ((F3.1.trans I2.1).trans F1.1) ▸ I4.2.2 he trivial⟩
                      | none =>
                          rcases h5 : pMatch tokens ps2 [TokenType.EQUAL] with e5 | m5
                          · simp only [pGo, h1, hEnd, if_false, hStart, if_true, h2, h3, h5] at h
                            cases h
                            exact ⟨I2.1.trans F1.1, I2.2.1.trans F1.2, fun hx => by cases hx⟩
                          · match m5 with
                            | some (equal_token, ps5) =>
                                have F5 := pMatch_flags h5
                                rcases h6 : pGo tokens src fuel ps5 (PReq.stringExprLoop
                                    ((acc ++ [Sum.inl token]) ++ [Sum.inr (Expr.stringEqual
                                      (r2.getExpr.source_location.add equal_token.source_location)
                                      r2.getExpr equal_token src Ty.unknown)])
                                    ((loc.add token.source_location).add
                                      (Expr.stringEqual
                                        (r2.getExpr.source_location.add equal_token.source_location)
                                        r2.getExpr equal_token src Ty.unknown).source_location))
                                  with ⟨ps6, r6, e6⟩
                                have I6 := ih ps5 _ ps6 r6 e6 h6 (Or.inr (Or.inl rfl))
                                simp only [pGo, h1, hEnd, if_false, hStart, if_true, h2, h3, h5,
                                  h6] at h
                                cases h
                                exact ⟨((I6.1.trans F5.1).trans I2.1).trans F1.1,
                                  ((I6.2.1.trans F5.2).trans I2.2.1).trans F1.2,
                                  fun he hin =>
                                    ((F5.1.trans I2.1).trans F1.1) ▸ I6.2.2 he trivial⟩
                            | none =>
                                rcases h7 : pGo tokens src fuel ps2 (PReq.stringExprLoop
                                    (acc ++ [Sum.inl token]) (loc.add token.source_location))
                                  with ⟨ps7, r7, e7⟩
                                have I7 := ih ps2 _ ps7 r7 e7 h7 (Or.inr (Or.inl rfl))
                                simp only [pGo, h1, hEnd, if_false, hStart, if_true, h2, h3, h5,
                                  h7] at h
                                cases h
                                exact ⟨(I7.1.trans I2.1).trans F1.1,
                                  (I7.2.1.trans I2.2.1).trans F1.2,
                                  fun he hin => (I2.1.trans F1.1) ▸ I7.2.2 he trivial⟩
              · rcases h8 : pGo tokens src fuel ps1 (PReq.stringExprLoop
                    (acc ++ [Sum.inl token]) (loc.add token.source_location)) with ⟨ps8, r8, e8⟩
                have I8 := ih ps1 _ ps8 r8 e8 h8 (Or.inr (Or.inl rfl))
                simp only [pGo, h1, hEnd, if_false, hStart, h8] at h
                cases h
                exact ⟨I8.1.trans F1.1, I8.2.1.trans F1.2,
                  fun he hin => F1.1 ▸ I8.2.2 he trivial⟩
      | PReq.identifierExpressionReq token =>
          rcases h1 : pMatch tokens ps [TokenType.INCREMENT] with e1 | m1
          · simp only [pGo, h1] at h
            cases h
            exact ⟨rfl, rfl, fun hx => by cases hx⟩
          · match m1 with
            | some (t1, ps1) =>
                have F1 := pMatch_flags h1
                simp only [pGo, h1] at h
                cases h
                exact ⟨F1.1, F1.2, fun _ _ => trivial⟩
            | none =>
                rcases h2 : pMatch tokens ps [TokenType.DECREMENT] with e2 | m2
                · simp only [pGo, h1, h2] at h
                  cases h
                  exact ⟨rfl, rfl, fun hx => by cases hx⟩
                · match m2 with
                  | some (t2, ps2) =>
                      have F2 := pMatch_flags h2
                      simp only [pGo, h1, h2] at h
                      cases h
                      exact ⟨F2.1, F2.2, fun _ _ => trivial⟩
                  | none =>
                      rcases h3 : pMatch tokens ps [TokenType.PAREN_OPEN] with e3 | m3
                      · simp only [pGo, h1, h2, h3] at h
                        cases h
                        exact ⟨rfl, rfl, fun hx => by cases hx⟩
                      · match m3 with
                        | some (t3, ps3) =>
                            have F3 := pMatch_flags h3
                            rcases h4 : pGo tokens src fuel ps3 (PReq.callExpressionReq
                                (Expr.identifierExpr token.source_location token none none none
                                  Ty.unknown)) with ⟨ps4, r4, e4⟩
                            have I4 := ih ps3 _ ps4 r4 e4 h4 (Or.inr (Or.inl rfl))
                            simp only [pGo, h1, h2, h3, h4] at h
                            cases h
                            exact ⟨I4.1.trans F3.1, I4.2.1.trans F3.2,
                              fun he hin => F3.1 ▸ I4.2.2 he trivial⟩
                        | none =>
                            rcases h5 : pMatch tokens ps [TokenType.DOT] with e5 | m5
                            · simp only [pGo, h1, h2, h3, h5] at h
                              cases h
                              exact ⟨rfl, rfl, fun hx => by cases hx⟩
                            · match m5 with
                              | some (t5, ps5) =>
                                  have F5 := pMatch_flags h5
                                  rcases h6 : pExpect tokens ps5 TokenType.IDENTIFIER
                                      with e6 | r6
                                  · simp only [pGo, h1, h2, h3, h5, h6] at h
                                    cases h
                                    exact ⟨F5.1, F5.2, fun hx => by cases hx⟩
                                  · obtain ⟨inner_token, ps6⟩ := r6
                                    have F6 := pExpect_flags h6
                                    rcases h7 : pGo tokens src fuel ps6
                                        (PReq.identifierExpressionReq inner_token)
                                      with ⟨ps7, r7, e7⟩
                                    have I7 := ih ps6 _ ps7 r7 e7 h7 (Or.inr (Or.inl rfl))
                                    match e7 with
                                    | some er =>
                                        simp only [pGo, h1, h2, h3, h5, h6, h7] at h
                                        cases h
                                        exact ⟨(I7.1.trans F6.1).trans F5.1,
                                          (I7.2.1.trans F6.2).trans F5.2,
                                          fun hx => by cases hx⟩
                                    | none =>
                                        simp only [pGo, h1, h2, h3, h5, h6, h7] at h
                                        cases h
                                        exact ⟨(I7.1.trans F6.1).trans F5.1,
                                          (I7.2.1.trans F6.2).trans F5.2,
                                          fun _ _ => trivial⟩
                              | none =>
                                  simp only [pGo, h1, h2, h3, h5] at h
                                  cases h
                                  exact ⟨rfl, rfl, fun _ _ => trivial⟩
      | PReq.callExpressionReq identExpr =>
          rcases h1 : pMatch tokens ps [TokenType.PAREN_CLOSE] with e1 | m1
          · simp only [pGo, h1] at h
            cases h
            exact ⟨rfl, rfl, fun hx => by cases hx⟩
          · match m1 with
            | some (t1, ps1) =>
                have F1 := pMatch_flags h1
                simp only [pGo, h1] at h
                cases h
                exact ⟨F1.1, F1.2, fun _ _ => trivial⟩
            | none =>
                rcases h2 : pGo tokens src fuel ps (PReq.callArgsLoop []) with ⟨ps2, r2, e2⟩
                have I2 := ih ps _ ps2 r2 e2 h2 (Or.inr (Or.inl rfl))
                match e2 with
                | some er =>
                    simp only [pGo, h1, h2] at h
                    cases h
                    exact ⟨I2.1, I2.2.1, fun hx => by cases hx⟩
                | none =>
                    rcases h3 : pExpect tokens ps2 TokenType.PAREN_CLOSE with e3 | r3
                    · simp only [pGo, h1, h2, h3] at h
                      cases h
                      exact ⟨I2.1, I2.2.1, fun hx => by cases hx⟩
                    · obtain ⟨paren_close, ps3⟩ := r3
                      have F3 := pExpect_flags h3
                      simp only [pGo, h1, h2, h3] at h
                      cases h
                      exact ⟨F3.1.trans I2.1, F3.2.trans I2.2.1, fun _ _ => trivial⟩
      | PReq.callArgsLoop acc =>
          rcases h1 : pGo tokens src fuel ps PReq.expressionReq with ⟨ps1, r1, e1⟩
          have I1 := ih ps PReq.expressionReq ps1 r1 e1 h1 (Or.inr (Or.inl rfl))
          match e1 with
          | some er =>
              simp only [pGo, h1] at h
              cases h
              exact ⟨I1.1, I1.2.1, fun hx => by cases hx⟩
          | none =>
              rcases h2 : pMatch tokens ps1 [TokenType.COMMA] with e2 | m2
              · simp only [pGo, h1, h2] at h
                cases h
                exact ⟨I1.1, I1.2.1, fun hx => by cases hx⟩
              · match m2 with
                | some (tk, ps2) =>
                    have F2 := pMatch_flags h2
                    rcases h3 : pGo tokens src fuel ps2
                        (PReq.callArgsLoop (acc ++ [r1.getExpr])) with ⟨ps3, r3, e3⟩
                    have I3 := ih ps2 _ ps3 r3 e3 h3 (Or.inr (Or.inl rfl))
                    simp only [pGo, h1, h2, h3] at h
                    cases h
                    exact ⟨(I3.1.trans F2.1).trans I1.1, (I3.2.1.trans F2.2).trans I1.2.1,
                      fun he hin => (F2.1.trans I1.1) ▸ I3.2.2 he trivial⟩
                | none =>
                    simp only [pGo, h1, h2] at h
                    cases h
                    exact ⟨I1.1, I1.2.1, fun _ _ => trivial⟩
      | PReq.generateLoop acc errs =>
          have hcnt : 1 ≤ ps.loop_count := by
            rcases hg with hx | hx | hx
            · exact hx
            · simp [PReq.exprFam] at hx
            · simp at hx
          by_cases hend : pIsAtEnd tokens ps = true
          · simp only [pGo, hend, if_true] at h
            cases h
            exact ⟨rfl, rfl, fun _ _ => trivial⟩
          · rcases h1 : pGo tokens src fuel ps (PReq.statement true) with ⟨ps1, r1, e1⟩
            have I1 := ih ps (PReq.statement true) ps1 r1 e1 h1 (Or.inl hcnt)
            match e1 with
            | none =>
                rcases h2 : pGo tokens src fuel ps1
                    (PReq.generateLoop (acc ++ [r1.getStmt]) errs) with ⟨ps2, r2, e2⟩
                have I2 := ih ps1 _ ps2 r2 e2 h2 (Or.inl (by rw [I1.2.1]; exact hcnt))
                simp only [pGo, hend, Bool.false_eq_true, if_false, h1, h2] at h
                cases h
                exact ⟨I2.1.trans I1.1, I2.2.1.trans I1.2.1,
                  fun he _ => I1.1 ▸ I2.2.2 he trivial⟩
            | some e0 =>
                rcases h2 : pGo tokens src fuel ps1 PReq.skipToNewlineLoop with ⟨ps2, r2, e2⟩
                have I2 := ih ps1 PReq.skipToNewlineLoop ps2 r2 e2 h2
                  (Or.inl (by rw [I1.2.1]; exact hcnt))
                match e2 with
                | some e3 =>
                    simp only [pGo, hend, Bool.false_eq_true, if_false, h1, h2] at h
                    cases h
                    exact ⟨I2.1.trans I1.1, I2.2.1.trans I1.2.1, fun _ _ => trivial⟩
                | none =>
                    by_cases hend2 : pIsAtEnd tokens ps2 = true
                    · simp only [pGo, hend, Bool.false_eq_true, if_false, h1, h2, hend2,
                        if_true] at h
                      cases h
                      exact ⟨I2.1.trans I1.1, I2.2.1.trans I1.2.1, fun _ _ => trivial⟩
                    · rcases h3 : pGo tokens src fuel ps2 PReq.skipIndentDedentLoop
                          with ⟨ps3, r3, e3⟩
                      have I3 := ih ps2 PReq.skipIndentDedentLoop ps3 r3 e3 h3
                        (Or.inl (by rw [I2.2.1, I1.2.1]; exact hcnt))
                      match e3 with
                      | some e4 =>
                          simp only [pGo, hend, Bool.false_eq_true, if_false, h1, h2, hend2,
                            h3] at h
                          cases h
                          exact ⟨(I3.1.trans I2.1).trans I1.1, (I3.2.1.trans I2.2.1).trans I1.2.1,
                            fun _ _ => trivial⟩
                      | none =>
                          rcases h4 : pGo tokens src fuel ps3
                              (PReq.generateLoop acc (errs ++ [e0])) with ⟨ps4, r4, e4⟩
                          have I4 := ih ps3 _ ps4 r4 e4 h4
                            (Or.inl (by rw [I3.2.1, I2.2.1, I1.2.1]; exact hcnt))
                          simp only [pGo, hend, Bool.false_eq_true, if_false, h1, h2, hend2,
                            h3, h4] at h
                          cases h
                          exact ⟨((I4.1.trans I3.1).trans I2.1).trans I1.1,
                            ((I4.2.1.trans I3.2.1).trans I2.2.1).trans I1.2.1,
                            fun he _ =>
                              ((I3.1.trans I2.1).trans I1.1) ▸ I4.2.2 he trivial⟩
      | PReq.skipToNewlineLoop =>
          rcases h1 : pMatch tokens ps [TokenType.NEWLINE, TokenType.EOF] with e1 | m1
          · simp only [pGo, h1] at h
            cases h
            exact ⟨rfl, rfl, fun hx => by cases hx⟩
          · match m1 with
            | some (t1, ps1) =>
                have F1 := pMatch_flags h1
                simp only [pGo, h1] at h
                cases h
                exact ⟨F1.1, F1.2, fun _ _ => trivial⟩
            | none =>
                rcases h2 : pConsume tokens ps with e2 | r2
                · simp only [pGo, h1, h2] at h
                  cases h
                  exact ⟨rfl, rfl, fun hx => by cases hx⟩
                · obtain ⟨t2, ps2⟩ := r2
                  have F2 := pConsume_flags h2
                  rcases h3 : pGo tokens src fuel ps2 PReq.skipToNewlineLoop with ⟨ps3, r3, e3⟩
                  have I3 := ih ps2 PReq.skipToNewlineLoop ps3 r3 e3 h3 (by
                    left
                    rw [F2.2]
                    rcases hg with hx | hx | hx
                    · exact hx
                    · simp [PReq.exprFam] at hx
                    · cases hx)
                  simp only [pGo, h1, h2, h3] at h
                  cases h
                  exact ⟨I3.1.trans F2.1, I3.2.1.trans F2.2,
                    fun he hin => F2.1 ▸ I3.2.2 he trivial⟩
      | PReq.skipIndentDedentLoop =>
          rcases h1 : pMatch tokens ps [TokenType.INDENT, TokenType.DEDENT] with e1 | m1
          · simp only [pGo, h1] at h
            cases h
            exact ⟨rfl, rfl, fun hx => by cases hx⟩
          · match m1 with
            | some (t1, ps1) =>
                have F1 := pMatch_flags h1
                rcases h2 : pGo tokens src fuel ps1 PReq.skipIndentDedentLoop with ⟨ps2, r2, e2⟩
                have I2 := ih ps1 PReq.skipIndentDedentLoop ps2 r2 e2 h2 (by
                  left
                  rw [F1.2]
                  rcases hg with hx | hx | hx
                  · exact hx
                  · simp [PReq.exprFam] at hx
                  · cases hx)
                simp only [pGo, h1, h2] at h
                cases h
                exact ⟨I2.1.trans F1.1, I2.2.1.trans F1.2,
                  fun he hin => F1.1 ▸ I2.2.2 he trivial⟩
            | none =>
                simp only [pGo, h1] at h
                cases h
                exact ⟨rfl, rfl, fun _ _ => trivial⟩

/-- A top-level while loop containing a `breakall` (source
`while true:\n    breakall`): the `while` token starts at offset 0. -/
def c8WhileTokens : List Token :=
  [tokK 0 5 TokenType.WHILE, tokK 6 4 TokenType.TRUE, tokK 10 1 TokenType.COLON,
   tokK 11 1 TokenType.NEWLINE, tokK 12 0 TokenType.INDENT, tokK 16 8 TokenType.BREAKALL,
   tokK 24 1 TokenType.NEWLINE, tokK 25 0 TokenType.DEDENT, tokK 25 0 TokenType.EOF]

/-- A for loop whose init clause is itself a while loop (source
`for while true:\n    break\n; ; :\n    breakall`): the `for` token starts at
offset 0, the `while` token at offset 4. -/
def c8BadTokens : List Token :=
  [tokK 0 3 TokenType.FOR, tokK 4 5 TokenType.WHILE, tokK 10 4 TokenType.TRUE,
   tokK 14 1 TokenType.COLON, tokK 15 1 TokenType.NEWLINE, tokK 16 0 TokenType.INDENT,
   tokK 20 5 TokenType.BREAK, tokK 25 1 TokenType.NEWLINE, tokK 26 0 TokenType.DEDENT,
   tokK 30 1 TokenType.SEMICOLON, tokK 32 1 TokenType.SEMICOLON, tokK 34 1 TokenType.COLON,
   tokK 35 1 TokenType.NEWLINE, tokK 36 0 TokenType.INDENT, tokK 40 8 TokenType.BREAKALL,
   tokK 48 1 TokenType.NEWLINE, tokK 49 0 TokenType.DEDENT, tokK 49 0 TokenType.EOF]

/-- Appending a closing brace yields a string ending in a closing brace. -/
theorem strHasSuffix_append_rbrace (s : String) :
    strHasSuffix (s ++ "\x7d") "\x7d" = true := by
  have h1 : (s ++ "\x7d").toList.reverse = '\x7d' :: s.toList.reverse := by
    cases s with
    | mk data =>
        show (data ++ ['\x7d']).reverse = '\x7d' :: data.reverse
        simp
  unfold strHasSuffix
  rw [h1]
  have h2 : ("\x7d" : String).toList.reverse = ['\x7d'] := rfl
  rw [h2]
  simp [charsHavePrefix]

/-- C8: breakall-label discipline, corrected.  (1) A while loop parsed at
loop depth 0 carries the label "breakall_" followed by its own token's start
offset, and every statement of its body is well-labelled under that label
(nested loops carry no label, breakalls record exactly that label).  (2) Any
parse performed at loop depth at least 1 restores label and depth and, on
success, yields only well-labelled statements — in particular every nested
for/while loop's label is `none` and every nested `breakall` records the
ambient outer label.  (3) The emitter renders a labelled for/while loop as
the unlabelled loop code — which ends at the loop's closing brace —
followed by exactly one `label:;` on the next line, and renders an
unlabelled loop without any label.  (4) Every breakall statement lowers to
`goto label;`.  (The original claim's stronger sentence — that the OUTERMOST
for loop's label always names its own token's offset — is refuted by
`tapl_c8_counterexample`: a loop inside a for loop's init/loop clause is
parsed at depth 0 and overwrites the label first.) -/
theorem tapl_c8_breakall_labels :
    (∀ tokens src fuel ps tok ps1 ps' res,
      ps.loop_count = 0 →
      pMatch tokens ps [TokenType.WHILE] = Except.ok (some (tok, ps1)) →
      pGo tokens src (fuel + 1) ps PReq.whileLoopStatement = (ps', res, none) →
      ∃ loc chk body,
        res = PRes.stmt (Stmt.forLoop loc tok
          (some ("breakall_" ++ toString tok.source_location.start)) none (some chk) none
          body) ∧
        ∀ st ∈ body,
          NestedOk ("breakall_" ++ toString tok.source_location.start) st) ∧
    (∀ tokens src fuel ps req ps' res err,
      pGo tokens src fuel ps req = (ps', res, err) →
      1 ≤ ps.loop_count →
      ps'.breakall_label = ps.breakall_label ∧ ps'.loop_count = ps.loop_count ∧
      (err = none → PReq.inputOk ps.breakall_label req →
        PRes.allNested ps.breakall_label res)) ∧
    (∀ fuel loc tok label init chk loop body,
      label ≠ "" →
      stmtCCode (fuel + 1) (Stmt.forLoop loc tok (some label) init chk loop body) =
        stmtCCode (fuel + 1) (Stmt.forLoop loc tok none init chk loop body) ++
          "\n" ++ label ++ ":;" ∧
      strHasSuffix
        (stmtCCode (fuel + 1) (Stmt.forLoop loc tok none init chk loop body))
        "\x7d" = true) ∧
    (∀ fuel loc label,
      stmtCCode (fuel + 1) (Stmt.breakall loc label) = "goto " ++ label ++ ";") := by
  refine ⟨?_, ?_, ?_, ?_⟩
  · intro tokens src fuel ps tok ps1 ps' res h0 hM h
    have FM := pMatch_flags hM
    have hc1 : ps1.loop_count = 0 := FM.2.trans h0
    have hl2 : (pSetBreakallLabel ps1 tok).breakall_label =
        "breakall_" ++ toString tok.source_location.start := by
      unfold pSetBreakallLabel
      simp [hc1]
    have hc2 : (pSetBreakallLabel ps1 tok).loop_count = 0 :=
      (pSetBreakallLabel_flags ps1 tok).1.trans hc1
    rcases hpC : pGo tokens src fuel (pSetBreakallLabel ps1 tok) PReq.expressionReq
        with ⟨spC, rpC, epC⟩
    have IpC := pGo_loop_invariant tokens src fuel (pSetBreakallLabel ps1 tok)
      PReq.expressionReq spC rpC epC hpC (Or.inr (Or.inl rfl))
    match epC with
    | some e0 =>
        simp only [pGo, hM, hpC] at h
        exact absurd (congrArg (fun t => t.2.2) h) (by simp)
    | none =>
        rcases hxC : pExpect tokens spC TokenType.COLON with exC | rxC
        · simp only [pGo, hM, hpC, hxC] at h
          exact absurd (congrArg (fun t => t.2.2) h) (by simp)
        · obtain ⟨tC, sC⟩ := rxC
          rcases hNL : pExpectNewline tokens sC with eNL | sNL
          · simp only [pGo, hM, hpC, hxC, hNL] at h
            exact absurd (congrArg (fun t => t.2.2) h) (by simp)
          · rcases hB : pGo tokens src fuel sNL PReq.statementBlockInLoop
                with ⟨sB, rB, eB⟩
            have IB := pGo_loop_invariant tokens src fuel sNL PReq.statementBlockInLoop
              sB rB eB hB (Or.inr (Or.inr rfl))
            have lN : sNL.breakall_label =
                "breakall_" ++ toString tok.source_location.start :=
              (pExpectNewline_flags hNL).1.trans
                (((pExpect_flags hxC).1.trans IpC.1).trans hl2)
            have cB0 : sB.loop_count = 0 :=
              IB.2.1.trans ((pExpectNewline_flags hNL).2.trans
                (((pExpect_flags hxC).2.trans IpC.2.1).trans hc2))
            have lB : sB.breakall_label =
                "breakall_" ++ toString tok.source_location.start := IB.1.trans lN
            match eB with
            | some e0 =>
                simp only [pGo, hM, hpC, hxC, hNL, hB] at h
                exact absurd (congrArg (fun t => t.2.2) h) (by simp)
            | none =>
                have hbody : ∀ st ∈ PRes.getStmts rB,
                    NestedOk ("breakall_" ++ toString tok.source_location.start) st := by
                  intro st hst
                  have := allNested_getStmts (IB.2.2 rfl trivial) st hst
                  rwa [lN] at this
                have hlbl : pGetBreakallLabel sB =
                    some ("breakall_" ++ toString tok.source_location.start) := by
                  unfold pGetBreakallLabel
                  rw [cB0, lB]
                  simp
                simp only [pGo, hM, hpC, hxC, hNL, hB] at h
                cases h
                exact ⟨_, _, _, by rw [hlbl], hbody⟩
  · intro tokens src fuel ps req ps' res err h hc
    exact pGo_loop_invariant tokens src fuel ps req ps' res err h (Or.inl hc)
  · intro fuel loc tok label init chk loop body hlbl
    constructor
    · simp only [stmtCCode, cGo]
      rw [if_neg hlbl]
    · simp only [stmtCCode, cGo]
      exact strHasSuffix_append_rbrace _
  · intro fuel loc label
    rfl

/-- Witness for C8: on the concrete top-level `while true: breakall`
program, the parse succeeds and the theorem yields the label "breakall_0"
(the while token's start offset) with a well-labelled body. -/
theorem tapl_c8_breakall_labels_witness :
    pInit.loop_count = 0 ∧
    pMatch c8WhileTokens pInit [TokenType.WHILE] =
      Except.ok (some (tokK 0 5 TokenType.WHILE, { pInit with current_index := 1 })) ∧
    ("breakall_0" : String) ≠ "" ∧
    (∃ loc chk body,
      (pGo c8WhileTokens "t.tapl" 50 pInit PReq.whileLoopStatement).2.1 =
        PRes.stmt (Stmt.forLoop loc (tokK 0 5 TokenType.WHILE)
          (some ("breakall_" ++
            toString (tokK 0 5 TokenType.WHILE).source_location.start))
          none (some chk) none body) ∧
      ∀ st ∈ body,
        NestedOk ("breakall_" ++
          toString (tokK 0 5 TokenType.WHILE).source_location.start) st) :=
  ⟨rfl, rfl, by decide,
    tapl_c8_breakall_labels.1 c8WhileTokens "t.tapl" 49 pInit
      (tokK 0 5 TokenType.WHILE) { pInit with current_index := 1 }
      (pGo c8WhileTokens "t.tapl" 50 pInit PReq.whileLoopStatement).1
      (pGo c8WhileTokens "t.tapl" 50 pInit PReq.whileLoopStatement).2.1
      rfl rfl rfl⟩

/-- C8 counterexample to the original claim: in `c8BadTokens` the outermost
loop is the `for` whose token starts at offset 0, yet its breakall label is
"breakall_4" — the label derived from the `while` loop inside its init
clause (parsed at loop depth 0 before the for's own body), not
"breakall_0".  The init-clause while loop carries the same label a second
time, so the label is not unique to the outermost loop either. -/
theorem tapl_c8_counterexample :
    (pRun 400 c8BadTokens "test.tapl").2 = [] ∧
    (∃ loc locW locB chk bodyW,
      (pRun 400 c8BadTokens "test.tapl").1 =
        [Stmt.forLoop loc (tokK 0 3 TokenType.FOR) (some "breakall_4")
          (some (Stmt.forLoop locW (tokK 4 5 TokenType.WHILE) (some "breakall_4") none
            (some chk) none bodyW))
          none none [Stmt.breakall locB "breakall_4"]]) ∧
    (tokK 0 3 TokenType.FOR).source_location.start = 0 ∧
    "breakall_4" ≠
      "breakall_" ++ toString (tokK 0 3 TokenType.FOR).source_location.start := by
  refine ⟨rfl, ⟨_, _, _, _, _, rfl⟩, rfl, by decide⟩
